import Mathlib

/-!
# TiKV scaling state machine of tidb-operator

A shallow embedding of `pkg/manager/member/tikv_scaler.go`, followed by the feature
gates of `pkg/features/features.go`, the pod addresses of
`pkg/tikvapi/tikv_control.go` and the work loop of
`pkg/controller/autoscaler/tidbcluster_autoscaler_controller.go`.

* Go `error` values are the inductive type `Err`; a `nil` error is `none`.
* Every call to a collaborator (listers, controls, the PD client, the event
  recorder, the clock) goes through `World.call`: it runs the collaborator on an
  abstract collaborator state `σ` and appends one `Event` to a chronological trace.
  The collaborators themselves are the fields of `Deps σ`; theorems quantify
  over all of them.
* Go maps that the code ranges over are lists of key/value pairs in the order of
  one iteration; theorems quantify over all lists, hence over all orders. A map
  that one call ranges over twice (`tc.Status.TiKV.Stores` in `preCheckUpStores`
  and in `scaleInOne`) is ranged over in the same order both times: runs in which
  the two orders differ are not runs of the model.
* `klog` calls are not modelled.
-/

namespace TidbOperator

/-! ## Errors -/

/-- Go error values that reach the scaler. The text of an error is identified by
the format string of the source; the interpolated arguments are not part of the
model. `errorf` is `fmt.Errorf` without `%w`, `wrapf` is `fmt.Errorf` with `%w`,
`requeue` is `*controller.RequeueError`, `notFound` is an apimachinery status
error with reason NotFound, `withCause` is an error with a `Cause()` method and
`aggregate` is the apimachinery `errors.Aggregate`. -/
inductive Err where
  | errorf (format : String)
  | requeue (format : String)
  | notFound (format : String)
  | wrapf (format : String) (inner : Err)
  | withCause (format : String) (cause : Err)
  | aggregate (errs : List Err)

namespace controller

/-- Modelled from the spec: `controller.RequeueErrorf` (pkg/controller, absent from
the sources) builds the distinguished error kind Requeue. -/
def RequeueErrorf (format : String) : Err := .requeue format

/-- Modelled from the spec: `controller.IsRequeueError` (pkg/controller, absent
from the sources) tests whether an error value is itself a Requeue error. -/
def IsRequeueError : Err → Bool
  | .requeue _ => true
  | _ => false

end controller

namespace errors

/-- The apimachinery test `errors.IsNotFound`: the error is, or `%w`-wraps, a
status error with reason NotFound. -/
def IsNotFound : Err → Bool
  | .notFound _ => true
  | .wrapf _ inner => IsNotFound inner
  | _ => false

end errors

namespace errorutils

/-- The apimachinery constructor `errors.NewAggregate`: `nil` for an empty list,
otherwise the aggregate of the listed errors. -/
def NewAggregate (errlist : List Err) : Option Err :=
  match errlist with
  | [] => none
  | e :: es => some (.aggregate (e :: es))

end errorutils

namespace perrors

/-- The deep part of `WalkDeep` of github.com/pingcap/errors: visit the error,
then follow `Cause()` while there is one. -/
def walkChain (test : Err → Bool) : Err → Option Err
  | .withCause f c =>
    if test (.withCause f c) then some (.withCause f c) else walkChain test c
  | e => if test e then some e else none

mutual
/-- The traversal `WalkDeep` of github.com/pingcap/errors with the visitor of
`Find`: deep first, then wide through the members of an error group. -/
def WalkDeep (test : Err → Bool) : Err → Option Err
  | .aggregate es =>
    (walkChain test (.aggregate es)).orElse (fun _ => WalkWide test es)
  | e => walkChain test e
/-- The loop of `WalkDeep` over the members of an error group. -/
def WalkWide (test : Err → Bool) : List Err → Option Err
  | [] => none
  | e :: es => (WalkDeep test e).orElse (fun _ => WalkWide test es)
end

/-- The search `perrors.Find(err, test)` for a non-nil `err`: the first error of
the traversal accepted by `test`, or nil. -/
def Find (origErr : Err) (test : Err → Bool) : Option Err := WalkDeep test origErr

end perrors

/-- The controller classification test of `processNextWorkItem` and `sync`:
`perrors.Find(err, controller.IsRequeueError) != nil`. -/
def isRequeueClassified (err : Err) : Bool :=
  (perrors.Find err controller.IsRequeueError).isSome

/-! ## Data model -/

/-- Instants of `time.Time`, in nanoseconds. -/
abbrev Time := Int

/-- Values of `time.Duration`, in nanoseconds. -/
abbrev Duration := Int

/-- The part of `apps.StatefulSet` the scaler reads and writes: the replica
count `*Spec.Replicas` and the delete-slots annotation. -/
structure StatefulSet where
  Namespace : String
  Name : String
  Replicas : Int
  DeleteSlots : List Int
deriving DecidableEq, Repr

/-- One entry of `tc.Status.TiKV.Stores` or `TombstoneStores`. -/
structure TiKVStore where
  ID : String
  PodName : String
  State : String
  LeaderCount : Int
deriving DecidableEq, Repr

/-- The observed TiKV status `tc.Status.TiKV`; both maps are keyed by store ID. -/
structure TiKVStatus where
  BootStrapped : Bool
  Stores : List (String × TiKVStore)
  TombstoneStores : List (String × TiKVStore)
deriving DecidableEq, Repr

/-- The part of `v1alpha1.TidbCluster` the scaler reads. `ScaleInParallelism` and
`ScaleOutParallelism` are the values of `tc.Spec.TiKV.GetScaleInParallelism()` and
`GetScaleOutParallelism()`. -/
structure TidbCluster where
  Namespace : String
  Name : String
  ScaleInParallelism : Int
  ScaleOutParallelism : Int
  Status : TiKVStatus
deriving DecidableEq, Repr

/-- The method `tc.TiKVBootStrapped()`. -/
def TidbCluster.TiKVBootStrapped (tc : TidbCluster) : Bool := tc.Status.BootStrapped

/-- The `metav1.Object` handed to the scaler: a `*v1alpha1.TidbCluster` or an
object of another type. -/
inductive Meta where
  | tidbCluster (tc : TidbCluster)
  | other (ns name : String)
deriving DecidableEq, Repr

/-- The part of `v1.Pod` the scaler reads. `Ready` is the value of
`k8s.IsPodReady(pod)`. -/
structure Pod where
  Name : String
  Labels : List (String × String)
  Annotations : List (String × String)
  CreationTimestamp : Time
  Ready : Bool
deriving DecidableEq, Repr

/-- A persistent volume claim, identified by its name. -/
structure PVC where
  Name : String
deriving DecidableEq, Repr

/-- The store description inside a PD `StoreInfo`. -/
structure MetaStore where
  StateName : String
  Labels : List (String × String)
deriving DecidableEq, Repr

/-- One element of the PD store list; `Store` may be nil. -/
structure StoreInfo where
  Store : Option MetaStore
deriving DecidableEq, Repr

/-- The constant `v1alpha1.TiKVStateUp`. -/
def TiKVStateUp : String := "Up"

/-- Modelled from the spec: the constant `v1alpha1.TiKVStateOffline` (absent from
the sources), the Offline member of the state enum Up, Offline, Down, Tombstone. -/
def TiKVStateOffline : String := "Offline"

/-- The constant `TiKVMemberType`. -/
def TiKVMemberType : String := "tikv"

/-- The constant `defaultEvictLeaderTimeoutWhenScaleIn`, five minutes. -/
def defaultEvictLeaderTimeoutWhenScaleIn : Duration := 5 * 60 * 1000000000

/-- Go map indexing `m[key]` on a string-valued map: the empty string when the
key is absent. -/
def mapIndex (m : List (String × String)) (key : String) : String :=
  (m.lookup key).getD ""

/-- The reading of an integer in 64 bits, as a signed number. -/
def wrapInt64 (x : Int) : Int := (x + 2 ^ 63) % 2 ^ 64 - 2 ^ 63

/-- The conversion `int(u)` of a `uint64`. -/
def intOfUint64 (u : Nat) : Int := wrapInt64 (u % 2 ^ 64)

/-- The function `strconv.ParseUint(s, 10, 64)`: a non-empty string of decimal
digits whose value fits 64 bits. -/
def parseUint (s : String) : Option Nat :=
  if s.isEmpty || !s.data.all Char.isDigit then none
  else
    let v := s.data.foldl (fun acc c => 10 * acc + (c.toNat - 48)) 0
    if v < 2 ^ 64 then some v else none

/-- The set type `sets.Int32` as a duplicate-free list, with `Insert`. -/
def setInsert (s : List Int) (x : Int) : List Int :=
  if x ∈ s then s else s ++ [x]

/-! ## Collaborators and traces -/

/-- One call that leaves the scaler, or the entry into or return from one of its
methods. The `enter` and `exit` events carry the arguments and the results of
the call: `ok` tells that the returned error is nil. -/
inductive Event where
  | enterScaleOut
  | enterScaleIn
  | enterScaleOutOne (ordinal : Int)
  | exitScaleOutOne (ordinal : Int) (ok : Bool)
  | enterScaleInOne (skipPreCheck : Bool) (upTikvStoreCount deletedUpStoreCount maxReplicas : Int)
      (ordinal : Int)
  | exitScaleInOne (ordinal : Int) (deletedUpStore : Int) (ok : Bool)
  | timeNow
  | pvcGet (ns name : String)
  | deleteDeferDeletingPVC (memberType : String) (ordinal : Int)
  | pdGetStores
  | pdGetConfig
  | podGet (ns name : String)
  | recorderEvent (eventtype reason : String)
  | updateMetaInfo (podName : String)
  | ensureScaleInTimeAnnoInPod (podName : String) (scaleInTime : String)
  | pdGetEvictLeaderSchedulersForStores (id : Nat)
  | pdBeginEvictLeader (id : Nat)
  | pdDeleteStore (id : Nat)
  | resolvePVCFromPod (podName : String)
  | addDeferDeletingAnnoToPVC (pvcName : String) (deferTime : Option String)
  | endEvictLeaderbyStoreID (id : Nat)
  | setReplicasAndDeleteSlotsByFinished (scalingFlag : Int) (ordinals finishedOrdinals : List Int)
  | resetReplicas
deriving DecidableEq, Repr

/-- The collaborators of the scaler over a collaborator state `σ`, and the
helpers of the repository that the sources do not contain. -/
structure Deps (σ : Type) where
  /-- The helper `scaleOne`: scaling amount, ordinal, replicas, delete slots. -/
  scaleOne : StatefulSet → StatefulSet → Int × Int × Int × List Int
  /-- The helper `scaleMulti`: scaling amount, ordinals, replicas, delete slots. -/
  scaleMulti : StatefulSet → StatefulSet → Int → Int × List Int × Int × List Int
  /-- The helper `setReplicasAndDeleteSlotsByFinished`; the result is the new `newSet`. -/
  setReplicasAndDeleteSlotsByFinished :
    Int → StatefulSet → StatefulSet → List Int → List Int → StatefulSet
  /-- The helper `resetReplicas`; the result is the new `newSet`. -/
  resetReplicas : StatefulSet → StatefulSet → StatefulSet
  /-- The constants `scalingOutFlag` and `scalingInFlag`. -/
  scalingOutFlag : Int
  scalingInFlag : Int
  /-- The helper `ordinalPodName(memberType, tcName, ordinal)`. -/
  ordinalPodName : String → String → Int → String
  /-- The helper `util.MatchLabelFromStoreLabels`. -/
  MatchLabelFromStoreLabels : List (String × String) → String → Bool
  /-- The label and annotation keys of package `label`. -/
  TiKVLabelVal : String
  StoreIDLabelKey : String
  AnnoScaleInTime : String
  AnnTiKVNoActiveStoreSince : String
  /-- The layout functions `time.Parse(time.RFC3339, _)` and `Format(time.RFC3339)`. -/
  parseRFC3339 : String → Option Time
  formatRFC3339 : Time → String
  /-- The setting `CLIConfig.ResyncDuration`. -/
  ResyncDuration : Duration
  /-- The clock: `time.Now()` and `metav1.Now()`. -/
  timeNow : σ → Time × σ
  pvcGet : String → String → σ → Except Err PVC × σ
  deleteDeferDeletingPVC : TidbCluster → String → Int → σ → Option Err × σ
  pdGetStores : TidbCluster → σ → Except Err (List StoreInfo) × σ
  /-- The call `pdClient.GetConfig()`, reduced to `*config.Replication.MaxReplicas`. -/
  pdGetConfig : TidbCluster → σ → Except Err Nat × σ
  podGet : String → String → σ → Except Err Pod × σ
  recorderEvent : TidbCluster → String → String → σ → Unit × σ
  updateMetaInfo : TidbCluster → Pod → σ → Except Err Pod × σ
  ensureScaleInTimeAnnoInPod : TidbCluster → Pod → String → σ → Option Err × σ
  pdGetEvictLeaderSchedulersForStores : TidbCluster → Nat → σ → Except Err (List (Nat × String)) × σ
  pdBeginEvictLeader : TidbCluster → Nat → σ → Option Err × σ
  pdDeleteStore : TidbCluster → Nat → σ → Option Err × σ
  resolvePVCFromPod : Pod → σ → Except Err (List PVC) × σ
  addDeferDeletingAnnoToPVC : TidbCluster → PVC → Option String → σ → Option Err × σ
  endEvictLeaderbyStoreID : TidbCluster → Nat → σ → Option Err × σ

/-- The collaborator state together with the trace of calls made so far, oldest
first. -/
structure World (σ : Type) where
  st : σ
  trace : List Event

/-- Run one collaborator call and record it. -/
def World.call {σ α : Type} (w : World σ) (ev : Event) (f : σ → α × σ) : α × World σ :=
  ((f w.st).1, { st := (f w.st).2, trace := w.trace ++ [ev] })

/-- Record an event that does not touch the collaborators. -/
def World.mark {σ : Type} (w : World σ) (ev : Event) : World σ :=
  { st := w.st, trace := w.trace ++ [ev] }

/-- The events recorded after the world `w0` on the way to the world `w1`. -/
def World.since {σ : Type} (w1 w0 : World σ) : List Event := w1.trace.drop w0.trace.length

/-- The five resync periods `5 * s.deps.CLIConfig.ResyncDuration` as the code
computes them, in 64-bit arithmetic. -/
def fiveResyncPeriods {σ : Type} (d : Deps σ) : Duration := wrapInt64 (5 * d.ResyncDuration)

/-! ## The scaler -/

namespace tikvScaler

variable {σ : Type}

/-- The statements of `tikvScaler.scaleOutOne`. -/
def scaleOutOneBody (d : Deps σ) (tc : TidbCluster) (ordinal : Int) (w : World σ) :
    Option Err × World σ :=
  let pvcName := "tikv-" ++ tc.Name ++ "-tikv-" ++ toString ordinal
  match w.call (.pvcGet tc.Namespace pvcName) (d.pvcGet tc.Namespace pvcName) with
  | (.ok _, w1) =>
    match w1.call (.deleteDeferDeletingPVC TiKVMemberType ordinal)
        (d.deleteDeferDeletingPVC tc TiKVMemberType ordinal) with
    | (some err, w2) => (some err, w2)
    | (none, w2) =>
      (some (controller.RequeueErrorf
        "tikv.ScaleOut, cluster %s/%s ready to scale out, wait for next round"), w2)
  | (.error err, w1) =>
    if !errors.IsNotFound err then
      (some (.errorf "tikv.ScaleOut, cluster %s/%s failed to fetch pvc informaiton, err:%v"), w1)
    else (none, w1)

/-- The method `tikvScaler.scaleOutOne`: its statements between the events of
entry and return. -/
def scaleOutOne (d : Deps σ) (tc : TidbCluster) (ordinal : Int) (w0 : World σ) :
    Option Err × World σ :=
  match scaleOutOneBody d tc ordinal (w0.mark (.enterScaleOutOne ordinal)) with
  | (err, w1) => (err, w1.mark (.exitScaleOutOne ordinal err.isNone))

/-- The loop of `ScaleOut` over the ordinals, with its three loop variables. -/
def scaleOutLoop (d : Deps σ) (tc : TidbCluster) :
    List Int → List Err → List Int → Bool → World σ → (List Err × List Int × Bool) × World σ
  | [], errs, finishedOrdinals, updateReplicasAndDeleteSlots, w =>
    ((errs, finishedOrdinals, updateReplicasAndDeleteSlots), w)
  | ordinal :: rest, errs, finishedOrdinals, updateReplicasAndDeleteSlots, w =>
    match scaleOutOne d tc ordinal w with
    | (some err, w1) =>
      scaleOutLoop d tc rest (errs ++ [err]) finishedOrdinals updateReplicasAndDeleteSlots w1
    | (none, w1) =>
      scaleOutLoop d tc rest errs (setInsert finishedOrdinals ordinal) true w1

/-- The method `tikvScaler.ScaleOut`; the result is the returned error, `newSet`
after the call and the world after the call. -/
def ScaleOut (d : Deps σ) (m : Meta) (oldSet newSet : StatefulSet) (w0 : World σ) :
    Option Err × StatefulSet × World σ :=
  let w := w0.mark .enterScaleOut
  match m with
  | .other _ _ => (none, newSet, w)
  | .tidbCluster tc =>
    let scaleOutParallelism := tc.ScaleOutParallelism
    let ordinals := (d.scaleMulti oldSet newSet scaleOutParallelism).2.1
    match scaleOutLoop d tc ordinals [] [] false w with
    | ((errs, finishedOrdinals, updateReplicasAndDeleteSlots), w1) =>
      if updateReplicasAndDeleteSlots then
        (errorutils.NewAggregate errs,
          d.setReplicasAndDeleteSlotsByFinished d.scalingOutFlag newSet oldSet ordinals
            finishedOrdinals,
          w1.mark (.setReplicasAndDeleteSlotsByFinished d.scalingOutFlag ordinals
            finishedOrdinals))
      else
        (errorutils.NewAggregate errs, d.resetReplicas newSet oldSet, w1.mark .resetReplicas)

/-- The loop of `preCheckUpStores` that reads the state of the store about to be
scaled in: every matching entry overwrites `storeState`. -/
def preCheckStoreState (podName : String) : List (String × TiKVStore) → String → String
  | [], storeState => storeState
  | (_, store) :: rest, storeState =>
    if store.PodName = podName then preCheckStoreState podName rest store.State
    else preCheckStoreState podName rest storeState

/-- The method `tikvScaler.preCheckUpStores`. -/
def preCheckUpStores (d : Deps σ) (tc : TidbCluster) (podName : String)
    (upTikvStoreCount deletedUpStoreCount maxReplicas : Int) (w : World σ) : Bool × World σ :=
  if !tc.TiKVBootStrapped then (true, w)
  else
    let upNumber := upTikvStoreCount - deletedUpStoreCount
    let storeState := preCheckStoreState podName tc.Status.Stores ""
    if upNumber < maxReplicas then
      (false, (w.call (.recorderEvent "Warning" "FailedScaleIn")
        (d.recorderEvent tc "Warning" "FailedScaleIn")).2)
    else if upNumber = maxReplicas then
      if storeState = TiKVStateUp then
        (false, (w.call (.recorderEvent "Warning" "FailedScaleIn")
          (d.recorderEvent tc "Warning" "FailedScaleIn")).2)
      else (true, w)
    else (true, w)

/-- The loops `for _, pvc := range pvcs` of `scaleInOne` that attach the
deferred-deletion annotation; the first failure is returned. -/
def annotatePVCs (d : Deps σ) (tc : TidbCluster) (deferTime : Option String) :
    List PVC → World σ → Option Err × World σ
  | [], w => (none, w)
  | pvc :: rest, w =>
    match w.call (.addDeferDeletingAnnoToPVC pvc.Name deferTime)
        (d.addDeferDeletingAnnoToPVC tc pvc deferTime) with
    | (some err, w1) => (some err, w1)
    | (none, w1) => annotatePVCs d tc deferTime rest w1

/-- The steps `util.ResolvePVCFromPod` and the annotation loop, shared by the
three places of `scaleInOne` that mark the claims of a pod. -/
def resolveAndAnnotate (d : Deps σ) (tc : TidbCluster) (pod : Pod) (deferTime : Option String)
    (w : World σ) : Option Err × World σ :=
  match w.call (.resolvePVCFromPod pod.Name) (d.resolvePVCFromPod pod) with
  | (.error _, w1) =>
    (some (.errorf
      "tikvScaler.ScaleIn: failed to get pvcs for pod %s/%s in tc %s/%s, error: %s"), w1)
  | (.ok pvcs, w1) => annotatePVCs d tc deferTime pvcs w1

/-- The start of the scale-in of a pod in `scaleInOne`: the time of the
annotation `label.AnnoScaleInTime` when the pod has one that parses, otherwise
the current time. -/
def scaleInStartTime (d : Deps σ) (pod : Pod) (currentTime : Time) : Time :=
  match pod.Annotations.lookup d.AnnoScaleInTime with
  | some startStr =>
    match d.parseRFC3339 startStr with
    | none => currentTime
    | some t => t
  | none => currentTime

/-- The value of `leaderEvictedOrTimeout` in `scaleInOne`: the eviction timeout
has passed, or the store has no leader left. -/
def leaderEvictedOrTimeout (startTime currentTime : Time) (store : TiKVStore) : Bool :=
  decide (startTime + defaultEvictLeaderTimeoutWhenScaleIn < currentTime)
    || decide (store.LeaderCount = 0)

/-- The block `if !leaderEvictedOrTimeout` of `scaleInOne`: begin the eviction of
the leaders of the store unless a scheduler for it is registered already. -/
def evictLeaderStep (d : Deps σ) (tc : TidbCluster) (id : Nat) (evictedOrTimeout : Bool)
    (w1 : World σ) : Option Err × World σ :=
  if !evictedOrTimeout then
    match w1.call (.pdGetEvictLeaderSchedulersForStores id)
        (d.pdGetEvictLeaderSchedulersForStores tc id) with
    | (.error err, w2) => (some (.wrapf "cannot get scheduler of store %v: %w" err), w2)
    | (.ok schedulerMap, w2) =>
      if (schedulerMap.lookup id).isNone then
        match w2.call (.pdBeginEvictLeader id) (d.pdBeginEvictLeader tc id) with
        | (some err, w3) => (some (.wrapf "cannot evict leaders of store %v: %w" err), w3)
        | (none, w3) => (none, w3)
      else (none, w2)
  else (none, w1)

/-- The block `if state != v1alpha1.TiKVStateOffline && leaderEvictedOrTimeout` of
`scaleInOne` and the return that follows it. -/
def deleteStoreStep (d : Deps σ) (tc : TidbCluster) (id : Nat) (state : String)
    (evictedOrTimeout : Bool) (w2 : World σ) : (Int × Option Err) × World σ :=
  if state ≠ TiKVStateOffline ∧ evictedOrTimeout = true then
    match w2.call (.pdDeleteStore id) (d.pdDeleteStore tc id) with
    | (some err, w3) => ((0, some err), w3)
    | (none, w3) =>
      ((if state = TiKVStateUp then 1 else 0,
        some (controller.RequeueErrorf
          "TiKV %s/%s store %d is still in cluster, state: %s")), w3)
  else
    ((0, some (controller.RequeueErrorf
      "TiKV %s/%s store %d is still in cluster, state: %s")), w2)

/-- The body of the loop over `tc.Status.TiKV.Stores` in `scaleInOne` for the
entry whose pod name matches; every path of it returns. -/
def scaleInStore (d : Deps σ) (tc : TidbCluster) (pod : Pod) (currentTime : Time)
    (store : TiKVStore) (w : World σ) : (Int × Option Err) × World σ :=
  if mapIndex pod.Labels d.StoreIDLabelKey = "" then
    ((0, some (.errorf "StoreID not yet updated on pod label")), w)
  else
    match parseUint store.ID with
    | none => ((0, some (.errorf "strconv.ParseUint: parsing %s: %v")), w)
    | some id =>
      match w.call
          (.ensureScaleInTimeAnnoInPod pod.Name
            (d.formatRFC3339 (scaleInStartTime d pod currentTime)))
          (d.ensureScaleInTimeAnnoInPod tc pod
            (d.formatRFC3339 (scaleInStartTime d pod currentTime))) with
      | (some err, w1) => ((0, some (.wrapf "cannot add annotation to pod: %w" err)), w1)
      | (none, w1) =>
        match evictLeaderStep d tc id
            (leaderEvictedOrTimeout (scaleInStartTime d pod currentTime) currentTime store)
            w1 with
        | (some err, w2) => ((0, some err), w2)
        | (none, w2) =>
          deleteStoreStep d tc id store.State
            (leaderEvictedOrTimeout (scaleInStartTime d pod currentTime) currentTime store) w2

/-- The loop over `tc.Status.TiKV.Stores` in `scaleInOne`: the body runs for the
first entry in iteration order whose pod name matches; `none` when the loop
ends without returning. -/
def scaleInStoresLoop (d : Deps σ) (tc : TidbCluster) (podName : String) (pod : Pod)
    (currentTime : Time) :
    List (String × TiKVStore) → World σ → Option ((Int × Option Err) × World σ)
  | [], _ => none
  | (_, store) :: rest, w =>
    if store.PodName = podName then some (scaleInStore d tc pod currentTime store w)
    else scaleInStoresLoop d tc podName pod currentTime rest w

/-- The body of the loop over `tc.Status.TiKV.TombstoneStores` in `scaleInOne`
for an entry that matches the pod name and the store-ID label. -/
def scaleInTombstone (d : Deps σ) (tc : TidbCluster) (pod : Pod) (currentTime : Time)
    (store : TiKVStore) (w : World σ) : (Int × Option Err) × World σ :=
  match parseUint store.ID with
  | none => ((0, some (.errorf "strconv.ParseUint: parsing %s: %v")), w)
  | some id =>
    match resolveAndAnnotate d tc pod (some (d.formatRFC3339 currentTime)) w with
    | (some err, w1) => ((0, some err), w1)
    | (none, w1) =>
      match w1.call (.endEvictLeaderbyStoreID id) (d.endEvictLeaderbyStoreID tc id) with
      | (some err, w2) => ((0, some err), w2)
      | (none, w2) => ((0, none), w2)

/-- The loop over `tc.Status.TiKV.TombstoneStores` in `scaleInOne`: entries of
another pod, and entries whose key differs from the store-ID label of the pod, are
skipped. -/
def scaleInTombstoneLoop (d : Deps σ) (tc : TidbCluster) (podName : String) (pod : Pod)
    (currentTime : Time) :
    List (String × TiKVStore) → World σ → Option ((Int × Option Err) × World σ)
  | [], _ => none
  | (storeID, store) :: rest, w =>
    if store.PodName ≠ podName then scaleInTombstoneLoop d tc podName pod currentTime rest w
    else if mapIndex pod.Labels d.StoreIDLabelKey ≠ storeID then
      scaleInTombstoneLoop d tc podName pod currentTime rest w
    else some (scaleInTombstone d tc pod currentTime store w)

/-- The wait of `scaleInOne` for a pod that is not ready: on a bootstrapped
cluster, read the clock and tell whether it is still before the creation of the
pod plus five resync periods. -/
def notReadyWait (d : Deps σ) (tc : TidbCluster) (pod : Pod) (w : World σ) : Bool × World σ :=
  if tc.TiKVBootStrapped then
    match w.call .timeNow d.timeNow with
    | (now, w1) => (decide (now < pod.CreationTimestamp + fiveResyncPeriods d), w1)
  else (false, w)

/-- The block `if !k8s.IsPodReady(pod)` of `scaleInOne`. -/
def scaleInNotReady (d : Deps σ) (tc : TidbCluster) (pod : Pod) (w : World σ) :
    (Int × Option Err) × World σ :=
  match notReadyWait d tc pod w with
  | (true, w1) =>
    ((0, some (.errorf
      "TiKV %s/%s is not ready, wait for 5 resync periods to sync its status")), w1)
  | (false, w1) =>
    match resolveAndAnnotate d tc pod none w1 with
    | (some err, w2) => ((0, some err), w2)
    | (none, w2) => ((0, none), w2)

/-- The end of `scaleInOne` for a ready pod: the annotation
`label.AnnTiKVNoActiveStoreSince` and the final error. -/
def scaleInNoActiveStore (d : Deps σ) (tc : TidbCluster) (pod : Pod) (w : World σ) :
    (Int × Option Err) × World σ :=
  match pod.Annotations.lookup d.AnnTiKVNoActiveStoreSince with
  | none => ((0, some (.errorf "TiKV %s/%s not found in cluster")), w)
  | some noActiveStoreSinceAnnValue =>
    match d.parseRFC3339 noActiveStoreSinceAnnValue with
    | none => ((0, some (.errorf "TiKV %s/%s not found in cluster")), w)
    | some noActiveStoreSinceTime =>
      match w.call .timeNow d.timeNow with
      | (now, w1) =>
        if noActiveStoreSinceTime + fiveResyncPeriods d < now then
          match resolveAndAnnotate d tc pod none w1 with
          | (some err, w2) => ((0, some err), w2)
          | (none, w2) => ((0, none), w2)
        else ((0, some (.errorf "TiKV %s/%s not found in cluster")), w1)

/-- The end of `scaleInOne`, reached when the store of the pod is in neither map
of the status. -/
def scaleInNotFound (d : Deps σ) (tc : TidbCluster) (pod : Pod) (w : World σ) :
    (Int × Option Err) × World σ :=
  if !pod.Ready then scaleInNotReady d tc pod w
  else scaleInNoActiveStore d tc pod w

/-- The condition `!skipPreCheck && !s.preCheckUpStores(...)` of `scaleInOne`,
negated: the pre-check is passed or skipped. -/
def preCheckStep (d : Deps σ) (tc : TidbCluster) (skipPreCheck : Bool) (podName : String)
    (upTikvStoreCount deletedUpStoreCount maxReplicas : Int) (w : World σ) : Bool × World σ :=
  if skipPreCheck then (true, w)
  else preCheckUpStores d tc podName upTikvStoreCount deletedUpStoreCount maxReplicas w

/-- The part of `scaleInOne` after `UpdateMetaInfo`: the loop over the stores,
the loop over the tombstone stores and the end of the function. -/
def scaleInSynced (d : Deps σ) (tc : TidbCluster) (podName : String) (pod : Pod)
    (currentTime : Time) (w3 : World σ) : (Int × Option Err) × World σ :=
  match scaleInStoresLoop d tc podName pod currentTime tc.Status.Stores w3 with
  | some r => r
  | none =>
    match scaleInTombstoneLoop d tc podName pod currentTime tc.Status.TombstoneStores w3 with
    | some r => r
    | none => scaleInNotFound d tc pod w3

/-- The statements of `tikvScaler.scaleInOne`; the result is
`(deletedUpStore, err)`. -/
def scaleInOneBody (d : Deps σ) (tc : TidbCluster) (skipPreCheck : Bool)
    (upTikvStoreCount deletedUpStoreCount maxReplicas : Int) (ordinal : Int)
    (currentTime : Time) (w : World σ) : (Int × Option Err) × World σ :=
  let tcName := tc.Name
  let ns := tc.Namespace
  let podName := d.ordinalPodName TiKVMemberType tcName ordinal
  match w.call (.podGet ns podName) (d.podGet ns podName) with
  | (.error _, w1) =>
    ((0, some (.errorf
      "tikvScaler.ScaleIn: failed to get pods %s for cluster %s/%s, error: %s")), w1)
  | (.ok pod0, w1) =>
    match preCheckStep d tc skipPreCheck podName upTikvStoreCount deletedUpStoreCount
        maxReplicas w1 with
    | (false, w2) =>
      ((0, some (.errorf
        "tikvScaler.ScaleIn: failed to pass up stores check , pod %s, cluster %s/%s")), w2)
    | (true, w2) =>
      match w2.call (.updateMetaInfo pod0.Name) (d.updateMetaInfo tc pod0) with
      | (.error _, w3) => ((0, none), w3)
      | (.ok pod, w3) => scaleInSynced d tc podName pod currentTime w3

/-- The method `tikvScaler.scaleInOne`: its statements between the events of
entry and return; the result is `(deletedUpStore, err)`. -/
def scaleInOne (d : Deps σ) (tc : TidbCluster) (skipPreCheck : Bool)
    (upTikvStoreCount deletedUpStoreCount maxReplicas : Int) (ordinal : Int)
    (currentTime : Time) (w0 : World σ) : (Int × Option Err) × World σ :=
  match scaleInOneBody d tc skipPreCheck upTikvStoreCount deletedUpStoreCount maxReplicas
      ordinal currentTime (w0.mark
        (.enterScaleInOne skipPreCheck upTikvStoreCount deletedUpStoreCount maxReplicas
          ordinal)) with
  | ((deletedUpStore, err), w1) =>
    ((deletedUpStore, err), w1.mark (.exitScaleInOne ordinal deletedUpStore err.isNone))

/-- The count of Up TiKV stores in `ScaleIn` (TiFlash stores are filtered out). -/
def countUpTikvStores (d : Deps σ) : List StoreInfo → Int
  | [] => 0
  | store :: rest =>
    match store.Store with
    | some s =>
      if s.StateName = TiKVStateUp ∧ d.MatchLabelFromStoreLabels s.Labels d.TiKVLabelVal = true then
        countUpTikvStores d rest + 1
      else countUpTikvStores d rest
    | none => countUpTikvStores d rest

/-- The loop variables of the loop of `ScaleIn`. -/
structure ScaleInVars where
  deletedUpStoreTotal : Int
  errs : List Err
  finishedOrdinals : List Int
  updateReplicasAndDeleteSlots : Bool

/-- The loop of `ScaleIn` over the ordinals. -/
def scaleInLoop (d : Deps σ) (tc : TidbCluster) (skipPreCheck : Bool)
    (upTikvStoreCount maxReplicas : Int) (scaleInTime : Time) :
    List Int → ScaleInVars → World σ → ScaleInVars × World σ
  | [], v, w => (v, w)
  | ordinal :: rest, v, w =>
    match scaleInOne d tc skipPreCheck upTikvStoreCount v.deletedUpStoreTotal maxReplicas
        ordinal scaleInTime w with
    | ((deletedUpStore, some err), w1) =>
      scaleInLoop d tc skipPreCheck upTikvStoreCount maxReplicas scaleInTime rest
        { v with deletedUpStoreTotal := v.deletedUpStoreTotal + deletedUpStore,
                 errs := v.errs ++ [err] } w1
    | ((deletedUpStore, none), w1) =>
      scaleInLoop d tc skipPreCheck upTikvStoreCount maxReplicas scaleInTime rest
        { v with deletedUpStoreTotal := v.deletedUpStoreTotal + deletedUpStore,
                 finishedOrdinals := setInsert v.finishedOrdinals ordinal,
                 updateReplicasAndDeleteSlots := true } w1

/-- What `ScaleIn` learns before its loop: `skipPreCheck`, `upTikvStoreCount` and
`maxReplicas`. -/
structure PreCheckInput where
  skipPreCheck : Bool
  upTikvStoreCount : Int
  maxReplicas : Int
deriving DecidableEq, Repr

/-- The block of `ScaleIn` that queries PD unless TiKV is not bootstrapped. -/
def scaleInPrepare (d : Deps σ) (tc : TidbCluster) (w : World σ) :
    Except Err PreCheckInput × World σ :=
  if !tc.TiKVBootStrapped then
    (.ok { skipPreCheck := true, upTikvStoreCount := 0, maxReplicas := 0 }, w)
  else
    match w.call .pdGetStores (d.pdGetStores tc) with
    | (.error _, w1) => (.error (.errorf "failed to get stores info in TidbCluster %s/%s"), w1)
    | (.ok storesInfo, w1) =>
      match w1.call .pdGetConfig (d.pdGetConfig tc) with
      | (.error _, w2) => (.error (.errorf "failed to get config in TidbCluster %s/%s"), w2)
      | (.ok maxReplicas, w2) =>
        (.ok { skipPreCheck := false, upTikvStoreCount := countUpTikvStores d storesInfo,
               maxReplicas := intOfUint64 maxReplicas }, w2)

/-- The method `tikvScaler.ScaleIn`; the result is the returned error, `newSet`
after the call and the world after the call. -/
def ScaleIn (d : Deps σ) (m : Meta) (oldSet newSet : StatefulSet) (w0 : World σ) :
    Option Err × StatefulSet × World σ :=
  match (w0.mark .enterScaleIn).call .timeNow d.timeNow with
  | (scaleInTime, w) =>
    match m with
    | .other _ _ => (none, newSet, w)
    | .tidbCluster tc =>
      let scaleInParallelism := tc.ScaleInParallelism
      let ordinals := (d.scaleMulti oldSet newSet scaleInParallelism).2.1
      match scaleInPrepare d tc w with
      | (.error err, w1) => (some err, newSet, w1)
      | (.ok p, w1) =>
        match scaleInLoop d tc p.skipPreCheck p.upTikvStoreCount p.maxReplicas scaleInTime
            ordinals { deletedUpStoreTotal := 0, errs := [], finishedOrdinals := [],
                       updateReplicasAndDeleteSlots := false } w1 with
        | (v, w2) =>
          if v.updateReplicasAndDeleteSlots then
            (errorutils.NewAggregate v.errs,
              d.setReplicasAndDeleteSlotsByFinished d.scalingInFlag newSet oldSet ordinals
                v.finishedOrdinals,
              w2.mark (.setReplicasAndDeleteSlotsByFinished d.scalingInFlag ordinals
                v.finishedOrdinals))
          else
            (errorutils.NewAggregate v.errs, d.resetReplicas newSet oldSet,
              w2.mark .resetReplicas)

/-- The method `tikvScaler.Scale`. -/
def Scale (d : Deps σ) (m : Meta) (oldSet newSet : StatefulSet) (w : World σ) :
    Option Err × StatefulSet × World σ :=
  let scaling := (d.scaleOne oldSet newSet).1
  if scaling > 0 then ScaleOut d m oldSet newSet w
  else if scaling < 0 then ScaleIn d m oldSet newSet w
  else (none, newSet, w)

/-! ## Reading a batch off its calls and its trace -/

/-- The calls of `scaleOutOne` for the ordinals of a batch, one after the other,
each in the world left by the previous one: every ordinal with the error its
call returned, and the world after the last call. -/
def scaleOutCalls (d : Deps σ) (tc : TidbCluster) :
    List Int → World σ → List (Int × Unit × Option Err) × World σ
  | [], w => ([], w)
  | ordinal :: rest, w =>
    (((ordinal, (), (scaleOutOne d tc ordinal w).1) ::
        (scaleOutCalls d tc rest (scaleOutOne d tc ordinal w).2).1),
      (scaleOutCalls d tc rest (scaleOutOne d tc ordinal w).2).2)

/-- The calls of `scaleInOne` for the ordinals of a batch, one after the other,
each in the world left by the previous one and with the deleted-Up-store count
`deleted` accumulated so far: every ordinal with the `deletedUpStore` and the
error its call returned, and the world after the last call. -/
def scaleInCalls (d : Deps σ) (tc : TidbCluster) (skipPreCheck : Bool)
    (upTikvStoreCount maxReplicas : Int) (scaleInTime : Time) :
    List Int → Int → World σ → List (Int × Int × Option Err) × World σ
  | [], _, w => ([], w)
  | ordinal :: rest, deleted, w =>
    let r := scaleInOne d tc skipPreCheck upTikvStoreCount deleted maxReplicas ordinal
      scaleInTime w
    let rs := scaleInCalls d tc skipPreCheck upTikvStoreCount maxReplicas scaleInTime rest
      (deleted + r.1.1) r.2
    ((ordinal, r.1.1, r.1.2) :: rs.1, rs.2)

/-- The world `w1` continues the trace of the world `w0`, and every event
recorded on the way satisfies `P`. -/
def Emits (P : Event → Prop) (w0 w1 : World σ) : Prop :=
  ∃ evs, w1.trace = w0.trace ++ evs ∧ ∀ ev ∈ evs, P ev

/-- The ordinals for which a trace shows an entry into `scaleOutOne`, in order. -/
def enteredScaleOutOne : List Event → List Int
  | [] => []
  | .enterScaleOutOne ordinal :: rest => ordinal :: enteredScaleOutOne rest
  | _ :: rest => enteredScaleOutOne rest

/-- The ordinals for which a trace shows an entry into `scaleInOne`, in order. -/
def enteredScaleInOne : List Event → List Int
  | [] => []
  | .enterScaleInOne _ _ _ _ ordinal :: rest => ordinal :: enteredScaleInOne rest
  | _ :: rest => enteredScaleInOne rest

/-- The finished sets that a trace shows handed to
`setReplicasAndDeleteSlotsByFinished`, in order. -/
def finishedRecorded : List Event → List (List Int)
  | [] => []
  | .setReplicasAndDeleteSlotsByFinished _ _ finishedOrdinals :: rest =>
    finishedOrdinals :: finishedRecorded rest
  | _ :: rest => finishedRecorded rest

/-- The ordinals of a list of calls whose call returned no error. -/
def succeeded {α : Type} : List (Int × α × Option Err) → List Int
  | [] => []
  | (ordinal, _, none) :: rest => ordinal :: succeeded rest
  | (_, _, some _) :: rest => succeeded rest

/-- The errors returned by a list of calls, one per failed call, in order. -/
def failures {α : Type} : List (Int × α × Option Err) → List Err
  | [] => []
  | (_, _, none) :: rest => failures rest
  | (_, _, some err) :: rest => err :: failures rest

/-- The sum of the `deletedUpStore` results of a list of calls. -/
def deletedTotal : List (Int × Int × Option Err) → Int
  | [] => 0
  | (_, deletedUpStore, _) :: rest => deletedUpStore + deletedTotal rest

/-- The collaborator calls that the statements of `scaleOutOne` can make. -/
def inScaleOutOne : Event → Bool
  | .pvcGet _ _ => true
  | .deleteDeferDeletingPVC _ _ => true
  | _ => false

/-- The collaborator calls that the statements of `scaleInOne` can make, the
event recorder apart. -/
def inScaleInOne : Event → Bool
  | .podGet _ _ => true
  | .updateMetaInfo _ => true
  | .ensureScaleInTimeAnnoInPod _ _ => true
  | .pdGetEvictLeaderSchedulersForStores _ => true
  | .pdBeginEvictLeader _ => true
  | .pdDeleteStore _ => true
  | .timeNow => true
  | .resolvePVCFromPod _ => true
  | .addDeferDeletingAnnoToPVC _ _ => true
  | .endEvictLeaderbyStoreID _ => true
  | _ => false

/-- The event is a call of `addDeferDeletingAnnoToPVC`. -/
def marksClaim : Event → Bool
  | .addDeferDeletingAnnoToPVC _ _ => true
  | _ => false

/-- Whether a trace shows the deferred-deletion annotation being attached to a
storage claim. -/
def annotatesPVC (evs : List Event) : Bool := evs.any marksClaim

/-- What the specification asks before a storage claim of the pod `pod` named
`podName` is marked for deferred deletion: (a) the store of the pod is observed
in `TombstoneStores` under the store-ID label of the pod, or (b) the pod is absent
from both store lists and a grace window has elapsed: the pod is not ready and
was created at least five resync periods before a reading of the clock, or its
no-active-store-since time is more than five resync periods before one. -/
def DeletionConfirmedAsClaimed (d : Deps σ) (tc : TidbCluster) (podName : String) (pod : Pod) :
    Prop :=
  (∃ kv ∈ tc.Status.TombstoneStores,
    kv.2.PodName = podName ∧ mapIndex pod.Labels d.StoreIDLabelKey = kv.1) ∨
  ((∀ kv ∈ tc.Status.Stores, kv.2.PodName ≠ podName) ∧
    (∀ kv ∈ tc.Status.TombstoneStores, kv.2.PodName ≠ podName) ∧
    ((pod.Ready = false ∧
        ∃ st, pod.CreationTimestamp + fiveResyncPeriods d ≤ (d.timeNow st).1) ∨
      (∃ v t st, pod.Annotations.lookup d.AnnTiKVNoActiveStoreSince = some v ∧
        d.parseRFC3339 v = some t ∧ t + fiveResyncPeriods d < (d.timeNow st).1)))

/-- What the code ensures before a storage claim of the pod `pod` named
`podName` is marked for deferred deletion: (a) as above, or (b) the pod has no
entry in `Stores` and no entry in `TombstoneStores` under its store-ID label, and
either the pod is not ready and, on a bootstrapped cluster, was created at least
five resync periods before a reading of the clock (on a cluster that is not
bootstrapped there is no wait), or the pod is ready and its no-active-store-since
time is more than five resync periods before a reading of the clock. -/
def DeletionConfirmed (d : Deps σ) (tc : TidbCluster) (podName : String) (pod : Pod) : Prop :=
  (∃ kv ∈ tc.Status.TombstoneStores,
    kv.2.PodName = podName ∧ mapIndex pod.Labels d.StoreIDLabelKey = kv.1) ∨
  ((∀ kv ∈ tc.Status.Stores, kv.2.PodName ≠ podName) ∧
    (∀ kv ∈ tc.Status.TombstoneStores,
      kv.2.PodName = podName → mapIndex pod.Labels d.StoreIDLabelKey ≠ kv.1) ∧
    ((pod.Ready = false ∧ tc.TiKVBootStrapped = true ∧
        ∃ st, pod.CreationTimestamp + fiveResyncPeriods d ≤ (d.timeNow st).1) ∨
      (pod.Ready = false ∧ tc.TiKVBootStrapped = false) ∨
      (pod.Ready = true ∧
        ∃ v t st, pod.Annotations.lookup d.AnnTiKVNoActiveStoreSince = some v ∧
          d.parseRFC3339 v = some t ∧ t + fiveResyncPeriods d < (d.timeNow st).1)))

/-- The set `sets.Int32` built by inserting the listed ordinals in turn. -/
def setInsertAll (s : List Int) : List Int → List Int
  | [] => s
  | x :: rest => setInsertAll (setInsert s x) rest

/-- The end of a batch in the words of the specification: the errors of the
failed calls are aggregated; when some call finished, the replica count and the
delete slots are updated with the finished ordinals only; when none finished,
the replica count is reset. -/
def batchOutcome {α : Type} (d : Deps σ) (flag : Int) (oldSet newSet : StatefulSet)
    (ordinals : List Int) (calls : List (Int × α × Option Err)) (w : World σ) :
    Option Err × StatefulSet × World σ :=
  if (succeeded calls).isEmpty then
    (errorutils.NewAggregate (failures calls), d.resetReplicas newSet oldSet,
      w.mark .resetReplicas)
  else
    (errorutils.NewAggregate (failures calls),
      d.setReplicasAndDeleteSlotsByFinished flag newSet oldSet ordinals
        (setInsertAll [] (succeeded calls)),
      w.mark (.setReplicasAndDeleteSlotsByFinished flag ordinals
        (setInsertAll [] (succeeded calls))))

/-- Partial-failure safety of a batch with the per-ordinal results `calls` that
ends with the stateful set `newSet1` after recording the events `evs`: when
some call returned no error, `newSet1` is `newSet` updated by
`setReplicasAndDeleteSlotsByFinished` with exactly the ordinals whose call
returned no error, all of them ordinals of the batch, and `resetReplicas` is not
called; when no call returned no error, `newSet1` is `newSet` reset by
`resetReplicas` and no update by finished ordinals is made. -/
def BatchFailureSafe {α : Type} (d : Deps σ) (flag : Int) (oldSet newSet : StatefulSet)
    (ordinals : List Int) (calls : List (Int × α × Option Err)) (newSet1 : StatefulSet)
    (evs : List Event) : Prop :=
  ((∃ o a, (o, a, none) ∈ calls) →
    ∃ finished : List Int,
      (∀ o, o ∈ finished ↔ ∃ a, (o, a, none) ∈ calls) ∧
      (∀ o ∈ finished, o ∈ ordinals) ∧
      newSet1 = d.setReplicasAndDeleteSlotsByFinished flag newSet oldSet ordinals finished ∧
      finishedRecorded evs = [finished] ∧
      Event.resetReplicas ∉ evs) ∧
  ((¬ ∃ o a, (o, a, none) ∈ calls) →
    newSet1 = d.resetReplicas newSet oldSet ∧
    Event.resetReplicas ∈ evs ∧
    finishedRecorded evs = [])

/-- Modelled from the spec: the helper `scaleMulti` (pkg/manager/member, absent
from the sources) computes the ordinals to add or remove "bounded by
parallelism": at most `parallelism` ordinals in one pass. -/
def scaleMultiBounded (d : Deps σ) (oldSet newSet : StatefulSet) (parallelism : Int) : Prop :=
  ((d.scaleMulti oldSet newSet parallelism).2.1.length : Int) ≤ parallelism

end tikvScaler

/-! ## A concrete cluster to run the scaler on -/

/-- A test bed: what the collaborators of a concrete run answer. -/
structure Scenario where
  /-- The pods the pod lister knows. -/
  pods : List Pod
  /-- The names of the claims the claim lister knows. -/
  pvcs : List String
  /-- The claims of every pod. -/
  podPVCs : List PVC
  /-- The reading of the clock. -/
  now : Time
  resync : Duration
  /-- The store list and the replication factor PD answers with. -/
  pdStores : List StoreInfo
  maxReplicas : Nat
  /-- The store IDs for which PD already has an evict-leader scheduler. -/
  evicting : List Nat
  /-- The ordinals whose claim cannot be marked by `deleteDeferDeletingPVC`. -/
  stuck : List Int
  /-- PD does not answer. -/
  pdDown : Bool

/-- The collaborators of a test bed; the collaborator state counts the calls
that went through. Times are written as decimal numbers of nanoseconds. -/
def Scenario.deps (sc : Scenario) : Deps Nat where
  scaleOne := fun oldSet newSet =>
    (newSet.Replicas - oldSet.Replicas, oldSet.Replicas, newSet.Replicas, [])
  scaleMulti := fun oldSet newSet parallelism =>
    if oldSet.Replicas < newSet.Replicas then
      (1, ((List.range (newSet.Replicas - oldSet.Replicas).toNat).map
          (fun i => oldSet.Replicas + (i : Int))).take parallelism.toNat, newSet.Replicas, [])
    else
      (-1, ((List.range (oldSet.Replicas - newSet.Replicas).toNat).map
          (fun i => oldSet.Replicas - 1 - (i : Int))).take parallelism.toNat, newSet.Replicas, [])
  setReplicasAndDeleteSlotsByFinished := fun flag newSet oldSet _ finishedOrdinals =>
    { newSet with Replicas := oldSet.Replicas + flag * finishedOrdinals.length }
  resetReplicas := fun newSet oldSet => { newSet with Replicas := oldSet.Replicas }
  scalingOutFlag := 1
  scalingInFlag := -1
  ordinalPodName := fun memberType tcName ordinal =>
    tcName ++ "-" ++ memberType ++ "-" ++ toString ordinal
  MatchLabelFromStoreLabels := fun labels componentLabel =>
    if ("engine", "tiflash") ∈ labels then decide (componentLabel = "tiflash")
    else decide (componentLabel = "tikv")
  TiKVLabelVal := "tikv"
  StoreIDLabelKey := "tidb.pingcap.com/store-id"
  AnnoScaleInTime := "tidb.pingcap.com/scale-in-time"
  AnnTiKVNoActiveStoreSince := "tidb.pingcap.com/tikv-no-active-store-since"
  parseRFC3339 := fun str => (parseUint str).map Int.ofNat
  formatRFC3339 := fun t => toString t
  ResyncDuration := sc.resync
  timeNow := fun st => (sc.now, st + 1)
  pvcGet := fun _ name st =>
    (if name ∈ sc.pvcs then .ok { Name := name } else .error (.notFound "not found"), st + 1)
  deleteDeferDeletingPVC := fun _ _ ordinal st =>
    (if ordinal ∈ sc.stuck then some (.errorf "update failed") else none, st + 1)
  pdGetStores := fun _ st =>
    (if sc.pdDown then .error (.errorf "connection refused") else .ok sc.pdStores, st + 1)
  pdGetConfig := fun _ st =>
    (if sc.pdDown then .error (.errorf "connection refused") else .ok sc.maxReplicas, st + 1)
  podGet := fun _ name st =>
    (match sc.pods.find? (fun pod => pod.Name = name) with
      | some pod => .ok pod
      | none => .error (.notFound "not found"), st + 1)
  recorderEvent := fun _ _ _ st => ((), st + 1)
  updateMetaInfo := fun _ pod st => (.ok pod, st + 1)
  ensureScaleInTimeAnnoInPod := fun _ _ _ st => (none, st + 1)
  pdGetEvictLeaderSchedulersForStores := fun _ _ st =>
    (.ok (sc.evicting.map (fun id => (id, "evict-leader-scheduler"))), st + 1)
  pdBeginEvictLeader := fun _ _ st => (none, st + 1)
  pdDeleteStore := fun _ _ st => (none, st + 1)
  resolvePVCFromPod := fun _ st => (.ok sc.podPVCs, st + 1)
  addDeferDeletingAnnoToPVC := fun _ _ _ st => (none, st + 1)
  endEvictLeaderbyStoreID := fun _ _ st => (none, st + 1)

/-- The world before the first call. -/
def World.start : World Nat := { st := 0, trace := [] }

/-- A stateful set of the cluster `demo` with the given replica count. -/
def demoSet (replicas : Int) : StatefulSet :=
  { Namespace := "ns", Name := "demo-tikv", Replicas := replicas, DeleteSlots := [] }

/-- A TiKV pod of the cluster `demo` with the given store-ID label. -/
def demoPod (ordinal : Int) (storeID : String) (ready : Bool) : Pod :=
  { Name := "demo-tikv-" ++ toString ordinal,
    Labels := [("tidb.pingcap.com/store-id", storeID)],
    Annotations := [], CreationTimestamp := 0, Ready := ready }

/-- A store entry of the status of the cluster `demo`, keyed by its ID. -/
def demoStore (id : String) (ordinal : Int) (state : String) (leaders : Int) :
    String × TiKVStore :=
  (id, { ID := id, PodName := "demo-tikv-" ++ toString ordinal, State := state,
         LeaderCount := leaders })

/-- The cluster `demo` with the given TiKV status and a parallelism of two. -/
def demoCluster (status : TiKVStatus) : TidbCluster :=
  { Namespace := "ns", Name := "demo", ScaleInParallelism := 2, ScaleOutParallelism := 2,
    Status := status }

/-- A PD store that is Up and carries no engine label. -/
def upStore : StoreInfo := { Store := some { StateName := "Up", Labels := [] } }

/-- A bootstrapped status: the stores 5 and 4 of the pods 4 and 3 are Up, with
and without leaders. -/
def demoStatus : TiKVStatus :=
  { BootStrapped := true,
    Stores := [demoStore "5" 4 "Up" 0, demoStore "4" 3 "Up" 7, demoStore "3" 2 "Up" 7],
    TombstoneStores := [] }

/-- A test bed with four Up stores in PD and a replication factor of three; the
claim of ordinal 5 is a leftover, those of the ordinals 6 and 7 are not there. -/
def demoScenario : Scenario :=
  { pods := [demoPod 4 "5" true, demoPod 3 "4" true],
    pvcs := ["tikv-demo-tikv-5"],
    podPVCs := [{ Name := "tikv-demo-tikv-4" }],
    now := 1000, resync := 30,
    pdStores := [upStore, upStore, upStore, upStore], maxReplicas := 3,
    evicting := [], stuck := [], pdDown := false }

/-- The test bed `demoScenario` with a PD that does not answer. -/
def pdDownScenario : Scenario := { demoScenario with pdDown := true }

/-- The test bed `demoScenario` with three Up stores in PD, as many as the
replication factor. -/
def tightScenario : Scenario := { demoScenario with pdStores := [upStore, upStore, upStore] }

/-- A bootstrapped status in which the pod 4 has two entries: the store 5, Up and
without leaders, and the store 9, Offline. -/
def sharedPodStatus : TiKVStatus :=
  { BootStrapped := true,
    Stores := [demoStore "5" 4 "Up" 0, demoStore "4" 3 "Up" 7, demoStore "3" 2 "Up" 7,
      demoStore "9" 4 "Offline" 0],
    TombstoneStores := [] }

/-- A bootstrapped status in which the store of the pod 4 is Down. -/
def downStatus : TiKVStatus :=
  { BootStrapped := true,
    Stores := [demoStore "5" 4 "Down" 0, demoStore "4" 3 "Up" 7, demoStore "3" 2 "Up" 7],
    TombstoneStores := [] }

/-- A status of a cluster whose TiKV never bootstrapped: no store at all. -/
def freshStatus : TiKVStatus := { BootStrapped := false, Stores := [], TombstoneStores := [] }

/-- A test bed whose pod 4 is not ready and was created at time 990, ten
nanoseconds before the reading 1000 of the clock, with a resync period of 30. -/
def pendingScenario : Scenario :=
  { demoScenario with
    pods := [{ demoPod 4 "" false with CreationTimestamp := 990 }], pdStores := [] }

/-- A bootstrapped status in which the pod 4 has a tombstone entry under the
store ID 7 only. -/
def oldTombstoneStatus : TiKVStatus :=
  { BootStrapped := true, Stores := [demoStore "4" 3 "Up" 7],
    TombstoneStores := [demoStore "7" 4 "Tombstone" 0] }

/-- A test bed whose pod 4 is ready, carries the store-ID label 5 and has had no
active store since time 100, with a resync period of 30 and the clock at 1000. -/
def goneStoreScenario : Scenario :=
  { demoScenario with
    pods := [{ demoPod 4 "5" true with
      Annotations := [("tidb.pingcap.com/tikv-no-active-store-since", "100")] }] }

/-- A status in which the store 5 of the pod 4 is a tombstone. -/
def tombstoneStatus : TiKVStatus :=
  { BootStrapped := true, Stores := [demoStore "4" 3 "Up" 7],
    TombstoneStores := [demoStore "5" 4 "Tombstone" 0] }

end TidbOperator

namespace TidbOperator

namespace tikvScaler

/-- The arguments with which a trace shows `scaleInOne` entered, in order: the
Up-store count, the deleted-Up-store count, `maxReplicas` and the ordinal. -/
def enteredWith : List Event → List (Int × Int × Int × Int)
  | [] => []
  | .enterScaleInOne _ up deleted maxReplicas ordinal :: rest =>
    (up, deleted, maxReplicas, ordinal) :: enteredWith rest
  | _ :: rest => enteredWith rest

/-- The `deletedUpStore` results with which a trace shows `scaleInOne` return, in
order. -/
def returnedDeleted : List Event → List Int
  | [] => []
  | .exitScaleInOne _ deletedUpStore _ :: rest => deletedUpStore :: returnedDeleted rest
  | _ :: rest => returnedDeleted rest

end tikvScaler

end TidbOperator

/-! ## Reading the requests to PD off a trace, and more clusters -/

namespace TidbOperator

namespace tikvScaler

variable {σ : Type}

/-- The store IDs of the `DeleteStore` requests a trace shows, in order. -/
def deleteStoreCalls : List Event → List Nat
  | [] => []
  | .pdDeleteStore id :: rest => id :: deleteStoreCalls rest
  | _ :: rest => deleteStoreCalls rest

/-- The store IDs of the `BeginEvictLeader` requests a trace shows, in order. -/
def beginEvictCalls : List Event → List Nat
  | [] => []
  | .pdBeginEvictLeader id :: rest => id :: beginEvictCalls rest
  | _ :: rest => beginEvictCalls rest

/-- A `scaleInOne` call got past `UpdateMetaInfo`: the pod lister found the pod,
the quorum pre-check was passed or skipped, and `UpdateMetaInfo` returned `pod`
and left the collaborators in the state `st2`. -/
def MetaInfoUpdated (d : Deps σ) (tc : TidbCluster) (skipPreCheck : Bool)
    (up deleted maxReplicas ordinal : Int) (w : World σ) (pod : Pod) (st2 : σ) : Prop :=
  ∃ pod0 st1,
    d.podGet tc.Namespace (d.ordinalPodName TiKVMemberType tc.Name ordinal) w.st
      = (.ok pod0, st1) ∧
    (preCheckStep d tc skipPreCheck (d.ordinalPodName TiKVMemberType tc.Name ordinal) up
      deleted maxReplicas w).1 = true ∧
    d.updateMetaInfo tc pod0 st1 = (.ok pod, st2)

/-- The entry `store` is the one the loop of `scaleInOne` over
`tc.Status.TiKV.Stores` returns in for the pod `podName`: the first entry in
iteration order with that pod name. -/
def FirstStoreOf (tc : TidbCluster) (podName : String) (store : TiKVStore) : Prop :=
  ∃ pre k post, tc.Status.Stores = pre ++ (k, store) :: post ∧
    (∀ kv ∈ pre, kv.2.PodName ≠ podName) ∧ store.PodName = podName

/-- A `scaleInOne` call reached the removal of the store `id` of the pod: it got
past `UpdateMetaInfo`, `store` is the entry of the pod in `tc.Status.TiKV.Stores`,
the store-ID label of the pod is not empty, `store.ID` parses as `id`, and
`ensureScaleInTimeAnnoInPod` succeeded and left the collaborators in the state
`st3`. -/
def StoreRemovalStarted (d : Deps σ) (tc : TidbCluster) (skipPreCheck : Bool)
    (up deleted maxReplicas ordinal : Int) (currentTime : Time) (w : World σ) (pod : Pod)
    (store : TiKVStore) (id : Nat) (st3 : σ) : Prop :=
  ∃ st2,
    MetaInfoUpdated d tc skipPreCheck up deleted maxReplicas ordinal w pod st2 ∧
    FirstStoreOf tc (d.ordinalPodName TiKVMemberType tc.Name ordinal) store ∧
    mapIndex pod.Labels d.StoreIDLabelKey ≠ "" ∧
    parseUint store.ID = some id ∧
    d.ensureScaleInTimeAnnoInPod tc pod
      (d.formatRFC3339 (scaleInStartTime d pod currentTime)) st2 = (none, st3)

end tikvScaler

/-- The test bed `demoScenario` with a pod 4 that carries no store-ID label. -/
def unlabelledScenario : Scenario :=
  { demoScenario with pods := [demoPod 4 "" true, demoPod 3 "4" true] }

/-- A bootstrapped status in which the ID of the store of the pod 4 is not a
number. -/
def badIDStatus : TiKVStatus :=
  { BootStrapped := true,
    Stores := [demoStore "x5" 4 "Up" 0, demoStore "4" 3 "Up" 7, demoStore "3" 2 "Up" 7],
    TombstoneStores := [] }

/-- The test bed `demoScenario` with a pod 4 labelled with the store ID `x5`. -/
def badIDScenario : Scenario := { demoScenario with pods := [demoPod 4 "x5" true] }

/-- A bootstrapped status with no entry for the pod 4: the stores 4 and 3 of the
pods 3 and 2 are Up. -/
def othersStatus : TiKVStatus :=
  { BootStrapped := true, Stores := [demoStore "4" 3 "Up" 7, demoStore "3" 2 "Up" 7],
    TombstoneStores := [] }

/-- A test bed whose pod 4 is not ready, carries no store-ID label and was
created at time 0, with the clock at 1000 and a resync period of 30. -/
def neverJoinedScenario : Scenario := { demoScenario with pods := [demoPod 4 "" false] }

/-- The collaborators of `demoScenario` with a pod control whose `UpdateMetaInfo`
fails. -/
def conflictDeps : Deps Nat :=
  { demoScenario.deps with
    updateMetaInfo := fun _ _ st => (.error (.errorf "conflict"), st + 1) }

end TidbOperator

namespace TidbOperator

namespace tikvScaler

variable {σ : Type}

/-- The error `err` is one that `scaleInOne` returns as it got it from a
collaborator: some call of `DeleteStore`, of `addDeferDeletingAnnoToPVC` or of
`endEvictLeaderbyStoreID` for the cluster returns it. -/
def HandedOn (d : Deps σ) (tc : TidbCluster) (err : Err) : Prop :=
  (∃ id st, (d.pdDeleteStore tc id st).1 = some err) ∨
  (∃ pvc deferTime st, (d.addDeferDeletingAnnoToPVC tc pvc deferTime st).1 = some err) ∨
  (∃ id st, (d.endEvictLeaderbyStoreID tc id st).1 = some err)

end tikvScaler

end TidbOperator

/-! ## Feature gates, pod addresses and the autoscaler controller -/

namespace TidbOperator

namespace unicode

/-- The test `unicode.IsSpace`: the white space characters of Unicode. -/
def IsSpace (c : Char) : Bool :=
  c.toNat = 0x09 || c.toNat = 0x0A || c.toNat = 0x0B || c.toNat = 0x0C || c.toNat = 0x0D ||
  c.toNat = 0x20 || c.toNat = 0x85 || c.toNat = 0xA0 || c.toNat = 0x1680 ||
  (0x2000 ≤ c.toNat && c.toNat ≤ 0x200A) || c.toNat = 0x2028 || c.toNat = 0x2029 ||
  c.toNat = 0x202F || c.toNat = 0x205F || c.toNat = 0x3000

end unicode

namespace strings

/-- The pieces of a list of characters between the occurrences of `sep`. -/
def splitChars (sep : Char) : List Char → List (List Char)
  | [] => [[]]
  | c :: cs =>
    if c = sep then [] :: splitChars sep cs
    else
      match splitChars sep cs with
      | [] => [[c]]
      | seg :: segs => (c :: seg) :: segs

/-- The function `strings.Split(s, sep)` for a separator of one character. -/
def Split (s : String) (sep : Char) : List String :=
  (splitChars sep s.data).map String.mk

/-- The pieces of `strings.SplitN` on lists of characters: at most `n` pieces, the
last one the unsplit rest. -/
def splitNChars (sep : Char) : Nat → List Char → List (List Char)
  | 0, _ => []
  | 1, cs => [cs]
  | n + 2, cs =>
    match cs.span (fun c => c != sep) with
    | (piece, []) => [piece]
    | (piece, _ :: rest) => piece :: splitNChars sep (n + 1) rest

/-- The function `strings.SplitN(s, sep, n)` for a separator of one character and
`n ≥ 0`. -/
def SplitN (s : String) (sep : Char) (n : Nat) : List String :=
  (splitNChars sep n s.data).map String.mk

/-- The function `strings.TrimSpace`: the string without its leading and trailing
white space. -/
def TrimSpace (s : String) : String :=
  String.mk (((s.data.dropWhile unicode.IsSpace).reverse.dropWhile unicode.IsSpace).reverse)

/-- The function `strings.Join`. -/
def Join (elems : List String) (sep : String) : String := sep.intercalate elems

end strings

namespace strconv

/-- The function `strconv.ParseBool`: it accepts 1, t, T, TRUE, true, True, 0, f,
F, FALSE, false, False; any other value is an error. -/
def ParseBool (str : String) : Except Err Bool :=
  if str = "1" ∨ str = "t" ∨ str = "T" ∨ str = "TRUE" ∨ str = "true" ∨ str = "True" then
    .ok true
  else if str = "0" ∨ str = "f" ∨ str = "F" ∨ str = "FALSE" ∨ str = "false" ∨ str = "False" then
    .ok false
  else .error (.errorf "strconv.ParseBool: parsing %s: invalid syntax")

end strconv

namespace strings

/-- The comparison `a < b` of Go strings on lists of characters: the order of the
bytes, which on well-formed UTF-8 is the lexicographic order of the code
points. -/
def lessChars : List Char → List Char → Bool
  | [], [] => false
  | [], _ :: _ => true
  | _ :: _, [] => false
  | a :: as, b :: bs =>
    if a.toNat < b.toNat then true
    else if b.toNat < a.toNat then false
    else lessChars as bs

/-- The comparison `a < b` of Go strings. -/
def less (a b : String) : Bool := lessChars a.data b.data

end strings

namespace sort

/-- The function `sort.Strings`: the strings in increasing order, every string
placed before the strings that are not less than it. -/
def Strings (x : List String) : List String :=
  x.insertionSort (fun a b => strings.less b a = false)

end sort

namespace features

/-- The constants that name the features. -/
def StableScheduling : String := "StableScheduling"

def AdvancedStatefulSet : String := "AdvancedStatefulSet"

def VolumeModifying : String := "VolumeModifying"

def VolumeReplacing : String := "VolumeReplacing"

/-- The assignment `m[k] = v` on a Go map held as a list of entries with distinct
keys: the entry of `k` is replaced where it stands, a new key is added. -/
def mapSet (m : List (String × Bool)) (k : String) (v : Bool) : List (String × Bool) :=
  match m with
  | [] => [(k, v)]
  | (k0, v0) :: rest => if k0 = k then (k, v) :: rest else (k0, v0) :: mapSet rest k v

/-- The variable `defaultFeatures`, in the order of one iteration. -/
def defaultFeatures : List (String × Bool) :=
  [(StableScheduling, true), (AdvancedStatefulSet, false), (VolumeModifying, false),
    (VolumeReplacing, false)]

/-- The type `featureGate`; the lock is not modelled. -/
structure featureGate where
  enabledFeatures : List (String × Bool)
deriving DecidableEq, Repr

/-- The method `featureGate.Enabled`. -/
def featureGate.Enabled (f : featureGate) (key : String) : Bool :=
  match f.enabledFeatures.lookup key with
  | some b => b
  | none => false

/-- The method `featureGate.SetFromMap`; `m` lists the entries of the map in the
order of the iteration. -/
def featureGate.SetFromMap (f : featureGate) (m : List (String × Bool)) : featureGate :=
  match m with
  | [] => f
  | (k, v) :: rest =>
    featureGate.SetFromMap { enabledFeatures := mapSet f.enabledFeatures k v } rest

/-- The body of the loop of `featureGate.Set` for a segment that is not empty: the
key and the value of the segment, or the error returned. -/
def parsePair (s : String) : Except Err (String × Bool) :=
  let arr := strings.SplitN s '=' 2
  let k := strings.TrimSpace (arr.getD 0 "")
  if arr.length ≠ 2 then .error (.errorf "missing bool value for %s")
  else
    let v := strings.TrimSpace (arr.getD 1 "")
    match strconv.ParseBool v with
    | .error _ => .error (.errorf "invalid value of %s=%s, err: %v")
    | .ok boolValue => .ok (k, boolValue)

/-- The loop of `featureGate.Set` over the segments, filling the map `m`. -/
def setLoop : List String → List (String × Bool) → Except Err (List (String × Bool))
  | [], m => .ok m
  | s :: rest, m =>
    if s.length = 0 then setLoop rest m
    else
      match parsePair s with
      | .error err => .error err
      | .ok (k, boolValue) => setLoop rest (mapSet m k boolValue)

/-- The method `featureGate.Set`; the result is the returned error and the gate
after the call. -/
def featureGate.Set (f : featureGate) (value : String) : Option Err × featureGate :=
  match setLoop (strings.Split value ',') [] with
  | .error err => (some err, f)
  | .ok m => (none, f.SetFromMap m)

/-- The method `featureGate.String`; the entries of the map are ranged over in the
order of the list. -/
def featureGate.String (f : featureGate) : String :=
  strings.Join
    (sort.Strings
      (f.enabledFeatures.map (fun kv => kv.1 ++ "=" ++ (if kv.2 then "true" else "false"))))
    ","

/-- The function `NewFeatureGate`. -/
def NewFeatureGate : featureGate := { enabledFeatures := [] }

/-- The function `NewDefaultFeatureGate`. -/
def NewDefaultFeatureGate : featureGate := NewFeatureGate.SetFromMap defaultFeatures

end features

namespace tikvapi

/-- The function `attachPort`. -/
def attachPort (path : String) (port : Int) : String := path ++ ":" ++ toString port

/-- The function `tiKVBaseURL`. -/
def tiKVBaseURL (namespace_ clusterName podName scheme clusterDomain : String) : String :=
  if clusterDomain ≠ "" then
    scheme ++ "://" ++ podName ++ "." ++ clusterName ++ "-tikv-peer." ++ namespace_ ++ ".svc." ++
      clusterDomain
  else
    scheme ++ "://" ++ podName ++ "." ++ clusterName ++ "-tikv-peer." ++ namespace_

/-- The function `TiKVPodClientURL`; `DefaultTiKVStatusPort` is the constant of
package `v1alpha1`, which the sources do not contain. -/
def TiKVPodClientURL (DefaultTiKVStatusPort : Int)
    (namespace_ clusterName podName scheme clusterDomain : String) : String :=
  attachPort (tiKVBaseURL namespace_ clusterName podName scheme clusterDomain)
    DefaultTiKVStatusPort

/-- The function `TiKVGRPCClientURL`; `DefaultTiKVServerPort` is the constant of
package `v1alpha1`, which the sources do not contain. -/
def TiKVGRPCClientURL (DefaultTiKVServerPort : Int)
    (namespace_ clusterName podName scheme clusterDomain : String) : String :=
  attachPort (tiKVBaseURL namespace_ clusterName podName scheme clusterDomain)
    DefaultTiKVServerPort

end tikvapi

end TidbOperator

namespace TidbOperator

namespace features

/-- A segment that `Set` rejects, in the words of the specification: it holds no
`=`, or its value, the part after the first `=` without the white space around
it, is not accepted by `strconv.ParseBool`. -/
def BadSegment (s : String) : Prop :=
  '=' ∉ s.data ∨
    ∃ pre post, s.data = pre ++ '=' :: post ∧ '=' ∉ pre ∧
      ∀ b, strconv.ParseBool (strings.TrimSpace (String.mk post)) ≠ .ok b

/-- The pair a segment names, in the words of the specification: the key is the
part before the first `=` and the value the part after it, both without the white
space around them, the value read by `strconv.ParseBool`. -/
def SegmentNames (s : String) (k : String) (v : Bool) : Prop :=
  ∃ pre post, s.data = pre ++ '=' :: post ∧ '=' ∉ pre ∧
    k = strings.TrimSpace (String.mk pre) ∧
    strconv.ParseBool (strings.TrimSpace (String.mk post)) = .ok v

/-- The item of an entry of the gate in `featureGate.String`:
`fmt.Sprintf("%s=%t", k, v)`. -/
def gateItem (kv : String × Bool) : String := kv.1 ++ "=" ++ (if kv.2 then "true" else "false")

end features

end TidbOperator

namespace TidbOperator

namespace metrics

/-- The label constants of package `metrics` for the outcome of a reconcile,
named after the constants. -/
inductive Label where
  | LabelSuccess
  | LabelRequeue
  | LabelError
deriving DecidableEq, Repr

end metrics

namespace autoscaler

/-- The object `TidbClusterAutoScaler`, reduced to its namespace and name. -/
structure TidbClusterAutoScaler where
  Namespace : String
  Name : String
deriving DecidableEq, Repr

/-- One call that leaves the controller. -/
inductive Call where
  | activeWorkersAdd (delta : Int)
  | queueGet
  | queueDone (key : String)
  | queueAddRateLimited (key : String)
  | queueForget (key : String)
  | handleError
  | timeNow
  | reconcileTimeObserve
  | reconcileTotalInc (label : metrics.Label)
  | reconcileErrorsInc
  | listerGet (ns name : String)
  | ResconcileAutoScaler (ta : TidbClusterAutoScaler)
deriving DecidableEq, Repr

/-- The collaborators of the controller over a collaborator state `σ`. -/
structure Dependencies (σ : Type) where
  /-- The gauge `metrics.ActiveWorkers`. -/
  activeWorkersAdd : Int → σ → Unit × σ
  /-- The work queue: `Get` returns the key and whether the queue is shut down. -/
  queueGet : σ → (String × Bool) × σ
  queueDone : String → σ → Unit × σ
  queueAddRateLimited : String → σ → Unit × σ
  queueForget : String → σ → Unit × σ
  /-- The function `utilruntime.HandleError`. -/
  handleError : Err → σ → Unit × σ
  /-- The clock: `time.Now()` and `time.Since`. -/
  timeNow : σ → Time × σ
  /-- The histogram `metrics.ReconcileTime`. -/
  reconcileTimeObserve : Duration → σ → Unit × σ
  /-- The counters `metrics.ReconcileTotal` and `metrics.ReconcileErrors`. -/
  reconcileTotalInc : metrics.Label → σ → Unit × σ
  reconcileErrorsInc : σ → Unit × σ
  /-- The function `cache.SplitMetaNamespaceKey` of client-go. -/
  SplitMetaNamespaceKey : String → Except Err (String × String)
  /-- The lister call `TidbClusterAutoScalers(ns).Get(name)`. -/
  listerGet : String → String → σ → Except Err TidbClusterAutoScaler × σ
  /-- The method `control.ResconcileAutoScaler`. -/
  ResconcileAutoScaler : TidbClusterAutoScaler → σ → Option Err × σ

/-- The collaborator state together with the calls made so far, oldest first. -/
structure Run (σ : Type) where
  st : σ
  calls : List Call

/-- Run one collaborator call and record it. -/
def Run.call {σ α : Type} (w : Run σ) (c : Call) (f : σ → α × σ) : α × Run σ :=
  ((f w.st).1, { st := (f w.st).2, calls := w.calls ++ [c] })

/-- The calls recorded after `w0` on the way to `w1`. -/
def Run.since {σ : Type} (w1 w0 : Run σ) : List Call := w1.calls.drop w0.calls.length

variable {σ : Type}

/-- The statements of `Controller.sync` after the deferred function is set up; the
result is the value of the named result `err` at the return. -/
def syncBody (d : Dependencies σ) (key : String) (w : Run σ) : Option Err × Run σ :=
  match d.SplitMetaNamespaceKey key with
  | .error err => (some err, w)
  | .ok (ns, name) =>
    match w.call (.listerGet ns name) (d.listerGet ns name) with
    | (.error err, w1) =>
      if errors.IsNotFound err then (none, w1) else (some err, w1)
    | (.ok ta, w1) => w1.call (.ResconcileAutoScaler ta) (d.ResconcileAutoScaler ta)

/-- The deferred function of `Controller.sync`, run with the returned error. -/
def syncDeferred (d : Dependencies σ) (startTime : Time) (err : Option Err) (w : Run σ) : Run σ :=
  match w.call .timeNow d.timeNow with
  | (now, w1) =>
    match w1.call .reconcileTimeObserve (d.reconcileTimeObserve (now - startTime)) with
    | (_, w2) =>
      match err with
      | none =>
        (w2.call (.reconcileTotalInc .LabelSuccess) (d.reconcileTotalInc .LabelSuccess)).2
      | some e =>
        if isRequeueClassified e then
          (w2.call (.reconcileTotalInc .LabelRequeue) (d.reconcileTotalInc .LabelRequeue)).2
        else
          match w2.call (.reconcileTotalInc .LabelError) (d.reconcileTotalInc .LabelError) with
          | (_, w3) => (w3.call .reconcileErrorsInc d.reconcileErrorsInc).2

/-- The method `Controller.sync`. -/
def sync (d : Dependencies σ) (key : String) (w0 : Run σ) : Option Err × Run σ :=
  match w0.call .timeNow d.timeNow with
  | (startTime, w) =>
    match syncBody d key w with
    | (err, w1) => (err, syncDeferred d startTime err w1)

/-- The method `Controller.processNextWorkItem`. -/
def processNextWorkItem (d : Dependencies σ) (w0 : Run σ) : Bool × Run σ :=
  match w0.call (.activeWorkersAdd 1) (d.activeWorkersAdd 1) with
  | (_, w1) =>
    match w1.call .queueGet d.queueGet with
    | ((_, true), w2) =>
      (false, (w2.call (.activeWorkersAdd (-1)) (d.activeWorkersAdd (-1))).2)
    | ((key, false), w2) =>
      match sync d key w2 with
      | (some err, w3) =>
        let w4 :=
          if isRequeueClassified err then w3
          else (w3.call .handleError (d.handleError err)).2
        match w4.call (.queueAddRateLimited key) (d.queueAddRateLimited key) with
        | (_, w5) =>
          match w5.call (.queueDone key) (d.queueDone key) with
          | (_, w6) => (true, (w6.call (.activeWorkersAdd (-1)) (d.activeWorkersAdd (-1))).2)
      | (none, w3) =>
        match w3.call (.queueForget key) (d.queueForget key) with
        | (_, w4) =>
          match w4.call (.queueDone key) (d.queueDone key) with
          | (_, w5) => (true, (w5.call (.activeWorkersAdd (-1)) (d.activeWorkersAdd (-1))).2)

/-- The calls of a list that go to the work queue, in order. -/
def queueCalls : List Call → List Call
  | [] => []
  | .queueGet :: rest => .queueGet :: queueCalls rest
  | .queueDone key :: rest => .queueDone key :: queueCalls rest
  | .queueAddRateLimited key :: rest => .queueAddRateLimited key :: queueCalls rest
  | .queueForget key :: rest => .queueForget key :: queueCalls rest
  | _ :: rest => queueCalls rest

/-- The calls of a list that go to the lister or to the reconcile control
function, in order. -/
def objectCalls : List Call → List Call
  | [] => []
  | .listerGet ns name :: rest => .listerGet ns name :: objectCalls rest
  | .ResconcileAutoScaler ta :: rest => .ResconcileAutoScaler ta :: objectCalls rest
  | _ :: rest => objectCalls rest

/-- The increments of the counters in the deferred function of `sync` for the
returned error `err`. -/
def outcomeCalls (err : Option Err) : List Call :=
  match err with
  | none => [.reconcileTotalInc .LabelSuccess]
  | some e =>
    if isRequeueClassified e then [.reconcileTotalInc .LabelRequeue]
    else [.reconcileTotalInc .LabelError, .reconcileErrorsInc]

/-- The labels under which a list of calls increments `metrics.ReconcileTotal`, in
order. -/
def reconcileTotalLabels : List Call → List metrics.Label
  | [] => []
  | .reconcileTotalInc label :: rest => label :: reconcileTotalLabels rest
  | _ :: rest => reconcileTotalLabels rest

/-- The number of increments of `metrics.ReconcileErrors` in a list of calls. -/
def reconcileErrorsCount (calls : List Call) : Nat := calls.count .reconcileErrorsInc

/-- A test bed of the controller: the lister knows the objects `known`, fails
with `broken` for the names listed there, and the reconcile of an object returns
the error listed for its name in `outcomes`, or nil. -/
structure Bed where
  queue : String × Bool
  known : List TidbClusterAutoScaler
  broken : List String
  outcomes : List (String × Err)

/-- The function `cache.SplitMetaNamespaceKey` of client-go: `name` or
`namespace/name`. -/
def splitKey (key : String) : Except Err (String × String) :=
  match strings.Split key '/' with
  | [name] => .ok ("", name)
  | [ns, name] => .ok (ns, name)
  | _ => .error (.errorf "unexpected key format: %q")

/-- The collaborators of a test bed; the collaborator state counts the calls. -/
def Bed.deps (b : Bed) : Dependencies Nat where
  activeWorkersAdd := fun _ st => ((), st + 1)
  queueGet := fun st => (b.queue, st + 1)
  queueDone := fun _ st => ((), st + 1)
  queueAddRateLimited := fun _ st => ((), st + 1)
  queueForget := fun _ st => ((), st + 1)
  handleError := fun _ st => ((), st + 1)
  timeNow := fun st => ((st : Int), st + 1)
  reconcileTimeObserve := fun _ st => ((), st + 1)
  reconcileTotalInc := fun _ st => ((), st + 1)
  reconcileErrorsInc := fun st => ((), st + 1)
  SplitMetaNamespaceKey := splitKey
  listerGet := fun ns name st =>
    (if name ∈ b.broken then .error (.errorf "cache not synced")
      else
        match b.known.find? (fun ta => ta.Namespace = ns ∧ ta.Name = name) with
        | some ta => .ok ta
        | none => .error (.notFound "tidbclusterautoscaler not found"), st + 1)
  ResconcileAutoScaler := fun ta st => (b.outcomes.lookup ta.Name, st + 1)

/-- The run before the first call. -/
def Run.start : Run Nat := { st := 0, calls := [] }

/-- A test bed whose queue hands out the key `ns/auto`: the lister knows the
objects `auto` and `busy` of the namespace `ns`, fails for `stale`, and the
reconcile of `busy` returns a Requeue error and that of `bad` a plain error. -/
def demoBed (key : String) (quit : Bool) : Bed :=
  { queue := (key, quit),
    known := [{ Namespace := "ns", Name := "auto" }, { Namespace := "ns", Name := "busy" },
      { Namespace := "ns", Name := "bad" }],
    broken := ["stale"],
    outcomes := [("busy", controller.RequeueErrorf "wait for cooling down"),
      ("bad", .errorf "update failed")] }

end autoscaler

end TidbOperator

namespace TidbOperator

/-- A test bed whose pod 4 is ready, carries the store-ID label 5 and has had no
active store since time 900, a hundred nanoseconds before the reading 1000 of the
clock, with a resync period of 30. -/
def recentlyGoneScenario : Scenario :=
  { demoScenario with
    pods := [{ demoPod 4 "5" true with
      Annotations := [("tidb.pingcap.com/tikv-no-active-store-since", "900")] }] }

end TidbOperator

/-! ## Traces -/

namespace TidbOperator

namespace tikvScaler

variable {σ : Type}

theorem since_append (w0 : World σ) (st : σ) (evs : List Event) :
    World.since { st := st, trace := w0.trace ++ evs } w0 = evs := by
  simp [World.since]

theorem since_self (w0 : World σ) : w0.since w0 = [] := by
  simp [World.since]

theorem Emits.refl (P : Event → Prop) (w : World σ) : Emits P w w :=
  ⟨[], by simp, by simp⟩

theorem Emits.trans {P : Event → Prop} {w0 w1 w2 : World σ} (h1 : Emits P w0 w1)
    (h2 : Emits P w1 w2) : Emits P w0 w2 := by
  obtain ⟨e1, ht1, hp1⟩ := h1
  obtain ⟨e2, ht2, hp2⟩ := h2
  refine ⟨e1 ++ e2, by simp [ht2, ht1], ?_⟩
  intro ev hev
  rcases List.mem_append.mp hev with h | h
  · exact hp1 ev h
  · exact hp2 ev h

theorem Emits.mono {P Q : Event → Prop} {w0 w1 : World σ} (h : Emits P w0 w1)
    (hPQ : ∀ ev, P ev → Q ev) : Emits Q w0 w1 := by
  obtain ⟨e1, ht1, hp1⟩ := h
  exact ⟨e1, ht1, fun ev hev => hPQ ev (hp1 ev hev)⟩

theorem Emits.since_events {P : Event → Prop} {w0 w1 : World σ} (h : Emits P w0 w1) :
    w1.trace = w0.trace ++ w1.since w0 ∧ ∀ ev ∈ w1.since w0, P ev := by
  obtain ⟨e1, ht1, hp1⟩ := h
  have : w1.since w0 = e1 := by simp [World.since, ht1]
  rw [this]
  exact ⟨ht1, hp1⟩

theorem mark_trace (w : World σ) (ev : Event) : (w.mark ev).trace = w.trace ++ [ev] := rfl

theorem call_trace {α : Type} (w : World σ) (ev : Event) (f : σ → α × σ) :
    (w.call ev f).2.trace = w.trace ++ [ev] := rfl

theorem call_emits {α : Type} (P : Event → Prop) (w : World σ) (ev : Event) (f : σ → α × σ)
    (hP : P ev) : Emits P w (w.call ev f).2 :=
  ⟨[ev], rfl, by simpa using hP⟩

theorem mark_emits (P : Event → Prop) (w : World σ) (ev : Event) (hP : P ev) :
    Emits P w (w.mark ev) :=
  ⟨[ev], rfl, by simpa using hP⟩

theorem annotatePVCs_emits (P : Event → Prop) (d : Deps σ) (tc : TidbCluster)
    (deferTime : Option String) (hAdd : ∀ n, P (.addDeferDeletingAnnoToPVC n deferTime))
    (pvcs : List PVC) (w : World σ) :
    Emits P w (annotatePVCs d tc deferTime pvcs w).2 := by
  induction pvcs generalizing w with
  | nil => exact Emits.refl P w
  | cons pvc rest ih =>
    have hc := call_emits P w (.addDeferDeletingAnnoToPVC pvc.Name deferTime)
      (d.addDeferDeletingAnnoToPVC tc pvc deferTime) (hAdd _)
    simp only [annotatePVCs]
    split
    · rename_i heq
      rw [heq] at hc
      exact hc
    · rename_i heq
      rw [heq] at hc
      exact hc.trans (ih _)

theorem resolveAndAnnotate_emits (P : Event → Prop) (d : Deps σ) (tc : TidbCluster) (pod : Pod)
    (deferTime : Option String) (hRes : ∀ n, P (.resolvePVCFromPod n))
    (hAdd : ∀ n, P (.addDeferDeletingAnnoToPVC n deferTime)) (w : World σ) :
    Emits P w (resolveAndAnnotate d tc pod deferTime w).2 := by
  have hc := call_emits P w (.resolvePVCFromPod pod.Name) (d.resolvePVCFromPod pod) (hRes _)
  simp only [resolveAndAnnotate]
  split
  · rename_i heq
    rw [heq] at hc
    exact hc
  · rename_i heq
    rw [heq] at hc
    exact hc.trans (annotatePVCs_emits P d tc deferTime hAdd _ _)

theorem evictLeaderStep_emits (P : Event → Prop) (d : Deps σ) (tc : TidbCluster) (id : Nat)
    (b : Bool) (hGet : ∀ i, P (.pdGetEvictLeaderSchedulersForStores i))
    (hBegin : ∀ i, P (.pdBeginEvictLeader i)) (w : World σ) :
    Emits P w (evictLeaderStep d tc id b w).2 := by
  have hc := call_emits P w (.pdGetEvictLeaderSchedulersForStores id)
    (d.pdGetEvictLeaderSchedulersForStores tc id) (hGet _)
  simp only [evictLeaderStep]
  split
  · split
    · rename_i heq
      rw [heq] at hc
      exact hc
    · rename_i w2 heq
      rw [heq] at hc
      have hc2 := call_emits P w2 (.pdBeginEvictLeader id) (d.pdBeginEvictLeader tc id) (hBegin _)
      split
      · split
        · rename_i heq2
          rw [heq2] at hc2
          exact hc.trans hc2
        · rename_i heq2
          rw [heq2] at hc2
          exact hc.trans hc2
      · exact hc
  · exact Emits.refl P w

theorem deleteStoreStep_emits (P : Event → Prop) (d : Deps σ) (tc : TidbCluster) (id : Nat)
    (state : String) (b : Bool) (hDel : ∀ i, P (.pdDeleteStore i)) (w : World σ) :
    Emits P w (deleteStoreStep d tc id state b w).2 := by
  have hc := call_emits P w (.pdDeleteStore id) (d.pdDeleteStore tc id) (hDel _)
  simp only [deleteStoreStep]
  split
  · split
    · rename_i heq
      rw [heq] at hc
      exact hc
    · rename_i heq
      rw [heq] at hc
      exact hc
  · exact Emits.refl P w

theorem scaleInStore_emits (P : Event → Prop) (d : Deps σ) (tc : TidbCluster) (pod : Pod)
    (currentTime : Time) (store : TiKVStore)
    (hEns : ∀ n t, P (.ensureScaleInTimeAnnoInPod n t))
    (hGet : ∀ i, P (.pdGetEvictLeaderSchedulersForStores i))
    (hBegin : ∀ i, P (.pdBeginEvictLeader i))
    (hDel : ∀ i, P (.pdDeleteStore i)) (w : World σ) :
    Emits P w (scaleInStore d tc pod currentTime store w).2 := by
  simp only [scaleInStore]
  split
  · exact Emits.refl P w
  · split
    · exact Emits.refl P w
    · rename_i id _
      have hc := call_emits P w
        (.ensureScaleInTimeAnnoInPod pod.Name
          (d.formatRFC3339 (scaleInStartTime d pod currentTime)))
        (d.ensureScaleInTimeAnnoInPod tc pod
          (d.formatRFC3339 (scaleInStartTime d pod currentTime))) (hEns _ _)
      split
      · rename_i heq
        rw [heq] at hc
        exact hc
      · rename_i w1 heq
        rw [heq] at hc
        have he := evictLeaderStep_emits P d tc id
          (leaderEvictedOrTimeout (scaleInStartTime d pod currentTime) currentTime store)
          hGet hBegin w1
        split
        · rename_i heq2
          rw [heq2] at he
          exact hc.trans he
        · rename_i heq2
          rw [heq2] at he
          exact (hc.trans he).trans (deleteStoreStep_emits P d tc id _ _ hDel _)

theorem scaleInStoresLoop_emits (P : Event → Prop) (d : Deps σ) (tc : TidbCluster)
    (podName : String) (pod : Pod) (currentTime : Time)
    (hEns : ∀ n t, P (.ensureScaleInTimeAnnoInPod n t))
    (hGet : ∀ i, P (.pdGetEvictLeaderSchedulersForStores i))
    (hBegin : ∀ i, P (.pdBeginEvictLeader i))
    (hDel : ∀ i, P (.pdDeleteStore i)) (stores : List (String × TiKVStore)) (w : World σ)
    (r : (Int × Option Err) × World σ)
    (h : scaleInStoresLoop d tc podName pod currentTime stores w = some r) :
    Emits P w r.2 := by
  induction stores with
  | nil => simp [scaleInStoresLoop] at h
  | cons kv rest ih =>
    obtain ⟨k, store⟩ := kv
    simp only [scaleInStoresLoop] at h
    split at h
    · simp only [Option.some.injEq] at h
      rw [← h]
      exact scaleInStore_emits P d tc pod currentTime store hEns hGet hBegin hDel w
    · exact ih h

theorem scaleInTombstone_emits (P : Event → Prop) (d : Deps σ) (tc : TidbCluster) (pod : Pod)
    (currentTime : Time) (store : TiKVStore)
    (hRes : ∀ n, P (.resolvePVCFromPod n))
    (hAdd : ∀ n t, P (.addDeferDeletingAnnoToPVC n t))
    (hEnd : ∀ i, P (.endEvictLeaderbyStoreID i)) (w : World σ) :
    Emits P w (scaleInTombstone d tc pod currentTime store w).2 := by
  simp only [scaleInTombstone]
  split
  · exact Emits.refl P w
  · rename_i id _
    have hr := resolveAndAnnotate_emits P d tc pod (some (d.formatRFC3339 currentTime)) hRes
      (fun n => hAdd n _) w
    split
    · rename_i heq
      rw [heq] at hr
      exact hr
    · rename_i w1 heq
      rw [heq] at hr
      have hc := call_emits P w1 (.endEvictLeaderbyStoreID id) (d.endEvictLeaderbyStoreID tc id)
        (hEnd _)
      split
      · rename_i heq2
        rw [heq2] at hc
        exact hr.trans hc
      · rename_i heq2
        rw [heq2] at hc
        exact hr.trans hc

theorem scaleInTombstoneLoop_emits (P : Event → Prop) (d : Deps σ) (tc : TidbCluster)
    (podName : String) (pod : Pod) (currentTime : Time)
    (hRes : ∀ n, P (.resolvePVCFromPod n))
    (hAdd : ∀ n t, P (.addDeferDeletingAnnoToPVC n t))
    (hEnd : ∀ i, P (.endEvictLeaderbyStoreID i)) (stores : List (String × TiKVStore))
    (w : World σ) (r : (Int × Option Err) × World σ)
    (h : scaleInTombstoneLoop d tc podName pod currentTime stores w = some r) :
    Emits P w r.2 := by
  induction stores with
  | nil => simp [scaleInTombstoneLoop] at h
  | cons kv rest ih =>
    obtain ⟨k, store⟩ := kv
    simp only [scaleInTombstoneLoop] at h
    split at h
    · exact ih h
    · split at h
      · exact ih h
      · simp only [Option.some.injEq] at h
        rw [← h]
        exact scaleInTombstone_emits P d tc pod currentTime store hRes hAdd hEnd w

theorem notReadyWait_emits (P : Event → Prop) (d : Deps σ) (tc : TidbCluster) (pod : Pod)
    (hNow : P .timeNow) (w : World σ) : Emits P w (notReadyWait d tc pod w).2 := by
  simp only [notReadyWait]
  split
  · exact call_emits P w .timeNow d.timeNow hNow
  · exact Emits.refl P w

theorem scaleInNotReady_emits (P : Event → Prop) (d : Deps σ) (tc : TidbCluster) (pod : Pod)
    (hNow : P .timeNow) (hRes : ∀ n, P (.resolvePVCFromPod n))
    (hAdd : ∀ n t, P (.addDeferDeletingAnnoToPVC n t)) (w : World σ) :
    Emits P w (scaleInNotReady d tc pod w).2 := by
  have hw := notReadyWait_emits P d tc pod hNow w
  simp only [scaleInNotReady]
  split
  · rename_i heq
    rw [heq] at hw
    exact hw
  · rename_i w1 heq
    rw [heq] at hw
    have hr := resolveAndAnnotate_emits P d tc pod none hRes (fun n => hAdd n _) w1
    split
    · rename_i heq2
      rw [heq2] at hr
      exact hw.trans hr
    · rename_i heq2
      rw [heq2] at hr
      exact hw.trans hr

theorem scaleInNoActiveStore_emits (P : Event → Prop) (d : Deps σ) (tc : TidbCluster)
    (pod : Pod) (hNow : P .timeNow) (hRes : ∀ n, P (.resolvePVCFromPod n))
    (hAdd : ∀ n t, P (.addDeferDeletingAnnoToPVC n t)) (w : World σ) :
    Emits P w (scaleInNoActiveStore d tc pod w).2 := by
  simp only [scaleInNoActiveStore]
  split
  · exact Emits.refl P w
  · split
    · exact Emits.refl P w
    · have hc := call_emits P w .timeNow d.timeNow hNow
      split
      · have hr := resolveAndAnnotate_emits P d tc pod none hRes (fun n => hAdd n _)
          (w.call .timeNow d.timeNow).2
        split
        · rename_i heq2
          rw [heq2] at hr
          exact hc.trans hr
        · rename_i heq2
          rw [heq2] at hr
          exact hc.trans hr
      · exact hc

theorem scaleInNotFound_emits (P : Event → Prop) (d : Deps σ) (tc : TidbCluster) (pod : Pod)
    (hNow : P .timeNow) (hRes : ∀ n, P (.resolvePVCFromPod n))
    (hAdd : ∀ n t, P (.addDeferDeletingAnnoToPVC n t)) (w : World σ) :
    Emits P w (scaleInNotFound d tc pod w).2 := by
  simp only [scaleInNotFound]
  split
  · exact scaleInNotReady_emits P d tc pod hNow hRes hAdd w
  · exact scaleInNoActiveStore_emits P d tc pod hNow hRes hAdd w

theorem scaleInSynced_emits (P : Event → Prop) (d : Deps σ) (tc : TidbCluster)
    (podName : String) (pod : Pod) (currentTime : Time)
    (hEns : ∀ n t, P (.ensureScaleInTimeAnnoInPod n t))
    (hGet : ∀ i, P (.pdGetEvictLeaderSchedulersForStores i))
    (hBegin : ∀ i, P (.pdBeginEvictLeader i))
    (hDel : ∀ i, P (.pdDeleteStore i))
    (hNow : P .timeNow) (hRes : ∀ n, P (.resolvePVCFromPod n))
    (hAdd : ∀ n t, P (.addDeferDeletingAnnoToPVC n t))
    (hEnd : ∀ i, P (.endEvictLeaderbyStoreID i)) (w : World σ) :
    Emits P w (scaleInSynced d tc podName pod currentTime w).2 := by
  simp only [scaleInSynced]
  split
  · rename_i r heq
    exact scaleInStoresLoop_emits P d tc podName pod currentTime hEns hGet hBegin hDel _ w r heq
  · split
    · rename_i r heq
      exact scaleInTombstoneLoop_emits P d tc podName pod currentTime hRes hAdd hEnd _ w r heq
    · exact scaleInNotFound_emits P d tc pod hNow hRes hAdd w

theorem preCheckUpStores_emits (P : Event → Prop) (d : Deps σ) (tc : TidbCluster)
    (podName : String) (up deleted maxReplicas : Int)
    (hRec : tc.TiKVBootStrapped = true → P (.recorderEvent "Warning" "FailedScaleIn"))
    (w : World σ) :
    Emits P w (preCheckUpStores d tc podName up deleted maxReplicas w).2 := by
  simp only [preCheckUpStores]
  split
  · exact Emits.refl P w
  · rename_i hb
    have hb2 : tc.TiKVBootStrapped = true := by simpa using hb
    split
    · exact call_emits P w _ _ (hRec hb2)
    · split
      · split
        · exact call_emits P w _ _ (hRec hb2)
        · exact Emits.refl P w
      · exact Emits.refl P w

theorem preCheckStep_emits (P : Event → Prop) (d : Deps σ) (tc : TidbCluster)
    (skipPreCheck : Bool) (podName : String) (up deleted maxReplicas : Int)
    (hRec : skipPreCheck = false → tc.TiKVBootStrapped = true →
      P (.recorderEvent "Warning" "FailedScaleIn"))
    (w : World σ) :
    Emits P w (preCheckStep d tc skipPreCheck podName up deleted maxReplicas w).2 := by
  simp only [preCheckStep]
  split
  · exact Emits.refl P w
  · rename_i hs
    exact preCheckUpStores_emits P d tc podName up deleted maxReplicas
      (hRec (by simpa using hs)) w

theorem scaleInOneBody_emits (P : Event → Prop) (d : Deps σ) (tc : TidbCluster)
    (skipPreCheck : Bool) (up deleted maxReplicas ordinal : Int) (currentTime : Time)
    (hPod : ∀ ns n, P (.podGet ns n))
    (hRec : skipPreCheck = false → tc.TiKVBootStrapped = true →
      P (.recorderEvent "Warning" "FailedScaleIn"))
    (hUpd : ∀ n, P (.updateMetaInfo n))
    (hEns : ∀ n t, P (.ensureScaleInTimeAnnoInPod n t))
    (hGet : ∀ i, P (.pdGetEvictLeaderSchedulersForStores i))
    (hBegin : ∀ i, P (.pdBeginEvictLeader i))
    (hDel : ∀ i, P (.pdDeleteStore i))
    (hNow : P .timeNow) (hRes : ∀ n, P (.resolvePVCFromPod n))
    (hAdd : ∀ n t, P (.addDeferDeletingAnnoToPVC n t))
    (hEnd : ∀ i, P (.endEvictLeaderbyStoreID i)) (w : World σ) :
    Emits P w
      (scaleInOneBody d tc skipPreCheck up deleted maxReplicas ordinal currentTime w).2 := by
  have hc := call_emits P w
    (.podGet tc.Namespace (d.ordinalPodName TiKVMemberType tc.Name ordinal))
    (d.podGet tc.Namespace (d.ordinalPodName TiKVMemberType tc.Name ordinal)) (hPod _ _)
  simp only [scaleInOneBody]
  split
  · rename_i heq
    rw [heq] at hc
    exact hc
  · rename_i pod0 w1 heq
    rw [heq] at hc
    have hp := preCheckStep_emits P d tc skipPreCheck
      (d.ordinalPodName TiKVMemberType tc.Name ordinal) up deleted maxReplicas hRec w1
    split
    · rename_i heq2
      rw [heq2] at hp
      exact hc.trans hp
    · rename_i w2 heq2
      rw [heq2] at hp
      have hu := call_emits P w2 (.updateMetaInfo pod0.Name) (d.updateMetaInfo tc pod0) (hUpd _)
      split
      · rename_i heq3
        rw [heq3] at hu
        exact (hc.trans hp).trans hu
      · rename_i heq3
        rw [heq3] at hu
        exact ((hc.trans hp).trans hu).trans
          (scaleInSynced_emits P d tc _ _ currentTime hEns hGet hBegin hDel hNow hRes hAdd hEnd _)

/-! ## One call of a per-ordinal routine -/

theorem scaleOutOneBody_emits (P : Event → Prop) (d : Deps σ) (tc : TidbCluster)
    (ordinal : Int) (hIn : ∀ ev, inScaleOutOne ev = true → P ev) (w : World σ) :
    Emits P w (scaleOutOneBody d tc ordinal w).2 := by
  have hc := call_emits P w
    (.pvcGet tc.Namespace ("tikv-" ++ tc.Name ++ "-tikv-" ++ toString ordinal))
    (d.pvcGet tc.Namespace ("tikv-" ++ tc.Name ++ "-tikv-" ++ toString ordinal)) (hIn _ rfl)
  simp only [scaleOutOneBody]
  split
  · rename_i w1 heq
    rw [heq] at hc
    have hd := call_emits P w1 (.deleteDeferDeletingPVC TiKVMemberType ordinal)
      (d.deleteDeferDeletingPVC tc TiKVMemberType ordinal) (hIn _ rfl)
    split
    · rename_i heq2
      rw [heq2] at hd
      exact hc.trans hd
    · rename_i heq2
      rw [heq2] at hd
      exact hc.trans hd
  · rename_i heq
    rw [heq] at hc
    split
    · exact hc
    · exact hc

theorem scaleOutOne_trace (P : Event → Prop) (d : Deps σ) (tc : TidbCluster)
    (ordinal : Int) (hIn : ∀ ev, inScaleOutOne ev = true → P ev) (w : World σ) :
    ∃ evs, (scaleOutOne d tc ordinal w).2.trace = w.trace ++
        (.enterScaleOutOne ordinal :: evs ++
          [.exitScaleOutOne ordinal (scaleOutOne d tc ordinal w).1.isNone]) ∧
      ∀ ev ∈ evs, P ev := by
  obtain ⟨evs, ht, hp⟩ := scaleOutOneBody_emits P d tc ordinal hIn
    (w.mark (.enterScaleOutOne ordinal))
  refine ⟨evs, ?_, hp⟩
  simp only [scaleOutOne, World.mark] at ht ⊢
  simp [ht, World.mark]

theorem scaleInOne_trace (P : Event → Prop) (d : Deps σ) (tc : TidbCluster)
    (skipPreCheck : Bool) (up deleted maxReplicas ordinal : Int) (currentTime : Time)
    (hIn : ∀ ev, inScaleInOne ev = true → P ev)
    (hRec : skipPreCheck = false → tc.TiKVBootStrapped = true →
      P (.recorderEvent "Warning" "FailedScaleIn")) (w : World σ) :
    ∃ evs, (scaleInOne d tc skipPreCheck up deleted maxReplicas ordinal currentTime w).2.trace
        = w.trace ++
        (.enterScaleInOne skipPreCheck up deleted maxReplicas ordinal :: evs ++
          [.exitScaleInOne ordinal
            (scaleInOne d tc skipPreCheck up deleted maxReplicas ordinal currentTime w).1.1
            (scaleInOne d tc skipPreCheck up deleted maxReplicas ordinal currentTime
              w).1.2.isNone]) ∧
      ∀ ev ∈ evs, P ev := by
  obtain ⟨evs, ht, hp⟩ := scaleInOneBody_emits P d tc skipPreCheck up deleted maxReplicas
    ordinal currentTime (fun _ _ => hIn _ rfl) hRec (fun _ => hIn _ rfl)
    (fun _ _ => hIn _ rfl) (fun _ => hIn _ rfl) (fun _ => hIn _ rfl) (fun _ => hIn _ rfl)
    (hIn _ rfl) (fun _ => hIn _ rfl) (fun _ _ => hIn _ rfl) (fun _ => hIn _ rfl)
    (w.mark (.enterScaleInOne skipPreCheck up deleted maxReplicas ordinal))
  refine ⟨evs, ?_, hp⟩
  simp only [scaleInOne, World.mark] at ht ⊢
  simp [ht, World.mark]

theorem scaleOutOne_emits (P : Event → Prop) (d : Deps σ) (tc : TidbCluster)
    (ordinal : Int) (hIn : ∀ ev, inScaleOutOne ev = true → P ev)
    (hEnter : ∀ o, P (.enterScaleOutOne o)) (hExit : ∀ o ok, P (.exitScaleOutOne o ok))
    (w : World σ) : Emits P w (scaleOutOne d tc ordinal w).2 := by
  obtain ⟨evs, ht, hp⟩ := scaleOutOne_trace P d tc ordinal hIn w
  refine ⟨_, ht, ?_⟩
  intro ev hev
  simp only [List.cons_append, List.mem_cons, List.mem_append, List.mem_singleton,
    List.not_mem_nil, or_false] at hev
  rcases hev with h | h | h
  · rw [h]; exact hEnter _
  · exact hp ev h
  · rw [h]; exact hExit _ _

theorem scaleInOne_emits (P : Event → Prop) (d : Deps σ) (tc : TidbCluster)
    (skipPreCheck : Bool) (up deleted maxReplicas ordinal : Int) (currentTime : Time)
    (hIn : ∀ ev, inScaleInOne ev = true → P ev)
    (hRec : skipPreCheck = false → tc.TiKVBootStrapped = true →
      P (.recorderEvent "Warning" "FailedScaleIn"))
    (hEnter : ∀ dl o, P (.enterScaleInOne skipPreCheck up dl maxReplicas o))
    (hExit : ∀ o dl ok, P (.exitScaleInOne o dl ok)) (w : World σ) :
    Emits P w
      (scaleInOne d tc skipPreCheck up deleted maxReplicas ordinal currentTime w).2 := by
  obtain ⟨evs, ht, hp⟩ := scaleInOne_trace P d tc skipPreCheck up deleted maxReplicas ordinal
    currentTime hIn hRec w
  refine ⟨_, ht, ?_⟩
  intro ev hev
  simp only [List.cons_append, List.mem_cons, List.mem_append, List.mem_singleton,
    List.not_mem_nil, or_false] at hev
  rcases hev with h | h | h
  · rw [h]; exact hEnter _ _
  · exact hp ev h
  · rw [h]; exact hExit _ _ _

theorem enteredScaleOutOne_append (a b : List Event) :
    enteredScaleOutOne (a ++ b) = enteredScaleOutOne a ++ enteredScaleOutOne b := by
  induction a with
  | nil => rfl
  | cons ev rest ih => cases ev <;> simp [enteredScaleOutOne, ih]

theorem enteredScaleInOne_append (a b : List Event) :
    enteredScaleInOne (a ++ b) = enteredScaleInOne a ++ enteredScaleInOne b := by
  induction a with
  | nil => rfl
  | cons ev rest ih => cases ev <;> simp [enteredScaleInOne, ih]

theorem enteredScaleOutOne_nil (evs : List Event)
    (h : ∀ ev ∈ evs, enteredScaleOutOne [ev] = []) : enteredScaleOutOne evs = [] := by
  induction evs with
  | nil => rfl
  | cons ev rest ih =>
    have h1 := h ev (by simp)
    have h2 := ih (fun e he => h e (by simp [he]))
    have := enteredScaleOutOne_append [ev] rest
    simpa [h1, h2] using this

theorem enteredScaleInOne_nil (evs : List Event)
    (h : ∀ ev ∈ evs, enteredScaleInOne [ev] = []) : enteredScaleInOne evs = [] := by
  induction evs with
  | nil => rfl
  | cons ev rest ih =>
    have h1 := h ev (by simp)
    have h2 := ih (fun e he => h e (by simp [he]))
    have := enteredScaleInOne_append [ev] rest
    simpa [h1, h2] using this

theorem scaleOutOne_entered (d : Deps σ) (tc : TidbCluster) (ordinal : Int) (w : World σ) :
    ∃ evs, (scaleOutOne d tc ordinal w).2.trace = w.trace ++ evs ∧
      enteredScaleOutOne evs = [ordinal] := by
  obtain ⟨evs, ht, hp⟩ := scaleOutOne_trace (fun ev => enteredScaleOutOne [ev] = []) d tc ordinal
    (by intro ev hev; cases ev <;> simp_all [inScaleOutOne, enteredScaleOutOne]) w
  refine ⟨_, ht, ?_⟩
  have h0 := enteredScaleOutOne_nil evs hp
  rw [List.cons_append, ← List.singleton_append, enteredScaleOutOne_append,
    enteredScaleOutOne_append, h0]
  simp [enteredScaleOutOne]

theorem scaleInOne_entered (d : Deps σ) (tc : TidbCluster)
    (skipPreCheck : Bool) (up deleted maxReplicas ordinal : Int) (currentTime : Time)
    (w : World σ) :
    ∃ evs, (scaleInOne d tc skipPreCheck up deleted maxReplicas ordinal currentTime w).2.trace
        = w.trace ++ evs ∧ enteredScaleInOne evs = [ordinal] := by
  obtain ⟨evs, ht, hp⟩ := scaleInOne_trace (fun ev => enteredScaleInOne [ev] = []) d tc
    skipPreCheck up deleted maxReplicas ordinal currentTime
    (by intro ev hev; cases ev <;> simp_all [inScaleInOne, enteredScaleInOne])
    (by intros; rfl) w
  refine ⟨_, ht, ?_⟩
  have h0 := enteredScaleInOne_nil evs hp
  rw [List.cons_append, ← List.singleton_append, enteredScaleInOne_append,
    enteredScaleInOne_append, h0]
  simp [enteredScaleInOne]

/-! ## A batch of calls -/

theorem mem_setInsert (s : List Int) (x y : Int) : y ∈ setInsert s x ↔ y ∈ s ∨ y = x := by
  unfold setInsert
  split
  · rename_i h
    constructor
    · exact fun hy => Or.inl hy
    · rintro (hy | rfl)
      · exact hy
      · exact h
  · simp

theorem mem_setInsertAll (l s : List Int) (y : Int) :
    y ∈ setInsertAll s l ↔ y ∈ s ∨ y ∈ l := by
  induction l generalizing s with
  | nil => simp [setInsertAll]
  | cons x rest ih =>
    simp only [setInsertAll, ih, mem_setInsert, List.mem_cons]
    tauto

theorem length_setInsert_le (s : List Int) (x : Int) :
    (setInsert s x).length ≤ s.length + 1 := by
  unfold setInsert
  split <;> simp

theorem length_setInsertAll_le (l s : List Int) :
    (setInsertAll s l).length ≤ s.length + l.length := by
  induction l generalizing s with
  | nil => simp [setInsertAll]
  | cons x rest ih =>
    simp only [setInsertAll, List.length_cons]
    have h1 := ih (setInsert s x)
    have h2 := length_setInsert_le s x
    omega

theorem succeeded_length_le {α : Type} (calls : List (Int × α × Option Err)) :
    (succeeded calls).length ≤ calls.length := by
  induction calls with
  | nil => simp [succeeded]
  | cons c rest ih =>
    obtain ⟨o, a, e⟩ := c
    cases e <;> simp [succeeded] <;> omega

theorem mem_succeeded {α : Type} (calls : List (Int × α × Option Err)) (o : Int) :
    o ∈ succeeded calls ↔ ∃ a, (o, a, none) ∈ calls := by
  induction calls with
  | nil => simp [succeeded]
  | cons c rest ih =>
    obtain ⟨o2, a2, e⟩ := c
    cases e with
    | none =>
      simp only [succeeded, List.mem_cons, ih, Prod.mk.injEq, and_true]
      constructor
      · rintro (rfl | ⟨a, ha⟩)
        · exact ⟨a2, Or.inl ⟨rfl, rfl⟩⟩
        · exact ⟨a, Or.inr ha⟩
      · rintro ⟨a, (⟨rfl, _⟩ | ha)⟩
        · exact Or.inl rfl
        · exact Or.inr ⟨a, ha⟩
    | some err =>
      simp only [succeeded, List.mem_cons, ih, Prod.mk.injEq]
      constructor
      · rintro ⟨a, ha⟩
        exact ⟨a, Or.inr ha⟩
      · rintro ⟨a, (⟨_, _, h⟩ | ha)⟩
        · cases h
        · exact ⟨a, ha⟩

theorem failures_length {α : Type} (calls : List (Int × α × Option Err)) :
    (failures calls).length + (succeeded calls).length = calls.length := by
  induction calls with
  | nil => simp [succeeded, failures]
  | cons c rest ih =>
    obtain ⟨o, a, e⟩ := c
    cases e <;> simp [succeeded, failures] <;> omega

theorem mem_failures {α : Type} (calls : List (Int × α × Option Err)) (err : Err) :
    err ∈ failures calls ↔ ∃ o a, (o, a, some err) ∈ calls := by
  induction calls with
  | nil => simp [failures]
  | cons c rest ih =>
    obtain ⟨o2, a2, e⟩ := c
    cases e with
    | none =>
      simp only [failures, List.mem_cons, ih, Prod.mk.injEq]
      constructor
      · rintro ⟨o, a, ha⟩
        exact ⟨o, a, Or.inr ha⟩
      · rintro ⟨o, a, (⟨_, _, h⟩ | ha)⟩
        · cases h
        · exact ⟨o, a, ha⟩
    | some err2 =>
      simp only [failures, List.mem_cons, ih, Prod.mk.injEq, Option.some.injEq]
      constructor
      · rintro (rfl | ⟨o, a, ha⟩)
        · exact ⟨o2, a2, Or.inl ⟨rfl, rfl, rfl⟩⟩
        · exact ⟨o, a, Or.inr ha⟩
      · rintro ⟨o, a, (⟨_, _, h⟩ | ha)⟩
        · exact Or.inl h
        · exact Or.inr ⟨o, a, ha⟩

theorem scaleOutCalls_ordinals (d : Deps σ) (tc : TidbCluster) (ordinals : List Int)
    (w : World σ) : (scaleOutCalls d tc ordinals w).1.map Prod.fst = ordinals := by
  induction ordinals generalizing w with
  | nil => rfl
  | cons o rest ih => simp [scaleOutCalls, ih]

theorem scaleInCalls_ordinals (d : Deps σ) (tc : TidbCluster) (skipPreCheck : Bool)
    (up maxReplicas : Int) (t : Time) (ordinals : List Int) (deleted : Int) (w : World σ) :
    (scaleInCalls d tc skipPreCheck up maxReplicas t ordinals deleted w).1.map Prod.fst
      = ordinals := by
  induction ordinals generalizing deleted w with
  | nil => rfl
  | cons o rest ih => simp [scaleInCalls, ih]

theorem scaleOutLoop_eq (d : Deps σ) (tc : TidbCluster) (ordinals : List Int)
    (errs : List Err) (fin : List Int) (upd : Bool) (w : World σ) :
    scaleOutLoop d tc ordinals errs fin upd w =
      ((errs ++ failures (scaleOutCalls d tc ordinals w).1,
        setInsertAll fin (succeeded (scaleOutCalls d tc ordinals w).1),
        upd || !(succeeded (scaleOutCalls d tc ordinals w).1).isEmpty),
       (scaleOutCalls d tc ordinals w).2) := by
  induction ordinals generalizing errs fin upd w with
  | nil => simp [scaleOutLoop, scaleOutCalls, failures, succeeded, setInsertAll]
  | cons o rest ih =>
    rcases h : scaleOutOne d tc o w with ⟨err, w1⟩
    cases err with
    | none => simp [scaleOutLoop, scaleOutCalls, h, ih, failures, succeeded, setInsertAll]
    | some e => simp [scaleOutLoop, scaleOutCalls, h, ih, failures, succeeded, setInsertAll]

theorem scaleInLoop_eq (d : Deps σ) (tc : TidbCluster) (skipPreCheck : Bool)
    (up maxReplicas : Int) (t : Time) (ordinals : List Int) (v : ScaleInVars) (w : World σ) :
    scaleInLoop d tc skipPreCheck up maxReplicas t ordinals v w =
      ({ deletedUpStoreTotal := v.deletedUpStoreTotal + deletedTotal
            (scaleInCalls d tc skipPreCheck up maxReplicas t ordinals v.deletedUpStoreTotal w).1,
         errs := v.errs ++ failures
            (scaleInCalls d tc skipPreCheck up maxReplicas t ordinals v.deletedUpStoreTotal w).1,
         finishedOrdinals := setInsertAll v.finishedOrdinals (succeeded
            (scaleInCalls d tc skipPreCheck up maxReplicas t ordinals v.deletedUpStoreTotal w).1),
         updateReplicasAndDeleteSlots := v.updateReplicasAndDeleteSlots || !(succeeded
            (scaleInCalls d tc skipPreCheck up maxReplicas t ordinals v.deletedUpStoreTotal
              w).1).isEmpty },
       (scaleInCalls d tc skipPreCheck up maxReplicas t ordinals v.deletedUpStoreTotal w).2) := by
  induction ordinals generalizing v w with
  | nil => simp [scaleInLoop, scaleInCalls, failures, succeeded, setInsertAll, deletedTotal]
  | cons o rest ih =>
    rcases h : scaleInOne d tc skipPreCheck up v.deletedUpStoreTotal maxReplicas o t w with
      ⟨⟨del, err⟩, w1⟩
    cases err with
    | none =>
      simp [scaleInLoop, scaleInCalls, h, ih, failures, succeeded, setInsertAll, deletedTotal,
        add_assoc]
    | some e =>
      simp [scaleInLoop, scaleInCalls, h, ih, failures, succeeded, setInsertAll, deletedTotal,
        add_assoc]

theorem scaleOutCalls_emits (P : Event → Prop) (d : Deps σ) (tc : TidbCluster)
    (hIn : ∀ ev, inScaleOutOne ev = true → P ev)
    (hEnter : ∀ o, P (.enterScaleOutOne o)) (hExit : ∀ o ok, P (.exitScaleOutOne o ok))
    (ordinals : List Int) (w : World σ) :
    Emits P w (scaleOutCalls d tc ordinals w).2 := by
  induction ordinals generalizing w with
  | nil => exact Emits.refl P w
  | cons o rest ih =>
    simp only [scaleOutCalls]
    exact (scaleOutOne_emits P d tc o hIn hEnter hExit w).trans (ih _)

theorem scaleInCalls_emits (P : Event → Prop) (d : Deps σ) (tc : TidbCluster)
    (skipPreCheck : Bool) (up maxReplicas : Int) (t : Time)
    (hIn : ∀ ev, inScaleInOne ev = true → P ev)
    (hRec : skipPreCheck = false → tc.TiKVBootStrapped = true →
      P (.recorderEvent "Warning" "FailedScaleIn"))
    (hEnter : ∀ dl o, P (.enterScaleInOne skipPreCheck up dl maxReplicas o))
    (hExit : ∀ o dl ok, P (.exitScaleInOne o dl ok))
    (ordinals : List Int) (deleted : Int) (w : World σ) :
    Emits P w (scaleInCalls d tc skipPreCheck up maxReplicas t ordinals deleted w).2 := by
  induction ordinals generalizing deleted w with
  | nil => exact Emits.refl P w
  | cons o rest ih =>
    simp only [scaleInCalls]
    exact (scaleInOne_emits P d tc skipPreCheck up deleted maxReplicas o t hIn hRec hEnter
      hExit w).trans (ih _ _)

theorem scaleOutCalls_entered (d : Deps σ) (tc : TidbCluster) (ordinals : List Int)
    (w : World σ) :
    ∃ evs, (scaleOutCalls d tc ordinals w).2.trace = w.trace ++ evs ∧
      enteredScaleOutOne evs = ordinals := by
  induction ordinals generalizing w with
  | nil => exact ⟨[], by simp [scaleOutCalls], rfl⟩
  | cons o rest ih =>
    obtain ⟨e1, ht1, he1⟩ := scaleOutOne_entered d tc o w
    obtain ⟨e2, ht2, he2⟩ := ih (scaleOutOne d tc o w).2
    refine ⟨e1 ++ e2, ?_, ?_⟩
    · simp only [scaleOutCalls]
      rw [ht2, ht1, List.append_assoc]
    · rw [enteredScaleOutOne_append, he1, he2]
      rfl

theorem scaleInCalls_entered (d : Deps σ) (tc : TidbCluster) (skipPreCheck : Bool)
    (up maxReplicas : Int) (t : Time) (ordinals : List Int) (deleted : Int) (w : World σ) :
    ∃ evs, (scaleInCalls d tc skipPreCheck up maxReplicas t ordinals deleted w).2.trace
        = w.trace ++ evs ∧ enteredScaleInOne evs = ordinals := by
  induction ordinals generalizing deleted w with
  | nil => exact ⟨[], by simp [scaleInCalls], rfl⟩
  | cons o rest ih =>
    obtain ⟨e1, ht1, he1⟩ := scaleInOne_entered d tc skipPreCheck up deleted maxReplicas o t w
    obtain ⟨e2, ht2, he2⟩ := ih
      (deleted + (scaleInOne d tc skipPreCheck up deleted maxReplicas o t w).1.1)
      (scaleInOne d tc skipPreCheck up deleted maxReplicas o t w).2
    refine ⟨e1 ++ e2, ?_, ?_⟩
    · simp only [scaleInCalls]
      rw [ht2, ht1, List.append_assoc]
    · rw [enteredScaleInOne_append, he1, he2]
      rfl

theorem finishedRecorded_append (a b : List Event) :
    finishedRecorded (a ++ b) = finishedRecorded a ++ finishedRecorded b := by
  induction a with
  | nil => rfl
  | cons ev rest ih => cases ev <;> simp [finishedRecorded, ih]

theorem finishedRecorded_nil (evs : List Event)
    (h : ∀ ev ∈ evs, finishedRecorded [ev] = []) : finishedRecorded evs = [] := by
  induction evs with
  | nil => rfl
  | cons ev rest ih =>
    have h1 := h ev (by simp)
    have h2 := ih (fun e he => h e (by simp [he]))
    have := finishedRecorded_append [ev] rest
    simpa [h1, h2] using this

theorem ScaleOut_eq (d : Deps σ) (tc : TidbCluster) (oldSet newSet : StatefulSet)
    (w : World σ) :
    ScaleOut d (.tidbCluster tc) oldSet newSet w =
      batchOutcome d d.scalingOutFlag oldSet newSet
        (d.scaleMulti oldSet newSet tc.ScaleOutParallelism).2.1
        (scaleOutCalls d tc (d.scaleMulti oldSet newSet tc.ScaleOutParallelism).2.1
          (w.mark .enterScaleOut)).1
        (scaleOutCalls d tc (d.scaleMulti oldSet newSet tc.ScaleOutParallelism).2.1
          (w.mark .enterScaleOut)).2 := by
  simp only [ScaleOut, scaleOutLoop_eq, batchOutcome, List.append_nil, List.nil_append,
    Bool.false_or]
  cases h : (succeeded (scaleOutCalls d tc
    (d.scaleMulti oldSet newSet tc.ScaleOutParallelism).2.1 (w.mark .enterScaleOut)).1).isEmpty
    <;> simp

theorem ScaleIn_eq (d : Deps σ) (tc : TidbCluster) (oldSet newSet : StatefulSet)
    (w : World σ) (p : PreCheckInput) (w1 : World σ)
    (hp : scaleInPrepare d tc ((w.mark .enterScaleIn).call .timeNow d.timeNow).2 = (.ok p, w1)) :
    ScaleIn d (.tidbCluster tc) oldSet newSet w =
      batchOutcome d d.scalingInFlag oldSet newSet
        (d.scaleMulti oldSet newSet tc.ScaleInParallelism).2.1
        (scaleInCalls d tc p.skipPreCheck p.upTikvStoreCount p.maxReplicas
          ((w.mark .enterScaleIn).call .timeNow d.timeNow).1
          (d.scaleMulti oldSet newSet tc.ScaleInParallelism).2.1 0 w1).1
        (scaleInCalls d tc p.skipPreCheck p.upTikvStoreCount p.maxReplicas
          ((w.mark .enterScaleIn).call .timeNow d.timeNow).1
          (d.scaleMulti oldSet newSet tc.ScaleInParallelism).2.1 0 w1).2 := by
  simp only [ScaleIn, hp, scaleInLoop_eq, batchOutcome, List.append_nil, List.nil_append,
    Bool.false_or]
  cases h : (succeeded (scaleInCalls d tc p.skipPreCheck p.upTikvStoreCount p.maxReplicas
          ((w.mark .enterScaleIn).call .timeNow d.timeNow).1
          (d.scaleMulti oldSet newSet tc.ScaleInParallelism).2.1 0 w1).1).isEmpty
    <;> simp

/-- The end of a batch is partial-failure safe when the calls of the batch
recorded neither a reset nor an update of the replica count. -/
theorem batchOutcome_safe {α : Type} (d : Deps σ) (flag : Int) (oldSet newSet : StatefulSet)
    (ordinals : List Int) (calls : List (Int × α × Option Err)) (w0 wc : World σ)
    (hord : calls.map Prod.fst = ordinals)
    (hem : Emits (fun ev => ev ≠ .resetReplicas ∧ finishedRecorded [ev] = []) w0 wc) :
    BatchFailureSafe d flag oldSet newSet ordinals calls
      (batchOutcome d flag oldSet newSet ordinals calls wc).2.1
      ((batchOutcome d flag oldSet newSet ordinals calls wc).2.2.since w0) := by
  obtain ⟨evs, ht, hev⟩ := hem
  have hfr : finishedRecorded evs = [] := finishedRecorded_nil evs (fun ev h => (hev ev h).2)
  have hnr : Event.resetReplicas ∉ evs := fun h => (hev _ h).1 rfl
  have hsub : ∀ o ∈ setInsertAll [] (succeeded calls), o ∈ ordinals := by
    intro o ho
    rw [mem_setInsertAll] at ho
    rcases ho with ho | ho
    · simp at ho
    · obtain ⟨a, ha⟩ := (mem_succeeded calls o).mp ho
      rw [← hord]
      exact List.mem_map.mpr ⟨_, ha, rfl⟩
  constructor
  · rintro ⟨o, a, hoa⟩
    have hne : (succeeded calls).isEmpty = false := by
      have : o ∈ succeeded calls := (mem_succeeded calls o).mpr ⟨a, hoa⟩
      cases hs : succeeded calls with
      | nil => rw [hs] at this; simp at this
      | cons x xs => rfl
    refine ⟨setInsertAll [] (succeeded calls), ?_, hsub, ?_, ?_, ?_⟩
    · intro o2
      rw [mem_setInsertAll, mem_succeeded]
      simp
    · simp [batchOutcome, hne]
    · simp [batchOutcome, hne, World.mark, World.since, ht, finishedRecorded_append, hfr,
        finishedRecorded]
    · simp [batchOutcome, hne, World.mark, World.since, ht, hnr]
  · intro hno
    have he : (succeeded calls).isEmpty = true := by
      cases hs : succeeded calls with
      | nil => rfl
      | cons x xs =>
        exfalso
        apply hno
        have : x ∈ succeeded calls := by rw [hs]; simp
        obtain ⟨a, ha⟩ := (mem_succeeded calls x).mp this
        exact ⟨x, a, ha⟩
    refine ⟨?_, ?_, ?_⟩
    · simp [batchOutcome, he]
    · simp [batchOutcome, he, World.mark, World.since, ht]
    · simp [batchOutcome, he, World.mark, World.since, ht, finishedRecorded_append, hfr,
        finishedRecorded]

theorem scaleInPrepare_emits (P : Event → Prop) (d : Deps σ) (tc : TidbCluster)
    (hPD : tc.TiKVBootStrapped = true → P .pdGetStores ∧ P .pdGetConfig) (w : World σ) :
    Emits P w (scaleInPrepare d tc w).2 := by
  simp only [scaleInPrepare]
  split
  · exact Emits.refl P w
  · rename_i hb
    have hb2 : tc.TiKVBootStrapped = true := by simpa using hb
    have hc := call_emits P w .pdGetStores (d.pdGetStores tc) (hPD hb2).1
    split
    · rename_i heq
      rw [heq] at hc
      exact hc
    · rename_i w1 heq
      rw [heq] at hc
      have hc2 := call_emits P w1 .pdGetConfig (d.pdGetConfig tc) (hPD hb2).2
      split
      · rename_i heq2
        rw [heq2] at hc2
        exact hc.trans hc2
      · rename_i heq2
        rw [heq2] at hc2
        exact hc.trans hc2

theorem scaleInPrepare_skip (d : Deps σ) (tc : TidbCluster) (w w1 : World σ)
    (p : PreCheckInput) (hp : scaleInPrepare d tc w = (.ok p, w1)) :
    p.skipPreCheck = !tc.TiKVBootStrapped := by
  simp only [scaleInPrepare] at hp
  split at hp
  · rename_i hb
    simp only [Prod.mk.injEq, Except.ok.injEq] at hp
    rw [← hp.1]
    simp at hb
    simp [hb]
  · rename_i hb
    split at hp
    · simp at hp
    · split at hp
      · simp at hp
      · simp only [Prod.mk.injEq, Except.ok.injEq] at hp
        rw [← hp.1]
        simp at hb
        simp [hb]

/-- The events of a `ScaleIn` call up to the end of its loop. -/
theorem ScaleIn_calls_emits (P : Event → Prop) (d : Deps σ) (tc : TidbCluster)
    (w : World σ) (p : PreCheckInput) (w1 : World σ) (ordinals : List Int)
    (hp : scaleInPrepare d tc ((w.mark .enterScaleIn).call .timeNow d.timeNow).2 = (.ok p, w1))
    (hStart : P .enterScaleIn) (hNow : P .timeNow)
    (hPD : tc.TiKVBootStrapped = true → P .pdGetStores ∧ P .pdGetConfig)
    (hIn : ∀ ev, inScaleInOne ev = true → P ev)
    (hRec : tc.TiKVBootStrapped = true → P (.recorderEvent "Warning" "FailedScaleIn"))
    (hEnter : ∀ dl o,
      P (.enterScaleInOne p.skipPreCheck p.upTikvStoreCount dl p.maxReplicas o))
    (hExit : ∀ o dl ok, P (.exitScaleInOne o dl ok)) :
    Emits P w (scaleInCalls d tc p.skipPreCheck p.upTikvStoreCount p.maxReplicas
      ((w.mark .enterScaleIn).call .timeNow d.timeNow).1 ordinals 0 w1).2 := by
  have h1 : Emits P w ((w.mark .enterScaleIn).call .timeNow d.timeNow).2 :=
    (mark_emits P w _ hStart).trans (call_emits P _ _ _ hNow)
  have h2 := scaleInPrepare_emits P d tc hPD ((w.mark .enterScaleIn).call .timeNow d.timeNow).2
  rw [hp] at h2
  exact (h1.trans h2).trans (scaleInCalls_emits P d tc _ _ _ _ hIn (fun _ hb => hRec hb)
    hEnter hExit ordinals 0 w1)

theorem batchOutcome_world {α : Type} (d : Deps σ) (flag : Int) (oldSet newSet : StatefulSet)
    (ordinals : List Int) (calls : List (Int × α × Option Err)) (wc : World σ) :
    ∃ ev, (batchOutcome d flag oldSet newSet ordinals calls wc).2.2 = wc.mark ev ∧
      enteredScaleOutOne [ev] = [] ∧ enteredScaleInOne [ev] = [] ∧
      ∀ fin ∈ finishedRecorded [ev], fin = setInsertAll [] (succeeded calls) := by
  cases h : (succeeded calls).isEmpty with
  | true =>
    exact ⟨.resetReplicas, by simp [batchOutcome, h], rfl, rfl, by simp [finishedRecorded]⟩
  | false =>
    exact ⟨.setReplicasAndDeleteSlotsByFinished flag ordinals (setInsertAll [] (succeeded calls)),
      by simp [batchOutcome, h], rfl, rfl, by simp [finishedRecorded]⟩

theorem batchOutcome_error {α : Type} (d : Deps σ) (flag : Int) (oldSet newSet : StatefulSet)
    (ordinals : List Int) (calls : List (Int × α × Option Err)) (wc : World σ) :
    (batchOutcome d flag oldSet newSet ordinals calls wc).1
      = errorutils.NewAggregate (failures calls) := by
  cases h : (succeeded calls).isEmpty <;> simp [batchOutcome, h]

theorem finished_bound {α : Type} (ordinals : List Int) (calls : List (Int × α × Option Err))
    (hord : calls.map Prod.fst = ordinals) :
    (setInsertAll [] (succeeded calls)).length ≤ ordinals.length ∧
      ∀ o ∈ setInsertAll [] (succeeded calls), o ∈ ordinals := by
  constructor
  · have h1 := length_setInsertAll_le (succeeded calls) []
    have h2 := succeeded_length_le calls
    have h3 : calls.length = ordinals.length := by rw [← hord]; simp
    simp at h1
    omega
  · intro o ho
    rw [mem_setInsertAll] at ho
    rcases ho with ho | ho
    · simp at ho
    · obtain ⟨a, ha⟩ := (mem_succeeded calls o).mp ho
      rw [← hord]
      exact List.mem_map.mpr ⟨_, ha, rfl⟩

theorem failures_eq_filterMap {α : Type} (calls : List (Int × α × Option Err)) :
    failures calls = calls.filterMap (fun c => c.2.2) := by
  induction calls with
  | nil => rfl
  | cons c rest ih =>
    obtain ⟨o, a, e⟩ := c
    cases e <;> simp [failures, ih, List.filterMap_cons]

theorem NewAggregate_eq_none (errs : List Err) :
    errorutils.NewAggregate errs = none ↔ errs = [] := by
  cases errs <;> simp [errorutils.NewAggregate]

theorem failures_eq_nil {α : Type} (calls : List (Int × α × Option Err)) :
    failures calls = [] ↔ ∀ c ∈ calls, c.2.2 = none := by
  induction calls with
  | nil => simp [failures]
  | cons c rest ih =>
    obtain ⟨o, a, e⟩ := c
    cases e <;> simp [failures, ih]

theorem WalkWide_isSome (test : Err → Bool) (es : List Err) :
    (perrors.WalkWide test es).isSome = es.any (fun e => (perrors.WalkDeep test e).isSome) := by
  induction es with
  | nil => simp [perrors.WalkWide]
  | cons e rest ih =>
    simp only [perrors.WalkWide, List.any_cons]
    cases h : perrors.WalkDeep test e with
    | none => simpa [Option.orElse] using ih
    | some x => simp [Option.orElse]

theorem isRequeueClassified_aggregate (errs : List Err) (e : Err) (he : e ∈ errs)
    (hr : isRequeueClassified e = true) :
    ∃ err, errorutils.NewAggregate errs = some err ∧ isRequeueClassified err = true := by
  cases errs with
  | nil => simp at he
  | cons x xs =>
    refine ⟨.aggregate (x :: xs), rfl, ?_⟩
    have hw := WalkWide_isSome controller.IsRequeueError (x :: xs)
    have hany : (x :: xs).any (fun e => (perrors.WalkDeep controller.IsRequeueError e).isSome)
        = true := List.any_eq_true.mpr ⟨e, he, hr⟩
    rw [hany] at hw
    simp only [isRequeueClassified, perrors.Find, perrors.WalkDeep, perrors.walkChain,
      controller.IsRequeueError]
    simpa [Option.orElse] using hw

theorem ScaleOut_entered (d : Deps σ) (tc : TidbCluster) (oldSet newSet : StatefulSet)
    (w : World σ) :
    enteredScaleOutOne ((ScaleOut d (.tidbCluster tc) oldSet newSet w).2.2.since w)
      = (d.scaleMulti oldSet newSet tc.ScaleOutParallelism).2.1 ∧
    ∀ fin ∈ finishedRecorded ((ScaleOut d (.tidbCluster tc) oldSet newSet w).2.2.since w),
      fin = setInsertAll [] (succeeded (scaleOutCalls d tc
        (d.scaleMulti oldSet newSet tc.ScaleOutParallelism).2.1 (w.mark .enterScaleOut)).1) := by
  obtain ⟨ev, hw, h1, _, h3⟩ := batchOutcome_world d d.scalingOutFlag oldSet newSet
    (d.scaleMulti oldSet newSet tc.ScaleOutParallelism).2.1
    (scaleOutCalls d tc (d.scaleMulti oldSet newSet tc.ScaleOutParallelism).2.1
      (w.mark .enterScaleOut)).1
    (scaleOutCalls d tc (d.scaleMulti oldSet newSet tc.ScaleOutParallelism).2.1
      (w.mark .enterScaleOut)).2
  obtain ⟨evs, ht, he⟩ := scaleOutCalls_entered d tc
    (d.scaleMulti oldSet newSet tc.ScaleOutParallelism).2.1 (w.mark .enterScaleOut)
  obtain ⟨evs2, ht2, hf⟩ := scaleOutCalls_emits (fun ev => finishedRecorded [ev] = []) d tc
    (by intro ev hev; cases ev <;> simp_all [inScaleOutOne, finishedRecorded])
    (by intro o; rfl) (by intro o ok; rfl)
    (d.scaleMulti oldSet newSet tc.ScaleOutParallelism).2.1 (w.mark .enterScaleOut)
  have hevs : evs2 = evs := List.append_cancel_left (ht2.symm.trans ht)
  subst hevs
  have hfr := finishedRecorded_nil evs2 hf
  rw [ScaleOut_eq, hw]
  have hs : World.since ((scaleOutCalls d tc
      (d.scaleMulti oldSet newSet tc.ScaleOutParallelism).2.1
      (w.mark .enterScaleOut)).2.mark ev) w = .enterScaleOut :: evs2 ++ [ev] := by
    simp only [World.since, mark_trace, ht]
    simp
  rw [hs]
  constructor
  · rw [List.cons_append, ← List.singleton_append, enteredScaleOutOne_append,
      enteredScaleOutOne_append, he, h1]
    simp [enteredScaleOutOne]
  · rw [List.cons_append, ← List.singleton_append, finishedRecorded_append,
      finishedRecorded_append, hfr]
    simpa [finishedRecorded] using h3

theorem ScaleIn_entered (d : Deps σ) (tc : TidbCluster) (oldSet newSet : StatefulSet)
    (w : World σ) (p : PreCheckInput) (w1 : World σ)
    (hp : scaleInPrepare d tc ((w.mark .enterScaleIn).call .timeNow d.timeNow).2 = (.ok p, w1)) :
    enteredScaleInOne ((ScaleIn d (.tidbCluster tc) oldSet newSet w).2.2.since w)
      = (d.scaleMulti oldSet newSet tc.ScaleInParallelism).2.1 ∧
    ∀ fin ∈ finishedRecorded ((ScaleIn d (.tidbCluster tc) oldSet newSet w).2.2.since w),
      fin = setInsertAll [] (succeeded (scaleInCalls d tc p.skipPreCheck p.upTikvStoreCount
        p.maxReplicas ((w.mark .enterScaleIn).call .timeNow d.timeNow).1
        (d.scaleMulti oldSet newSet tc.ScaleInParallelism).2.1 0 w1).1) := by
  obtain ⟨ev, hw, _, h2, h3⟩ := batchOutcome_world d d.scalingInFlag oldSet newSet
    (d.scaleMulti oldSet newSet tc.ScaleInParallelism).2.1
    (scaleInCalls d tc p.skipPreCheck p.upTikvStoreCount p.maxReplicas
      ((w.mark .enterScaleIn).call .timeNow d.timeNow).1
      (d.scaleMulti oldSet newSet tc.ScaleInParallelism).2.1 0 w1).1
    (scaleInCalls d tc p.skipPreCheck p.upTikvStoreCount p.maxReplicas
      ((w.mark .enterScaleIn).call .timeNow d.timeNow).1
      (d.scaleMulti oldSet newSet tc.ScaleInParallelism).2.1 0 w1).2
  obtain ⟨evs, ht, he⟩ := scaleInCalls_entered d tc p.skipPreCheck p.upTikvStoreCount
    p.maxReplicas ((w.mark .enterScaleIn).call .timeNow d.timeNow).1
    (d.scaleMulti oldSet newSet tc.ScaleInParallelism).2.1 0 w1
  obtain ⟨evs2, ht2, hf⟩ := scaleInCalls_emits (fun ev => finishedRecorded [ev] = []) d tc
    p.skipPreCheck p.upTikvStoreCount p.maxReplicas
    ((w.mark .enterScaleIn).call .timeNow d.timeNow).1
    (by intro ev hev; cases ev <;> simp_all [inScaleInOne, finishedRecorded])
    (by intros; rfl) (by intros; rfl) (by intros; rfl)
    (d.scaleMulti oldSet newSet tc.ScaleInParallelism).2.1 0 w1
  have hevs : evs2 = evs := List.append_cancel_left (ht2.symm.trans ht)
  subst hevs
  have hfr := finishedRecorded_nil evs2 hf
  obtain ⟨evs0, ht0, hp0⟩ := scaleInPrepare_emits
    (fun ev => enteredScaleInOne [ev] = [] ∧ finishedRecorded [ev] = []) d tc
    (by intro _; exact ⟨⟨rfl, rfl⟩, ⟨rfl, rfl⟩⟩)
    ((w.mark .enterScaleIn).call .timeNow d.timeNow).2
  rw [hp] at ht0
  replace ht0 : w1.trace
      = ((w.mark .enterScaleIn).call .timeNow d.timeNow).2.trace ++ evs0 := ht0
  have he0 := enteredScaleInOne_nil evs0 (fun ev h => (hp0 ev h).1)
  have hf0 := finishedRecorded_nil evs0 (fun ev h => (hp0 ev h).2)
  rw [ScaleIn_eq d tc oldSet newSet w p w1 hp, hw]
  have hs : World.since ((scaleInCalls d tc p.skipPreCheck p.upTikvStoreCount p.maxReplicas
      ((w.mark .enterScaleIn).call .timeNow d.timeNow).1
      (d.scaleMulti oldSet newSet tc.ScaleInParallelism).2.1 0 w1).2.mark ev) w
      = [.enterScaleIn, .timeNow] ++ evs0 ++ evs2 ++ [ev] := by
    simp only [World.since, mark_trace, ht, ht0, call_trace]
    simp
  rw [hs]
  constructor
  · rw [enteredScaleInOne_append, enteredScaleInOne_append, enteredScaleInOne_append, he, h2,
      he0]
    simp [enteredScaleInOne]
  · rw [finishedRecorded_append, finishedRecorded_append, finishedRecorded_append, hfr, hf0]
    simpa [finishedRecorded] using h3

theorem ScaleIn_early (d : Deps σ) (tc : TidbCluster) (oldSet newSet : StatefulSet)
    (w : World σ) (e : Err) (w1 : World σ)
    (hp : scaleInPrepare d tc ((w.mark .enterScaleIn).call .timeNow d.timeNow).2
      = (.error e, w1)) :
    ScaleIn d (.tidbCluster tc) oldSet newSet w = (some e, newSet, w1) ∧
    enteredScaleInOne ((ScaleIn d (.tidbCluster tc) oldSet newSet w).2.2.since w) = [] ∧
    finishedRecorded ((ScaleIn d (.tidbCluster tc) oldSet newSet w).2.2.since w) = [] := by
  have h1 : ScaleIn d (.tidbCluster tc) oldSet newSet w = (some e, newSet, w1) := by
    simp [ScaleIn, hp]
  obtain ⟨evs0, ht0, hp0⟩ := scaleInPrepare_emits
    (fun ev => enteredScaleInOne [ev] = [] ∧ finishedRecorded [ev] = []) d tc
    (by intro _; exact ⟨⟨rfl, rfl⟩, ⟨rfl, rfl⟩⟩)
    ((w.mark .enterScaleIn).call .timeNow d.timeNow).2
  rw [hp] at ht0
  replace ht0 : w1.trace
      = ((w.mark .enterScaleIn).call .timeNow d.timeNow).2.trace ++ evs0 := ht0
  have he0 := enteredScaleInOne_nil evs0 (fun ev h => (hp0 ev h).1)
  have hf0 := finishedRecorded_nil evs0 (fun ev h => (hp0 ev h).2)
  have hs : w1.since w = [.enterScaleIn, .timeNow] ++ evs0 := by
    simp only [World.since, ht0, call_trace, mark_trace]
    simp
  rw [h1]
  refine ⟨rfl, ?_, ?_⟩
  · show enteredScaleInOne (w1.since w) = []
    rw [hs, enteredScaleInOne_append, he0]
    rfl
  · show finishedRecorded (w1.since w) = []
    rw [hs, finishedRecorded_append, hf0]
    rfl

/-- The events of a whole `ScaleIn` call on a `TidbCluster`. -/
theorem ScaleIn_emits (P : Event → Prop) (d : Deps σ) (tc : TidbCluster)
    (oldSet newSet : StatefulSet) (w : World σ)
    (hStart : P .enterScaleIn) (hNow : P .timeNow)
    (hPD : tc.TiKVBootStrapped = true → P .pdGetStores ∧ P .pdGetConfig)
    (hIn : ∀ ev, inScaleInOne ev = true → P ev)
    (hRec : tc.TiKVBootStrapped = true → P (.recorderEvent "Warning" "FailedScaleIn"))
    (hEnter : ∀ u dl mr o, P (.enterScaleInOne (!tc.TiKVBootStrapped) u dl mr o))
    (hExit : ∀ o dl ok, P (.exitScaleInOne o dl ok))
    (hReset : P .resetReplicas)
    (hSet : ∀ f o fin, P (.setReplicasAndDeleteSlotsByFinished f o fin)) :
    Emits P w (ScaleIn d (.tidbCluster tc) oldSet newSet w).2.2 := by
  rcases hprep : scaleInPrepare d tc ((w.mark .enterScaleIn).call .timeNow d.timeNow).2 with
    ⟨res, w1⟩
  cases res with
  | error e =>
    have h0 : ScaleIn d (.tidbCluster tc) oldSet newSet w = (some e, newSet, w1) := by
      simp [ScaleIn, hprep]
    have h1 : Emits P w ((w.mark .enterScaleIn).call .timeNow d.timeNow).2 :=
      (mark_emits P w _ hStart).trans (call_emits P _ _ _ hNow)
    have h2 := scaleInPrepare_emits P d tc hPD
      ((w.mark .enterScaleIn).call .timeNow d.timeNow).2
    rw [hprep] at h2
    rw [h0]
    exact h1.trans h2
  | ok p =>
    have hskip := scaleInPrepare_skip d tc _ w1 p hprep
    have hc := ScaleIn_calls_emits P d tc w p w1
      (d.scaleMulti oldSet newSet tc.ScaleInParallelism).2.1 hprep hStart hNow hPD hIn hRec
      (by intro dl o; rw [hskip]; exact hEnter _ _ _ _) hExit
    obtain ⟨ev, hw, _, _, _⟩ := batchOutcome_world d d.scalingInFlag oldSet newSet
      (d.scaleMulti oldSet newSet tc.ScaleInParallelism).2.1
      (scaleInCalls d tc p.skipPreCheck p.upTikvStoreCount p.maxReplicas
        ((w.mark .enterScaleIn).call .timeNow d.timeNow).1
        (d.scaleMulti oldSet newSet tc.ScaleInParallelism).2.1 0 w1).1
      (scaleInCalls d tc p.skipPreCheck p.upTikvStoreCount p.maxReplicas
        ((w.mark .enterScaleIn).call .timeNow d.timeNow).1
        (d.scaleMulti oldSet newSet tc.ScaleInParallelism).2.1 0 w1).2
    have hev : P ev := by
      have hb := ScaleIn_eq d tc oldSet newSet w p w1 hprep
      cases hs : (succeeded (scaleInCalls d tc p.skipPreCheck p.upTikvStoreCount p.maxReplicas
        ((w.mark .enterScaleIn).call .timeNow d.timeNow).1
        (d.scaleMulti oldSet newSet tc.ScaleInParallelism).2.1 0 w1).1).isEmpty with
      | true =>
        simp only [batchOutcome, hs, if_true] at hw
        have : ev = .resetReplicas := by
          have := congrArg World.trace hw
          simpa [World.mark] using this.symm
        rw [this]; exact hReset
      | false =>
        simp only [batchOutcome, hs] at hw
        have := congrArg World.trace hw
        simp only [World.mark, Bool.false_eq_true, if_false] at this
        have h2 := List.append_cancel_left this
        simp only [List.cons.injEq, and_true] at h2
        rw [← h2]; exact hSet _ _ _
    rw [ScaleIn_eq d tc oldSet newSet w p w1 hprep, hw]
    exact hc.trans (mark_emits P _ ev hev)

end tikvScaler

end TidbOperator

namespace TidbOperator

namespace tikvScaler

variable {σ : Type}

/-! ## The quorum bookkeeping -/

theorem preCheckStoreState_no_match (podName : String) (l : List (String × TiKVStore))
    (init : String) (h : ∀ kv ∈ l, kv.2.PodName ≠ podName) :
    preCheckStoreState podName l init = init := by
  induction l generalizing init with
  | nil => rfl
  | cons kv rest ih =>
    obtain ⟨k, store⟩ := kv
    have h1 : store.PodName ≠ podName := h (k, store) (List.mem_cons_self _ _)
    simp only [preCheckStoreState, h1, if_false]
    exact ih init (fun kv hkv => h kv (List.mem_cons_of_mem _ hkv))

theorem preCheckStoreState_append (podName : String) (a b : List (String × TiKVStore))
    (init : String) :
    preCheckStoreState podName (a ++ b) init
      = preCheckStoreState podName b (preCheckStoreState podName a init) := by
  induction a generalizing init with
  | nil => rfl
  | cons kv rest ih =>
    obtain ⟨k, store⟩ := kv
    simp only [List.cons_append, preCheckStoreState]
    split <;> exact ih _

/-- When no two entries of the status share a pod name, the state that the
pre-check reads for a pod is the state of the entry on which `scaleInOne` acts. -/
theorem preCheckStoreState_agrees (podName : String) (pre post : List (String × TiKVStore))
    (k : String) (store : TiKVStore) (init : String)
    (hnodup : ((pre ++ (k, store) :: post).map (fun kv => kv.2.PodName)).Nodup)
    (hname : store.PodName = podName) :
    preCheckStoreState podName (pre ++ (k, store) :: post) init = store.State := by
  rw [List.map_append, List.map_cons] at hnodup
  have hsub := (List.nodup_append.mp hnodup).2.1
  have hpost : ∀ kv ∈ post, kv.2.PodName ≠ podName := by
    intro kv hkv heq
    have h1 := (List.nodup_cons.mp hsub).1
    apply h1
    rw [hname, ← heq]
    exact List.mem_map.mpr ⟨kv, hkv, rfl⟩
  rw [preCheckStoreState_append]
  simp only [preCheckStoreState, hname, if_true]
  exact preCheckStoreState_no_match podName post _ hpost

theorem preCheckUpStores_true (d : Deps σ) (tc : TidbCluster) (podName : String)
    (up deleted maxReplicas : Int) (w : World σ) :
    (preCheckUpStores d tc podName up deleted maxReplicas w).1 = true ↔
      (tc.TiKVBootStrapped = false ∨ maxReplicas < up - deleted ∨
        (up - deleted = maxReplicas ∧
          preCheckStoreState podName tc.Status.Stores "" ≠ TiKVStateUp)) := by
  simp only [preCheckUpStores]
  cases hb : tc.TiKVBootStrapped with
  | false => simp
  | true =>
    by_cases h1 : up - deleted < maxReplicas
    · have h2 : ¬ (maxReplicas < up - deleted) := by omega
      have h3 : ¬ (up - deleted = maxReplicas) := by omega
      simp [h1, h2, h3]
    · by_cases h2 : up - deleted = maxReplicas
      · have h3 : ¬ (maxReplicas < up - deleted) := by omega
        by_cases h4 : preCheckStoreState podName tc.Status.Stores "" = TiKVStateUp
        · simp [h1, h2, h4]
        · simp [h1, h2, h4]
      · have h3 : maxReplicas < up - deleted := by omega
        simp [h1, h2, h3]

theorem deleteStoreStep_deleted (d : Deps σ) (tc : TidbCluster) (id : Nat) (state : String)
    (b : Bool) (w : World σ) :
    (deleteStoreStep d tc id state b w).1.1 = 0 ∨
      ((deleteStoreStep d tc id state b w).1.1 = 1 ∧ state = TiKVStateUp) := by
  simp only [deleteStoreStep]
  split
  · split
    · exact Or.inl rfl
    · by_cases hs : state = TiKVStateUp
      · right; simp [hs]
      · left; simp [hs]
  · exact Or.inl rfl

theorem scaleInStore_deleted (d : Deps σ) (tc : TidbCluster) (pod : Pod) (currentTime : Time)
    (store : TiKVStore) (w : World σ) :
    (scaleInStore d tc pod currentTime store w).1.1 = 0 ∨
      ((scaleInStore d tc pod currentTime store w).1.1 = 1 ∧ store.State = TiKVStateUp) := by
  simp only [scaleInStore]
  split
  · exact Or.inl rfl
  · split
    · exact Or.inl rfl
    · split
      · exact Or.inl rfl
      · split
        · exact Or.inl rfl
        · exact deleteStoreStep_deleted d tc _ _ _ _

theorem scaleInStoresLoop_none (d : Deps σ) (tc : TidbCluster) (podName : String) (pod : Pod)
    (currentTime : Time) (stores : List (String × TiKVStore)) (w : World σ) :
    scaleInStoresLoop d tc podName pod currentTime stores w = none ↔
      ∀ kv ∈ stores, kv.2.PodName ≠ podName := by
  induction stores with
  | nil => simp [scaleInStoresLoop]
  | cons kv rest ih =>
    obtain ⟨k, store⟩ := kv
    simp only [scaleInStoresLoop]
    split
    · rename_i h
      simp [h]
    · rename_i h
      simp [ih, h]

theorem scaleInStoresLoop_some (d : Deps σ) (tc : TidbCluster) (podName : String) (pod : Pod)
    (currentTime : Time) (stores : List (String × TiKVStore)) (w : World σ)
    (r : (Int × Option Err) × World σ)
    (h : scaleInStoresLoop d tc podName pod currentTime stores w = some r) :
    ∃ pre k store post, stores = pre ++ (k, store) :: post ∧
      (∀ kv ∈ pre, kv.2.PodName ≠ podName) ∧ store.PodName = podName ∧
      r = scaleInStore d tc pod currentTime store w := by
  induction stores with
  | nil => simp [scaleInStoresLoop] at h
  | cons kv rest ih =>
    obtain ⟨k, store⟩ := kv
    simp only [scaleInStoresLoop] at h
    split at h
    · rename_i hn
      simp only [Option.some.injEq] at h
      exact ⟨[], k, store, rest, rfl, by simp, hn, h.symm⟩
    · rename_i hn
      obtain ⟨pre, k2, store2, post, heq, hpre, hname, hr⟩ := ih h
      refine ⟨(k, store) :: pre, k2, store2, post, by simp [heq], ?_, hname, hr⟩
      intro kv hkv
      rcases List.mem_cons.mp hkv with rfl | hkv
      · exact hn
      · exact hpre kv hkv

theorem scaleInTombstone_deleted (d : Deps σ) (tc : TidbCluster) (pod : Pod)
    (currentTime : Time) (store : TiKVStore) (w : World σ) :
    (scaleInTombstone d tc pod currentTime store w).1.1 = 0 := by
  simp only [scaleInTombstone]
  split
  · rfl
  · split
    · rfl
    · split <;> rfl

theorem scaleInTombstoneLoop_deleted (d : Deps σ) (tc : TidbCluster) (podName : String)
    (pod : Pod) (currentTime : Time) (stores : List (String × TiKVStore)) (w : World σ)
    (r : (Int × Option Err) × World σ)
    (h : scaleInTombstoneLoop d tc podName pod currentTime stores w = some r) :
    r.1.1 = 0 := by
  induction stores with
  | nil => simp [scaleInTombstoneLoop] at h
  | cons kv rest ih =>
    obtain ⟨k, store⟩ := kv
    simp only [scaleInTombstoneLoop] at h
    split at h
    · exact ih h
    · split at h
      · exact ih h
      · simp only [Option.some.injEq] at h
        rw [← h]
        exact scaleInTombstone_deleted d tc pod currentTime store w

theorem scaleInNotFound_deleted (d : Deps σ) (tc : TidbCluster) (pod : Pod) (w : World σ) :
    (scaleInNotFound d tc pod w).1.1 = 0 := by
  simp only [scaleInNotFound, scaleInNotReady, scaleInNoActiveStore]
  repeat (first | rfl | split)

/-- The result `deletedUpStore` of the statements of `scaleInOne` is 0 or 1, and
it is 1 only if the pre-check was skipped or passed and the first entry of the
status for the pod is in state Up. -/
theorem scaleInOneBody_deleted (d : Deps σ) (tc : TidbCluster) (skipPreCheck : Bool)
    (up deleted maxReplicas ordinal : Int) (currentTime : Time) (w : World σ) :
    (scaleInOneBody d tc skipPreCheck up deleted maxReplicas ordinal currentTime w).1.1 = 0 ∨
    ((scaleInOneBody d tc skipPreCheck up deleted maxReplicas ordinal currentTime w).1.1 = 1 ∧
      (∃ w1, (preCheckStep d tc skipPreCheck (d.ordinalPodName TiKVMemberType tc.Name ordinal)
        up deleted maxReplicas w1).1 = true) ∧
      ∃ pre k store post, tc.Status.Stores = pre ++ (k, store) :: post ∧
        (∀ kv ∈ pre, kv.2.PodName ≠ d.ordinalPodName TiKVMemberType tc.Name ordinal) ∧
        store.PodName = d.ordinalPodName TiKVMemberType tc.Name ordinal ∧
        store.State = TiKVStateUp) := by
  simp only [scaleInOneBody]
  split
  · exact Or.inl rfl
  · rename_i pod0 w1 heq
    split
    · exact Or.inl rfl
    · rename_i w2 heq2
      split
      · exact Or.inl rfl
      · rename_i pod w3 heq3
        simp only [scaleInSynced]
        split
        · rename_i r hr
          obtain ⟨pre, k, store, post, hst, hpre, hname, hrr⟩ :=
            scaleInStoresLoop_some d tc _ pod currentTime _ w3 r hr
          rcases scaleInStore_deleted d tc pod currentTime store w3 with h0 | ⟨h1, hup⟩
          · left; rw [hrr]; exact h0
          · right
            refine ⟨by rw [hrr]; exact h1, ⟨w1, by rw [heq2]⟩, pre, k, store, post, hst, hpre,
              hname, hup⟩
        · split
          · rename_i r hr
            exact Or.inl (scaleInTombstoneLoop_deleted d tc _ pod currentTime _ w3 r hr)
          · exact Or.inl (scaleInNotFound_deleted d tc pod w3)

theorem scaleInOne_result (d : Deps σ) (tc : TidbCluster) (skipPreCheck : Bool)
    (up deleted maxReplicas ordinal : Int) (currentTime : Time) (w : World σ) :
    (scaleInOne d tc skipPreCheck up deleted maxReplicas ordinal currentTime w).1
      = (scaleInOneBody d tc skipPreCheck up deleted maxReplicas ordinal currentTime
          (w.mark (.enterScaleInOne skipPreCheck up deleted maxReplicas ordinal))).1 := by
  simp [scaleInOne]

/-- One step of the quorum bookkeeping on a bootstrapped cluster whose status has
no two entries with the same pod name: a call of `scaleInOne` that is not told
to skip the pre-check returns `deletedUpStore` 0, or returns 1 while the Up-store
count less the stores already deleted exceeds the replication factor. -/
theorem scaleInOne_quorum_step (d : Deps σ) (tc : TidbCluster)
    (up deleted maxReplicas ordinal : Int) (currentTime : Time) (w : World σ)
    (hboot : tc.TiKVBootStrapped = true)
    (hnodup : (tc.Status.Stores.map (fun kv => kv.2.PodName)).Nodup) :
    (scaleInOne d tc false up deleted maxReplicas ordinal currentTime w).1.1 = 0 ∨
    ((scaleInOne d tc false up deleted maxReplicas ordinal currentTime w).1.1 = 1 ∧
      maxReplicas < up - deleted) := by
  rw [scaleInOne_result]
  rcases scaleInOneBody_deleted d tc false up deleted maxReplicas ordinal currentTime
    (w.mark (.enterScaleInOne false up deleted maxReplicas ordinal)) with h0 | ⟨h1, ⟨w1, hpc⟩, hst⟩
  · exact Or.inl h0
  · right
    refine ⟨h1, ?_⟩
    obtain ⟨pre, k, store, post, heq, _, hname, hup⟩ := hst
    have hag := preCheckStoreState_agrees (d.ordinalPodName TiKVMemberType tc.Name ordinal)
      pre post k store "" (by rw [← heq]; exact hnodup) hname
    simp only [preCheckStep, Bool.false_eq_true, if_false] at hpc
    rw [preCheckUpStores_true, heq, hag] at hpc
    rcases hpc with hb | hgt | ⟨_, hne⟩
    · rw [hboot] at hb; cases hb
    · exact hgt
    · exact absurd hup hne

/-- The quorum invariant along the calls of a batch, under the same conditions:
if the stores deleted before the batch respect it, so do those deleted after. -/
theorem scaleInCalls_quorum (d : Deps σ) (tc : TidbCluster)
    (up maxReplicas : Int) (currentTime : Time)
    (hboot : tc.TiKVBootStrapped = true)
    (hnodup : (tc.Status.Stores.map (fun kv => kv.2.PodName)).Nodup)
    (ordinals : List Int) (deleted : Int) (w : World σ)
    (hinv : 0 < deleted → maxReplicas ≤ up - deleted) :
    0 < deleted + deletedTotal
        (scaleInCalls d tc false up maxReplicas currentTime ordinals deleted w).1 →
      maxReplicas ≤ up - (deleted + deletedTotal
        (scaleInCalls d tc false up maxReplicas currentTime ordinals deleted w).1) := by
  induction ordinals generalizing deleted w with
  | nil => simpa [scaleInCalls, deletedTotal] using hinv
  | cons o rest ih =>
    simp only [scaleInCalls, deletedTotal]
    have hstep := scaleInOne_quorum_step d tc up deleted maxReplicas o currentTime w hboot
      hnodup
    have := ih (deleted + (scaleInOne d tc false up deleted maxReplicas o currentTime w).1.1)
      (scaleInOne d tc false up deleted maxReplicas o currentTime w).2
      (by rcases hstep with h0 | ⟨h1, hgt⟩
          · rw [h0]; simpa using hinv
          · rw [h1]; intro _; omega)
    intro hpos
    have h2 := this (by omega)
    omega

end tikvScaler

end TidbOperator

namespace TidbOperator

namespace tikvScaler

variable {σ : Type}

/-! ## Marking storage claims -/

theorem annotatesPVC_append (a b : List Event) :
    annotatesPVC (a ++ b) = (annotatesPVC a || annotatesPVC b) := by
  simp [annotatesPVC]

theorem annotatesPVC_of_emits {w0 w1 : World σ}
    (h : Emits (fun ev => marksClaim ev = false) w0 w1) :
    annotatesPVC (w1.since w0) = false := by
  have hs := h.since_events.2
  simp only [annotatesPVC, List.any_eq_false]
  intro ev hev
  simp [hs ev hev]

theorem since_trans {w0 w1 w2 : World σ} {e1 e2 : List Event}
    (h1 : w1.trace = w0.trace ++ e1) (h2 : w2.trace = w1.trace ++ e2) :
    w2.since w0 = w1.since w0 ++ w2.since w1 := by
  simp [World.since, h2, h1]

theorem scaleInTombstoneLoop_some (d : Deps σ) (tc : TidbCluster) (podName : String)
    (pod : Pod) (currentTime : Time) (stores : List (String × TiKVStore)) (w : World σ)
    (r : (Int × Option Err) × World σ)
    (h : scaleInTombstoneLoop d tc podName pod currentTime stores w = some r) :
    ∃ kv ∈ stores, kv.2.PodName = podName ∧ mapIndex pod.Labels d.StoreIDLabelKey = kv.1 := by
  induction stores with
  | nil => simp [scaleInTombstoneLoop] at h
  | cons kv rest ih =>
    obtain ⟨k, store⟩ := kv
    simp only [scaleInTombstoneLoop] at h
    split at h
    · obtain ⟨kv, hkv, hh⟩ := ih h
      exact ⟨kv, List.mem_cons_of_mem _ hkv, hh⟩
    · rename_i hn
      split at h
      · obtain ⟨kv, hkv, hh⟩ := ih h
        exact ⟨kv, List.mem_cons_of_mem _ hkv, hh⟩
      · rename_i hl
        exact ⟨(k, store), List.mem_cons_self _ _, by simpa using hn, by simpa using hl⟩

theorem scaleInTombstoneLoop_none (d : Deps σ) (tc : TidbCluster) (podName : String)
    (pod : Pod) (currentTime : Time) (stores : List (String × TiKVStore)) (w : World σ)
    (h : scaleInTombstoneLoop d tc podName pod currentTime stores w = none) :
    ∀ kv ∈ stores, kv.2.PodName = podName → mapIndex pod.Labels d.StoreIDLabelKey ≠ kv.1 := by
  induction stores with
  | nil => simp
  | cons kv rest ih =>
    obtain ⟨k, store⟩ := kv
    simp only [scaleInTombstoneLoop] at h
    split at h
    · rename_i hn
      intro kv hkv
      rcases List.mem_cons.mp hkv with rfl | hkv
      · intro hp; exact absurd hp hn
      · exact ih h kv hkv
    · split at h
      · rename_i hl
        intro kv hkv
        rcases List.mem_cons.mp hkv with rfl | hkv
        · intro _; exact hl
        · exact ih h kv hkv
      · simp at h

theorem scaleInNotFound_annotates (d : Deps σ) (tc : TidbCluster) (pod : Pod) (w : World σ)
    (h : annotatesPVC ((scaleInNotFound d tc pod w).2.since w) = true) :
    (pod.Ready = false ∧ tc.TiKVBootStrapped = true ∧
        ∃ st, pod.CreationTimestamp + fiveResyncPeriods d ≤ (d.timeNow st).1) ∨
      (pod.Ready = false ∧ tc.TiKVBootStrapped = false) ∨
      (pod.Ready = true ∧
        ∃ v t st, pod.Annotations.lookup d.AnnTiKVNoActiveStoreSince = some v ∧
          d.parseRFC3339 v = some t ∧ t + fiveResyncPeriods d < (d.timeNow st).1) := by
  cases hr : pod.Ready with
  | false =>
    cases hb : tc.TiKVBootStrapped with
    | false => exact Or.inr (Or.inl ⟨rfl, rfl⟩)
    | true =>
      left
      refine ⟨rfl, rfl, w.st, ?_⟩
      by_contra hlt
      have hlt2 : (d.timeNow w.st).1 < pod.CreationTimestamp + fiveResyncPeriods d :=
        not_le.mp hlt
      simp [scaleInNotFound, hr, scaleInNotReady, notReadyWait, hb, World.call, hlt2,
        World.since, annotatesPVC, marksClaim] at h
  | true =>
    right; right
    refine ⟨rfl, ?_⟩
    simp only [scaleInNotFound, hr, Bool.not_true, Bool.false_eq_true, if_false,
      scaleInNoActiveStore] at h
    split at h
    · simp [World.since, annotatesPVC] at h
    · rename_i v hv
      split at h
      · simp [World.since, annotatesPVC] at h
      · rename_i t ht
        by_cases hlt : t + fiveResyncPeriods d < (d.timeNow w.st).1
        · exact ⟨v, t, w.st, hv, ht, hlt⟩
        · simp [World.call, hlt, World.since, annotatesPVC, marksClaim] at h

theorem scaleInSynced_annotates (d : Deps σ) (tc : TidbCluster) (podName : String) (pod : Pod)
    (currentTime : Time) (w : World σ)
    (h : annotatesPVC ((scaleInSynced d tc podName pod currentTime w).2.since w) = true) :
    DeletionConfirmed d tc podName pod := by
  simp only [scaleInSynced] at h
  split at h
  · rename_i r hr
    have hem := scaleInStoresLoop_emits (fun ev => marksClaim ev = false) d tc podName pod
      currentTime (by intros; rfl) (by intros; rfl) (by intros; rfl) (by intros; rfl) _ w r hr
    rw [annotatesPVC_of_emits hem] at h
    cases h
  · rename_i hnone
    have hst := (scaleInStoresLoop_none d tc podName pod currentTime _ w).mp hnone
    split at h
    · rename_i r hr
      exact Or.inl (scaleInTombstoneLoop_some d tc podName pod currentTime _ w r hr)
    · rename_i hnone2
      exact Or.inr ⟨hst, scaleInTombstoneLoop_none d tc podName pod currentTime _ w hnone2,
        scaleInNotFound_annotates d tc pod w h⟩

end tikvScaler

end TidbOperator

/-! ## The paths of one scale-in call -/

namespace TidbOperator

namespace tikvScaler

variable {σ : Type}

theorem preCheckUpStores_fst_world (d : Deps σ) (tc : TidbCluster) (podName : String)
    (up deleted maxReplicas : Int) (w w2 : World σ) :
    (preCheckUpStores d tc podName up deleted maxReplicas w).1
      = (preCheckUpStores d tc podName up deleted maxReplicas w2).1 := by
  simp only [preCheckUpStores]
  repeat (first | rfl | split)

theorem preCheckUpStores_pass (d : Deps σ) (tc : TidbCluster) (podName : String)
    (up deleted maxReplicas : Int) (w : World σ)
    (h : (preCheckUpStores d tc podName up deleted maxReplicas w).1 = true) :
    preCheckUpStores d tc podName up deleted maxReplicas w = (true, w) := by
  simp only [preCheckUpStores] at h ⊢
  split
  · rfl
  · rename_i hb
    simp only [hb, if_false] at h
    split
    · rename_i h1
      simp [h1] at h
    · rename_i h1
      simp only [h1, if_false] at h
      split
      · rename_i h2
        simp only [h2, if_true] at h
        split
        · rename_i h3
          simp [h3] at h
        · rfl
      · rfl

theorem preCheckUpStores_reject (d : Deps σ) (tc : TidbCluster) (podName : String)
    (up deleted maxReplicas : Int) (w : World σ)
    (h : (preCheckUpStores d tc podName up deleted maxReplicas w).1 = false) :
    preCheckUpStores d tc podName up deleted maxReplicas w
      = (false, (w.call (.recorderEvent "Warning" "FailedScaleIn")
          (d.recorderEvent tc "Warning" "FailedScaleIn")).2) := by
  simp only [preCheckUpStores] at h ⊢
  split
  · rename_i hb
    simp [hb] at h
  · rename_i hb
    simp only [hb, if_false] at h
    split
    · rfl
    · rename_i h1
      simp only [h1, if_false] at h
      split
      · rename_i h2
        simp only [h2, if_true] at h
        split
        · rfl
        · rename_i h3
          simp [h3] at h
      · rename_i h2
        simp [h2] at h

theorem preCheckStep_fst_world (d : Deps σ) (tc : TidbCluster) (skipPreCheck : Bool)
    (podName : String) (up deleted maxReplicas : Int) (w w2 : World σ) :
    (preCheckStep d tc skipPreCheck podName up deleted maxReplicas w).1
      = (preCheckStep d tc skipPreCheck podName up deleted maxReplicas w2).1 := by
  simp only [preCheckStep]
  split
  · rfl
  · exact preCheckUpStores_fst_world d tc podName up deleted maxReplicas w w2

theorem preCheckStep_pass (d : Deps σ) (tc : TidbCluster) (skipPreCheck : Bool)
    (podName : String) (up deleted maxReplicas : Int) (w : World σ)
    (h : (preCheckStep d tc skipPreCheck podName up deleted maxReplicas w).1 = true) :
    preCheckStep d tc skipPreCheck podName up deleted maxReplicas w = (true, w) := by
  simp only [preCheckStep] at h ⊢
  split
  · rfl
  · rename_i hs
    simp only [hs, if_false] at h
    exact preCheckUpStores_pass d tc podName up deleted maxReplicas w h

theorem preCheckStep_reject (d : Deps σ) (tc : TidbCluster) (skipPreCheck : Bool)
    (podName : String) (up deleted maxReplicas : Int) (w : World σ)
    (h : (preCheckStep d tc skipPreCheck podName up deleted maxReplicas w).1 = false) :
    skipPreCheck = false ∧
    preCheckStep d tc skipPreCheck podName up deleted maxReplicas w
      = (false, (w.call (.recorderEvent "Warning" "FailedScaleIn")
          (d.recorderEvent tc "Warning" "FailedScaleIn")).2) := by
  simp only [preCheckStep] at h ⊢
  split
  · rename_i hs
    simp [hs] at h
  · rename_i hs
    simp only [hs, if_false] at h
    exact ⟨by simpa using hs, preCheckUpStores_reject d tc podName up deleted maxReplicas w h⟩

/-- The four ways through the statements of `scaleInOne` up to `UpdateMetaInfo`:
the pod is not found; the pre-check rejects; `UpdateMetaInfo` fails; or the part
after `UpdateMetaInfo` runs on the updated pod. -/
theorem scaleInOneBody_inv (d : Deps σ) (tc : TidbCluster) (skipPreCheck : Bool)
    (up deleted maxReplicas ordinal : Int) (currentTime : Time) (w : World σ) :
    (∃ e st1,
      d.podGet tc.Namespace (d.ordinalPodName TiKVMemberType tc.Name ordinal) w.st
        = (.error e, st1) ∧
      scaleInOneBody d tc skipPreCheck up deleted maxReplicas ordinal currentTime w
        = ((0, some (.errorf
            "tikvScaler.ScaleIn: failed to get pods %s for cluster %s/%s, error: %s")),
          { st := st1, trace := w.trace ++
            [.podGet tc.Namespace (d.ordinalPodName TiKVMemberType tc.Name ordinal)] })) ∨
    (∃ pod0 st1,
      d.podGet tc.Namespace (d.ordinalPodName TiKVMemberType tc.Name ordinal) w.st
        = (.ok pod0, st1) ∧
      skipPreCheck = false ∧
      (preCheckUpStores d tc (d.ordinalPodName TiKVMemberType tc.Name ordinal) up deleted
        maxReplicas w).1 = false ∧
      scaleInOneBody d tc skipPreCheck up deleted maxReplicas ordinal currentTime w
        = ((0, some (.errorf
            "tikvScaler.ScaleIn: failed to pass up stores check , pod %s, cluster %s/%s")),
          { st := (d.recorderEvent tc "Warning" "FailedScaleIn" st1).2, trace := w.trace ++
            [.podGet tc.Namespace (d.ordinalPodName TiKVMemberType tc.Name ordinal),
              .recorderEvent "Warning" "FailedScaleIn"] })) ∨
    (∃ pod0 st1 e st2,
      d.podGet tc.Namespace (d.ordinalPodName TiKVMemberType tc.Name ordinal) w.st
        = (.ok pod0, st1) ∧
      (preCheckStep d tc skipPreCheck (d.ordinalPodName TiKVMemberType tc.Name ordinal) up
        deleted maxReplicas w).1 = true ∧
      d.updateMetaInfo tc pod0 st1 = (.error e, st2) ∧
      scaleInOneBody d tc skipPreCheck up deleted maxReplicas ordinal currentTime w
        = ((0, none),
          { st := st2, trace := w.trace ++
            [.podGet tc.Namespace (d.ordinalPodName TiKVMemberType tc.Name ordinal),
              .updateMetaInfo pod0.Name] })) ∨
    (∃ pod0 st1 pod st2,
      d.podGet tc.Namespace (d.ordinalPodName TiKVMemberType tc.Name ordinal) w.st
        = (.ok pod0, st1) ∧
      (preCheckStep d tc skipPreCheck (d.ordinalPodName TiKVMemberType tc.Name ordinal) up
        deleted maxReplicas w).1 = true ∧
      d.updateMetaInfo tc pod0 st1 = (.ok pod, st2) ∧
      scaleInOneBody d tc skipPreCheck up deleted maxReplicas ordinal currentTime w
        = scaleInSynced d tc (d.ordinalPodName TiKVMemberType tc.Name ordinal) pod currentTime
          { st := st2, trace := w.trace ++
            [.podGet tc.Namespace (d.ordinalPodName TiKVMemberType tc.Name ordinal),
              .updateMetaInfo pod0.Name] }) := by
  rcases h0 : d.podGet tc.Namespace (d.ordinalPodName TiKVMemberType tc.Name ordinal) w.st with
    ⟨res, st1⟩
  cases res with
  | error e =>
    left
    exact ⟨e, st1, rfl, by simp [scaleInOneBody, World.call, h0]⟩
  | ok pod0 =>
    right
    cases hpc : (preCheckStep d tc skipPreCheck (d.ordinalPodName TiKVMemberType tc.Name ordinal)
        up deleted maxReplicas w).1 with
    | false =>
      left
      have hpc1 : (preCheckStep d tc skipPreCheck
          (d.ordinalPodName TiKVMemberType tc.Name ordinal) up deleted maxReplicas
          { st := st1, trace := w.trace ++
            [.podGet tc.Namespace (d.ordinalPodName TiKVMemberType tc.Name ordinal)] }).1
          = false := by
        rw [← hpc]; exact preCheckStep_fst_world _ _ _ _ _ _ _ _ _
      obtain ⟨hs, hrej⟩ := preCheckStep_reject _ _ _ _ _ _ _ _ hpc1
      refine ⟨pod0, st1, rfl, hs, ?_, ?_⟩
      · rw [← hpc]; simp [preCheckStep, hs]
      · simp [scaleInOneBody, World.call, h0, hrej]
    | true =>
      right
      have hpc1 : (preCheckStep d tc skipPreCheck
          (d.ordinalPodName TiKVMemberType tc.Name ordinal) up deleted maxReplicas
          { st := st1, trace := w.trace ++
            [.podGet tc.Namespace (d.ordinalPodName TiKVMemberType tc.Name ordinal)] }).1
          = true := by
        rw [← hpc]; exact preCheckStep_fst_world _ _ _ _ _ _ _ _ _
      have hpass := preCheckStep_pass _ _ _ _ _ _ _ _ hpc1
      rcases h2 : d.updateMetaInfo tc pod0 st1 with ⟨res2, st2⟩
      cases res2 with
      | error e =>
        left
        exact ⟨pod0, st1, e, st2, rfl, rfl, h2,
          by simp [scaleInOneBody, World.call, h0, hpass, h2]⟩
      | ok pod =>
        right
        exact ⟨pod0, st1, pod, st2, rfl, rfl, h2,
          by simp [scaleInOneBody, World.call, h0, hpass, h2]⟩

theorem scaleInOne_eq (d : Deps σ) (tc : TidbCluster) (skipPreCheck : Bool)
    (up deleted maxReplicas ordinal : Int) (currentTime : Time) (w : World σ) :
    scaleInOne d tc skipPreCheck up deleted maxReplicas ordinal currentTime w
      = ((scaleInOneBody d tc skipPreCheck up deleted maxReplicas ordinal currentTime
            (w.mark (.enterScaleInOne skipPreCheck up deleted maxReplicas ordinal))).1,
          (scaleInOneBody d tc skipPreCheck up deleted maxReplicas ordinal currentTime
            (w.mark (.enterScaleInOne skipPreCheck up deleted maxReplicas ordinal))).2.mark
            (.exitScaleInOne ordinal
              (scaleInOneBody d tc skipPreCheck up deleted maxReplicas ordinal currentTime
                (w.mark (.enterScaleInOne skipPreCheck up deleted maxReplicas ordinal))).1.1
              (scaleInOneBody d tc skipPreCheck up deleted maxReplicas ordinal currentTime
                (w.mark (.enterScaleInOne skipPreCheck up deleted maxReplicas
                  ordinal))).1.2.isNone)) := by
  simp [scaleInOne]

theorem since_of_trace {w0 w1 : World σ} {evs : List Event}
    (h : w1.trace = w0.trace ++ evs) : w1.since w0 = evs := by
  simp [World.since, h]

/-- A call of `scaleInOne` whose statements end in the result `res` after the
events `evs` returns `res` and records the entry, `evs` and the return. -/
theorem scaleInOne_of_body (d : Deps σ) (tc : TidbCluster) (skipPreCheck : Bool)
    (up deleted maxReplicas ordinal : Int) (currentTime : Time) (w : World σ)
    (res : Int × Option Err) (st : σ) (evs : List Event)
    (h : scaleInOneBody d tc skipPreCheck up deleted maxReplicas ordinal currentTime
        (w.mark (.enterScaleInOne skipPreCheck up deleted maxReplicas ordinal))
      = (res, { st := st, trace := (w.mark (.enterScaleInOne skipPreCheck up deleted
          maxReplicas ordinal)).trace ++ evs })) :
    (scaleInOne d tc skipPreCheck up deleted maxReplicas ordinal currentTime w).1 = res ∧
    (scaleInOne d tc skipPreCheck up deleted maxReplicas ordinal currentTime w).2.st = st ∧
    (scaleInOne d tc skipPreCheck up deleted maxReplicas ordinal currentTime w).2.since w
      = .enterScaleInOne skipPreCheck up deleted maxReplicas ordinal :: evs ++
          [.exitScaleInOne ordinal res.1 res.2.isNone] := by
  rw [scaleInOne_eq, h]
  refine ⟨rfl, rfl, ?_⟩
  simp [World.since, World.mark]

theorem scaleInTombstoneLoop_split (d : Deps σ) (tc : TidbCluster) (podName : String)
    (pod : Pod) (currentTime : Time) (stores : List (String × TiKVStore)) (w : World σ)
    (r : (Int × Option Err) × World σ)
    (h : scaleInTombstoneLoop d tc podName pod currentTime stores w = some r) :
    ∃ pre k store post, stores = pre ++ (k, store) :: post ∧
      (∀ kv ∈ pre, kv.2.PodName = podName → mapIndex pod.Labels d.StoreIDLabelKey ≠ kv.1) ∧
      store.PodName = podName ∧ mapIndex pod.Labels d.StoreIDLabelKey = k ∧
      r = scaleInTombstone d tc pod currentTime store w := by
  induction stores with
  | nil => simp [scaleInTombstoneLoop] at h
  | cons kv rest ih =>
    obtain ⟨k, store⟩ := kv
    simp only [scaleInTombstoneLoop] at h
    split at h
    · rename_i hn
      obtain ⟨pre, k2, store2, post, heq, hpre, hname, hkey, hr⟩ := ih h
      refine ⟨(k, store) :: pre, k2, store2, post, by simp [heq], ?_, hname, hkey, hr⟩
      intro kv hkv hp
      rcases List.mem_cons.mp hkv with rfl | hkv
      · exact absurd hp hn
      · exact hpre kv hkv hp
    · rename_i hn
      split at h
      · rename_i hl
        obtain ⟨pre, k2, store2, post, heq, hpre, hname, hkey, hr⟩ := ih h
        refine ⟨(k, store) :: pre, k2, store2, post, by simp [heq], ?_, hname, hkey, hr⟩
        intro kv hkv hp
        rcases List.mem_cons.mp hkv with rfl | hkv
        · exact hl
        · exact hpre kv hkv hp
      · rename_i hl
        simp only [Option.some.injEq] at h
        exact ⟨[], k, store, rest, rfl, by simp, by simpa using hn, by simpa using hl, h.symm⟩

theorem scaleInStoresLoop_of_split (d : Deps σ) (tc : TidbCluster) (podName : String)
    (pod : Pod) (currentTime : Time) (pre post : List (String × TiKVStore)) (k : String)
    (store : TiKVStore) (w : World σ)
    (hpre : ∀ kv ∈ pre, kv.2.PodName ≠ podName) (hname : store.PodName = podName) :
    scaleInStoresLoop d tc podName pod currentTime (pre ++ (k, store) :: post) w
      = some (scaleInStore d tc pod currentTime store w) := by
  induction pre with
  | nil => simp [scaleInStoresLoop, hname]
  | cons kv rest ih =>
    obtain ⟨k2, store2⟩ := kv
    have h1 : store2.PodName ≠ podName := hpre (k2, store2) (List.mem_cons_self _ _)
    simp only [List.cons_append, scaleInStoresLoop, h1, if_false]
    exact ih (fun kv hkv => hpre kv (List.mem_cons_of_mem _ hkv))

theorem scaleInTombstoneLoop_of_split (d : Deps σ) (tc : TidbCluster) (podName : String)
    (pod : Pod) (currentTime : Time) (pre post : List (String × TiKVStore)) (k : String)
    (store : TiKVStore) (w : World σ)
    (hpre : ∀ kv ∈ pre, kv.2.PodName = podName →
      mapIndex pod.Labels d.StoreIDLabelKey ≠ kv.1)
    (hname : store.PodName = podName) (hkey : mapIndex pod.Labels d.StoreIDLabelKey = k) :
    scaleInTombstoneLoop d tc podName pod currentTime (pre ++ (k, store) :: post) w
      = some (scaleInTombstone d tc pod currentTime store w) := by
  induction pre with
  | nil => simp [scaleInTombstoneLoop, hname, hkey]
  | cons kv rest ih =>
    obtain ⟨k2, store2⟩ := kv
    have ih2 := ih (fun kv hkv => hpre kv (List.mem_cons_of_mem _ hkv))
    simp only [List.cons_append, scaleInTombstoneLoop]
    split
    · exact ih2
    · rename_i hn
      have hl := hpre (k2, store2) (List.mem_cons_self _ _) (by simpa using hn)
      simp only [hl, ne_eq, not_false_eq_true, if_true]
      exact ih2

theorem scaleInTombstoneLoop_eq_none (d : Deps σ) (tc : TidbCluster) (podName : String)
    (pod : Pod) (currentTime : Time) (stores : List (String × TiKVStore)) (w : World σ)
    (h : ∀ kv ∈ stores, kv.2.PodName = podName →
      mapIndex pod.Labels d.StoreIDLabelKey ≠ kv.1) :
    scaleInTombstoneLoop d tc podName pod currentTime stores w = none := by
  cases hr : scaleInTombstoneLoop d tc podName pod currentTime stores w with
  | none => rfl
  | some r =>
    obtain ⟨kv, hkv, hn, hl⟩ := scaleInTombstoneLoop_some d tc podName pod currentTime stores w r hr
    exact absurd hl (h kv hkv hn)

/-- The three ways through the part of `scaleInOne` after `UpdateMetaInfo`: the
first entry of `Stores` for the pod; failing that, the first entry of
`TombstoneStores` for the pod under its store-ID label; failing that, the end of
the function. -/
theorem scaleInSynced_inv (d : Deps σ) (tc : TidbCluster) (podName : String) (pod : Pod)
    (currentTime : Time) (w : World σ) :
    (∃ pre k store post, tc.Status.Stores = pre ++ (k, store) :: post ∧
      (∀ kv ∈ pre, kv.2.PodName ≠ podName) ∧ store.PodName = podName ∧
      scaleInSynced d tc podName pod currentTime w
        = scaleInStore d tc pod currentTime store w) ∨
    ((∀ kv ∈ tc.Status.Stores, kv.2.PodName ≠ podName) ∧
      ∃ pre k store post, tc.Status.TombstoneStores = pre ++ (k, store) :: post ∧
        (∀ kv ∈ pre, kv.2.PodName = podName →
          mapIndex pod.Labels d.StoreIDLabelKey ≠ kv.1) ∧
        store.PodName = podName ∧ mapIndex pod.Labels d.StoreIDLabelKey = k ∧
        scaleInSynced d tc podName pod currentTime w
          = scaleInTombstone d tc pod currentTime store w) ∨
    ((∀ kv ∈ tc.Status.Stores, kv.2.PodName ≠ podName) ∧
      (∀ kv ∈ tc.Status.TombstoneStores, kv.2.PodName = podName →
        mapIndex pod.Labels d.StoreIDLabelKey ≠ kv.1) ∧
      scaleInSynced d tc podName pod currentTime w = scaleInNotFound d tc pod w) := by
  cases h1 : scaleInStoresLoop d tc podName pod currentTime tc.Status.Stores w with
  | some r =>
    left
    obtain ⟨pre, k, store, post, heq, hpre, hname, hr⟩ :=
      scaleInStoresLoop_some d tc podName pod currentTime _ w r h1
    exact ⟨pre, k, store, post, heq, hpre, hname, by simp [scaleInSynced, h1, hr]⟩
  | none =>
    right
    have hno := (scaleInStoresLoop_none d tc podName pod currentTime _ w).mp h1
    cases h2 : scaleInTombstoneLoop d tc podName pod currentTime tc.Status.TombstoneStores w with
    | some r =>
      left
      obtain ⟨pre, k, store, post, heq, hpre, hname, hkey, hr⟩ :=
        scaleInTombstoneLoop_split d tc podName pod currentTime _ w r h2
      exact ⟨hno, pre, k, store, post, heq, hpre, hname, hkey, by simp [scaleInSynced, h1, h2, hr]⟩
    | none =>
      right
      exact ⟨hno, scaleInTombstoneLoop_none d tc podName pod currentTime _ w h2,
        by simp [scaleInSynced, h1, h2]⟩

theorem annotatePVCs_ok (d : Deps σ) (tc : TidbCluster) (deferTime : Option String)
    (pvcs : List PVC) (w : World σ)
    (h : ∀ pvc ∈ pvcs, ∀ st, (d.addDeferDeletingAnnoToPVC tc pvc deferTime st).1 = none) :
    (annotatePVCs d tc deferTime pvcs w).1 = none := by
  induction pvcs generalizing w with
  | nil => rfl
  | cons pvc rest ih =>
    have h1 := h pvc (List.mem_cons_self _ _) w.st
    rcases hc : d.addDeferDeletingAnnoToPVC tc pvc deferTime w.st with ⟨res, st1⟩
    rw [hc] at h1
    simp only at h1
    subst h1
    simp only [annotatePVCs, World.call, hc]
    exact ih _ (fun pvc hp => h pvc (List.mem_cons_of_mem _ hp))

theorem annotatePVCs_none_trace (d : Deps σ) (tc : TidbCluster) (deferTime : Option String)
    (pvcs : List PVC) (w : World σ)
    (h : (annotatePVCs d tc deferTime pvcs w).1 = none) :
    (annotatePVCs d tc deferTime pvcs w).2.trace
      = w.trace ++ pvcs.map (fun pvc => .addDeferDeletingAnnoToPVC pvc.Name deferTime) := by
  induction pvcs generalizing w with
  | nil => simp [annotatePVCs]
  | cons pvc rest ih =>
    rcases hc : d.addDeferDeletingAnnoToPVC tc pvc deferTime w.st with ⟨res, st1⟩
    cases res with
    | some e => simp [annotatePVCs, World.call, hc] at h
    | none =>
      simp only [annotatePVCs, World.call, hc] at h ⊢
      rw [ih _ h]
      simp

end tikvScaler

end TidbOperator

/-! ## The bookkeeping of a batch -/

namespace TidbOperator

namespace tikvScaler

variable {σ : Type}

theorem enteredWith_append (a b : List Event) :
    enteredWith (a ++ b) = enteredWith a ++ enteredWith b := by
  induction a with
  | nil => rfl
  | cons ev rest ih => cases ev <;> simp [enteredWith, ih]

theorem returnedDeleted_append (a b : List Event) :
    returnedDeleted (a ++ b) = returnedDeleted a ++ returnedDeleted b := by
  induction a with
  | nil => rfl
  | cons ev rest ih => cases ev <;> simp [returnedDeleted, ih]

theorem enteredWith_nil (evs : List Event) (h : ∀ ev ∈ evs, enteredWith [ev] = []) :
    enteredWith evs = [] := by
  induction evs with
  | nil => rfl
  | cons ev rest ih =>
    have h1 := h ev (by simp)
    have h2 := ih (fun e he => h e (by simp [he]))
    have := enteredWith_append [ev] rest
    simpa [h1, h2] using this

theorem returnedDeleted_nil (evs : List Event) (h : ∀ ev ∈ evs, returnedDeleted [ev] = []) :
    returnedDeleted evs = [] := by
  induction evs with
  | nil => rfl
  | cons ev rest ih =>
    have h1 := h ev (by simp)
    have h2 := ih (fun e he => h e (by simp [he]))
    have := returnedDeleted_append [ev] rest
    simpa [h1, h2] using this

theorem scaleInOne_bookkeeping (d : Deps σ) (tc : TidbCluster) (skipPreCheck : Bool)
    (up deleted maxReplicas ordinal : Int) (currentTime : Time) (w : World σ) :
    ∃ evs, (scaleInOne d tc skipPreCheck up deleted maxReplicas ordinal currentTime w).2.trace
        = w.trace ++ evs ∧
      enteredWith evs = [(up, deleted, maxReplicas, ordinal)] ∧
      returnedDeleted evs
        = [(scaleInOne d tc skipPreCheck up deleted maxReplicas ordinal currentTime w).1.1] := by
  obtain ⟨evs, ht, hp⟩ := scaleInOne_trace
    (fun ev => enteredWith [ev] = [] ∧ returnedDeleted [ev] = []) d tc
    skipPreCheck up deleted maxReplicas ordinal currentTime
    (by intro ev hev; cases ev <;> simp_all [inScaleInOne, enteredWith, returnedDeleted])
    (by intros; exact ⟨rfl, rfl⟩) w
  refine ⟨_, ht, ?_, ?_⟩
  · have h0 := enteredWith_nil evs (fun ev h => (hp ev h).1)
    rw [List.cons_append, ← List.singleton_append, enteredWith_append, enteredWith_append, h0]
    simp [enteredWith]
  · have h0 := returnedDeleted_nil evs (fun ev h => (hp ev h).2)
    rw [List.cons_append, ← List.singleton_append, returnedDeleted_append,
      returnedDeleted_append, h0]
    simp [returnedDeleted]

theorem scaleInCalls_bookkeeping (d : Deps σ) (tc : TidbCluster) (skipPreCheck : Bool)
    (up maxReplicas : Int) (t : Time) (ordinals : List Int) (deleted : Int) (w : World σ) :
    ∃ evs, (scaleInCalls d tc skipPreCheck up maxReplicas t ordinals deleted w).2.trace
        = w.trace ++ evs ∧
      returnedDeleted evs
        = (scaleInCalls d tc skipPreCheck up maxReplicas t ordinals deleted w).1.map
            (fun c => c.2.1) ∧
      ∀ k, (enteredWith evs)[k]? = (ordinals[k]?).map (fun o =>
        (up, deleted + ((returnedDeleted evs).take k).sum, maxReplicas, o)) := by
  induction ordinals generalizing deleted w with
  | nil => exact ⟨[], by simp [scaleInCalls], by simp [scaleInCalls, returnedDeleted],
      by intro k; simp [enteredWith]⟩
  | cons o rest ih =>
    obtain ⟨e1, ht1, he1, hr1⟩ := scaleInOne_bookkeeping d tc skipPreCheck up deleted
      maxReplicas o t w
    obtain ⟨e2, ht2, hr2, he2⟩ := ih
      (deleted + (scaleInOne d tc skipPreCheck up deleted maxReplicas o t w).1.1)
      (scaleInOne d tc skipPreCheck up deleted maxReplicas o t w).2
    refine ⟨e1 ++ e2, ?_, ?_, ?_⟩
    · simp only [scaleInCalls]
      rw [ht2, ht1, List.append_assoc]
    · rw [returnedDeleted_append, hr1, hr2]
      simp [scaleInCalls]
    · intro k
      rw [enteredWith_append, he1, returnedDeleted_append, hr1]
      cases k with
      | zero => simp
      | succ k =>
        have := he2 k
        simp only [List.singleton_append, List.getElem?_cons_succ, List.take_succ_cons,
          List.sum_cons]
        rw [this]
        cases rest[k]? with
        | none => rfl
        | some o2 => simp [add_assoc]

/-- The one event of the end of a batch is the reset or the update of the replica
count. -/
theorem batchOutcome_mark {α : Type} (d : Deps σ) (flag : Int) (oldSet newSet : StatefulSet)
    (ordinals : List Int) (calls : List (Int × α × Option Err)) (wc : World σ) :
    ∃ ev, (batchOutcome d flag oldSet newSet ordinals calls wc).2.2 = wc.mark ev ∧
      (ev = .resetReplicas ∨
        ev = .setReplicasAndDeleteSlotsByFinished flag ordinals
          (setInsertAll [] (succeeded calls))) := by
  cases h : (succeeded calls).isEmpty with
  | true => exact ⟨.resetReplicas, by simp [batchOutcome, h], Or.inl rfl⟩
  | false =>
    exact ⟨.setReplicasAndDeleteSlotsByFinished flag ordinals (setInsertAll [] (succeeded calls)),
      by simp [batchOutcome, h], Or.inr rfl⟩

/-- The events of a `ScaleIn` call that reaches its loop: the entry, the reading
of the clock, the fetches from PD, the events of the calls of `scaleInOne`, and
the reset or the update of the replica count. -/
theorem ScaleIn_since (d : Deps σ) (tc : TidbCluster) (oldSet newSet : StatefulSet)
    (w : World σ) (p : PreCheckInput) (w1 : World σ)
    (hp : scaleInPrepare d tc ((w.mark .enterScaleIn).call .timeNow d.timeNow).2 = (.ok p, w1)) :
    ∃ evs0 evs ev,
      (ScaleIn d (.tidbCluster tc) oldSet newSet w).2.2.since w
        = [.enterScaleIn, .timeNow] ++ evs0 ++ evs ++ [ev] ∧
      (∀ e ∈ evs0, e = .pdGetStores ∨ e = .pdGetConfig) ∧
      (scaleInCalls d tc p.skipPreCheck p.upTikvStoreCount p.maxReplicas
        ((w.mark .enterScaleIn).call .timeNow d.timeNow).1
        (d.scaleMulti oldSet newSet tc.ScaleInParallelism).2.1 0 w1).2.trace
        = w1.trace ++ evs ∧
      (ev = .resetReplicas ∨ ∃ flag ordinals finished,
        ev = .setReplicasAndDeleteSlotsByFinished flag ordinals finished) := by
  obtain ⟨ev, hw, h2⟩ := batchOutcome_mark d d.scalingInFlag oldSet newSet
    (d.scaleMulti oldSet newSet tc.ScaleInParallelism).2.1
    (scaleInCalls d tc p.skipPreCheck p.upTikvStoreCount p.maxReplicas
      ((w.mark .enterScaleIn).call .timeNow d.timeNow).1
      (d.scaleMulti oldSet newSet tc.ScaleInParallelism).2.1 0 w1).1
    (scaleInCalls d tc p.skipPreCheck p.upTikvStoreCount p.maxReplicas
      ((w.mark .enterScaleIn).call .timeNow d.timeNow).1
      (d.scaleMulti oldSet newSet tc.ScaleInParallelism).2.1 0 w1).2
  obtain ⟨evs, ht, _⟩ := scaleInCalls_emits (fun _ => True) d tc
    p.skipPreCheck p.upTikvStoreCount p.maxReplicas
    ((w.mark .enterScaleIn).call .timeNow d.timeNow).1
    (by simp) (by simp) (by simp) (by simp)
    (d.scaleMulti oldSet newSet tc.ScaleInParallelism).2.1 0 w1
  obtain ⟨evs0, ht0, hp0⟩ := scaleInPrepare_emits
    (fun e => e = .pdGetStores ∨ e = .pdGetConfig) d tc
    (by intro _; exact ⟨Or.inl rfl, Or.inr rfl⟩)
    ((w.mark .enterScaleIn).call .timeNow d.timeNow).2
  rw [hp] at ht0
  replace ht0 : w1.trace
      = ((w.mark .enterScaleIn).call .timeNow d.timeNow).2.trace ++ evs0 := ht0
  refine ⟨evs0, evs, ev, ?_, hp0, ht, ?_⟩
  · rw [ScaleIn_eq d tc oldSet newSet w p w1 hp, hw]
    simp only [World.since, mark_trace, ht, ht0, call_trace]
    simp
  · rcases h2 with h | h
    · exact Or.inl h
    · exact Or.inr ⟨_, _, _, h⟩

end tikvScaler

end TidbOperator

/-! ## The requests of one scale-in call to PD -/

namespace TidbOperator

namespace tikvScaler

variable {σ : Type}

theorem deleteStoreCalls_append (a b : List Event) :
    deleteStoreCalls (a ++ b) = deleteStoreCalls a ++ deleteStoreCalls b := by
  induction a with
  | nil => rfl
  | cons ev rest ih => cases ev <;> simp [deleteStoreCalls, ih]

theorem beginEvictCalls_append (a b : List Event) :
    beginEvictCalls (a ++ b) = beginEvictCalls a ++ beginEvictCalls b := by
  induction a with
  | nil => rfl
  | cons ev rest ih => cases ev <;> simp [beginEvictCalls, ih]

theorem deleteStoreCalls_nil (evs : List Event) (h : ∀ ev ∈ evs, deleteStoreCalls [ev] = []) :
    deleteStoreCalls evs = [] := by
  induction evs with
  | nil => rfl
  | cons ev rest ih =>
    have h1 := h ev (by simp)
    have h2 := ih (fun e he => h e (by simp [he]))
    have := deleteStoreCalls_append [ev] rest
    simpa [h1, h2] using this

theorem beginEvictCalls_nil (evs : List Event) (h : ∀ ev ∈ evs, beginEvictCalls [ev] = []) :
    beginEvictCalls evs = [] := by
  induction evs with
  | nil => rfl
  | cons ev rest ih =>
    have h1 := h ev (by simp)
    have h2 := ih (fun e he => h e (by simp [he]))
    have := beginEvictCalls_append [ev] rest
    simpa [h1, h2] using this

theorem annotatesPVC_nil (evs : List Event) (h : ∀ ev ∈ evs, marksClaim ev = false) :
    annotatesPVC evs = false := by
  simp only [annotatesPVC, List.any_eq_false]
  intro ev hev
  simp [h ev hev]

/-- The events of a call that ends with the event `ev` after the events `pre` and
`evs`. -/
theorem since_mark (w : World σ) (w2 : World σ) (pre evs : List Event) (ev : Event)
    (h : w2.trace = (w.trace ++ pre) ++ evs) :
    (w2.mark ev).since w = pre ++ evs ++ [ev] := by
  apply since_of_trace
  simp [mark_trace, h]

/-- A `scaleInOne` call that got past `UpdateMetaInfo` returns what the rest of the
function returns. -/
theorem scaleInOne_of_synced (d : Deps σ) (tc : TidbCluster) (skipPreCheck : Bool)
    (up deleted maxReplicas ordinal : Int) (currentTime : Time) (w : World σ)
    (pod0 : Pod) (st1 : σ) (pod : Pod) (st2 : σ)
    (h0 : d.podGet tc.Namespace (d.ordinalPodName TiKVMemberType tc.Name ordinal) w.st
      = (.ok pod0, st1))
    (hpass : (preCheckStep d tc skipPreCheck (d.ordinalPodName TiKVMemberType tc.Name ordinal)
      up deleted maxReplicas w).1 = true)
    (h2 : d.updateMetaInfo tc pod0 st1 = (.ok pod, st2)) :
    scaleInOne d tc skipPreCheck up deleted maxReplicas ordinal currentTime w
      = ((scaleInSynced d tc (d.ordinalPodName TiKVMemberType tc.Name ordinal) pod currentTime
            { st := st2, trace := w.trace ++
              [.enterScaleInOne skipPreCheck up deleted maxReplicas ordinal,
                .podGet tc.Namespace (d.ordinalPodName TiKVMemberType tc.Name ordinal),
                .updateMetaInfo pod0.Name] }).1,
          (scaleInSynced d tc (d.ordinalPodName TiKVMemberType tc.Name ordinal) pod currentTime
            { st := st2, trace := w.trace ++
              [.enterScaleInOne skipPreCheck up deleted maxReplicas ordinal,
                .podGet tc.Namespace (d.ordinalPodName TiKVMemberType tc.Name ordinal),
                .updateMetaInfo pod0.Name] }).2.mark
            (.exitScaleInOne ordinal
              (scaleInSynced d tc (d.ordinalPodName TiKVMemberType tc.Name ordinal) pod
                currentTime
                { st := st2, trace := w.trace ++
                  [.enterScaleInOne skipPreCheck up deleted maxReplicas ordinal,
                    .podGet tc.Namespace (d.ordinalPodName TiKVMemberType tc.Name ordinal),
                    .updateMetaInfo pod0.Name] }).1.1
              (scaleInSynced d tc (d.ordinalPodName TiKVMemberType tc.Name ordinal) pod
                currentTime
                { st := st2, trace := w.trace ++
                  [.enterScaleInOne skipPreCheck up deleted maxReplicas ordinal,
                    .podGet tc.Namespace (d.ordinalPodName TiKVMemberType tc.Name ordinal),
                    .updateMetaInfo pod0.Name] }).1.2.isNone)) := by
  have hw : (w.mark (.enterScaleInOne skipPreCheck up deleted maxReplicas ordinal)).st = w.st :=
    rfl
  have hpass2 : (preCheckStep d tc skipPreCheck
      (d.ordinalPodName TiKVMemberType tc.Name ordinal) up deleted maxReplicas
      (w.mark (.enterScaleInOne skipPreCheck up deleted maxReplicas ordinal))).1 = true := by
    rw [preCheckStep_fst_world d tc skipPreCheck _ up deleted maxReplicas _ w]
    exact hpass
  rw [scaleInOne_eq]
  rcases scaleInOneBody_inv d tc skipPreCheck up deleted maxReplicas ordinal currentTime
    (w.mark (.enterScaleInOne skipPreCheck up deleted maxReplicas ordinal)) with
    ⟨e, s1, h, _⟩ | ⟨p0, s1, h, hs, hrej, _⟩ | ⟨p0, s1, e, s2, h, _, hu, _⟩ |
    ⟨p0, s1, pd, s2, h, _, hu, hb⟩
  · rw [hw, h0] at h
    cases h
  · subst hs
    simp only [preCheckStep, Bool.false_eq_true, if_false] at hpass2
    rw [hrej] at hpass2
    cases hpass2
  · rw [hw, h0] at h
    cases h
    rw [h2] at hu
    cases hu
  · rw [hw, h0] at h
    cases h
    rw [h2] at hu
    cases hu
    rw [hb]
    simp [mark_trace]

/-- The block `if !leaderEvictedOrTimeout` does nothing once the leaders are
evicted or the timeout has passed. -/
theorem evictLeaderStep_true (d : Deps σ) (tc : TidbCluster) (id : Nat) (w : World σ) :
    evictLeaderStep d tc id true w = (none, w) := by
  simp [evictLeaderStep]

/-- The paths of the block `if !leaderEvictedOrTimeout` while the leaders are not
evicted and the timeout has not passed. -/
theorem evictLeaderStep_false (d : Deps σ) (tc : TidbCluster) (id : Nat) (w : World σ) :
    (∃ e st4, d.pdGetEvictLeaderSchedulersForStores tc id w.st = (.error e, st4) ∧
      evictLeaderStep d tc id false w
        = (some (.wrapf "cannot get scheduler of store %v: %w" e),
            { st := st4, trace := w.trace ++ [.pdGetEvictLeaderSchedulersForStores id] })) ∨
    (∃ m st4, d.pdGetEvictLeaderSchedulersForStores tc id w.st = (.ok m, st4) ∧
      (m.lookup id).isNone = false ∧
      evictLeaderStep d tc id false w
        = (none,
            { st := st4, trace := w.trace ++ [.pdGetEvictLeaderSchedulersForStores id] })) ∨
    (∃ m st4 e st5, d.pdGetEvictLeaderSchedulersForStores tc id w.st = (.ok m, st4) ∧
      (m.lookup id).isNone = true ∧ d.pdBeginEvictLeader tc id st4 = (some e, st5) ∧
      evictLeaderStep d tc id false w
        = (some (.wrapf "cannot evict leaders of store %v: %w" e),
            { st := st5, trace := w.trace ++
              [.pdGetEvictLeaderSchedulersForStores id, .pdBeginEvictLeader id] })) ∨
    (∃ m st4 st5, d.pdGetEvictLeaderSchedulersForStores tc id w.st = (.ok m, st4) ∧
      (m.lookup id).isNone = true ∧ d.pdBeginEvictLeader tc id st4 = (none, st5) ∧
      evictLeaderStep d tc id false w
        = (none,
            { st := st5, trace := w.trace ++
              [.pdGetEvictLeaderSchedulersForStores id, .pdBeginEvictLeader id] })) := by
  rcases hg : d.pdGetEvictLeaderSchedulersForStores tc id w.st with ⟨r, st4⟩
  cases r with
  | error e =>
    exact Or.inl ⟨e, st4, rfl, by simp [evictLeaderStep, World.call, hg]⟩
  | ok m =>
    cases hm : (m.lookup id).isNone with
    | false =>
      exact Or.inr (Or.inl ⟨m, st4, rfl, hm, by simp [evictLeaderStep, World.call, hg, hm]⟩)
    | true =>
      rcases hb : d.pdBeginEvictLeader tc id st4 with ⟨r2, st5⟩
      cases r2 with
      | some e =>
        exact Or.inr (Or.inr (Or.inl ⟨m, st4, e, st5, rfl, hm, hb,
          by simp [evictLeaderStep, World.call, hg, hm, hb]⟩))
      | none =>
        exact Or.inr (Or.inr (Or.inr ⟨m, st4, st5, rfl, hm, hb,
          by simp [evictLeaderStep, World.call, hg, hm, hb]⟩))

/-- The block that removes the store does nothing for an Offline store and
while the leaders are neither evicted nor timed out. -/
theorem deleteStoreStep_skip (d : Deps σ) (tc : TidbCluster) (id : Nat) (state : String)
    (b : Bool) (w : World σ) (h : state = TiKVStateOffline ∨ b = false) :
    deleteStoreStep d tc id state b w
      = ((0, some (controller.RequeueErrorf
          "TiKV %s/%s store %d is still in cluster, state: %s")), w) := by
  have : ¬ (state ≠ TiKVStateOffline ∧ b = true) := by
    rintro ⟨h1, h2⟩
    rcases h with h | h
    · exact h1 h
    · rw [h] at h2
      cases h2
  simp [deleteStoreStep, this]

/-- The block that removes the store calls `DeleteStore` once for a store that is
not Offline when the leaders are evicted or timed out. -/
theorem deleteStoreStep_call (d : Deps σ) (tc : TidbCluster) (id : Nat) (state : String)
    (w : World σ) (h : state ≠ TiKVStateOffline) :
    (∃ e st, d.pdDeleteStore tc id w.st = (some e, st) ∧
      deleteStoreStep d tc id state true w
        = ((0, some e), { st := st, trace := w.trace ++ [.pdDeleteStore id] })) ∨
    (∃ st, d.pdDeleteStore tc id w.st = (none, st) ∧
      deleteStoreStep d tc id state true w
        = ((if state = TiKVStateUp then 1 else 0,
            some (controller.RequeueErrorf
              "TiKV %s/%s store %d is still in cluster, state: %s")),
          { st := st, trace := w.trace ++ [.pdDeleteStore id] })) := by
  rcases hd : d.pdDeleteStore tc id w.st with ⟨r, st⟩
  cases r with
  | some e => exact Or.inl ⟨e, st, rfl, by simp [deleteStoreStep, h, World.call, hd]⟩
  | none => exact Or.inr ⟨st, rfl, by simp [deleteStoreStep, h, World.call, hd]⟩

/-- The body of the loop over the stores once the scale-in time is recorded on the
pod, when the eviction block fails. -/
theorem scaleInStore_evict_failed (d : Deps σ) (tc : TidbCluster) (pod : Pod)
    (currentTime : Time) (store : TiKVStore) (w : World σ) (id : Nat) (st3 : σ) (err : Err)
    (hl : mapIndex pod.Labels d.StoreIDLabelKey ≠ "")
    (hp : parseUint store.ID = some id)
    (he : d.ensureScaleInTimeAnnoInPod tc pod
      (d.formatRFC3339 (scaleInStartTime d pod currentTime)) w.st = (none, st3))
    (hE : (evictLeaderStep d tc id
      (leaderEvictedOrTimeout (scaleInStartTime d pod currentTime) currentTime store)
      { st := st3, trace := w.trace ++
        [.ensureScaleInTimeAnnoInPod pod.Name
          (d.formatRFC3339 (scaleInStartTime d pod currentTime))] }).1 = some err) :
    scaleInStore d tc pod currentTime store w
      = ((0, some err), (evictLeaderStep d tc id
          (leaderEvictedOrTimeout (scaleInStartTime d pod currentTime) currentTime store)
          { st := st3, trace := w.trace ++
            [.ensureScaleInTimeAnnoInPod pod.Name
              (d.formatRFC3339 (scaleInStartTime d pod currentTime))] }).2) := by
  simp only [scaleInStore, hl, if_false, hp, World.call, he]
  split
  · rename_i e w2 heq
    rw [heq] at hE
    cases hE
    rw [heq]
  · rename_i w2 heq
    rw [heq] at hE
    cases hE

/-- The body of the loop over the stores once the scale-in time is recorded on the
pod, when the eviction block succeeds: the removal block follows. -/
theorem scaleInStore_evict_done (d : Deps σ) (tc : TidbCluster) (pod : Pod)
    (currentTime : Time) (store : TiKVStore) (w : World σ) (id : Nat) (st3 : σ)
    (hl : mapIndex pod.Labels d.StoreIDLabelKey ≠ "")
    (hp : parseUint store.ID = some id)
    (he : d.ensureScaleInTimeAnnoInPod tc pod
      (d.formatRFC3339 (scaleInStartTime d pod currentTime)) w.st = (none, st3))
    (hE : (evictLeaderStep d tc id
      (leaderEvictedOrTimeout (scaleInStartTime d pod currentTime) currentTime store)
      { st := st3, trace := w.trace ++
        [.ensureScaleInTimeAnnoInPod pod.Name
          (d.formatRFC3339 (scaleInStartTime d pod currentTime))] }).1 = none) :
    scaleInStore d tc pod currentTime store w
      = deleteStoreStep d tc id store.State
          (leaderEvictedOrTimeout (scaleInStartTime d pod currentTime) currentTime store)
          (evictLeaderStep d tc id
            (leaderEvictedOrTimeout (scaleInStartTime d pod currentTime) currentTime store)
            { st := st3, trace := w.trace ++
              [.ensureScaleInTimeAnnoInPod pod.Name
                (d.formatRFC3339 (scaleInStartTime d pod currentTime))] }).2 := by
  simp only [scaleInStore, hl, if_false, hp, World.call, he]
  split
  · rename_i e w2 heq
    rw [heq] at hE
    cases hE
  · rename_i w2 heq
    rw [heq]

/-- The result and the events of a `scaleInOne` call that got past
`UpdateMetaInfo`, from the result and the events of the rest of the function. -/
theorem scaleInOne_of_synced_result (d : Deps σ) (tc : TidbCluster) (skipPreCheck : Bool)
    (up deleted maxReplicas ordinal : Int) (currentTime : Time) (w : World σ)
    (pod0 : Pod) (st1 : σ) (pod : Pod) (st2 : σ)
    (h0 : d.podGet tc.Namespace (d.ordinalPodName TiKVMemberType tc.Name ordinal) w.st
      = (.ok pod0, st1))
    (hpass : (preCheckStep d tc skipPreCheck (d.ordinalPodName TiKVMemberType tc.Name ordinal)
      up deleted maxReplicas w).1 = true)
    (h2 : d.updateMetaInfo tc pod0 st1 = (.ok pod, st2))
    (res : Int × Option Err) (st : σ) (evs : List Event)
    (hS : scaleInSynced d tc (d.ordinalPodName TiKVMemberType tc.Name ordinal) pod currentTime
        { st := st2, trace := w.trace ++
          [.enterScaleInOne skipPreCheck up deleted maxReplicas ordinal,
            .podGet tc.Namespace (d.ordinalPodName TiKVMemberType tc.Name ordinal),
            .updateMetaInfo pod0.Name] }
      = (res, { st := st, trace := (w.trace ++
          [.enterScaleInOne skipPreCheck up deleted maxReplicas ordinal,
            .podGet tc.Namespace (d.ordinalPodName TiKVMemberType tc.Name ordinal),
            .updateMetaInfo pod0.Name]) ++ evs })) :
    (scaleInOne d tc skipPreCheck up deleted maxReplicas ordinal currentTime w).1 = res ∧
    (scaleInOne d tc skipPreCheck up deleted maxReplicas ordinal currentTime w).2.st = st ∧
    (scaleInOne d tc skipPreCheck up deleted maxReplicas ordinal currentTime w).2.since w
      = [.enterScaleInOne skipPreCheck up deleted maxReplicas ordinal,
          .podGet tc.Namespace (d.ordinalPodName TiKVMemberType tc.Name ordinal),
          .updateMetaInfo pod0.Name] ++ evs ++
        [.exitScaleInOne ordinal res.1 res.2.isNone] := by
  rw [scaleInOne_of_synced d tc skipPreCheck up deleted maxReplicas ordinal currentTime w
    pod0 st1 pod st2 h0 hpass h2, hS]
  refine ⟨rfl, rfl, ?_⟩
  exact since_mark w _ _ evs _ rfl

/-- The paths of the body of the loop over the stores once the scale-in time is
recorded on the pod, each with its result and its events. -/
theorem scaleInStore_cases (d : Deps σ) (tc : TidbCluster) (pod : Pod) (currentTime : Time)
    (store : TiKVStore) (w : World σ) (id : Nat) (st3 : σ)
    (hl : mapIndex pod.Labels d.StoreIDLabelKey ≠ "")
    (hp : parseUint store.ID = some id)
    (he : d.ensureScaleInTimeAnnoInPod tc pod
      (d.formatRFC3339 (scaleInStartTime d pod currentTime)) w.st = (none, st3)) :
    ∃ res st tail,
      scaleInStore d tc pod currentTime store w
        = (res, { st := st, trace := w.trace ++
            (.ensureScaleInTimeAnnoInPod pod.Name
              (d.formatRFC3339 (scaleInStartTime d pod currentTime)) :: tail) }) ∧
      ((leaderEvictedOrTimeout (scaleInStartTime d pod currentTime) currentTime store = true ∧
          store.State = TiKVStateOffline ∧ tail = [] ∧ st = st3 ∧
          res = (0, some (controller.RequeueErrorf
            "TiKV %s/%s store %d is still in cluster, state: %s"))) ∨
        (leaderEvictedOrTimeout (scaleInStartTime d pod currentTime) currentTime store = true ∧
          store.State ≠ TiKVStateOffline ∧ tail = [.pdDeleteStore id] ∧
          ∃ e, d.pdDeleteStore tc id st3 = (some e, st) ∧ res = (0, some e)) ∨
        (leaderEvictedOrTimeout (scaleInStartTime d pod currentTime) currentTime store = true ∧
          store.State ≠ TiKVStateOffline ∧ tail = [.pdDeleteStore id] ∧
          d.pdDeleteStore tc id st3 = (none, st) ∧
          res = (if store.State = TiKVStateUp then 1 else 0,
            some (controller.RequeueErrorf
              "TiKV %s/%s store %d is still in cluster, state: %s"))) ∨
        (leaderEvictedOrTimeout (scaleInStartTime d pod currentTime) currentTime store = false ∧
          tail = [.pdGetEvictLeaderSchedulersForStores id] ∧
          ∃ e, d.pdGetEvictLeaderSchedulersForStores tc id st3 = (.error e, st) ∧
            res = (0, some (.wrapf "cannot get scheduler of store %v: %w" e))) ∨
        (leaderEvictedOrTimeout (scaleInStartTime d pod currentTime) currentTime store = false ∧
          tail = [.pdGetEvictLeaderSchedulersForStores id] ∧
          ∃ m, d.pdGetEvictLeaderSchedulersForStores tc id st3 = (.ok m, st) ∧
            (m.lookup id).isNone = false ∧
            res = (0, some (controller.RequeueErrorf
              "TiKV %s/%s store %d is still in cluster, state: %s"))) ∨
        (leaderEvictedOrTimeout (scaleInStartTime d pod currentTime) currentTime store = false ∧
          tail = [.pdGetEvictLeaderSchedulersForStores id, .pdBeginEvictLeader id] ∧
          ∃ m st4 e, d.pdGetEvictLeaderSchedulersForStores tc id st3 = (.ok m, st4) ∧
            (m.lookup id).isNone = true ∧ d.pdBeginEvictLeader tc id st4 = (some e, st) ∧
            res = (0, some (.wrapf "cannot evict leaders of store %v: %w" e))) ∨
        (leaderEvictedOrTimeout (scaleInStartTime d pod currentTime) currentTime store = false ∧
          tail = [.pdGetEvictLeaderSchedulersForStores id, .pdBeginEvictLeader id] ∧
          ∃ m st4, d.pdGetEvictLeaderSchedulersForStores tc id st3 = (.ok m, st4) ∧
            (m.lookup id).isNone = true ∧ d.pdBeginEvictLeader tc id st4 = (none, st) ∧
            res = (0, some (controller.RequeueErrorf
              "TiKV %s/%s store %d is still in cluster, state: %s")))) := by
  cases hb : leaderEvictedOrTimeout (scaleInStartTime d pod currentTime) currentTime store with
  | true =>
    have hE := evictLeaderStep_true d tc id
      ({ st := st3, trace := w.trace ++
        [.ensureScaleInTimeAnnoInPod pod.Name
          (d.formatRFC3339 (scaleInStartTime d pod currentTime))] } : World σ)
    have hS := scaleInStore_evict_done d tc pod currentTime store w id st3 hl hp he
      (by rw [hb, hE])
    rw [hb, hE] at hS
    by_cases hoff : store.State = TiKVStateOffline
    · rw [deleteStoreStep_skip d tc id store.State true _ (Or.inl hoff)] at hS
      exact ⟨_, st3, [], hS, Or.inl ⟨rfl, hoff, rfl, rfl, rfl⟩⟩
    · rcases deleteStoreStep_call d tc id store.State
        ({ st := st3, trace := w.trace ++
          [.ensureScaleInTimeAnnoInPod pod.Name
            (d.formatRFC3339 (scaleInStartTime d pod currentTime))] } : World σ) hoff with
        ⟨e, st4, hd, hD⟩ | ⟨st4, hd, hD⟩
      · rw [hD] at hS
        exact ⟨_, st4, [.pdDeleteStore id], by rw [hS]; simp,
          Or.inr (Or.inl ⟨rfl, hoff, rfl, e, hd, rfl⟩)⟩
      · rw [hD] at hS
        exact ⟨_, st4, [.pdDeleteStore id], by rw [hS]; simp,
          Or.inr (Or.inr (Or.inl ⟨rfl, hoff, rfl, hd, rfl⟩))⟩
  | false =>
    rcases evictLeaderStep_false d tc id
      ({ st := st3, trace := w.trace ++
        [.ensureScaleInTimeAnnoInPod pod.Name
          (d.formatRFC3339 (scaleInStartTime d pod currentTime))] } : World σ) with
      ⟨e, st4, hg, hE⟩ | ⟨m, st4, hg, hm, hE⟩ | ⟨m, st4, e, st5, hg, hm, hbg, hE⟩ |
      ⟨m, st4, st5, hg, hm, hbg, hE⟩
    · have hS := scaleInStore_evict_failed d tc pod currentTime store w id st3 _ hl hp he
        (by rw [hb, hE])
      rw [hb, hE] at hS
      exact ⟨_, st4, [.pdGetEvictLeaderSchedulersForStores id], by rw [hS]; simp,
        Or.inr (Or.inr (Or.inr (Or.inl ⟨rfl, rfl, e, hg, rfl⟩)))⟩
    · have hS := scaleInStore_evict_done d tc pod currentTime store w id st3 hl hp he
        (by rw [hb, hE])
      rw [hb, hE, deleteStoreStep_skip d tc id store.State false _ (Or.inr rfl)] at hS
      exact ⟨_, st4, [.pdGetEvictLeaderSchedulersForStores id], by rw [hS]; simp,
        Or.inr (Or.inr (Or.inr (Or.inr (Or.inl ⟨rfl, rfl, m, hg, hm, rfl⟩))))⟩
    · have hS := scaleInStore_evict_failed d tc pod currentTime store w id st3 _ hl hp he
        (by rw [hb, hE])
      rw [hb, hE] at hS
      exact ⟨_, st5, [.pdGetEvictLeaderSchedulersForStores id, .pdBeginEvictLeader id],
        by rw [hS]; simp,
        Or.inr (Or.inr (Or.inr (Or.inr (Or.inr (Or.inl
          ⟨rfl, rfl, m, st4, e, hg, hm, hbg, rfl⟩)))))⟩
    · have hS := scaleInStore_evict_done d tc pod currentTime store w id st3 hl hp he
        (by rw [hb, hE])
      rw [hb, hE, deleteStoreStep_skip d tc id store.State false _ (Or.inr rfl)] at hS
      exact ⟨_, st5, [.pdGetEvictLeaderSchedulersForStores id, .pdBeginEvictLeader id],
        by rw [hS]; simp,
        Or.inr (Or.inr (Or.inr (Or.inr (Or.inr (Or.inr
          ⟨rfl, rfl, m, st4, hg, hm, hbg, rfl⟩)))))⟩

/-- The four ways a `scaleInOne` call goes up to `UpdateMetaInfo`: the pod is not
found, the quorum pre-check rejects, `UpdateMetaInfo` fails, or the call gets past
`UpdateMetaInfo`. The first three come with their result and their events. -/
theorem scaleInOne_cases (d : Deps σ) (tc : TidbCluster) (skipPreCheck : Bool)
    (up deleted maxReplicas ordinal : Int) (currentTime : Time) (w : World σ) :
    (∃ e st1,
      d.podGet tc.Namespace (d.ordinalPodName TiKVMemberType tc.Name ordinal) w.st
        = (.error e, st1) ∧
      (scaleInOne d tc skipPreCheck up deleted maxReplicas ordinal currentTime w).1
        = (0, some (.errorf
            "tikvScaler.ScaleIn: failed to get pods %s for cluster %s/%s, error: %s")) ∧
      (scaleInOne d tc skipPreCheck up deleted maxReplicas ordinal currentTime w).2.since w
        = [.enterScaleInOne skipPreCheck up deleted maxReplicas ordinal,
            .podGet tc.Namespace (d.ordinalPodName TiKVMemberType tc.Name ordinal),
            .exitScaleInOne ordinal 0 false]) ∨
    (∃ pod0 st1,
      d.podGet tc.Namespace (d.ordinalPodName TiKVMemberType tc.Name ordinal) w.st
        = (.ok pod0, st1) ∧
      skipPreCheck = false ∧
      (preCheckUpStores d tc (d.ordinalPodName TiKVMemberType tc.Name ordinal) up deleted
        maxReplicas w).1 = false ∧
      (scaleInOne d tc skipPreCheck up deleted maxReplicas ordinal currentTime w).1
        = (0, some (.errorf
            "tikvScaler.ScaleIn: failed to pass up stores check , pod %s, cluster %s/%s")) ∧
      (scaleInOne d tc skipPreCheck up deleted maxReplicas ordinal currentTime w).2.since w
        = [.enterScaleInOne skipPreCheck up deleted maxReplicas ordinal,
            .podGet tc.Namespace (d.ordinalPodName TiKVMemberType tc.Name ordinal),
            .recorderEvent "Warning" "FailedScaleIn",
            .exitScaleInOne ordinal 0 false]) ∨
    (∃ pod0 st1 e st2,
      d.podGet tc.Namespace (d.ordinalPodName TiKVMemberType tc.Name ordinal) w.st
        = (.ok pod0, st1) ∧
      (preCheckStep d tc skipPreCheck (d.ordinalPodName TiKVMemberType tc.Name ordinal) up
        deleted maxReplicas w).1 = true ∧
      d.updateMetaInfo tc pod0 st1 = (.error e, st2) ∧
      (scaleInOne d tc skipPreCheck up deleted maxReplicas ordinal currentTime w).1
        = (0, none) ∧
      (scaleInOne d tc skipPreCheck up deleted maxReplicas ordinal currentTime w).2.since w
        = [.enterScaleInOne skipPreCheck up deleted maxReplicas ordinal,
            .podGet tc.Namespace (d.ordinalPodName TiKVMemberType tc.Name ordinal),
            .updateMetaInfo pod0.Name,
            .exitScaleInOne ordinal 0 true]) ∨
    (∃ pod st2, MetaInfoUpdated d tc skipPreCheck up deleted maxReplicas ordinal w pod st2) := by
  have hw : (w.mark (.enterScaleInOne skipPreCheck up deleted maxReplicas ordinal)).st = w.st :=
    rfl
  rcases scaleInOneBody_inv d tc skipPreCheck up deleted maxReplicas ordinal currentTime
    (w.mark (.enterScaleInOne skipPreCheck up deleted maxReplicas ordinal)) with
    ⟨e, s1, h, hb⟩ | ⟨p0, s1, h, hs, hrej, hb⟩ | ⟨p0, s1, e, s2, h, hpass, hu, hb⟩ |
    ⟨p0, s1, pd, s2, h, hpass, hu, _⟩
  · obtain ⟨h1, _, h3⟩ := scaleInOne_of_body d tc skipPreCheck up deleted maxReplicas ordinal
      currentTime w _ _ _ hb
    exact Or.inl ⟨e, s1, h, h1, by rw [h3]; rfl⟩
  · obtain ⟨h1, _, h3⟩ := scaleInOne_of_body d tc skipPreCheck up deleted maxReplicas ordinal
      currentTime w _ _ _ hb
    refine Or.inr (Or.inl ⟨p0, s1, h, hs, ?_, h1, by rw [h3]; rfl⟩)
    rw [preCheckUpStores_fst_world d tc _ up deleted maxReplicas w
      (w.mark (.enterScaleInOne skipPreCheck up deleted maxReplicas ordinal))]
    exact hrej
  · obtain ⟨h1, _, h3⟩ := scaleInOne_of_body d tc skipPreCheck up deleted maxReplicas ordinal
      currentTime w _ _ _ hb
    refine Or.inr (Or.inr (Or.inl ⟨p0, s1, e, s2, h, ?_, hu, h1, by rw [h3]; rfl⟩))
    rw [preCheckStep_fst_world d tc skipPreCheck _ up deleted maxReplicas w
      (w.mark (.enterScaleInOne skipPreCheck up deleted maxReplicas ordinal))]
    exact hpass
  · refine Or.inr (Or.inr (Or.inr ⟨pd, s2, p0, s1, h, ?_, hu⟩))
    rw [preCheckStep_fst_world d tc skipPreCheck _ up deleted maxReplicas w
      (w.mark (.enterScaleInOne skipPreCheck up deleted maxReplicas ordinal))]
    exact hpass

/-- The result and the events of a `scaleInOne` call that reached the removal of a
store: after the lookup of the pod, `UpdateMetaInfo` and the scale-in time, one of
the seven paths of the eviction block and the removal block. -/
theorem scaleInOne_started (d : Deps σ) (tc : TidbCluster) (skipPreCheck : Bool)
    (up deleted maxReplicas ordinal : Int) (currentTime : Time) (w : World σ) (pod : Pod)
    (store : TiKVStore) (id : Nat) (st3 : σ)
    (hS : StoreRemovalStarted d tc skipPreCheck up deleted maxReplicas ordinal currentTime w pod
      store id st3) :
    ∃ pod0 tail,
      (scaleInOne d tc skipPreCheck up deleted maxReplicas ordinal currentTime w).2.since w
        = [.enterScaleInOne skipPreCheck up deleted maxReplicas ordinal,
            .podGet tc.Namespace (d.ordinalPodName TiKVMemberType tc.Name ordinal),
            .updateMetaInfo pod0,
            .ensureScaleInTimeAnnoInPod pod.Name
              (d.formatRFC3339 (scaleInStartTime d pod currentTime))] ++ tail ++
          [.exitScaleInOne ordinal
            (scaleInOne d tc skipPreCheck up deleted maxReplicas ordinal currentTime w).1.1
            false] ∧
      ((leaderEvictedOrTimeout (scaleInStartTime d pod currentTime) currentTime store = true ∧
          store.State = TiKVStateOffline ∧ tail = [] ∧
          (scaleInOne d tc skipPreCheck up deleted maxReplicas ordinal currentTime w).2.st
            = st3 ∧
          (scaleInOne d tc skipPreCheck up deleted maxReplicas ordinal currentTime w).1
            = (0, some (controller.RequeueErrorf
              "TiKV %s/%s store %d is still in cluster, state: %s"))) ∨
        (leaderEvictedOrTimeout (scaleInStartTime d pod currentTime) currentTime store = true ∧
          store.State ≠ TiKVStateOffline ∧ tail = [.pdDeleteStore id] ∧
          ∃ e, d.pdDeleteStore tc id st3
              = (some e, (scaleInOne d tc skipPreCheck up deleted maxReplicas ordinal
                  currentTime w).2.st) ∧
            (scaleInOne d tc skipPreCheck up deleted maxReplicas ordinal currentTime w).1
              = (0, some e)) ∨
        (leaderEvictedOrTimeout (scaleInStartTime d pod currentTime) currentTime store = true ∧
          store.State ≠ TiKVStateOffline ∧ tail = [.pdDeleteStore id] ∧
          d.pdDeleteStore tc id st3
            = (none, (scaleInOne d tc skipPreCheck up deleted maxReplicas ordinal
                currentTime w).2.st) ∧
          (scaleInOne d tc skipPreCheck up deleted maxReplicas ordinal currentTime w).1
            = (if store.State = TiKVStateUp then 1 else 0,
              some (controller.RequeueErrorf
                "TiKV %s/%s store %d is still in cluster, state: %s"))) ∨
        (leaderEvictedOrTimeout (scaleInStartTime d pod currentTime) currentTime store = false ∧
          tail = [.pdGetEvictLeaderSchedulersForStores id] ∧
          ∃ e, d.pdGetEvictLeaderSchedulersForStores tc id st3
              = (.error e, (scaleInOne d tc skipPreCheck up deleted maxReplicas ordinal
                  currentTime w).2.st) ∧
            (scaleInOne d tc skipPreCheck up deleted maxReplicas ordinal currentTime w).1
              = (0, some (.wrapf "cannot get scheduler of store %v: %w" e))) ∨
        (leaderEvictedOrTimeout (scaleInStartTime d pod currentTime) currentTime store = false ∧
          tail = [.pdGetEvictLeaderSchedulersForStores id] ∧
          ∃ m, d.pdGetEvictLeaderSchedulersForStores tc id st3
              = (.ok m, (scaleInOne d tc skipPreCheck up deleted maxReplicas ordinal
                  currentTime w).2.st) ∧
            (m.lookup id).isNone = false ∧
            (scaleInOne d tc skipPreCheck up deleted maxReplicas ordinal currentTime w).1
              = (0, some (controller.RequeueErrorf
                "TiKV %s/%s store %d is still in cluster, state: %s"))) ∨
        (leaderEvictedOrTimeout (scaleInStartTime d pod currentTime) currentTime store = false ∧
          tail = [.pdGetEvictLeaderSchedulersForStores id, .pdBeginEvictLeader id] ∧
          ∃ m st4 e, d.pdGetEvictLeaderSchedulersForStores tc id st3 = (.ok m, st4) ∧
            (m.lookup id).isNone = true ∧
            d.pdBeginEvictLeader tc id st4
              = (some e, (scaleInOne d tc skipPreCheck up deleted maxReplicas ordinal
                  currentTime w).2.st) ∧
            (scaleInOne d tc skipPreCheck up deleted maxReplicas ordinal currentTime w).1
              = (0, some (.wrapf "cannot evict leaders of store %v: %w" e))) ∨
        (leaderEvictedOrTimeout (scaleInStartTime d pod currentTime) currentTime store = false ∧
          tail = [.pdGetEvictLeaderSchedulersForStores id, .pdBeginEvictLeader id] ∧
          ∃ m st4, d.pdGetEvictLeaderSchedulersForStores tc id st3 = (.ok m, st4) ∧
            (m.lookup id).isNone = true ∧
            d.pdBeginEvictLeader tc id st4
              = (none, (scaleInOne d tc skipPreCheck up deleted maxReplicas ordinal
                  currentTime w).2.st) ∧
            (scaleInOne d tc skipPreCheck up deleted maxReplicas ordinal currentTime w).1
              = (0, some (controller.RequeueErrorf
                "TiKV %s/%s store %d is still in cluster, state: %s")))) := by
  obtain ⟨st2, ⟨pod0, st1, h0, hpass, h2⟩, ⟨pre, k, post, hsplit, hpre, hname⟩, hl, hp, he⟩ := hS
  obtain ⟨res, st, tail, hStore, hcases⟩ := scaleInStore_cases d tc pod currentTime store
    ({ st := st2, trace := w.trace ++
      [.enterScaleInOne skipPreCheck up deleted maxReplicas ordinal,
        .podGet tc.Namespace (d.ordinalPodName TiKVMemberType tc.Name ordinal),
        .updateMetaInfo pod0.Name] } : World σ) id st3 hl hp he
  have hSync : scaleInSynced d tc (d.ordinalPodName TiKVMemberType tc.Name ordinal) pod
      currentTime
      { st := st2, trace := w.trace ++
        [.enterScaleInOne skipPreCheck up deleted maxReplicas ordinal,
          .podGet tc.Namespace (d.ordinalPodName TiKVMemberType tc.Name ordinal),
          .updateMetaInfo pod0.Name] }
      = (res, { st := st, trace := (w.trace ++
          [.enterScaleInOne skipPreCheck up deleted maxReplicas ordinal,
            .podGet tc.Namespace (d.ordinalPodName TiKVMemberType tc.Name ordinal),
            .updateMetaInfo pod0.Name]) ++
          (.ensureScaleInTimeAnnoInPod pod.Name
            (d.formatRFC3339 (scaleInStartTime d pod currentTime)) :: tail) }) := by
    rw [← hStore]
    simp only [scaleInSynced, hsplit]
    rw [scaleInStoresLoop_of_split d tc _ pod currentTime pre post k store _ hpre hname]
  obtain ⟨h1, hst, hev⟩ := scaleInOne_of_synced_result d tc skipPreCheck up deleted maxReplicas
    ordinal currentTime w pod0 st1 pod st2 h0 hpass h2 res st _ hSync
  have hnone : res.2.isNone = false := by
    rcases hcases with ⟨_, _, _, _, hr⟩ | ⟨_, _, _, e, _, hr⟩ | ⟨_, _, _, _, hr⟩ |
      ⟨_, _, e, _, hr⟩ | ⟨_, _, m, _, _, hr⟩ | ⟨_, _, m, st4, e, _, _, _, hr⟩ |
      ⟨_, _, m, st4, _, _, _, hr⟩ <;> rw [hr] <;> rfl
  refine ⟨pod0.Name, tail, ?_, ?_⟩
  · rw [hev, h1, hnone]
    simp
  · rw [h1, hst]
    exact hcases

/-- The paths of a `scaleInOne` call that got past `UpdateMetaInfo`: the entry of
the pod in the stores (with an empty label, an ID that does not parse, a failure to
record the scale-in time, or the removal of the store started), the tombstone
entry of the pod, or the end of the function. -/
theorem scaleInOne_paths (d : Deps σ) (tc : TidbCluster) (skipPreCheck : Bool)
    (up deleted maxReplicas ordinal : Int) (currentTime : Time) (w : World σ)
    (pod0 : Pod) (st1 : σ) (pod : Pod) (st2 : σ)
    (h0 : d.podGet tc.Namespace (d.ordinalPodName TiKVMemberType tc.Name ordinal) w.st
      = (.ok pod0, st1))
    (hpass : (preCheckStep d tc skipPreCheck (d.ordinalPodName TiKVMemberType tc.Name ordinal)
      up deleted maxReplicas w).1 = true)
    (h2 : d.updateMetaInfo tc pod0 st1 = (.ok pod, st2)) :
    (∃ store, FirstStoreOf tc (d.ordinalPodName TiKVMemberType tc.Name ordinal) store ∧
      ((mapIndex pod.Labels d.StoreIDLabelKey = "" ∧
          (scaleInOne d tc skipPreCheck up deleted maxReplicas ordinal currentTime w).1
            = (0, some (.errorf "StoreID not yet updated on pod label")) ∧
          (scaleInOne d tc skipPreCheck up deleted maxReplicas ordinal currentTime w).2.since w
            = [.enterScaleInOne skipPreCheck up deleted maxReplicas ordinal,
                .podGet tc.Namespace (d.ordinalPodName TiKVMemberType tc.Name ordinal),
                .updateMetaInfo pod0.Name, .exitScaleInOne ordinal 0 false]) ∨
        (mapIndex pod.Labels d.StoreIDLabelKey ≠ "" ∧ parseUint store.ID = none ∧
          (scaleInOne d tc skipPreCheck up deleted maxReplicas ordinal currentTime w).1
            = (0, some (.errorf "strconv.ParseUint: parsing %s: %v")) ∧
          (scaleInOne d tc skipPreCheck up deleted maxReplicas ordinal currentTime w).2.since w
            = [.enterScaleInOne skipPreCheck up deleted maxReplicas ordinal,
                .podGet tc.Namespace (d.ordinalPodName TiKVMemberType tc.Name ordinal),
                .updateMetaInfo pod0.Name, .exitScaleInOne ordinal 0 false]) ∨
        (mapIndex pod.Labels d.StoreIDLabelKey ≠ "" ∧
          ∃ id e st3, parseUint store.ID = some id ∧
            d.ensureScaleInTimeAnnoInPod tc pod
              (d.formatRFC3339 (scaleInStartTime d pod currentTime)) st2 = (some e, st3) ∧
            (scaleInOne d tc skipPreCheck up deleted maxReplicas ordinal currentTime w).1
              = (0, some (.wrapf "cannot add annotation to pod: %w" e)) ∧
            (scaleInOne d tc skipPreCheck up deleted maxReplicas ordinal currentTime
                w).2.since w
              = [.enterScaleInOne skipPreCheck up deleted maxReplicas ordinal,
                  .podGet tc.Namespace (d.ordinalPodName TiKVMemberType tc.Name ordinal),
                  .updateMetaInfo pod0.Name,
                  .ensureScaleInTimeAnnoInPod pod.Name
                    (d.formatRFC3339 (scaleInStartTime d pod currentTime)),
                  .exitScaleInOne ordinal 0 false]) ∨
        (∃ id st3, StoreRemovalStarted d tc skipPreCheck up deleted maxReplicas ordinal
          currentTime w pod store id st3))) ∨
    ((∀ kv ∈ tc.Status.Stores,
        kv.2.PodName ≠ d.ordinalPodName TiKVMemberType tc.Name ordinal) ∧
      ∃ pre k store post, tc.Status.TombstoneStores = pre ++ (k, store) :: post ∧
        (∀ kv ∈ pre, kv.2.PodName = d.ordinalPodName TiKVMemberType tc.Name ordinal →
          mapIndex pod.Labels d.StoreIDLabelKey ≠ kv.1) ∧
        store.PodName = d.ordinalPodName TiKVMemberType tc.Name ordinal ∧
        mapIndex pod.Labels d.StoreIDLabelKey = k ∧
        scaleInSynced d tc (d.ordinalPodName TiKVMemberType tc.Name ordinal) pod currentTime
            { st := st2, trace := w.trace ++
              [.enterScaleInOne skipPreCheck up deleted maxReplicas ordinal,
                .podGet tc.Namespace (d.ordinalPodName TiKVMemberType tc.Name ordinal),
                .updateMetaInfo pod0.Name] }
          = scaleInTombstone d tc pod currentTime store
            { st := st2, trace := w.trace ++
              [.enterScaleInOne skipPreCheck up deleted maxReplicas ordinal,
                .podGet tc.Namespace (d.ordinalPodName TiKVMemberType tc.Name ordinal),
                .updateMetaInfo pod0.Name] }) ∨
    ((∀ kv ∈ tc.Status.Stores,
        kv.2.PodName ≠ d.ordinalPodName TiKVMemberType tc.Name ordinal) ∧
      (∀ kv ∈ tc.Status.TombstoneStores,
        kv.2.PodName = d.ordinalPodName TiKVMemberType tc.Name ordinal →
          mapIndex pod.Labels d.StoreIDLabelKey ≠ kv.1) ∧
      scaleInSynced d tc (d.ordinalPodName TiKVMemberType tc.Name ordinal) pod currentTime
          { st := st2, trace := w.trace ++
            [.enterScaleInOne skipPreCheck up deleted maxReplicas ordinal,
              .podGet tc.Namespace (d.ordinalPodName TiKVMemberType tc.Name ordinal),
              .updateMetaInfo pod0.Name] }
        = scaleInNotFound d tc pod
          { st := st2, trace := w.trace ++
            [.enterScaleInOne skipPreCheck up deleted maxReplicas ordinal,
              .podGet tc.Namespace (d.ordinalPodName TiKVMemberType tc.Name ordinal),
              .updateMetaInfo pod0.Name] }) := by
  rcases scaleInSynced_inv d tc (d.ordinalPodName TiKVMemberType tc.Name ordinal) pod
    currentTime
    ({ st := st2, trace := w.trace ++
      [.enterScaleInOne skipPreCheck up deleted maxReplicas ordinal,
        .podGet tc.Namespace (d.ordinalPodName TiKVMemberType tc.Name ordinal),
        .updateMetaInfo pod0.Name] } : World σ) with
    ⟨pre, k, store, post, hsplit, hpre, hname, hEq⟩ | hT | hN
  · refine Or.inl ⟨store, ⟨pre, k, post, hsplit, hpre, hname⟩, ?_⟩
    by_cases hl : mapIndex pod.Labels d.StoreIDLabelKey = ""
    · have hS : scaleInSynced d tc (d.ordinalPodName TiKVMemberType tc.Name ordinal) pod
          currentTime
          { st := st2, trace := w.trace ++
            [.enterScaleInOne skipPreCheck up deleted maxReplicas ordinal,
              .podGet tc.Namespace (d.ordinalPodName TiKVMemberType tc.Name ordinal),
              .updateMetaInfo pod0.Name] }
          = ((0, some (.errorf "StoreID not yet updated on pod label")),
            { st := st2, trace := (w.trace ++
              [.enterScaleInOne skipPreCheck up deleted maxReplicas ordinal,
                .podGet tc.Namespace (d.ordinalPodName TiKVMemberType tc.Name ordinal),
                .updateMetaInfo pod0.Name]) ++ [] }) := by
        rw [hEq]
        simp [scaleInStore, hl]
      obtain ⟨h1, _, hev⟩ := scaleInOne_of_synced_result d tc skipPreCheck up deleted
        maxReplicas ordinal currentTime w pod0 st1 pod st2 h0 hpass h2 _ _ _ hS
      exact Or.inl ⟨hl, h1, by rw [hev]; rfl⟩
    · cases hp : parseUint store.ID with
      | none =>
        have hS : scaleInSynced d tc (d.ordinalPodName TiKVMemberType tc.Name ordinal) pod
            currentTime
            { st := st2, trace := w.trace ++
              [.enterScaleInOne skipPreCheck up deleted maxReplicas ordinal,
                .podGet tc.Namespace (d.ordinalPodName TiKVMemberType tc.Name ordinal),
                .updateMetaInfo pod0.Name] }
            = ((0, some (.errorf "strconv.ParseUint: parsing %s: %v")),
              { st := st2, trace := (w.trace ++
                [.enterScaleInOne skipPreCheck up deleted maxReplicas ordinal,
                  .podGet tc.Namespace (d.ordinalPodName TiKVMemberType tc.Name ordinal),
                  .updateMetaInfo pod0.Name]) ++ [] }) := by
          rw [hEq]
          simp [scaleInStore, hl, hp]
        obtain ⟨h1, _, hev⟩ := scaleInOne_of_synced_result d tc skipPreCheck up deleted
          maxReplicas ordinal currentTime w pod0 st1 pod st2 h0 hpass h2 _ _ _ hS
        exact Or.inr (Or.inl ⟨hl, rfl, h1, by rw [hev]; rfl⟩)
      | some id =>
        rcases he : d.ensureScaleInTimeAnnoInPod tc pod
          (d.formatRFC3339 (scaleInStartTime d pod currentTime)) st2 with ⟨r, st3⟩
        cases r with
        | some e =>
          have hS : scaleInSynced d tc (d.ordinalPodName TiKVMemberType tc.Name ordinal) pod
              currentTime
              { st := st2, trace := w.trace ++
                [.enterScaleInOne skipPreCheck up deleted maxReplicas ordinal,
                  .podGet tc.Namespace (d.ordinalPodName TiKVMemberType tc.Name ordinal),
                  .updateMetaInfo pod0.Name] }
              = ((0, some (.wrapf "cannot add annotation to pod: %w" e)),
                { st := st3, trace := (w.trace ++
                  [.enterScaleInOne skipPreCheck up deleted maxReplicas ordinal,
                    .podGet tc.Namespace (d.ordinalPodName TiKVMemberType tc.Name ordinal),
                    .updateMetaInfo pod0.Name]) ++
                  [.ensureScaleInTimeAnnoInPod pod.Name
                    (d.formatRFC3339 (scaleInStartTime d pod currentTime))] }) := by
            rw [hEq]
            simp [scaleInStore, hl, hp, World.call, he]
          obtain ⟨h1, _, hev⟩ := scaleInOne_of_synced_result d tc skipPreCheck up deleted
            maxReplicas ordinal currentTime w pod0 st1 pod st2 h0 hpass h2 _ _ _ hS
          exact Or.inr (Or.inr (Or.inl ⟨hl, id, e, st3, rfl, rfl, h1, by rw [hev]; rfl⟩))
        | none =>
          exact Or.inr (Or.inr (Or.inr ⟨id, st3, st2, ⟨pod0, st1, h0, hpass, h2⟩,
            ⟨pre, k, post, hsplit, hpre, hname⟩, hl, hp, he⟩))
  · exact Or.inr (Or.inl hT)
  · exact Or.inr (Or.inr hN)

/-- The result and the events of a `scaleInOne` call that got past
`UpdateMetaInfo`, when all that is known of the events of the rest of the function
is a property of each of them. -/
theorem scaleInOne_of_synced_emits (P : Event → Prop) (d : Deps σ) (tc : TidbCluster)
    (skipPreCheck : Bool) (up deleted maxReplicas ordinal : Int) (currentTime : Time)
    (w : World σ) (pod0 : Pod) (st1 : σ) (pod : Pod) (st2 : σ)
    (h0 : d.podGet tc.Namespace (d.ordinalPodName TiKVMemberType tc.Name ordinal) w.st
      = (.ok pod0, st1))
    (hpass : (preCheckStep d tc skipPreCheck (d.ordinalPodName TiKVMemberType tc.Name ordinal)
      up deleted maxReplicas w).1 = true)
    (h2 : d.updateMetaInfo tc pod0 st1 = (.ok pod, st2))
    (hE : Emits P
      { st := st2, trace := w.trace ++
        [.enterScaleInOne skipPreCheck up deleted maxReplicas ordinal,
          .podGet tc.Namespace (d.ordinalPodName TiKVMemberType tc.Name ordinal),
          .updateMetaInfo pod0.Name] }
      (scaleInSynced d tc (d.ordinalPodName TiKVMemberType tc.Name ordinal) pod currentTime
        { st := st2, trace := w.trace ++
          [.enterScaleInOne skipPreCheck up deleted maxReplicas ordinal,
            .podGet tc.Namespace (d.ordinalPodName TiKVMemberType tc.Name ordinal),
            .updateMetaInfo pod0.Name] }).2) :
    ∃ evs, (∀ ev ∈ evs, P ev) ∧
      (scaleInOne d tc skipPreCheck up deleted maxReplicas ordinal currentTime w).1
        = (scaleInSynced d tc (d.ordinalPodName TiKVMemberType tc.Name ordinal) pod
            currentTime
            { st := st2, trace := w.trace ++
              [.enterScaleInOne skipPreCheck up deleted maxReplicas ordinal,
                .podGet tc.Namespace (d.ordinalPodName TiKVMemberType tc.Name ordinal),
                .updateMetaInfo pod0.Name] }).1 ∧
      (scaleInOne d tc skipPreCheck up deleted maxReplicas ordinal currentTime w).2.since w
        = [.enterScaleInOne skipPreCheck up deleted maxReplicas ordinal,
            .podGet tc.Namespace (d.ordinalPodName TiKVMemberType tc.Name ordinal),
            .updateMetaInfo pod0.Name] ++ evs ++
          [.exitScaleInOne ordinal
            (scaleInOne d tc skipPreCheck up deleted maxReplicas ordinal currentTime w).1.1
            (scaleInOne d tc skipPreCheck up deleted maxReplicas ordinal currentTime
              w).1.2.isNone] := by
  obtain ⟨evs, ht, hP⟩ := hE
  obtain ⟨h1, _, hev⟩ := scaleInOne_of_synced_result d tc skipPreCheck up deleted maxReplicas
    ordinal currentTime w pod0 st1 pod st2 h0 hpass h2
    (scaleInSynced d tc (d.ordinalPodName TiKVMemberType tc.Name ordinal) pod currentTime
      { st := st2, trace := w.trace ++
        [.enterScaleInOne skipPreCheck up deleted maxReplicas ordinal,
          .podGet tc.Namespace (d.ordinalPodName TiKVMemberType tc.Name ordinal),
          .updateMetaInfo pod0.Name] }).1
    (scaleInSynced d tc (d.ordinalPodName TiKVMemberType tc.Name ordinal) pod currentTime
      { st := st2, trace := w.trace ++
        [.enterScaleInOne skipPreCheck up deleted maxReplicas ordinal,
          .podGet tc.Namespace (d.ordinalPodName TiKVMemberType tc.Name ordinal),
          .updateMetaInfo pod0.Name] }).2.st
    evs (by
      replace ht : (scaleInSynced d tc (d.ordinalPodName TiKVMemberType tc.Name ordinal) pod
          currentTime
          { st := st2, trace := w.trace ++
            [.enterScaleInOne skipPreCheck up deleted maxReplicas ordinal,
              .podGet tc.Namespace (d.ordinalPodName TiKVMemberType tc.Name ordinal),
              .updateMetaInfo pod0.Name] }).2.trace
          = (w.trace ++
            [.enterScaleInOne skipPreCheck up deleted maxReplicas ordinal,
              .podGet tc.Namespace (d.ordinalPodName TiKVMemberType tc.Name ordinal),
              .updateMetaInfo pod0.Name]) ++ evs := ht
      rw [← ht])
  exact ⟨evs, hP, h1, by rw [hev, h1]⟩

/-- A `scaleInOne` call that does not reach the removal of a store sends PD no
request to evict leaders or to remove a store, and returns the count 0. -/
theorem scaleInOne_unstarted (d : Deps σ) (tc : TidbCluster) (skipPreCheck : Bool)
    (up deleted maxReplicas ordinal : Int) (currentTime : Time) (w : World σ)
    (hno : ¬ ∃ pod store id st3, StoreRemovalStarted d tc skipPreCheck up deleted maxReplicas
      ordinal currentTime w pod store id st3) :
    deleteStoreCalls
        ((scaleInOne d tc skipPreCheck up deleted maxReplicas ordinal currentTime w).2.since w)
      = [] ∧
    beginEvictCalls
        ((scaleInOne d tc skipPreCheck up deleted maxReplicas ordinal currentTime w).2.since w)
      = [] ∧
    (scaleInOne d tc skipPreCheck up deleted maxReplicas ordinal currentTime w).1.1 = 0 := by
  rcases scaleInOne_cases d tc skipPreCheck up deleted maxReplicas ordinal currentTime w with
    ⟨e, s1, _, h1, hev⟩ | ⟨p0, s1, _, _, _, h1, hev⟩ | ⟨p0, s1, e, s2, _, _, _, h1, hev⟩ |
    ⟨pod, st2, pod0, st1, h0, hpass, h2⟩
  · rw [hev, h1]; exact ⟨rfl, rfl, rfl⟩
  · rw [hev, h1]; exact ⟨rfl, rfl, rfl⟩
  · rw [hev, h1]; exact ⟨rfl, rfl, rfl⟩
  · rcases scaleInOne_paths d tc skipPreCheck up deleted maxReplicas ordinal currentTime w
      pod0 st1 pod st2 h0 hpass h2 with
      ⟨store, _, ⟨_, h1, hev⟩ | ⟨_, _, h1, hev⟩ | ⟨_, id, e, st3, _, _, h1, hev⟩ |
        ⟨id, st3, hS⟩⟩ | ⟨_, pre, k, store, post, _, _, _, _, hEq⟩ | ⟨_, _, hEq⟩
    · rw [hev, h1]; exact ⟨rfl, rfl, rfl⟩
    · rw [hev, h1]; exact ⟨rfl, rfl, rfl⟩
    · rw [hev, h1]; exact ⟨rfl, rfl, rfl⟩
    · exact absurd ⟨pod, store, id, st3, hS⟩ hno
    · obtain ⟨evs, hP, h1, hev⟩ := scaleInOne_of_synced_emits
        (fun ev => deleteStoreCalls [ev] = [] ∧ beginEvictCalls [ev] = []) d tc skipPreCheck
        up deleted maxReplicas ordinal currentTime w pod0 st1 pod st2 h0 hpass h2 (by
          rw [hEq]
          exact scaleInTombstone_emits _ d tc pod currentTime store
            (fun _ => ⟨rfl, rfl⟩) (fun _ _ => ⟨rfl, rfl⟩) (fun _ => ⟨rfl, rfl⟩) _)
      refine ⟨?_, ?_, ?_⟩
      · rw [hev, deleteStoreCalls_append, deleteStoreCalls_append,
          deleteStoreCalls_nil evs (fun ev he => (hP ev he).1)]
        rfl
      · rw [hev, beginEvictCalls_append, beginEvictCalls_append,
          beginEvictCalls_nil evs (fun ev he => (hP ev he).2)]
        rfl
      · rw [h1, hEq]
        exact scaleInTombstone_deleted d tc pod currentTime store _
    · obtain ⟨evs, hP, h1, hev⟩ := scaleInOne_of_synced_emits
        (fun ev => deleteStoreCalls [ev] = [] ∧ beginEvictCalls [ev] = []) d tc skipPreCheck
        up deleted maxReplicas ordinal currentTime w pod0 st1 pod st2 h0 hpass h2 (by
          rw [hEq]
          exact scaleInNotFound_emits _ d tc pod
            ⟨rfl, rfl⟩ (fun _ => ⟨rfl, rfl⟩) (fun _ _ => ⟨rfl, rfl⟩) _)
      refine ⟨?_, ?_, ?_⟩
      · rw [hev, deleteStoreCalls_append, deleteStoreCalls_append,
          deleteStoreCalls_nil evs (fun ev he => (hP ev he).1)]
        rfl
      · rw [hev, beginEvictCalls_append, beginEvictCalls_append,
          beginEvictCalls_nil evs (fun ev he => (hP ev he).2)]
        rfl
      · rw [h1, hEq]
        exact scaleInNotFound_deleted d tc pod _

end tikvScaler

end TidbOperator

/-! ## The claims a scale-in call marks -/

namespace TidbOperator

namespace tikvScaler

variable {σ : Type}

/-- The steps that resolve and annotate the claims of a pod succeed only if the
claims were resolved and every annotation succeeded; the events are then the
resolution and one annotation per claim, in order. -/
theorem resolveAndAnnotate_none (d : Deps σ) (tc : TidbCluster) (pod : Pod)
    (deferTime : Option String) (w : World σ)
    (h : (resolveAndAnnotate d tc pod deferTime w).1 = none) :
    ∃ pvcs st4, d.resolvePVCFromPod pod w.st = (.ok pvcs, st4) ∧
      (annotatePVCs d tc deferTime pvcs
        { st := st4, trace := w.trace ++ [.resolvePVCFromPod pod.Name] }).1 = none ∧
      resolveAndAnnotate d tc pod deferTime w
        = (none,
          { st := (resolveAndAnnotate d tc pod deferTime w).2.st,
            trace := w.trace ++ (.resolvePVCFromPod pod.Name ::
              pvcs.map (fun pvc => .addDeferDeletingAnnoToPVC pvc.Name deferTime)) }) := by
  rcases hr : d.resolvePVCFromPod pod w.st with ⟨r, st4⟩
  cases r with
  | error e =>
    simp [resolveAndAnnotate, World.call, hr] at h
  | ok pvcs =>
    have hEq : resolveAndAnnotate d tc pod deferTime w
        = annotatePVCs d tc deferTime pvcs
          { st := st4, trace := w.trace ++ [.resolvePVCFromPod pod.Name] } := by
      simp [resolveAndAnnotate, World.call, hr]
    rw [hEq] at h
    refine ⟨pvcs, st4, rfl, h, ?_⟩
    have ht := annotatePVCs_none_trace d tc deferTime pvcs
      { st := st4, trace := w.trace ++ [.resolvePVCFromPod pod.Name] } h
    rw [hEq]
    apply Prod.ext
    · exact h
    · show (annotatePVCs d tc deferTime pvcs _).2 = _
      rcases hA : (annotatePVCs d tc deferTime pvcs
        { st := st4, trace := w.trace ++ [.resolvePVCFromPod pod.Name] }).2 with ⟨s, t⟩
      rw [hA] at ht
      simp only at ht
      simp [ht]

/-- The steps that resolve and annotate the claims of a pod succeed when the claims
are resolved and every annotation succeeds. -/
theorem resolveAndAnnotate_ok (d : Deps σ) (tc : TidbCluster) (pod : Pod)
    (deferTime : Option String) (w : World σ) (pvcs : List PVC) (st4 : σ)
    (hr : d.resolvePVCFromPod pod w.st = (.ok pvcs, st4))
    (ha : ∀ pvc ∈ pvcs, ∀ st, (d.addDeferDeletingAnnoToPVC tc pvc deferTime st).1 = none) :
    (resolveAndAnnotate d tc pod deferTime w).1 = none := by
  have hEq : resolveAndAnnotate d tc pod deferTime w
      = annotatePVCs d tc deferTime pvcs
        { st := st4, trace := w.trace ++ [.resolvePVCFromPod pod.Name] } := by
    simp [resolveAndAnnotate, World.call, hr]
  rw [hEq]
  exact annotatePVCs_ok d tc deferTime pvcs _ ha

/-- The body of the loop over the tombstone stores returns no error only if the
claims were resolved, every annotation succeeded and the end of the eviction
succeeded; the events are then the resolution, one annotation per claim and the
end of the eviction, in order. -/
theorem scaleInTombstone_none (d : Deps σ) (tc : TidbCluster) (pod : Pod)
    (currentTime : Time) (store : TiKVStore) (w : World σ) (id : Nat)
    (hp : parseUint store.ID = some id)
    (h : (scaleInTombstone d tc pod currentTime store w).1.2 = none) :
    ∃ pvcs st4 st,
      d.resolvePVCFromPod pod w.st = (.ok pvcs, st4) ∧
      (annotatePVCs d tc (some (d.formatRFC3339 currentTime)) pvcs
        { st := st4, trace := w.trace ++ [.resolvePVCFromPod pod.Name] }).1 = none ∧
      d.endEvictLeaderbyStoreID tc id
          (annotatePVCs d tc (some (d.formatRFC3339 currentTime)) pvcs
            { st := st4, trace := w.trace ++ [.resolvePVCFromPod pod.Name] }).2.st
        = (none, st) ∧
      scaleInTombstone d tc pod currentTime store w
        = ((0, none), { st := st, trace := w.trace ++
            (.resolvePVCFromPod pod.Name ::
              pvcs.map (fun pvc => .addDeferDeletingAnnoToPVC pvc.Name
                (some (d.formatRFC3339 currentTime)))) ++ [.endEvictLeaderbyStoreID id] }) := by
  cases hA : (resolveAndAnnotate d tc pod (some (d.formatRFC3339 currentTime)) w).1 with
  | some e =>
    exfalso
    rcases hR : resolveAndAnnotate d tc pod (some (d.formatRFC3339 currentTime)) w with ⟨r, w1⟩
    rw [hR] at hA
    simp only at hA
    subst hA
    simp [scaleInTombstone, hp, hR] at h
  | none =>
    obtain ⟨pvcs, st4, hr, ha, hEq⟩ := resolveAndAnnotate_none d tc pod _ w hA
    have hst : (resolveAndAnnotate d tc pod (some (d.formatRFC3339 currentTime)) w).2.st
        = (annotatePVCs d tc (some (d.formatRFC3339 currentTime)) pvcs
            { st := st4, trace := w.trace ++ [.resolvePVCFromPod pod.Name] }).2.st := by
      simp [resolveAndAnnotate, World.call, hr]
    rcases hE : d.endEvictLeaderbyStoreID tc id
      (resolveAndAnnotate d tc pod (some (d.formatRFC3339 currentTime)) w).2.st with ⟨r, st⟩
    cases r with
    | some e =>
      exfalso
      rw [hEq] at hE
      simp only at hE
      have : scaleInTombstone d tc pod currentTime store w
          = ((0, some e), { st := st, trace := (w.trace ++
            (.resolvePVCFromPod pod.Name ::
              pvcs.map (fun pvc => .addDeferDeletingAnnoToPVC pvc.Name
                (some (d.formatRFC3339 currentTime))))) ++ [.endEvictLeaderbyStoreID id] }) := by
        simp only [scaleInTombstone, hp]
        rw [hEq]
        simp [World.call, hE]
      rw [this] at h
      cases h
    | none =>
      refine ⟨pvcs, st4, st, hr, ha, by rw [← hst]; exact hE, ?_⟩
      rw [hEq] at hE
      simp only at hE
      simp only [scaleInTombstone, hp]
      rw [hEq]
      simp [World.call, hE]

/-- The body of the loop over the tombstone stores returns no error when the
claims are resolved and every annotation and the end of the eviction succeed. -/
theorem scaleInTombstone_ok (d : Deps σ) (tc : TidbCluster) (pod : Pod)
    (currentTime : Time) (store : TiKVStore) (w : World σ) (id : Nat) (pvcs : List PVC)
    (st4 : σ)
    (hp : parseUint store.ID = some id)
    (hr : d.resolvePVCFromPod pod w.st = (.ok pvcs, st4))
    (ha : ∀ pvc ∈ pvcs, ∀ st,
      (d.addDeferDeletingAnnoToPVC tc pvc (some (d.formatRFC3339 currentTime)) st).1 = none)
    (he : ∀ st, (d.endEvictLeaderbyStoreID tc id st).1 = none) :
    (scaleInTombstone d tc pod currentTime store w).1.2 = none := by
  have hA := resolveAndAnnotate_ok d tc pod (some (d.formatRFC3339 currentTime)) w pvcs st4
    hr ha
  rcases hR : resolveAndAnnotate d tc pod (some (d.formatRFC3339 currentTime)) w with ⟨r, w1⟩
  rw [hR] at hA
  simp only at hA
  subst hA
  rcases hE : d.endEvictLeaderbyStoreID tc id w1.st with ⟨r, st⟩
  have := he w1.st
  rw [hE] at this
  simp only at this
  subst this
  simp [scaleInTombstone, hp, hR, World.call, hE]

/-- The block for a pod that is not ready, on a bootstrapped cluster, while the
clock reads a time before the creation of the pod plus five resync periods. -/
theorem scaleInNotReady_wait (d : Deps σ) (tc : TidbCluster) (pod : Pod) (w : World σ)
    (hboot : tc.TiKVBootStrapped = true)
    (hlt : (d.timeNow w.st).1 < pod.CreationTimestamp + fiveResyncPeriods d) :
    scaleInNotReady d tc pod w
      = ((0, some (.errorf
          "TiKV %s/%s is not ready, wait for 5 resync periods to sync its status")),
        { st := (d.timeNow w.st).2, trace := w.trace ++ [.timeNow] }) := by
  simp [scaleInNotReady, notReadyWait, hboot, World.call, hlt]

/-- The block for a pod that is not ready, on a bootstrapped cluster, once the
clock reads a time that is not before the creation of the pod plus five resync
periods: the claims of the pod are resolved and annotated. -/
theorem scaleInNotReady_due (d : Deps σ) (tc : TidbCluster) (pod : Pod) (w : World σ)
    (hboot : tc.TiKVBootStrapped = true)
    (hge : ¬ (d.timeNow w.st).1 < pod.CreationTimestamp + fiveResyncPeriods d) :
    scaleInNotReady d tc pod w
      = ((0, (resolveAndAnnotate d tc pod none
            { st := (d.timeNow w.st).2, trace := w.trace ++ [.timeNow] }).1),
          (resolveAndAnnotate d tc pod none
            { st := (d.timeNow w.st).2, trace := w.trace ++ [.timeNow] }).2) := by
  simp only [scaleInNotReady, notReadyWait, hboot, World.call, hge, if_true, decide_False]
  split <;> rename_i heq <;> simp [heq]

/-- The rest of `scaleInOne` for a pod with no entry in the stores and a tombstone
entry under its store-ID label: the body of the loop over the tombstone stores. -/
theorem scaleInSynced_tombstone (d : Deps σ) (tc : TidbCluster) (podName : String) (pod : Pod)
    (currentTime : Time) (w : World σ) (pre post : List (String × TiKVStore)) (k : String)
    (store : TiKVStore)
    (hnoS : ∀ kv ∈ tc.Status.Stores, kv.2.PodName ≠ podName)
    (hsplit : tc.Status.TombstoneStores = pre ++ (k, store) :: post)
    (hpre : ∀ kv ∈ pre, kv.2.PodName = podName →
      mapIndex pod.Labels d.StoreIDLabelKey ≠ kv.1)
    (hname : store.PodName = podName) (hkey : mapIndex pod.Labels d.StoreIDLabelKey = k) :
    scaleInSynced d tc podName pod currentTime w
      = scaleInTombstone d tc pod currentTime store w := by
  simp only [scaleInSynced,
    (scaleInStoresLoop_none d tc podName pod currentTime tc.Status.Stores w).mpr hnoS, hsplit,
    scaleInTombstoneLoop_of_split d tc podName pod currentTime pre post k store w hpre hname
      hkey]

/-- The rest of `scaleInOne` for a pod with no entry in the stores and no
tombstone entry under its store-ID label: the end of the function. -/
theorem scaleInSynced_notFound (d : Deps σ) (tc : TidbCluster) (podName : String) (pod : Pod)
    (currentTime : Time) (w : World σ)
    (hnoS : ∀ kv ∈ tc.Status.Stores, kv.2.PodName ≠ podName)
    (hnoT : ∀ kv ∈ tc.Status.TombstoneStores, kv.2.PodName = podName →
      mapIndex pod.Labels d.StoreIDLabelKey ≠ kv.1) :
    scaleInSynced d tc podName pod currentTime w = scaleInNotFound d tc pod w := by
  simp only [scaleInSynced,
    (scaleInStoresLoop_none d tc podName pod currentTime tc.Status.Stores w).mpr hnoS,
    scaleInTombstoneLoop_eq_none d tc podName pod currentTime tc.Status.TombstoneStores w hnoT]

/-- The end of `scaleInOne` returns no error only after a wait: for a pod that is
not ready, five resync periods after its creation on a bootstrapped cluster and
none on a cluster that is not bootstrapped; for a ready pod, more than five resync
periods after its no-active-store-since time. -/
theorem scaleInNotFound_none (d : Deps σ) (tc : TidbCluster) (pod : Pod) (w : World σ)
    (h : (scaleInNotFound d tc pod w).1.2 = none) :
    (pod.Ready = false ∧ tc.TiKVBootStrapped = true ∧
        ∃ st, pod.CreationTimestamp + fiveResyncPeriods d ≤ (d.timeNow st).1) ∨
      (pod.Ready = false ∧ tc.TiKVBootStrapped = false) ∨
      (pod.Ready = true ∧
        ∃ v t st, pod.Annotations.lookup d.AnnTiKVNoActiveStoreSince = some v ∧
          d.parseRFC3339 v = some t ∧ t + fiveResyncPeriods d < (d.timeNow st).1) := by
  cases hr : pod.Ready with
  | false =>
    cases hb : tc.TiKVBootStrapped with
    | false => exact Or.inr (Or.inl ⟨rfl, rfl⟩)
    | true =>
      left
      refine ⟨rfl, rfl, w.st, ?_⟩
      by_contra hlt
      have hlt2 : (d.timeNow w.st).1 < pod.CreationTimestamp + fiveResyncPeriods d :=
        not_le.mp hlt
      simp [scaleInNotFound, hr, scaleInNotReady_wait d tc pod w hb hlt2] at h
  | true =>
    right; right
    refine ⟨rfl, ?_⟩
    simp only [scaleInNotFound, hr, Bool.not_true, Bool.false_eq_true, if_false,
      scaleInNoActiveStore] at h
    split at h
    · simp at h
    · rename_i v hv
      split at h
      · simp at h
      · rename_i t ht
        by_cases hlt : t + fiveResyncPeriods d < (d.timeNow w.st).1
        · exact ⟨v, t, w.st, hv, ht, hlt⟩
        · simp [World.call, hlt] at h

end tikvScaler

end TidbOperator

/-! ## Runs on the concrete cluster -/

namespace TidbOperator

namespace tikvScaler

variable {σ : Type}

/-- The removal of the store 5 of the pod 4 starts in the test bed
`demoScenario`. -/
theorem demo_removal_started :
    StoreRemovalStarted demoScenario.deps (demoCluster demoStatus) false 4 0 3 4 1000
      World.start (demoPod 4 "5" true) (demoStore "5" 4 "Up" 0).2 5 3 :=
  ⟨2, ⟨demoPod 4 "5" true, 1, rfl, by decide, rfl⟩,
    ⟨[], "5", [demoStore "4" 3 "Up" 7, demoStore "3" 2 "Up" 7], rfl, by simp, rfl⟩,
    by decide, by decide, rfl⟩

/-- The removal of the store 4 of the pod 3, which has seven leaders, starts in
the test bed `demoScenario`. -/
theorem demo_eviction_started :
    StoreRemovalStarted demoScenario.deps (demoCluster demoStatus) false 4 0 3 3 1000
      World.start (demoPod 3 "4" true) (demoStore "4" 3 "Up" 7).2 4 3 :=
  ⟨2, ⟨demoPod 3 "4" true, 1, rfl, by decide, rfl⟩,
    ⟨[demoStore "5" 4 "Up" 0], "4", [demoStore "3" 2 "Up" 7], rfl, by decide, rfl⟩,
    by decide, by decide, rfl⟩

/-- A failure of `UpdateMetaInfo` makes `scaleInOne` return no error: the call
logs the failure and returns `(0, nil)` right after it, whatever the state of the
store of the pod. -/
theorem update_failure_returns_nil (d : Deps σ) (tc : TidbCluster) (skipPreCheck : Bool)
    (up deleted maxReplicas ordinal : Int) (currentTime : Time) (w : World σ)
    (pod0 : Pod) (st1 : σ) (e : Err) (st2 : σ)
    (h0 : d.podGet tc.Namespace (d.ordinalPodName TiKVMemberType tc.Name ordinal) w.st
      = (.ok pod0, st1))
    (hpass : (preCheckStep d tc skipPreCheck (d.ordinalPodName TiKVMemberType tc.Name ordinal)
      up deleted maxReplicas w).1 = true)
    (h2 : d.updateMetaInfo tc pod0 st1 = (.error e, st2)) :
    (scaleInOne d tc skipPreCheck up deleted maxReplicas ordinal currentTime w).1 = (0, none) ∧
    (scaleInOne d tc skipPreCheck up deleted maxReplicas ordinal currentTime w).2.since w
      = [.enterScaleInOne skipPreCheck up deleted maxReplicas ordinal,
          .podGet tc.Namespace (d.ordinalPodName TiKVMemberType tc.Name ordinal),
          .updateMetaInfo pod0.Name, .exitScaleInOne ordinal 0 true] := by
  rcases scaleInOne_cases d tc skipPreCheck up deleted maxReplicas ordinal currentTime w with
    ⟨e2, s1, h, _⟩ | ⟨p0, s1, _, hs, hrej, _⟩ | ⟨p0, s1, e2, s2, h, _, _, h1, hev⟩ |
    ⟨pod, s2, p0, s1, h, _, hu⟩
  · rw [h0] at h; cases h
  · subst hs
    simp only [preCheckStep, Bool.false_eq_true, if_false] at hpass
    rw [hrej] at hpass
    cases hpass
  · rw [h0] at h
    cases h
    exact ⟨h1, hev⟩
  · rw [h0] at h
    cases h
    rw [h2] at hu
    cases hu

/-- On the test bed `demoScenario` with a failing `UpdateMetaInfo`, the scale-in of
the pod 4, whose store is Up, returns no error and `ScaleIn` counts the ordinal 4
as finished. -/
theorem update_failure_finishes_ordinal :
    (scaleInOne conflictDeps (demoCluster demoStatus) false 4 0 3 4 1000 World.start).1
      = (0, none) ∧
    finishedRecorded ((ScaleIn conflictDeps (.tidbCluster (demoCluster demoStatus)) (demoSet 5)
      (demoSet 4) World.start).2.2.since World.start) = [[4]] :=
  ⟨(update_failure_returns_nil conflictDeps (demoCluster demoStatus) false 4 0 3 4 1000
      World.start (demoPod 4 "5" true) 1 (.errorf "conflict") 2 rfl (by decide) rfl).1,
    by decide⟩

end tikvScaler

end TidbOperator

/-! ## The end of a scale-in call for a ready pod -/

namespace TidbOperator

namespace tikvScaler

variable {σ : Type}

/-- The end of `scaleInOne` for a ready pod without a no-active-store-since
annotation that parses: the error `not found in cluster`, and no call. -/
theorem scaleInNoActiveStore_unmarked (d : Deps σ) (tc : TidbCluster) (pod : Pod)
    (w : World σ)
    (h : pod.Annotations.lookup d.AnnTiKVNoActiveStoreSince = none ∨
      ∃ v, pod.Annotations.lookup d.AnnTiKVNoActiveStoreSince = some v ∧
        d.parseRFC3339 v = none) :
    scaleInNoActiveStore d tc pod w
      = ((0, some (.errorf "TiKV %s/%s not found in cluster")), w) := by
  rcases h with h | ⟨v, hv, hp⟩
  · simp [scaleInNoActiveStore, h]
  · simp [scaleInNoActiveStore, hv, hp]

/-- The end of `scaleInOne` for a ready pod whose no-active-store-since time is
not yet more than five resync periods before the reading of the clock: the error
`not found in cluster`, after the reading of the clock. -/
theorem scaleInNoActiveStore_recent (d : Deps σ) (tc : TidbCluster) (pod : Pod)
    (w : World σ) (v : String) (t : Time)
    (hv : pod.Annotations.lookup d.AnnTiKVNoActiveStoreSince = some v)
    (hp : d.parseRFC3339 v = some t)
    (hle : ¬ t + fiveResyncPeriods d < (d.timeNow w.st).1) :
    scaleInNoActiveStore d tc pod w
      = ((0, some (.errorf "TiKV %s/%s not found in cluster")),
        { st := (d.timeNow w.st).2, trace := w.trace ++ [.timeNow] }) := by
  simp [scaleInNoActiveStore, hv, hp, World.call, hle]

/-- The end of `scaleInOne` for a ready pod whose no-active-store-since time is
more than five resync periods before the reading of the clock: the claims of the
pod are resolved and annotated. -/
theorem scaleInNoActiveStore_due (d : Deps σ) (tc : TidbCluster) (pod : Pod)
    (w : World σ) (v : String) (t : Time)
    (hv : pod.Annotations.lookup d.AnnTiKVNoActiveStoreSince = some v)
    (hp : d.parseRFC3339 v = some t)
    (hlt : t + fiveResyncPeriods d < (d.timeNow w.st).1) :
    scaleInNoActiveStore d tc pod w
      = ((0, (resolveAndAnnotate d tc pod none
            { st := (d.timeNow w.st).2, trace := w.trace ++ [.timeNow] }).1),
          (resolveAndAnnotate d tc pod none
            { st := (d.timeNow w.st).2, trace := w.trace ++ [.timeNow] }).2) := by
  simp only [scaleInNoActiveStore, hv, hp, World.call, hlt, if_true]
  split <;> rename_i heq <;> simp [heq]

end tikvScaler

end TidbOperator

/-! ## Feature gates -/

namespace TidbOperator

namespace strings

theorem lessChars_iff (a b : List Char) : lessChars a b = true ↔ a < b := by
  induction a generalizing b with
  | nil =>
    cases b with
    | nil =>
      simp only [lessChars]
      constructor
      · intro h; cases h
      · intro h; cases h
    | cons b bs =>
      simp only [lessChars]
      exact ⟨fun _ => List.Lex.nil, fun _ => trivial⟩
  | cons a as ih =>
    cases b with
    | nil =>
      simp only [lessChars]
      constructor
      · intro h; cases h
      · intro h; cases h
    | cons b bs =>
      simp only [lessChars]
      by_cases h1 : a.toNat < b.toNat
      · simp only [h1, if_true, true_iff]
        exact List.Lex.rel h1
      · by_cases h2 : b.toNat < a.toNat
        · simp only [h1, h2, if_false, if_true]
          constructor
          · intro h; cases h
          · intro h
            cases h with
            | cons _ => exact absurd h2 (lt_irrefl _)
            | rel h => exact absurd h h1
        · simp only [h1, h2, if_false]
          have hab : a = b := le_antisymm (not_lt.mp h2) (not_lt.mp h1)
          subst hab
          rw [ih bs]
          constructor
          · intro h
            exact List.Lex.cons h
          · intro h
            cases h with
            | cons h => exact h
            | rel h => exact absurd h h1

/-- The comparison of the model is the order of strings. -/
theorem less_iff (a b : String) : less a b = true ↔ a < b := by
  rw [less, lessChars_iff, String.lt_iff_toList_lt]
  rfl

theorem not_less_iff (a b : String) : less b a = false ↔ a ≤ b := by
  rw [← not_lt, ← less_iff]
  simp

/-- The pieces of `SplitN(s, sep, 2)` for a string without the separator. -/
theorem splitNChars_two_absent (sep : Char) (cs : List Char) (h : sep ∉ cs) :
    splitNChars sep 2 cs = [cs] := by
  have hspan : ∀ l : List Char, sep ∉ l →
      l.takeWhile (fun c => c != sep) = l ∧ l.dropWhile (fun c => c != sep) = [] := by
    intro l
    induction l with
    | nil => intro _; exact ⟨rfl, rfl⟩
    | cons c rest ih =>
      intro hl
      have hc : (c != sep) = true := by
        simp only [bne_iff_ne, ne_eq]
        exact fun h => hl (by simp [h])
      have hr : sep ∉ rest := fun h => hl (by simp [h])
      simp only [List.cons_append, List.takeWhile, List.dropWhile, hc, ih hr, and_self]
  simp [splitNChars, hspan cs h]

/-- The pieces of `SplitN(s, sep, 2)` for a string with the separator: the part
before its first occurrence and the part after it. -/
theorem splitNChars_two_present (sep : Char) (pre post : List Char) (h : sep ∉ pre) :
    splitNChars sep 2 (pre ++ sep :: post) = [pre, post] := by
  have hspan : ∀ l : List Char, sep ∉ l →
      (l ++ sep :: post).takeWhile (fun c => c != sep) = l ∧
      (l ++ sep :: post).dropWhile (fun c => c != sep) = sep :: post := by
    intro l
    induction l with
    | nil => intro _; simp [List.takeWhile, List.dropWhile]
    | cons c rest ih =>
      intro hl
      have hc : (c != sep) = true := by
        simp only [bne_iff_ne, ne_eq]
        exact fun h => hl (by simp [h])
      have hr : sep ∉ rest := fun h => hl (by simp [h])
      simp only [List.cons_append, List.takeWhile, List.dropWhile, hc]
      exact ⟨congrArg _ (ih hr).1, (ih hr).2⟩
  simp [splitNChars, hspan pre h]

/-- A list of characters with an occurrence of `sep` splits at the first one. -/
theorem exists_first (sep : Char) (cs : List Char) (h : sep ∈ cs) :
    ∃ pre post, cs = pre ++ sep :: post ∧ sep ∉ pre := by
  induction cs with
  | nil => cases h
  | cons c rest ih =>
    by_cases hc : c = sep
    · exact ⟨[], rest, by simp [hc], by simp⟩
    · have hr : sep ∈ rest := by
        rcases List.mem_cons.mp h with h | h
        · exact absurd h.symm hc
        · exact h
      obtain ⟨pre, post, hsplit, hpre⟩ := ih hr
      refine ⟨c :: pre, post, by simp [hsplit], ?_⟩
      intro hmem
      rcases List.mem_cons.mp hmem with h | h
      · exact hc h.symm
      · exact hpre h

/-- The first occurrence of `sep` in a list of characters is unique. -/
theorem first_unique (sep : Char) (pre2 post2 pre post : List Char)
    (h : pre2 ++ sep :: post2 = pre ++ sep :: post) (h2 : sep ∉ pre2) (h1 : sep ∉ pre) :
    pre2 = pre ∧ post2 = post := by
  induction pre2 generalizing pre with
  | nil =>
    cases pre with
    | nil => exact ⟨rfl, by simpa using h⟩
    | cons c rest =>
      simp only [List.nil_append, List.cons_append, List.cons.injEq] at h
      exact absurd (by simp [h.1]) h1
  | cons c2 rest2 ih =>
    cases pre with
    | nil =>
      simp only [List.nil_append, List.cons_append, List.cons.injEq] at h
      exact absurd (by simp [h.1]) h2
    | cons c rest =>
      simp only [List.cons_append, List.cons.injEq] at h
      have hr2 : sep ∉ rest2 := fun e => h2 (by simp [e])
      have hr1 : sep ∉ rest := fun e => h1 (by simp [e])
      obtain ⟨e1, e2⟩ := ih rest h.2 hr2 hr1
      exact ⟨by rw [h.1, e1], e2⟩

end strings

namespace sort

/-- The result of `sort.Strings` is in increasing order. -/
theorem Strings_sorted (x : List String) : List.Sorted (fun a b => a ≤ b) (Strings x) := by
  have htotal : IsTotal String (fun a b => strings.less b a = false) :=
    ⟨fun a b => by
      simp only [strings.not_less_iff]
      exact le_total a b⟩
  have htrans : IsTrans String (fun a b => strings.less b a = false) :=
    ⟨fun a b c => by
      simp only [strings.not_less_iff]
      exact le_trans⟩
  have h := @List.sorted_insertionSort String (fun a b => strings.less b a = false) _
    htotal htrans x
  exact List.Pairwise.imp (fun {a b} hab => (strings.not_less_iff a b).mp hab) h

/-- The result of `sort.Strings` holds the strings it was given, each as often as it
was given. -/
theorem Strings_perm (x : List String) : (Strings x).Perm x :=
  List.perm_insertionSort _ x

end sort

namespace features

theorem lookup_cons_eq (m : List (String × Bool)) (k0 : String) (v0 : Bool) (k : String) :
    List.lookup k ((k0, v0) :: m) = if k = k0 then some v0 else m.lookup k := by
  by_cases h : k = k0
  · have hb : (k == k0) = true := by simpa using h
    simp [List.lookup_cons, hb, h]
  · have hb : (k == k0) = false := by simpa using h
    simp [List.lookup_cons, hb, h]

theorem lookup_mapSet (m : List (String × Bool)) (k : String) (v : Bool) (k2 : String) :
    (mapSet m k v).lookup k2 = if k2 = k then some v else m.lookup k2 := by
  induction m with
  | nil =>
    rw [mapSet, lookup_cons_eq]
  | cons kv rest ih =>
    obtain ⟨k0, v0⟩ := kv
    by_cases h0 : k0 = k
    · subst h0
      simp only [mapSet, if_true, lookup_cons_eq]
      by_cases h : k2 = k0 <;> simp [h]
    · simp only [mapSet, h0, if_false, lookup_cons_eq, ih]
      by_cases h : k2 = k
      · subst h
        have : ¬ k2 = k0 := fun e => h0 e.symm
        simp [this]
      · simp [h]

theorem keys_mapSet (m : List (String × Bool)) (k : String) (v : Bool) :
    (mapSet m k v).map Prod.fst
      = if k ∈ m.map Prod.fst then m.map Prod.fst else m.map Prod.fst ++ [k] := by
  induction m with
  | nil => simp [mapSet]
  | cons kv rest ih =>
    obtain ⟨k0, v0⟩ := kv
    by_cases h0 : k0 = k
    · subst h0
      simp [mapSet]
    · have hne : ¬ k = k0 := fun e => h0 e.symm
      by_cases hm : k ∈ rest.map Prod.fst
      · simp only [mapSet, h0, if_false, List.map_cons, ih, hm, if_true, List.mem_cons,
          or_true]
      · simp only [mapSet, h0, if_false, List.map_cons, ih, hm, List.mem_cons, hne,
          or_self, List.cons_append]

/-- The assignment `m[k] = v` keeps the keys of the map distinct. -/
theorem mapSet_nodup (m : List (String × Bool)) (k : String) (v : Bool)
    (h : (m.map Prod.fst).Nodup) : ((mapSet m k v).map Prod.fst).Nodup := by
  rw [keys_mapSet]
  by_cases hm : k ∈ m.map Prod.fst
  · simpa [hm] using h
  · simp only [hm, if_false]
    exact List.Nodup.append h (by simp) (by simpa using hm)

theorem lookup_eq_none_of_not_mem (m : List (String × Bool)) (k : String)
    (h : k ∉ m.map Prod.fst) : m.lookup k = none := by
  induction m with
  | nil => rfl
  | cons kv rest ih =>
    obtain ⟨k0, v0⟩ := kv
    have h1 : ¬ k = k0 := fun e => h (by simp [e])
    have h2 : k ∉ rest.map Prod.fst := fun e => h (by simp at e ⊢; exact Or.inr e)
    simp [lookup_cons_eq, h1, ih h2]

/-- In a map with distinct keys the entry of a key does not depend on the order of
the iteration. -/
theorem lookup_reverse (m : List (String × Bool)) (k : String)
    (h : (m.map Prod.fst).Nodup) : m.reverse.lookup k = m.lookup k := by
  induction m with
  | nil => rfl
  | cons kv rest ih =>
    obtain ⟨k0, v0⟩ := kv
    rw [List.map_cons, List.nodup_cons] at h
    rw [List.reverse_cons, List.lookup_append, ih h.2]
    by_cases hk : k = k0
    · subst hk
      rw [lookup_eq_none_of_not_mem rest k h.1]
      simp [lookup_cons_eq]
    · cases hr : rest.lookup k <;> simp [lookup_cons_eq, hk, hr]

theorem SetFromMap_lookup (f : featureGate) (m : List (String × Bool)) (k : String) :
    (f.SetFromMap m).enabledFeatures.lookup k
      = (m.reverse.lookup k).or (f.enabledFeatures.lookup k) := by
  induction m generalizing f with
  | nil => simp [featureGate.SetFromMap]
  | cons kv rest ih =>
    obtain ⟨k0, v0⟩ := kv
    rw [featureGate.SetFromMap, ih, List.reverse_cons, List.lookup_append, lookup_mapSet]
    by_cases hk : k = k0
    · cases hr : rest.reverse.lookup k <;> simp [lookup_cons_eq, hk]
    · cases hr : rest.reverse.lookup k <;> simp [lookup_cons_eq, hk]

/-- The method `SetFromMap` keeps the keys of the gate distinct. -/
theorem SetFromMap_nodup (f : featureGate) (m : List (String × Bool))
    (h : (f.enabledFeatures.map Prod.fst).Nodup) :
    ((f.SetFromMap m).enabledFeatures.map Prod.fst).Nodup := by
  induction m generalizing f with
  | nil => simpa [featureGate.SetFromMap] using h
  | cons kv rest ih =>
    obtain ⟨k0, v0⟩ := kv
    rw [featureGate.SetFromMap]
    exact ih _ (mapSet_nodup _ _ _ h)

/-- The body of the loop of `Set` rejects exactly the bad segments. -/
theorem parsePair_error_iff (s : String) :
    (∃ e, parsePair s = .error e) ↔ BadSegment s := by
  by_cases hmem : '=' ∈ s.data
  · obtain ⟨pre, post, hsplit, hpre⟩ := strings.exists_first '=' s.data hmem
    have harr : strings.SplitN s '=' 2 = [String.mk pre, String.mk post] := by
      simp [strings.SplitN, hsplit, strings.splitNChars_two_present '=' pre post hpre]
    constructor
    · rintro ⟨e, he⟩
      refine Or.inr ⟨pre, post, hsplit, hpre, ?_⟩
      intro b hb
      simp [parsePair, harr, hb] at he
    · rintro (h | ⟨pre2, post2, hsplit2, hpre2, hbad⟩)
      · exact absurd hmem h
      · have hsame : pre2 = pre ∧ post2 = post :=
          strings.first_unique '=' pre2 post2 pre post (hsplit2.symm.trans hsplit) hpre2 hpre
        obtain ⟨rfl, rfl⟩ := hsame
        cases hv : strconv.ParseBool (strings.TrimSpace (String.mk post2)) with
        | error e =>
          exact ⟨.errorf "invalid value of %s=%s, err: %v", by simp [parsePair, harr, hv]⟩
        | ok b => exact absurd hv (hbad b)
  · have harr : strings.SplitN s '=' 2 = [s] := by
      simp [strings.SplitN, strings.splitNChars_two_absent '=' s.data hmem]
    constructor
    · intro _
      exact Or.inl hmem
    · intro _
      exact ⟨.errorf "missing bool value for %s", by simp [parsePair, harr]⟩

/-- The body of the loop of `Set` reads the pair that a segment names. -/
theorem parsePair_ok_iff (s : String) (k : String) (v : Bool) :
    parsePair s = .ok (k, v) ↔ SegmentNames s k v := by
  by_cases hmem : '=' ∈ s.data
  · obtain ⟨pre, post, hsplit, hpre⟩ := strings.exists_first '=' s.data hmem
    have harr : strings.SplitN s '=' 2 = [String.mk pre, String.mk post] := by
      simp [strings.SplitN, hsplit, strings.splitNChars_two_present '=' pre post hpre]
    constructor
    · intro h
      refine ⟨pre, post, hsplit, hpre, ?_⟩
      cases hv : strconv.ParseBool (strings.TrimSpace (String.mk post)) with
      | error e => simp [parsePair, harr, hv] at h
      | ok b =>
        simp [parsePair, harr, hv] at h
        exact ⟨h.1.symm, by rw [h.2]⟩
    · rintro ⟨pre2, post2, hsplit2, hpre2, hk, hv⟩
      have hsame : pre2 = pre ∧ post2 = post :=
        strings.first_unique '=' pre2 post2 pre post (hsplit2.symm.trans hsplit) hpre2 hpre
      obtain ⟨rfl, rfl⟩ := hsame
      simp [parsePair, harr, hv, hk]
  · constructor
    · intro h
      have harr : strings.SplitN s '=' 2 = [s] := by
        simp [strings.SplitN, strings.splitNChars_two_absent '=' s.data hmem]
      simp [parsePair, harr] at h
    · rintro ⟨pre, post, hsplit, _⟩
      exact absurd (by rw [hsplit]; simp) hmem

end features

end TidbOperator

namespace TidbOperator

namespace features

/-- The loop of `Set` keeps the keys of the map it fills distinct. -/
theorem setLoop_nodup (segs : List String) (m m2 : List (String × Bool))
    (h : setLoop segs m = .ok m2) (hm : (m.map Prod.fst).Nodup) :
    (m2.map Prod.fst).Nodup := by
  induction segs generalizing m with
  | nil =>
    simp only [setLoop, Except.ok.injEq] at h
    subst h
    exact hm
  | cons s rest ih =>
    by_cases hs : s.length = 0
    · simp only [setLoop, hs, if_true] at h
      exact ih m h hm
    · simp only [setLoop, hs, if_false] at h
      cases hp : parsePair s with
      | error e => simp [hp] at h
      | ok kv =>
        obtain ⟨k, v⟩ := kv
        simp only [hp] at h
        exact ih _ h (mapSet_nodup m k v hm)

/-- The loop of `Set` returns an error exactly when the body of the loop rejects a
segment that is not empty. -/
theorem setLoop_error_iff (segs : List String) (m : List (String × Bool)) :
    (∃ e, setLoop segs m = .error e) ↔
      ∃ s ∈ segs, s.length ≠ 0 ∧ ∃ e, parsePair s = .error e := by
  induction segs generalizing m with
  | nil => simp [setLoop]
  | cons s rest ih =>
    by_cases hs : s.length = 0
    · simp only [setLoop, hs, if_true, ih, List.mem_cons]
      constructor
      · rintro ⟨s2, hmem, h⟩
        exact ⟨s2, Or.inr hmem, h⟩
      · rintro ⟨s2, hmem | hmem, hne, h⟩
        · subst hmem
          exact absurd hs hne
        · exact ⟨s2, hmem, hne, h⟩
    · cases hp : parsePair s with
      | error e =>
        simp only [setLoop, hs, if_false, hp]
        constructor
        · intro _
          exact ⟨s, by simp, hs, e, hp⟩
        · intro _
          exact ⟨e, rfl⟩
      | ok kv =>
        obtain ⟨k, v⟩ := kv
        simp only [setLoop, hs, if_false, hp, ih, List.mem_cons]
        constructor
        · rintro ⟨s2, hmem, h⟩
          exact ⟨s2, Or.inr hmem, h⟩
        · rintro ⟨s2, hmem | hmem, hne, e, h⟩
          · subst hmem
            rw [hp] at h
            cases h
          · exact ⟨s2, hmem, hne, e, h⟩

/-- The loop of `Set` leaves the entry of a key that no segment names as it was. -/
theorem setLoop_untouched (segs : List String) (m m2 : List (String × Bool)) (k : String)
    (h : setLoop segs m = .ok m2)
    (hno : ∀ s ∈ segs, s.length ≠ 0 → ∀ v, parsePair s ≠ .ok (k, v)) :
    m2.lookup k = m.lookup k := by
  induction segs generalizing m with
  | nil =>
    simp only [setLoop, Except.ok.injEq] at h
    subst h
    rfl
  | cons s rest ih =>
    have hrest : ∀ s2 ∈ rest, s2.length ≠ 0 → ∀ v, parsePair s2 ≠ .ok (k, v) :=
      fun s2 hmem => hno s2 (by simp [hmem])
    by_cases hs : s.length = 0
    · simp only [setLoop, hs, if_true] at h
      exact ih m h hrest
    · simp only [setLoop, hs, if_false] at h
      cases hp : parsePair s with
      | error e => simp [hp] at h
      | ok kv =>
        obtain ⟨k0, v0⟩ := kv
        simp only [hp] at h
        rw [ih _ h hrest, lookup_mapSet]
        have hne : ¬ k = k0 := by
          intro e
          subst e
          exact hno s (by simp) hs v0 hp
        simp [hne]

/-- The loop of `Set` gives a key the value of the last segment that names it. -/
theorem setLoop_last (pre : List String) (s : String) (post : List String)
    (m m2 : List (String × Bool)) (k : String) (v : Bool)
    (h : setLoop (pre ++ s :: post) m = .ok m2) (hs : s.length ≠ 0)
    (hp : parsePair s = .ok (k, v))
    (hno : ∀ s2 ∈ post, s2.length ≠ 0 → ∀ v2, parsePair s2 ≠ .ok (k, v2)) :
    m2.lookup k = some v := by
  induction pre generalizing m with
  | nil =>
    simp only [List.nil_append, setLoop, hs, if_false, hp] at h
    rw [setLoop_untouched post _ m2 k h hno, lookup_mapSet]
    simp
  | cons s0 rest ih =>
    by_cases hs0 : s0.length = 0
    · simp only [List.cons_append, setLoop, hs0, if_true] at h
      exact ih m h
    · simp only [List.cons_append, setLoop, hs0, if_false] at h
      cases hp0 : parsePair s0 with
      | error e => simp [hp0] at h
      | ok kv =>
        obtain ⟨k0, v0⟩ := kv
        simp only [hp0] at h
        exact ih _ h

/-- The value of `Enabled` after `SetFromMap` with a map whose keys are distinct:
the value of the map for its keys, the value before the call for the others. -/
theorem SetFromMap_Enabled (f : featureGate) (m : List (String × Bool)) (k : String)
    (hm : (m.map Prod.fst).Nodup) :
    (f.SetFromMap m).Enabled k
      = match m.lookup k with
        | some v => v
        | none => f.Enabled k := by
  simp only [featureGate.Enabled, SetFromMap_lookup, lookup_reverse m k hm]
  cases m.lookup k <;> simp

end features

end TidbOperator

/-! ## The autoscaler controller -/

namespace TidbOperator

namespace autoscaler

variable {σ : Type}

theorem Run.since_of_calls {w0 w1 : Run σ} {cs : List Call}
    (h : w1.calls = w0.calls ++ cs) : w1.since w0 = cs := by
  simp [Run.since, h]

theorem queueCalls_append (a b : List Call) :
    queueCalls (a ++ b) = queueCalls a ++ queueCalls b := by
  induction a with
  | nil => rfl
  | cons c rest ih => cases c <;> simp [queueCalls, ih]

theorem reconcileTotalLabels_append (a b : List Call) :
    reconcileTotalLabels (a ++ b) = reconcileTotalLabels a ++ reconcileTotalLabels b := by
  induction a with
  | nil => rfl
  | cons c rest ih => cases c <;> simp [reconcileTotalLabels, ih]

/-- The paths of the statements of `sync`: a key that does not split, a lister
error that is NotFound, another lister error, and the reconcile of the object;
each with its result and its calls. -/
theorem syncBody_cases (d : Dependencies σ) (key : String) (w : Run σ) :
    (∃ e, d.SplitMetaNamespaceKey key = .error e ∧ syncBody d key w = (some e, w)) ∨
    (∃ ns name e st1, d.SplitMetaNamespaceKey key = .ok (ns, name) ∧
      d.listerGet ns name w.st = (.error e, st1) ∧ errors.IsNotFound e = true ∧
      syncBody d key w = (none, { st := st1, calls := w.calls ++ [.listerGet ns name] })) ∨
    (∃ ns name e st1, d.SplitMetaNamespaceKey key = .ok (ns, name) ∧
      d.listerGet ns name w.st = (.error e, st1) ∧ errors.IsNotFound e = false ∧
      syncBody d key w = (some e, { st := st1, calls := w.calls ++ [.listerGet ns name] })) ∨
    (∃ ns name ta st1, d.SplitMetaNamespaceKey key = .ok (ns, name) ∧
      d.listerGet ns name w.st = (.ok ta, st1) ∧
      syncBody d key w
        = ((d.ResconcileAutoScaler ta st1).1,
          { st := (d.ResconcileAutoScaler ta st1).2,
            calls := w.calls ++ [.listerGet ns name, .ResconcileAutoScaler ta] })) := by
  cases hs : d.SplitMetaNamespaceKey key with
  | error e => exact Or.inl ⟨e, rfl, by simp [syncBody, hs]⟩
  | ok p =>
    obtain ⟨ns, name⟩ := p
    rcases hl : d.listerGet ns name w.st with ⟨r, st1⟩
    cases r with
    | error e =>
      cases hn : errors.IsNotFound e with
      | true =>
        exact Or.inr (Or.inl ⟨ns, name, e, st1, rfl, hl, hn,
          by simp [syncBody, hs, Run.call, hl, hn]⟩)
      | false =>
        exact Or.inr (Or.inr (Or.inl ⟨ns, name, e, st1, rfl, hl, hn,
          by simp [syncBody, hs, Run.call, hl, hn]⟩))
    | ok ta =>
      exact Or.inr (Or.inr (Or.inr ⟨ns, name, ta, st1, rfl, hl,
        by simp [syncBody, hs, Run.call, hl]⟩))

/-- The calls of the deferred function of `sync`: the clock, the histogram, and
the counters of the outcome. -/
theorem syncDeferred_calls (d : Dependencies σ) (startTime : Time) (err : Option Err)
    (w : Run σ) :
    (syncDeferred d startTime err w).calls
      = w.calls ++ [.timeNow, .reconcileTimeObserve] ++ outcomeCalls err := by
  cases err with
  | none => simp [syncDeferred, Run.call, outcomeCalls]
  | some e =>
    cases h : isRequeueClassified e <;> simp [syncDeferred, Run.call, outcomeCalls, h]

/-- The result of `sync` is the result of its statements, and its calls are the
clock, the calls of its statements and the calls of the deferred function. -/
theorem sync_eq (d : Dependencies σ) (key : String) (w : Run σ) :
    (sync d key w).1
      = (syncBody d key { st := (d.timeNow w.st).2, calls := w.calls ++ [.timeNow] }).1 ∧
    (sync d key w).2.calls
      = (syncBody d key { st := (d.timeNow w.st).2, calls := w.calls ++ [.timeNow] }).2.calls
          ++ [.timeNow, .reconcileTimeObserve] ++ outcomeCalls (sync d key w).1 := by
  constructor
  · simp [sync, Run.call]
  · simp only [sync, Run.call]
    rw [syncDeferred_calls]

/-- The calls of `sync`, path by path. -/
theorem sync_since (d : Dependencies σ) (key : String) (w : Run σ) :
    ∃ body, (sync d key w).2.since w
        = .timeNow :: body ++ [.timeNow, .reconcileTimeObserve] ++
            outcomeCalls (sync d key w).1 ∧
      ((∃ e, d.SplitMetaNamespaceKey key = .error e ∧ (sync d key w).1 = some e ∧
          body = []) ∨
        (∃ ns name e st1, d.SplitMetaNamespaceKey key = .ok (ns, name) ∧
          d.listerGet ns name (d.timeNow w.st).2 = (.error e, st1) ∧
          errors.IsNotFound e = true ∧ (sync d key w).1 = none ∧
          body = [.listerGet ns name]) ∨
        (∃ ns name e st1, d.SplitMetaNamespaceKey key = .ok (ns, name) ∧
          d.listerGet ns name (d.timeNow w.st).2 = (.error e, st1) ∧
          errors.IsNotFound e = false ∧ (sync d key w).1 = some e ∧
          body = [.listerGet ns name]) ∨
        (∃ ns name ta st1, d.SplitMetaNamespaceKey key = .ok (ns, name) ∧
          d.listerGet ns name (d.timeNow w.st).2 = (.ok ta, st1) ∧
          (sync d key w).1 = (d.ResconcileAutoScaler ta st1).1 ∧
          body = [.listerGet ns name, .ResconcileAutoScaler ta])) := by
  obtain ⟨h1, h2⟩ := sync_eq d key w
  rcases syncBody_cases d key
    ({ st := (d.timeNow w.st).2, calls := w.calls ++ [.timeNow] } : Run σ) with
    ⟨e, hs, hb⟩ | ⟨ns, name, e, st1, hs, hl, hn, hb⟩ | ⟨ns, name, e, st1, hs, hl, hn, hb⟩ |
    ⟨ns, name, ta, st1, hs, hl, hb⟩
  · refine ⟨[], ?_, Or.inl ⟨e, hs, by rw [h1, hb], rfl⟩⟩
    apply Run.since_of_calls
    rw [h2, hb]
    simp
  · refine ⟨[.listerGet ns name], ?_,
      Or.inr (Or.inl ⟨ns, name, e, st1, hs, hl, hn, by rw [h1, hb], rfl⟩)⟩
    apply Run.since_of_calls
    rw [h2, hb]
    simp
  · refine ⟨[.listerGet ns name], ?_,
      Or.inr (Or.inr (Or.inl ⟨ns, name, e, st1, hs, hl, hn, by rw [h1, hb], rfl⟩))⟩
    apply Run.since_of_calls
    rw [h2, hb]
    simp
  · refine ⟨[.listerGet ns name, .ResconcileAutoScaler ta], ?_,
      Or.inr (Or.inr (Or.inr ⟨ns, name, ta, st1, hs, hl, by rw [h1, hb], rfl⟩))⟩
    apply Run.since_of_calls
    rw [h2, hb]
    simp

theorem queueCalls_outcomeCalls (err : Option Err) : queueCalls (outcomeCalls err) = [] := by
  cases err with
  | none => rfl
  | some e => cases h : isRequeueClassified e <;> simp [outcomeCalls, h, queueCalls]

/-- A call of `sync` does not touch the work queue. -/
theorem sync_queueCalls (d : Dependencies σ) (key : String) (w : Run σ) :
    queueCalls ((sync d key w).2.since w) = [] := by
  obtain ⟨body, hev, hc⟩ := sync_since d key w
  rw [hev]
  rcases hc with ⟨_, _, _, rfl⟩ | ⟨_, _, _, _, _, _, _, _, rfl⟩ |
    ⟨_, _, _, _, _, _, _, _, rfl⟩ | ⟨_, _, _, _, _, _, _, rfl⟩ <;>
  simp [queueCalls_append, queueCalls, queueCalls_outcomeCalls]

/-- The calls of `sync` extend the calls made before it. -/
theorem sync_calls (d : Dependencies σ) (key : String) (w : Run σ) :
    (sync d key w).2.calls = w.calls ++ (sync d key w).2.since w := by
  obtain ⟨_, h2⟩ := sync_eq d key w
  rcases syncBody_cases d key
    ({ st := (d.timeNow w.st).2, calls := w.calls ++ [.timeNow] } : Run σ) with
    ⟨e, hs, hb⟩ | ⟨ns, name, e, st1, hs, hl, hn, hb⟩ | ⟨ns, name, e, st1, hs, hl, hn, hb⟩ |
    ⟨ns, name, ta, st1, hs, hl, hb⟩ <;>
  · rw [hb] at h2
    simp only [Run.since, h2]
    simp

end autoscaler

end TidbOperator

namespace TidbOperator

namespace autoscaler

variable {σ : Type}

theorem objectCalls_append (a b : List Call) :
    objectCalls (a ++ b) = objectCalls a ++ objectCalls b := by
  induction a with
  | nil => rfl
  | cons c rest ih => cases c <;> simp [objectCalls, ih]

theorem objectCalls_outcomeCalls (err : Option Err) : objectCalls (outcomeCalls err) = [] := by
  cases err with
  | none => rfl
  | some e => cases h : isRequeueClassified e <;> simp [outcomeCalls, h, objectCalls]

theorem reconcileTotalLabels_outcomeCalls (err : Option Err) :
    reconcileTotalLabels (outcomeCalls err)
      = [match err with
          | none => .LabelSuccess
          | some e => if isRequeueClassified e then .LabelRequeue else .LabelError] := by
  cases err with
  | none => rfl
  | some e =>
    cases h : isRequeueClassified e <;> simp [outcomeCalls, h, reconcileTotalLabels]

/-- The calls of `sync` to the lister and to the reconcile control function, path
by path. -/
theorem sync_objectCalls (d : Dependencies σ) (key : String) (w : Run σ) :
    (∃ e, d.SplitMetaNamespaceKey key = .error e ∧ (sync d key w).1 = some e ∧
      objectCalls ((sync d key w).2.since w) = []) ∨
    (∃ ns name e st1, d.SplitMetaNamespaceKey key = .ok (ns, name) ∧
      d.listerGet ns name (d.timeNow w.st).2 = (.error e, st1) ∧
      errors.IsNotFound e = true ∧ (sync d key w).1 = none ∧
      objectCalls ((sync d key w).2.since w) = [.listerGet ns name]) ∨
    (∃ ns name e st1, d.SplitMetaNamespaceKey key = .ok (ns, name) ∧
      d.listerGet ns name (d.timeNow w.st).2 = (.error e, st1) ∧
      errors.IsNotFound e = false ∧ (sync d key w).1 = some e ∧
      objectCalls ((sync d key w).2.since w) = [.listerGet ns name]) ∨
    (∃ ns name ta st1, d.SplitMetaNamespaceKey key = .ok (ns, name) ∧
      d.listerGet ns name (d.timeNow w.st).2 = (.ok ta, st1) ∧
      (sync d key w).1 = (d.ResconcileAutoScaler ta st1).1 ∧
      objectCalls ((sync d key w).2.since w)
        = [.listerGet ns name, .ResconcileAutoScaler ta]) := by
  obtain ⟨body, hev, hc⟩ := sync_since d key w
  rcases hc with ⟨e, hs, h1, rfl⟩ | ⟨ns, name, e, st1, hs, hl, hn, h1, rfl⟩ |
    ⟨ns, name, e, st1, hs, hl, hn, h1, rfl⟩ | ⟨ns, name, ta, st1, hs, hl, h1, rfl⟩
  · exact Or.inl ⟨e, hs, h1, by
      rw [hev]; simp [objectCalls_append, objectCalls, objectCalls_outcomeCalls]⟩
  · exact Or.inr (Or.inl ⟨ns, name, e, st1, hs, hl, hn, h1, by
      rw [hev]; simp [objectCalls_append, objectCalls, objectCalls_outcomeCalls]⟩)
  · exact Or.inr (Or.inr (Or.inl ⟨ns, name, e, st1, hs, hl, hn, h1, by
      rw [hev]; simp [objectCalls_append, objectCalls, objectCalls_outcomeCalls]⟩))
  · exact Or.inr (Or.inr (Or.inr ⟨ns, name, ta, st1, hs, hl, h1, by
      rw [hev]; simp [objectCalls_append, objectCalls, objectCalls_outcomeCalls]⟩))

/-- The run of `processNextWorkItem` for a key whose `sync` returns nil. -/
theorem processNextWorkItem_finished (d : Dependencies σ) (w : Run σ) (key : String) (st2 : σ)
    (w3 : Run σ)
    (hq : d.queueGet (d.activeWorkersAdd 1 w.st).2 = ((key, false), st2))
    (hS : sync d key { st := st2, calls := w.calls ++ [.activeWorkersAdd 1, .queueGet] }
      = (none, w3)) :
    processNextWorkItem d w
      = (true,
          { st := (d.activeWorkersAdd (-1) (d.queueDone key (d.queueForget key w3.st).2).2).2,
            calls := w3.calls ++
              [.queueForget key, .queueDone key, .activeWorkersAdd (-1)] }) := by
  have hW : ({ st := st2, calls := w.calls ++ [.activeWorkersAdd 1] ++ [.queueGet] } : Run σ)
      = { st := st2, calls := w.calls ++ [.activeWorkersAdd 1, .queueGet] } := by simp
  simp [processNextWorkItem, Run.call, hq, hW, hS]

/-- The run of `processNextWorkItem` for a key whose `sync` returns an error. -/
theorem processNextWorkItem_unfinished (d : Dependencies σ) (w : Run σ) (key : String)
    (st2 : σ) (e : Err) (w3 : Run σ)
    (hq : d.queueGet (d.activeWorkersAdd 1 w.st).2 = ((key, false), st2))
    (hS : sync d key { st := st2, calls := w.calls ++ [.activeWorkersAdd 1, .queueGet] }
      = (some e, w3)) :
    processNextWorkItem d w
      = (true,
          { st := (d.activeWorkersAdd (-1) (d.queueDone key (d.queueAddRateLimited key
              (if isRequeueClassified e then w3.st else (d.handleError e w3.st).2)).2).2).2,
            calls := w3.calls ++ (if isRequeueClassified e then [] else [.handleError]) ++
              [.queueAddRateLimited key, .queueDone key, .activeWorkersAdd (-1)] }) := by
  have hW : ({ st := st2, calls := w.calls ++ [.activeWorkersAdd 1] ++ [.queueGet] } : Run σ)
      = { st := st2, calls := w.calls ++ [.activeWorkersAdd 1, .queueGet] } := by simp
  cases hr : isRequeueClassified e <;>
    simp [processNextWorkItem, Run.call, hq, hW, hS, hr]

end autoscaler

end TidbOperator

/-! ## Where the error of a scale-in call comes from -/

namespace TidbOperator

namespace tikvScaler

variable {σ : Type}

theorem annotatePVCs_handedOn (d : Deps σ) (tc : TidbCluster) (deferTime : Option String)
    (pvcs : List PVC) (w : World σ) (e : Err)
    (h : (annotatePVCs d tc deferTime pvcs w).1 = some e) : HandedOn d tc e := by
  induction pvcs generalizing w with
  | nil => simp [annotatePVCs] at h
  | cons pvc rest ih =>
    simp only [annotatePVCs, World.call] at h
    cases hc : (d.addDeferDeletingAnnoToPVC tc pvc deferTime w.st).1 with
    | some err =>
      simp only [hc] at h
      cases h
      exact Or.inr (Or.inl ⟨pvc, deferTime, w.st, hc⟩)
    | none =>
      simp only [hc] at h
      exact ih _ h

theorem resolveAndAnnotate_error_origin (d : Deps σ) (tc : TidbCluster) (pod : Pod)
    (deferTime : Option String) (w : World σ) (e : Err)
    (h : (resolveAndAnnotate d tc pod deferTime w).1 = some e) :
    e ≠ .errorf "tikvScaler.ScaleIn: failed to pass up stores check , pod %s, cluster %s/%s" ∨
      HandedOn d tc e := by
  simp only [resolveAndAnnotate, World.call] at h
  cases hc : (d.resolvePVCFromPod pod w.st).1 with
  | error err =>
    simp only [hc] at h
    cases h
    exact Or.inl (by simp)
  | ok pvcs =>
    simp only [hc] at h
    exact Or.inr (annotatePVCs_handedOn d tc deferTime pvcs _ e h)

theorem evictLeaderStep_error_origin (d : Deps σ) (tc : TidbCluster) (id : Nat)
    (evictedOrTimeout : Bool) (w : World σ) (e : Err)
    (h : (evictLeaderStep d tc id evictedOrTimeout w).1 = some e) :
    e ≠ .errorf "tikvScaler.ScaleIn: failed to pass up stores check , pod %s, cluster %s/%s" := by
  simp only [evictLeaderStep, World.call] at h
  split at h
  · split at h
    · cases h
      simp
    · split at h
      · split at h
        · cases h
          simp
        · cases h
      · cases h
  · cases h

theorem deleteStoreStep_error_origin (d : Deps σ) (tc : TidbCluster) (id : Nat)
    (state : String) (evictedOrTimeout : Bool) (w : World σ) (e : Err)
    (h : (deleteStoreStep d tc id state evictedOrTimeout w).1.2 = some e) :
    e ≠ .errorf "tikvScaler.ScaleIn: failed to pass up stores check , pod %s, cluster %s/%s" ∨
      HandedOn d tc e := by
  simp only [deleteStoreStep, World.call] at h
  split at h
  · cases hc : (d.pdDeleteStore tc id w.st).1 with
    | some err =>
      simp only [hc] at h
      cases h
      exact Or.inr (Or.inl ⟨id, w.st, hc⟩)
    | none =>
      simp only [hc] at h
      cases h
      exact Or.inl (by simp [controller.RequeueErrorf])
  · cases h
    exact Or.inl (by simp [controller.RequeueErrorf])

theorem scaleInStore_error_origin (d : Deps σ) (tc : TidbCluster) (pod : Pod)
    (currentTime : Time) (store : TiKVStore) (w : World σ) (e : Err)
    (h : (scaleInStore d tc pod currentTime store w).1.2 = some e) :
    e ≠ .errorf "tikvScaler.ScaleIn: failed to pass up stores check , pod %s, cluster %s/%s" ∨
      HandedOn d tc e := by
  simp only [scaleInStore] at h
  split at h
  · cases h
    exact Or.inl (by simp)
  · split at h
    · cases h
      exact Or.inl (by simp)
    · split at h
      · cases h
        exact Or.inl (by simp)
      · split at h
        · rename_i err w2 hev
          cases h
          exact Or.inl (evictLeaderStep_error_origin d tc _ _ _ e (by rw [hev]))
        · exact deleteStoreStep_error_origin d tc _ _ _ _ e h

theorem scaleInTombstone_error_origin (d : Deps σ) (tc : TidbCluster) (pod : Pod)
    (currentTime : Time) (store : TiKVStore) (w : World σ) (e : Err)
    (h : (scaleInTombstone d tc pod currentTime store w).1.2 = some e) :
    e ≠ .errorf "tikvScaler.ScaleIn: failed to pass up stores check , pod %s, cluster %s/%s" ∨
      HandedOn d tc e := by
  simp only [scaleInTombstone] at h
  split at h
  · cases h
    exact Or.inl (by simp)
  · rename_i id hid
    split at h
    · rename_i err w1 hra
      cases h
      exact resolveAndAnnotate_error_origin d tc pod _ w e (by rw [hra])
    · rename_i w1 hra
      simp only [World.call] at h
      cases hc : (d.endEvictLeaderbyStoreID tc id w1.st).1 with
      | some err =>
        simp only [hc] at h
        cases h
        exact Or.inr (Or.inr (Or.inr ⟨id, w1.st, hc⟩))
      | none =>
        simp only [hc] at h
        cases h

theorem scaleInNotFound_error_origin (d : Deps σ) (tc : TidbCluster) (pod : Pod)
    (w : World σ) (e : Err)
    (h : (scaleInNotFound d tc pod w).1.2 = some e) :
    e ≠ .errorf "tikvScaler.ScaleIn: failed to pass up stores check , pod %s, cluster %s/%s" ∨
      HandedOn d tc e := by
  simp only [scaleInNotFound] at h
  split at h
  · simp only [scaleInNotReady] at h
    split at h
    · cases h
      exact Or.inl (by simp)
    · rename_i w1 hw
      split at h
      · rename_i err w2 hra
        cases h
        exact resolveAndAnnotate_error_origin d tc pod none w1 e (by rw [hra])
      · cases h
  · simp only [scaleInNoActiveStore] at h
    split at h
    · cases h
      exact Or.inl (by simp)
    · split at h
      · cases h
        exact Or.inl (by simp)
      · simp only [World.call] at h
        split at h
        · split at h
          · rename_i err w2 hra
            cases h
            exact resolveAndAnnotate_error_origin d tc pod none _ e (by rw [hra])
          · cases h
        · cases h
          exact Or.inl (by simp)

/-- An error of the part of `scaleInOne` after `UpdateMetaInfo` is another one than
the error of the rejected pre-check, unless a collaborator returned that one. -/
theorem scaleInSynced_error_origin (d : Deps σ) (tc : TidbCluster) (podName : String)
    (pod : Pod) (currentTime : Time) (w : World σ) (e : Err)
    (h : (scaleInSynced d tc podName pod currentTime w).1.2 = some e) :
    e ≠ .errorf "tikvScaler.ScaleIn: failed to pass up stores check , pod %s, cluster %s/%s" ∨
      HandedOn d tc e := by
  rcases scaleInSynced_inv d tc podName pod currentTime w with
    ⟨_, _, store, _, _, _, _, heq⟩ | ⟨_, _, _, store, _, _, _, _, _, heq⟩ | ⟨_, _, heq⟩
  · rw [heq] at h
    exact scaleInStore_error_origin d tc pod currentTime store w e h
  · rw [heq] at h
    exact scaleInTombstone_error_origin d tc pod currentTime store w e h
  · rw [heq] at h
    exact scaleInNotFound_error_origin d tc pod w e h

/-- A `scaleInOne` call that is told to skip the pre-check returns the error of the
rejected pre-check only if a collaborator returned that error to it. -/
theorem scaleInOne_skip_error_origin (d : Deps σ) (tc : TidbCluster)
    (up deleted maxReplicas ordinal : Int) (currentTime : Time) (w : World σ)
    (h : (scaleInOne d tc true up deleted maxReplicas ordinal currentTime w).1.2
      = some (.errorf
          "tikvScaler.ScaleIn: failed to pass up stores check , pod %s, cluster %s/%s")) :
    HandedOn d tc (.errorf
      "tikvScaler.ScaleIn: failed to pass up stores check , pod %s, cluster %s/%s") := by
  rcases scaleInOne_cases d tc true up deleted maxReplicas ordinal currentTime w with
    ⟨_, _, _, hr, _⟩ | ⟨_, _, _, hs, _⟩ | ⟨_, _, _, _, _, _, _, hr, _⟩ |
    ⟨pod, st2, pod0, st1, h0, hpass, h2⟩
  · rw [hr] at h
    simp at h
  · cases hs
  · rw [hr] at h
    cases h
  · rw [scaleInOne_of_synced d tc true up deleted maxReplicas ordinal currentTime w
      pod0 st1 pod st2 h0 hpass h2] at h
    rcases scaleInSynced_error_origin d tc _ pod currentTime _ _ h with hne | hh
    · exact absurd rfl hne
    · exact hh

/-- The calls of a batch that are told to skip the pre-check: none returns the
error of the rejected pre-check unless a collaborator returned that error. -/
theorem scaleInCalls_skip_error_origin (d : Deps σ) (tc : TidbCluster)
    (up maxReplicas : Int) (t : Time) (ordinals : List Int) (deleted : Int) (w : World σ) :
    ∀ c ∈ (scaleInCalls d tc true up maxReplicas t ordinals deleted w).1,
      c.2.2 = some (.errorf
          "tikvScaler.ScaleIn: failed to pass up stores check , pod %s, cluster %s/%s") →
      HandedOn d tc (.errorf
        "tikvScaler.ScaleIn: failed to pass up stores check , pod %s, cluster %s/%s") := by
  induction ordinals generalizing deleted w with
  | nil => intro c hc; simp [scaleInCalls] at hc
  | cons o rest ih =>
    intro c hc hE
    simp only [scaleInCalls, List.mem_cons] at hc
    rcases hc with rfl | hc
    · exact scaleInOne_skip_error_origin d tc up deleted maxReplicas o t w hE
    · exact ih _ _ c hc hE

end tikvScaler

end TidbOperator

namespace TidbOperator

namespace tikvScaler

variable {σ : Type}

/-- The rule of the quorum pre-check on a bootstrapped cluster whose store entries
have distinct pod names: with `n` the Up-store count minus the Up stores already
removed in this pass, `preCheckUpStores` returns true if and only if
`n > maxReplicas`, or `n = maxReplicas` and no entry of the pod is in state Up. -/
theorem preCheck_rule_of_distinct_pods (d : Deps σ) (tc : TidbCluster) (podName : String)
    (up deleted maxReplicas : Int) (w : World σ) (hboot : tc.TiKVBootStrapped = true)
    (hnodup : (tc.Status.Stores.map (fun kv => kv.2.PodName)).Nodup) :
    (preCheckUpStores d tc podName up deleted maxReplicas w).1 = true ↔
      (maxReplicas < up - deleted ∨
        (up - deleted = maxReplicas ∧
          ∀ kv ∈ tc.Status.Stores, kv.2.PodName = podName → kv.2.State ≠ TiKVStateUp)) := by
  have hstate : preCheckStoreState podName tc.Status.Stores "" ≠ TiKVStateUp ↔
      ∀ kv ∈ tc.Status.Stores, kv.2.PodName = podName → kv.2.State ≠ TiKVStateUp := by
    by_cases hex : ∃ kv ∈ tc.Status.Stores, kv.2.PodName = podName
    · obtain ⟨kv, hmem, hname⟩ := hex
      obtain ⟨pre, post, hsplit⟩ := List.append_of_mem hmem
      obtain ⟨k, store⟩ := kv
      have hag : preCheckStoreState podName tc.Status.Stores "" = store.State := by
        rw [hsplit] at hnodup ⊢
        exact preCheckStoreState_agrees podName pre post k store "" hnodup hname
      rw [hag]
      constructor
      · intro hne kv2 hmem2 hname2
        have hsame : kv2.2 = store := by
          rw [hsplit] at hnodup hmem2
          rw [List.map_append, List.map_cons] at hnodup
          have hd := List.nodup_append.mp hnodup
          rcases List.mem_append.mp hmem2 with h1 | h1
          · exfalso
            exact hd.2.2 (List.mem_map.mpr ⟨kv2, h1, rfl⟩)
              (by rw [hname2, ← hname]; exact List.mem_cons_self _ _)
          · rcases List.mem_cons.mp h1 with h2 | h2
            · rw [h2]
            · exfalso
              apply (List.nodup_cons.mp hd.2.1).1
              rw [hname, ← hname2]
              exact List.mem_map.mpr ⟨kv2, h2, rfl⟩
        rw [hsame]
        exact hne
      · intro hall
        exact hall (k, store) hmem hname
    · have hno : ∀ kv ∈ tc.Status.Stores, kv.2.PodName ≠ podName :=
        fun kv hmem hname => hex ⟨kv, hmem, hname⟩
      rw [preCheckStoreState_no_match podName tc.Status.Stores "" hno]
      constructor
      · intro _ kv hmem hname
        exact absurd hname (hno kv hmem)
      · intro _
        decide
  rw [preCheckUpStores_true, hstate]
  constructor
  · rintro (h | h | h)
    · rw [hboot] at h; cases h
    · exact Or.inl h
    · exact Or.inr h
  · rintro (h | h)
    · exact Or.inr (Or.inl h)
    · exact Or.inr (Or.inr h)

end tikvScaler

end TidbOperator

/-! ## The claims -/

namespace TidbOperator

namespace tikvScaler

variable {σ : Type}

/-- C1: `Scale` dispatches on the sign of the scaling amount of `scaleOne`: a
positive amount gives exactly the result of `ScaleOut`, a negative one exactly
that of `ScaleIn`, and for a zero amount `Scale` returns nil, records no event
(it enters neither `ScaleOut` nor `ScaleIn`), leaves `newSet` as it is, and a
second `Scale` on the result changes nothing either. -/
theorem Scale_dispatches (d : Deps σ) (m : Meta) (oldSet newSet : StatefulSet) (w : World σ) :
    (0 < (d.scaleOne oldSet newSet).1 →
      Scale d m oldSet newSet w = ScaleOut d m oldSet newSet w) ∧
    ((d.scaleOne oldSet newSet).1 < 0 →
      Scale d m oldSet newSet w = ScaleIn d m oldSet newSet w) ∧
    ((d.scaleOne oldSet newSet).1 = 0 →
      Scale d m oldSet newSet w = (none, newSet, w) ∧
      (Scale d m oldSet newSet w).2.2.since w = [] ∧
      Scale d m oldSet (Scale d m oldSet newSet w).2.1 (Scale d m oldSet newSet w).2.2
        = (none, newSet, w)) := by
  refine ⟨fun h => ?_, fun h => ?_, fun h => ?_⟩
  · simp [Scale, h]
  · have h2 : ¬ (0 < (d.scaleOne oldSet newSet).1) := by omega
    simp [Scale, h, h2]
  · have h1 : Scale d m oldSet newSet w = (none, newSet, w) := by
      simp [Scale, h]
    rw [h1]
    simp [h1, since_self]

/-- The three branches of `Scale` on the cluster `demo`: from 5 replicas to 7, to 3
and to 5. -/
theorem Scale_dispatches_witness :
    Scale demoScenario.deps (.tidbCluster (demoCluster demoStatus)) (demoSet 5) (demoSet 7)
        World.start
      = ScaleOut demoScenario.deps (.tidbCluster (demoCluster demoStatus)) (demoSet 5)
          (demoSet 7) World.start ∧
    Scale demoScenario.deps (.tidbCluster (demoCluster demoStatus)) (demoSet 5) (demoSet 3)
        World.start
      = ScaleIn demoScenario.deps (.tidbCluster (demoCluster demoStatus)) (demoSet 5)
          (demoSet 3) World.start ∧
    Scale demoScenario.deps (.tidbCluster (demoCluster demoStatus)) (demoSet 5) (demoSet 5)
        World.start = (none, demoSet 5, World.start) :=
  ⟨(Scale_dispatches demoScenario.deps (.tidbCluster (demoCluster demoStatus)) (demoSet 5)
      (demoSet 7) World.start).1 (by decide),
    (Scale_dispatches demoScenario.deps (.tidbCluster (demoCluster demoStatus)) (demoSet 5)
      (demoSet 3) World.start).2.1 (by decide),
    ((Scale_dispatches demoScenario.deps (.tidbCluster (demoCluster demoStatus)) (demoSet 5)
      (demoSet 5) World.start).2.2 (by decide)).1⟩

/-- The quorum invariant of a scale-in batch on a bootstrapped cluster whose
status has no two entries with the same pod name: with U the Up-store count, M
the replication factor and D the `deletedUpStoreTotal` at the end of the loop of
`ScaleIn`, if D > 0 then U - D >= M. -/
theorem quorum_invariant_of_distinct_pods (d : Deps σ) (tc : TidbCluster)
    (up maxReplicas : Int) (currentTime : Time) (ordinals : List Int) (w : World σ)
    (hboot : tc.TiKVBootStrapped = true)
    (hnodup : (tc.Status.Stores.map (fun kv => kv.2.PodName)).Nodup) :
    0 < (scaleInLoop d tc false up maxReplicas currentTime ordinals
        { deletedUpStoreTotal := 0, errs := [], finishedOrdinals := [],
          updateReplicasAndDeleteSlots := false } w).1.deletedUpStoreTotal →
      maxReplicas ≤ up - (scaleInLoop d tc false up maxReplicas currentTime ordinals
        { deletedUpStoreTotal := 0, errs := [], finishedOrdinals := [],
          updateReplicasAndDeleteSlots := false } w).1.deletedUpStoreTotal := by
  rw [scaleInLoop_eq]
  exact scaleInCalls_quorum d tc up maxReplicas currentTime hboot hnodup ordinals 0 w
    (by intro h; exact absurd h (lt_irrefl 0))

/-- C2: the quorum invariant of a scale-in batch fails on the code. On a
bootstrapped cluster whose status lists two stores for the pod 4 (store 5, Up and
without leaders, first in iteration order, and store 9, Offline, last), with
U = 3 Up stores counted from PD and the replication factor M = 3, the pre-check
of the pod reads the state Offline of the last entry and passes, `scaleInOne`
acts on the first entry and issues `DeleteStore` for the Up store 5, and the
batch ends with D = `deletedUpStoreTotal` = 1: D > 0 while U - D = 2 < M. -/
theorem quorum_broken_by_shared_pod_name :
    (scaleInPrepare tightScenario.deps (demoCluster sharedPodStatus)
        ((World.start.mark .enterScaleIn).call .timeNow tightScenario.deps.timeNow).2).1
      = .ok { skipPreCheck := false, upTikvStoreCount := 3, maxReplicas := 3 } ∧
    (ScaleIn tightScenario.deps (.tidbCluster (demoCluster sharedPodStatus)) (demoSet 5)
        (demoSet 4) World.start).2.2.trace
      = [.enterScaleIn, .timeNow, .pdGetStores, .pdGetConfig,
          .enterScaleInOne false 3 0 3 4, .podGet "ns" "demo-tikv-4",
          .updateMetaInfo "demo-tikv-4", .ensureScaleInTimeAnnoInPod "demo-tikv-4" "1000",
          .pdDeleteStore 5, .exitScaleInOne 4 1 false, .resetReplicas] ∧
    (scaleInLoop tightScenario.deps (demoCluster sharedPodStatus) false 3 3 1000 [4]
        { deletedUpStoreTotal := 0, errs := [], finishedOrdinals := [],
          updateReplicasAndDeleteSlots := false }
        { st := 3, trace := [] }).1.deletedUpStoreTotal = 1 ∧
    ¬ ((3 : Int) ≤ 3 - 1) := by
  refine ⟨rfl, by decide, by decide, by decide⟩

/-- C3 (amended): no speculative deletion. In every `scaleInOne` call that
attaches the deferred-deletion annotation to a storage claim, with `pod` the pod
returned by the pod lister and then by `UpdateMetaInfo`, `DeletionConfirmed`
holds: either (a) `TombstoneStores` has an entry for the pod under the store-ID
label of the pod, or (b) the pod has no entry in `Stores` and no entry in
`TombstoneStores` under its store-ID label, and either the pod is not ready and,
on a bootstrapped cluster, was created at least five resync periods before the
reading of the clock (on a cluster that is not bootstrapped there is no wait),
or the pod is ready and its no-active-store-since time is more than five resync
periods before the reading of the clock. -/
theorem no_speculative_deletion (d : Deps σ) (tc : TidbCluster) (skipPreCheck : Bool)
    (up deleted maxReplicas ordinal : Int) (currentTime : Time) (w : World σ)
    (h : annotatesPVC
      ((scaleInOne d tc skipPreCheck up deleted maxReplicas ordinal currentTime w).2.since w)
        = true) :
    ∃ (pod0 pod : Pod) (st0 st1 : σ),
      (d.podGet tc.Namespace (d.ordinalPodName TiKVMemberType tc.Name ordinal) st0).1
        = .ok pod0 ∧
      (d.updateMetaInfo tc pod0 st1).1 = .ok pod ∧
      DeletionConfirmed d tc (d.ordinalPodName TiKVMemberType tc.Name ordinal) pod := by
  have hsince : annotatesPVC ((scaleInOneBody d tc skipPreCheck up deleted maxReplicas ordinal
      currentTime (w.mark (.enterScaleInOne skipPreCheck up deleted maxReplicas
        ordinal))).2.since
      (w.mark (.enterScaleInOne skipPreCheck up deleted maxReplicas ordinal))) = true := by
    obtain ⟨evs, ht, _⟩ := scaleInOneBody_emits (fun _ => True) d tc skipPreCheck up deleted
      maxReplicas ordinal currentTime (by simp) (by simp) (by simp) (by simp) (by simp)
      (by simp) (by simp) (by simp) (by simp) (by simp) (by simp)
      (w.mark (.enterScaleInOne skipPreCheck up deleted maxReplicas ordinal))
    have h2 : (scaleInOne d tc skipPreCheck up deleted maxReplicas ordinal currentTime
        w).2.since w = .enterScaleInOne skipPreCheck up deleted maxReplicas ordinal :: evs ++
          [.exitScaleInOne ordinal
            (scaleInOne d tc skipPreCheck up deleted maxReplicas ordinal currentTime w).1.1
            (scaleInOne d tc skipPreCheck up deleted maxReplicas ordinal currentTime
              w).1.2.isNone] := by
      simp only [scaleInOne, World.since, mark_trace, ht]
      simp
    rw [h2] at h
    have h3 : (scaleInOneBody d tc skipPreCheck up deleted maxReplicas ordinal
      currentTime (w.mark (.enterScaleInOne skipPreCheck up deleted maxReplicas
        ordinal))).2.since
      (w.mark (.enterScaleInOne skipPreCheck up deleted maxReplicas ordinal)) = evs := by
      simp [World.since, ht]
    rw [h3]
    simpa [annotatesPVC, marksClaim] using h
  generalize w.mark (.enterScaleInOne skipPreCheck up deleted maxReplicas ordinal) = wm
    at hsince
  simp only [scaleInOneBody] at hsince
  have hc := call_emits (fun ev => marksClaim ev = false) wm
    (.podGet tc.Namespace (d.ordinalPodName TiKVMemberType tc.Name ordinal))
    (d.podGet tc.Namespace (d.ordinalPodName TiKVMemberType tc.Name ordinal)) rfl
  split at hsince
  · rename_i heq
    rw [heq] at hc
    rw [annotatesPVC_of_emits hc] at hsince
    cases hsince
  · rename_i pod0 w1 heq
    have hpod0 : (d.podGet tc.Namespace (d.ordinalPodName TiKVMemberType tc.Name ordinal)
        wm.st).1 = .ok pod0 := by
      have := congrArg Prod.fst heq
      simpa [World.call] using this
    rw [heq] at hc
    have hp := preCheckStep_emits (fun ev => marksClaim ev = false) d tc skipPreCheck
      (d.ordinalPodName TiKVMemberType tc.Name ordinal) up deleted maxReplicas
      (by intros; rfl) w1
    split at hsince
    · rename_i heq2
      rw [heq2] at hp
      rw [annotatesPVC_of_emits (hc.trans hp)] at hsince
      cases hsince
    · rename_i w2 heq2
      rw [heq2] at hp
      have hu := call_emits (fun ev => marksClaim ev = false) w2 (.updateMetaInfo pod0.Name)
        (d.updateMetaInfo tc pod0) rfl
      split at hsince
      · rename_i heq3
        rw [heq3] at hu
        rw [annotatesPVC_of_emits ((hc.trans hp).trans hu)] at hsince
        cases hsince
      · rename_i pod w3 heq3
        have hpod : (d.updateMetaInfo tc pod0 w2.st).1 = .ok pod := by
          have := congrArg Prod.fst heq3
          simpa [World.call] using this
        rw [heq3] at hu
        refine ⟨pod0, pod, wm.st, w2.st, hpod0, hpod, ?_⟩
        apply scaleInSynced_annotates d tc _ pod currentTime w3
        obtain ⟨e1, ht1, hn1⟩ := (hc.trans hp).trans hu
        obtain ⟨e2, ht2, _⟩ := scaleInSynced_emits (fun _ => True) d tc
          (d.ordinalPodName TiKVMemberType tc.Name ordinal) pod currentTime (by simp) (by simp)
          (by simp) (by simp) (by simp) (by simp) (by simp) (by simp) w3
        rw [since_trans ht1 ht2, annotatesPVC_append] at hsince
        have hno : annotatesPVC (w3.since wm) = false :=
          annotatesPVC_of_emits ⟨e1, ht1, hn1⟩
        rw [hno] at hsince
        simpa using hsince

/-- A `scaleInOne` call for the pod 4 whose store 5 is a tombstone marks the claim
of the pod. -/
theorem no_speculative_deletion_witness :
    ∃ (pod0 pod : Pod) (st0 st1 : Nat),
      (demoScenario.deps.podGet (demoCluster tombstoneStatus).Namespace
        (demoScenario.deps.ordinalPodName TiKVMemberType (demoCluster tombstoneStatus).Name 4)
        st0).1 = .ok pod0 ∧
      (demoScenario.deps.updateMetaInfo (demoCluster tombstoneStatus) pod0 st1).1 = .ok pod ∧
      DeletionConfirmed demoScenario.deps (demoCluster tombstoneStatus)
        (demoScenario.deps.ordinalPodName TiKVMemberType (demoCluster tombstoneStatus).Name 4)
        pod :=
  no_speculative_deletion demoScenario.deps (demoCluster tombstoneStatus) false 4 0 3 4 1000
    World.start (by decide)

/-- Two `scaleInOne` calls attach the deferred-deletion annotation although the
condition of the specification fails. On a cluster that never bootstrapped, the
pod 4 is not ready and was created 10 ns before the reading of the clock, with a
grace window of 150 ns, and has no tombstone entry. On a bootstrapped cluster,
the ready pod 4 with the store-ID label 5 is not absent from the store lists: it
has a tombstone entry under the store ID 7. -/
theorem no_speculative_deletion_counterexample :
    (annotatesPVC ((scaleInOne pendingScenario.deps (demoCluster freshStatus) true 0 0 0 4 1000
        World.start).2.since World.start) = true ∧
      ¬ ∃ (pod0 pod : Pod) (st0 st1 : Nat),
        (pendingScenario.deps.podGet "ns" "demo-tikv-4" st0).1 = .ok pod0 ∧
        (pendingScenario.deps.updateMetaInfo (demoCluster freshStatus) pod0 st1).1 = .ok pod ∧
        DeletionConfirmedAsClaimed pendingScenario.deps (demoCluster freshStatus)
          "demo-tikv-4" pod) ∧
    (annotatesPVC ((scaleInOne goneStoreScenario.deps (demoCluster oldTombstoneStatus) false 4 0
        3 4 1000 World.start).2.since World.start) = true ∧
      ¬ ∃ (pod0 pod : Pod) (st0 st1 : Nat),
        (goneStoreScenario.deps.podGet "ns" "demo-tikv-4" st0).1 = .ok pod0 ∧
        (goneStoreScenario.deps.updateMetaInfo (demoCluster oldTombstoneStatus) pod0 st1).1
          = .ok pod ∧
        DeletionConfirmedAsClaimed goneStoreScenario.deps (demoCluster oldTombstoneStatus)
          "demo-tikv-4" pod) := by
  refine ⟨⟨by decide, ?_⟩, ⟨by decide, ?_⟩⟩
  · rintro ⟨pod0, pod, st0, st1, h0, h1, hc⟩
    have e0 : pod0 = { demoPod 4 "" false with CreationTimestamp := 990 } := by
      have : (pendingScenario.deps.podGet "ns" "demo-tikv-4" st0).1
          = .ok { demoPod 4 "" false with CreationTimestamp := 990 } := rfl
      rw [this] at h0
      injection h0 with h0
      exact h0.symm
    have e1 : pod = pod0 := by
      have : (pendingScenario.deps.updateMetaInfo (demoCluster freshStatus) pod0 st1).1
          = .ok pod0 := rfl
      rw [this] at h1
      injection h1 with h1
      exact h1.symm
    subst e1
    subst e0
    rcases hc with ⟨kv, hkv, _⟩ | ⟨_, _, ⟨_, st, hle⟩ | ⟨v, t, st, hv, _⟩⟩
    · simp [demoCluster, freshStatus] at hkv
    · have hnow : (pendingScenario.deps.timeNow st).1 = 1000 := rfl
      have hfive : fiveResyncPeriods pendingScenario.deps = 150 := by decide
      rw [hnow, hfive] at hle
      revert hle
      decide
    · have hnone : List.lookup pendingScenario.deps.AnnTiKVNoActiveStoreSince
          ({ demoPod 4 "" false with CreationTimestamp := 990 } : Pod).Annotations = none := rfl
      rw [hnone] at hv
      cases hv
  · rintro ⟨pod0, pod, st0, st1, h0, h1, hc⟩
    rcases hc with ⟨kv, hkv, _, hl⟩ | ⟨_, hno, _⟩
    · have e0 : pod0 = { demoPod 4 "5" true with
          Annotations := [("tidb.pingcap.com/tikv-no-active-store-since", "100")] } := by
        have : (goneStoreScenario.deps.podGet "ns" "demo-tikv-4" st0).1
            = .ok { demoPod 4 "5" true with
              Annotations := [("tidb.pingcap.com/tikv-no-active-store-since", "100")] } := rfl
        rw [this] at h0
        injection h0 with h0
        exact h0.symm
      have e1 : pod = pod0 := by
        have : (goneStoreScenario.deps.updateMetaInfo (demoCluster oldTombstoneStatus) pod0
            st1).1 = .ok pod0 := rfl
        rw [this] at h1
        injection h1 with h1
        exact h1.symm
      subst e1
      subst e0
      have hk : kv = demoStore "7" 4 "Tombstone" 0 := by
        simpa [demoCluster, oldTombstoneStatus] using hkv
      subst hk
      revert hl
      decide
    · exact hno (demoStore "7" 4 "Tombstone" 0) (by simp [demoCluster, oldTombstoneStatus])
        (by decide)

/-- C4: partial-failure safety. A `ScaleOut` call on a `TidbCluster`, and a
`ScaleIn` call on a `TidbCluster` whose preparation succeeds (so that the loop
over the ordinals is reached), end as `BatchFailureSafe` says: with a finished
call, `newSet` is updated by `setReplicasAndDeleteSlotsByFinished` with exactly
the ordinals whose call returned no error and `resetReplicas` is not called;
without one, `newSet` is reset by `resetReplicas` and no update by finished
ordinals is made. -/
theorem batch_failure_safety (d : Deps σ) (tc : TidbCluster) (oldSet newSet : StatefulSet)
    (w : World σ) :
    BatchFailureSafe d d.scalingOutFlag oldSet newSet
      (d.scaleMulti oldSet newSet tc.ScaleOutParallelism).2.1
      (scaleOutCalls d tc (d.scaleMulti oldSet newSet tc.ScaleOutParallelism).2.1
        (w.mark .enterScaleOut)).1
      (ScaleOut d (.tidbCluster tc) oldSet newSet w).2.1
      ((ScaleOut d (.tidbCluster tc) oldSet newSet w).2.2.since w) ∧
    ∀ (p : PreCheckInput) (w1 : World σ),
      scaleInPrepare d tc ((w.mark .enterScaleIn).call .timeNow d.timeNow).2 = (.ok p, w1) →
      BatchFailureSafe d d.scalingInFlag oldSet newSet
        (d.scaleMulti oldSet newSet tc.ScaleInParallelism).2.1
        (scaleInCalls d tc p.skipPreCheck p.upTikvStoreCount p.maxReplicas
          ((w.mark .enterScaleIn).call .timeNow d.timeNow).1
          (d.scaleMulti oldSet newSet tc.ScaleInParallelism).2.1 0 w1).1
        (ScaleIn d (.tidbCluster tc) oldSet newSet w).2.1
        ((ScaleIn d (.tidbCluster tc) oldSet newSet w).2.2.since w) := by
  constructor
  · rw [ScaleOut_eq]
    apply batchOutcome_safe
    · exact scaleOutCalls_ordinals d tc _ _
    · refine (mark_emits _ w _ ?_).trans (scaleOutCalls_emits _ d tc ?_ ?_ ?_ _ _)
      · simp [finishedRecorded]
      · intro ev hev
        cases ev <;> simp_all [inScaleOutOne, finishedRecorded]
      · intro o; simp [finishedRecorded]
      · intro o ok; simp [finishedRecorded]
  · intro p w1 hp
    rw [ScaleIn_eq d tc oldSet newSet w p w1 hp]
    apply batchOutcome_safe
    · exact scaleInCalls_ordinals d tc _ _ _ _ _ _ _
    · apply ScaleIn_calls_emits _ d tc w p w1 _ hp
      · simp [finishedRecorded]
      · simp [finishedRecorded]
      · intro _; simp [finishedRecorded]
      · intro ev hev
        cases ev <;> simp_all [inScaleInOne, finishedRecorded]
      · intro _; simp [finishedRecorded]
      · intros; simp [finishedRecorded]
      · intros; simp [finishedRecorded]

/-- A `ScaleIn` call from 5 to 3 replicas on the cluster `demo` reaches its loop and
is partial-failure safe. -/
theorem batch_failure_safety_witness :
    BatchFailureSafe demoScenario.deps demoScenario.deps.scalingInFlag (demoSet 5) (demoSet 3)
      (demoScenario.deps.scaleMulti (demoSet 5) (demoSet 3)
        (demoCluster demoStatus).ScaleInParallelism).2.1
      (scaleInCalls demoScenario.deps (demoCluster demoStatus) false 4 3
        ((World.start.mark .enterScaleIn).call .timeNow demoScenario.deps.timeNow).1
        (demoScenario.deps.scaleMulti (demoSet 5) (demoSet 3)
          (demoCluster demoStatus).ScaleInParallelism).2.1 0
        { st := 3, trace := [.enterScaleIn, .timeNow, .pdGetStores, .pdGetConfig] }).1
      (ScaleIn demoScenario.deps (.tidbCluster (demoCluster demoStatus)) (demoSet 5) (demoSet 3)
        World.start).2.1
      ((ScaleIn demoScenario.deps (.tidbCluster (demoCluster demoStatus)) (demoSet 5)
        (demoSet 3) World.start).2.2.since World.start) :=
  (batch_failure_safety demoScenario.deps (demoCluster demoStatus) (demoSet 5) (demoSet 3)
    World.start).2 { skipPreCheck := false, upTikvStoreCount := 4, maxReplicas := 3 }
    { st := 3, trace := [.enterScaleIn, .timeNow, .pdGetStores, .pdGetConfig] } rfl

/-- C5 (amended): the parallelism bound. A `ScaleOut` or `ScaleIn` call that
reaches its loop enters the per-ordinal routine exactly once for each ordinal
returned by `scaleMulti`, in order, and for no other ordinal; a call that returns
before the loop (the object is not a `TidbCluster`, or `ScaleIn` cannot fetch the
stores or the config from PD) enters it for no ordinal. In every call the
ordinals recorded as finished are ordinals of `scaleMulti`, no more than it
returned, and when `scaleMulti` returns at most `parallelism` ordinals, neither the
number of ordinals acted upon nor the number recorded as finished exceeds the
configured parallelism. -/
theorem parallelism_bound (d : Deps σ) (tc : TidbCluster) (oldSet newSet : StatefulSet)
    (w : World σ) :
    (enteredScaleOutOne ((ScaleOut d (.tidbCluster tc) oldSet newSet w).2.2.since w)
        = (d.scaleMulti oldSet newSet tc.ScaleOutParallelism).2.1 ∧
      (∀ fin ∈ finishedRecorded ((ScaleOut d (.tidbCluster tc) oldSet newSet w).2.2.since w),
        fin.length ≤ (d.scaleMulti oldSet newSet tc.ScaleOutParallelism).2.1.length ∧
        ∀ o ∈ fin, o ∈ (d.scaleMulti oldSet newSet tc.ScaleOutParallelism).2.1) ∧
      (scaleMultiBounded d oldSet newSet tc.ScaleOutParallelism →
        ((enteredScaleOutOne
          ((ScaleOut d (.tidbCluster tc) oldSet newSet w).2.2.since w)).length : Int)
            ≤ tc.ScaleOutParallelism ∧
        ∀ fin ∈ finishedRecorded ((ScaleOut d (.tidbCluster tc) oldSet newSet w).2.2.since w),
          (fin.length : Int) ≤ tc.ScaleOutParallelism)) ∧
    (((∃ p, (scaleInPrepare d tc ((w.mark .enterScaleIn).call .timeNow d.timeNow).2).1 = .ok p) →
        enteredScaleInOne ((ScaleIn d (.tidbCluster tc) oldSet newSet w).2.2.since w)
          = (d.scaleMulti oldSet newSet tc.ScaleInParallelism).2.1) ∧
      ((∃ e, (scaleInPrepare d tc ((w.mark .enterScaleIn).call .timeNow d.timeNow).2).1
          = .error e) →
        enteredScaleInOne ((ScaleIn d (.tidbCluster tc) oldSet newSet w).2.2.since w) = [] ∧
        finishedRecorded ((ScaleIn d (.tidbCluster tc) oldSet newSet w).2.2.since w) = []) ∧
      (∀ fin ∈ finishedRecorded ((ScaleIn d (.tidbCluster tc) oldSet newSet w).2.2.since w),
        fin.length ≤ (d.scaleMulti oldSet newSet tc.ScaleInParallelism).2.1.length ∧
        ∀ o ∈ fin, o ∈ (d.scaleMulti oldSet newSet tc.ScaleInParallelism).2.1) ∧
      (scaleMultiBounded d oldSet newSet tc.ScaleInParallelism →
        ((enteredScaleInOne
          ((ScaleIn d (.tidbCluster tc) oldSet newSet w).2.2.since w)).length : Int)
            ≤ tc.ScaleInParallelism ∧
        ∀ fin ∈ finishedRecorded ((ScaleIn d (.tidbCluster tc) oldSet newSet w).2.2.since w),
          (fin.length : Int) ≤ tc.ScaleInParallelism)) ∧
    (∀ ns name,
      enteredScaleOutOne ((ScaleOut d (.other ns name) oldSet newSet w).2.2.since w) = [] ∧
      enteredScaleInOne ((ScaleIn d (.other ns name) oldSet newSet w).2.2.since w) = []) := by
  refine ⟨?_, ?_, ?_⟩
  · obtain ⟨h1, h2⟩ := ScaleOut_entered d tc oldSet newSet w
    have hb := finished_bound (d.scaleMulti oldSet newSet tc.ScaleOutParallelism).2.1 _
      (scaleOutCalls_ordinals d tc (d.scaleMulti oldSet newSet tc.ScaleOutParallelism).2.1
        (w.mark .enterScaleOut))
    have h3 : ∀ fin ∈ finishedRecorded
        ((ScaleOut d (.tidbCluster tc) oldSet newSet w).2.2.since w),
        fin.length ≤ (d.scaleMulti oldSet newSet tc.ScaleOutParallelism).2.1.length ∧
        ∀ o ∈ fin, o ∈ (d.scaleMulti oldSet newSet tc.ScaleOutParallelism).2.1 := by
      intro fin hfin
      rw [h2 fin hfin]
      exact hb
    refine ⟨h1, h3, ?_⟩
    intro hm
    unfold scaleMultiBounded at hm
    constructor
    · rw [h1]; exact hm
    · intro fin hfin
      have := (h3 fin hfin).1
      omega
  · rcases hprep : scaleInPrepare d tc ((w.mark .enterScaleIn).call .timeNow d.timeNow).2 with
      ⟨res, w1⟩
    cases res with
    | error e =>
      obtain ⟨_, h2, h3⟩ := ScaleIn_early d tc oldSet newSet w e w1 hprep
      refine ⟨?_, fun _ => ⟨h2, h3⟩, ?_, ?_⟩
      · rintro ⟨p, hp⟩
        simp at hp
      · intro fin hfin
        rw [h3] at hfin
        simp at hfin
      · intro hm
        unfold scaleMultiBounded at hm
        rw [h2, h3]
        constructor
        · have : (0 : Int) ≤ ((d.scaleMulti oldSet newSet tc.ScaleInParallelism).2.1.length : Int) :=
            Int.natCast_nonneg _
          simp only [List.length_nil, Nat.cast_zero]
          omega
        · intro fin hfin
          simp at hfin
    | ok p =>
      obtain ⟨h1, h2⟩ := ScaleIn_entered d tc oldSet newSet w p w1 hprep
      have hb := finished_bound (d.scaleMulti oldSet newSet tc.ScaleInParallelism).2.1 _
        (scaleInCalls_ordinals d tc p.skipPreCheck p.upTikvStoreCount p.maxReplicas
          ((w.mark .enterScaleIn).call .timeNow d.timeNow).1
          (d.scaleMulti oldSet newSet tc.ScaleInParallelism).2.1 0 w1)
      have h3 : ∀ fin ∈ finishedRecorded
          ((ScaleIn d (.tidbCluster tc) oldSet newSet w).2.2.since w),
          fin.length ≤ (d.scaleMulti oldSet newSet tc.ScaleInParallelism).2.1.length ∧
          ∀ o ∈ fin, o ∈ (d.scaleMulti oldSet newSet tc.ScaleInParallelism).2.1 := by
        intro fin hfin
        rw [h2 fin hfin]
        exact hb
      refine ⟨fun _ => h1, ?_, h3, ?_⟩
      · rintro ⟨e, he⟩
        simp at he
      · intro hm
        unfold scaleMultiBounded at hm
        constructor
        · rw [h1]; exact hm
        · intro fin hfin
          have := (h3 fin hfin).1
          omega
  · intro ns name
    constructor
    · simp [ScaleOut, World.since, World.mark, enteredScaleOutOne]
    · simp [ScaleIn, World.since, World.mark, World.call, enteredScaleInOne]

/-- A `ScaleIn` call from 5 to 3 replicas on the cluster `demo`, with a parallelism
of two, enters `scaleInOne` for the two ordinals of `scaleMulti`. -/
theorem parallelism_bound_witness :
    ((enteredScaleInOne ((ScaleIn demoScenario.deps (.tidbCluster (demoCluster demoStatus))
        (demoSet 5) (demoSet 3) World.start).2.2.since World.start)).length : Int)
      ≤ (demoCluster demoStatus).ScaleInParallelism ∧
    enteredScaleInOne ((ScaleIn demoScenario.deps (.tidbCluster (demoCluster demoStatus))
        (demoSet 5) (demoSet 3) World.start).2.2.since World.start)
      = (demoScenario.deps.scaleMulti (demoSet 5) (demoSet 3)
          (demoCluster demoStatus).ScaleInParallelism).2.1 :=
  ⟨((parallelism_bound demoScenario.deps (demoCluster demoStatus) (demoSet 5) (demoSet 3)
      World.start).2.1.2.2.2 (by unfold scaleMultiBounded; decide)).1,
    (parallelism_bound demoScenario.deps (demoCluster demoStatus) (demoSet 5) (demoSet 3)
      World.start).2.1.1 ⟨_, rfl⟩⟩

/-- A `ScaleIn` call on the bootstrapped cluster `demo` while PD does not answer:
`scaleMulti` returns the ordinals 4 and 3, the call returns after the failed
fetch of the stores, and `scaleInOne` is entered for no ordinal. -/
theorem parallelism_bound_counterexample :
    (pdDownScenario.deps.scaleMulti (demoSet 5) (demoSet 3)
        (demoCluster demoStatus).ScaleInParallelism).2.1 = [4, 3] ∧
    (ScaleIn pdDownScenario.deps (.tidbCluster (demoCluster demoStatus)) (demoSet 5) (demoSet 3)
        World.start).2.2.since World.start = [.enterScaleIn, .timeNow, .pdGetStores] ∧
    ¬ (enteredScaleInOne ((ScaleIn pdDownScenario.deps (.tidbCluster (demoCluster demoStatus))
        (demoSet 5) (demoSet 3) World.start).2.2.since World.start)
      = (pdDownScenario.deps.scaleMulti (demoSet 5) (demoSet 3)
          (demoCluster demoStatus).ScaleInParallelism).2.1) := by
  refine ⟨by decide, by decide, by decide⟩

/-- C6: a Requeue-classified error anywhere makes the whole call report Requeue.
In a `ScaleOut` call on a `TidbCluster`, and in a `ScaleIn` call whose loop is
reached, if the call of some ordinal returned an error that the controller test
classifies as Requeue, the call returns an error that the same test classifies
as Requeue, whatever the calls of the other ordinals returned. -/
theorem requeue_anywhere_requeues_batch (d : Deps σ) (tc : TidbCluster)
    (oldSet newSet : StatefulSet) (w : World σ) :
    (∀ o a e,
      (o, a, some e) ∈ (scaleOutCalls d tc
        (d.scaleMulti oldSet newSet tc.ScaleOutParallelism).2.1 (w.mark .enterScaleOut)).1 →
      isRequeueClassified e = true →
      ∃ err, (ScaleOut d (.tidbCluster tc) oldSet newSet w).1 = some err ∧
        isRequeueClassified err = true) ∧
    (∀ (p : PreCheckInput) (w1 : World σ),
      scaleInPrepare d tc ((w.mark .enterScaleIn).call .timeNow d.timeNow).2 = (.ok p, w1) →
      ∀ o a e,
        (o, a, some e) ∈ (scaleInCalls d tc p.skipPreCheck p.upTikvStoreCount p.maxReplicas
          ((w.mark .enterScaleIn).call .timeNow d.timeNow).1
          (d.scaleMulti oldSet newSet tc.ScaleInParallelism).2.1 0 w1).1 →
        isRequeueClassified e = true →
        ∃ err, (ScaleIn d (.tidbCluster tc) oldSet newSet w).1 = some err ∧
          isRequeueClassified err = true) := by
  constructor
  · intro o a e hmem hre
    rw [ScaleOut_eq, batchOutcome_error]
    exact isRequeueClassified_aggregate _ e ((mem_failures _ e).mpr ⟨o, a, hmem⟩) hre
  · intro p w1 hp o a e hmem hre
    rw [ScaleIn_eq d tc oldSet newSet w p w1 hp, batchOutcome_error]
    exact isRequeueClassified_aggregate _ e ((mem_failures _ e).mpr ⟨o, a, hmem⟩) hre

/-- A `ScaleOut` call from 5 to 7 replicas on the cluster `demo`: the claim of the
ordinal 5 exists, its call returns Requeue, and so does the batch, although the
ordinal 6 finished. -/
theorem requeue_anywhere_requeues_batch_witness :
    ∃ err, (ScaleOut demoScenario.deps (.tidbCluster (demoCluster demoStatus)) (demoSet 5)
        (demoSet 7) World.start).1 = some err ∧ isRequeueClassified err = true :=
  (requeue_anywhere_requeues_batch demoScenario.deps (demoCluster demoStatus) (demoSet 5)
    (demoSet 7) World.start).1 5 ()
    (.requeue "tikv.ScaleOut, cluster %s/%s ready to scale out, wait for next round")
    (List.Mem.head _) rfl

/-- C7 (amended): a failing ordinal never aborts the batch. In a `ScaleOut` call
on a `TidbCluster`, and in a `ScaleIn` call whose loop is reached, the per-ordinal
routine is entered for every ordinal of the batch, in order, whatever the earlier
calls returned; the returned error is the aggregate of the errors of the failed
calls, one per failed call and in order; and the call returns nil if and only if
every call returned no error. -/
theorem failing_ordinal_never_aborts (d : Deps σ) (tc : TidbCluster)
    (oldSet newSet : StatefulSet) (w : World σ) :
    (enteredScaleOutOne ((ScaleOut d (.tidbCluster tc) oldSet newSet w).2.2.since w)
        = (d.scaleMulti oldSet newSet tc.ScaleOutParallelism).2.1 ∧
      (scaleOutCalls d tc (d.scaleMulti oldSet newSet tc.ScaleOutParallelism).2.1
          (w.mark .enterScaleOut)).1.map Prod.fst
        = (d.scaleMulti oldSet newSet tc.ScaleOutParallelism).2.1 ∧
      (ScaleOut d (.tidbCluster tc) oldSet newSet w).1
        = errorutils.NewAggregate ((scaleOutCalls d tc
            (d.scaleMulti oldSet newSet tc.ScaleOutParallelism).2.1
            (w.mark .enterScaleOut)).1.filterMap (fun c => c.2.2)) ∧
      ((ScaleOut d (.tidbCluster tc) oldSet newSet w).1 = none ↔
        ∀ c ∈ (scaleOutCalls d tc (d.scaleMulti oldSet newSet tc.ScaleOutParallelism).2.1
          (w.mark .enterScaleOut)).1, c.2.2 = none)) ∧
    (∀ (p : PreCheckInput) (w1 : World σ),
      scaleInPrepare d tc ((w.mark .enterScaleIn).call .timeNow d.timeNow).2 = (.ok p, w1) →
      enteredScaleInOne ((ScaleIn d (.tidbCluster tc) oldSet newSet w).2.2.since w)
        = (d.scaleMulti oldSet newSet tc.ScaleInParallelism).2.1 ∧
      (scaleInCalls d tc p.skipPreCheck p.upTikvStoreCount p.maxReplicas
          ((w.mark .enterScaleIn).call .timeNow d.timeNow).1
          (d.scaleMulti oldSet newSet tc.ScaleInParallelism).2.1 0 w1).1.map Prod.fst
        = (d.scaleMulti oldSet newSet tc.ScaleInParallelism).2.1 ∧
      (ScaleIn d (.tidbCluster tc) oldSet newSet w).1
        = errorutils.NewAggregate ((scaleInCalls d tc p.skipPreCheck p.upTikvStoreCount
            p.maxReplicas ((w.mark .enterScaleIn).call .timeNow d.timeNow).1
            (d.scaleMulti oldSet newSet tc.ScaleInParallelism).2.1 0 w1).1.filterMap
              (fun c => c.2.2)) ∧
      ((ScaleIn d (.tidbCluster tc) oldSet newSet w).1 = none ↔
        ∀ c ∈ (scaleInCalls d tc p.skipPreCheck p.upTikvStoreCount p.maxReplicas
          ((w.mark .enterScaleIn).call .timeNow d.timeNow).1
          (d.scaleMulti oldSet newSet tc.ScaleInParallelism).2.1 0 w1).1, c.2.2 = none)) := by
  constructor
  · refine ⟨(ScaleOut_entered d tc oldSet newSet w).1, scaleOutCalls_ordinals d tc _ _, ?_, ?_⟩
    · rw [ScaleOut_eq, batchOutcome_error, failures_eq_filterMap]
    · rw [ScaleOut_eq, batchOutcome_error, NewAggregate_eq_none, failures_eq_nil]
  · intro p w1 hp
    refine ⟨(ScaleIn_entered d tc oldSet newSet w p w1 hp).1,
      scaleInCalls_ordinals d tc _ _ _ _ _ _ _, ?_, ?_⟩
    · rw [ScaleIn_eq d tc oldSet newSet w p w1 hp, batchOutcome_error, failures_eq_filterMap]
    · rw [ScaleIn_eq d tc oldSet newSet w p w1 hp, batchOutcome_error, NewAggregate_eq_none,
        failures_eq_nil]

/-- A `ScaleIn` call from 5 to 3 replicas on the cluster `demo` enters `scaleInOne`
for both ordinals although the call of the first returns an error. -/
theorem failing_ordinal_never_aborts_witness :
    enteredScaleInOne ((ScaleIn demoScenario.deps (.tidbCluster (demoCluster demoStatus))
        (demoSet 5) (demoSet 3) World.start).2.2.since World.start)
      = (demoScenario.deps.scaleMulti (demoSet 5) (demoSet 3)
          (demoCluster demoStatus).ScaleInParallelism).2.1 :=
  ((failing_ordinal_never_aborts demoScenario.deps (demoCluster demoStatus) (demoSet 5)
    (demoSet 3) World.start).2 { skipPreCheck := false, upTikvStoreCount := 4, maxReplicas := 3 }
    { st := 3, trace := [.enterScaleIn, .timeNow, .pdGetStores, .pdGetConfig] } rfl).1

/-- A `ScaleIn` call on the bootstrapped cluster `demo` while PD does not answer:
the batch has the ordinals 4 and 3, the per-ordinal routine is invoked for none
of them, no call of it returned an error, and yet `ScaleIn` returns an error. -/
theorem failing_ordinal_never_aborts_counterexample :
    (pdDownScenario.deps.scaleMulti (demoSet 5) (demoSet 3)
        (demoCluster demoStatus).ScaleInParallelism).2.1 = [4, 3] ∧
    (ScaleIn pdDownScenario.deps (.tidbCluster (demoCluster demoStatus)) (demoSet 5) (demoSet 3)
        World.start).2.2.trace = [.enterScaleIn, .timeNow, .pdGetStores] ∧
    (ScaleIn pdDownScenario.deps (.tidbCluster (demoCluster demoStatus)) (demoSet 5) (demoSet 3)
        World.start).1.isSome = true := by
  refine ⟨by decide, by decide, by decide⟩

/-- C8: `scaleOutOne` never reports an ordinal as finished on top of existing
storage. It returns nil if and only if the lookup of the claim
`tikv-<cluster>-tikv-<ordinal>` reports NotFound. When the claim exists, it calls
`deleteDeferDeletingPVC` exactly once (the trace shows the one call) and returns
the error of that call if it failed, otherwise an error that the controller
test classifies as Requeue. On any other lookup failure it makes no deletion
request and returns an error that is not classified as Requeue. -/
theorem scaleOutOne_spec (d : Deps σ) (tc : TidbCluster) (ordinal : Int) (w : World σ) :
    let pvcName := "tikv-" ++ tc.Name ++ "-tikv-" ++ toString ordinal
    let lookup := d.pvcGet tc.Namespace pvcName w.st
    let deletion := d.deleteDeferDeletingPVC tc TiKVMemberType ordinal lookup.2
    let r := scaleOutOne d tc ordinal w
    (r.1 = none ↔ ∃ err, lookup.1 = .error err ∧ errors.IsNotFound err = true) ∧
    (∀ pvc, lookup.1 = .ok pvc →
      r.2.since w = [.enterScaleOutOne ordinal, .pvcGet tc.Namespace pvcName,
        .deleteDeferDeletingPVC TiKVMemberType ordinal, .exitScaleOutOne ordinal false] ∧
      (deletion.1 = none → ∃ err, r.1 = some err ∧ isRequeueClassified err = true) ∧
      (∀ err, deletion.1 = some err → r.1 = some err)) ∧
    (∀ err, lookup.1 = .error err →
      r.2.since w = [.enterScaleOutOne ordinal, .pvcGet tc.Namespace pvcName,
        .exitScaleOutOne ordinal (errors.IsNotFound err)] ∧
      (errors.IsNotFound err = false →
        ∃ err2, r.1 = some err2 ∧ isRequeueClassified err2 = false)) := by
  intro pvcName lookup deletion r
  have hl : d.pvcGet tc.Namespace ("tikv-" ++ tc.Name ++ "-tikv-" ++ toString ordinal) w.st
      = lookup := rfl
  have hd : d.deleteDeferDeletingPVC tc TiKVMemberType ordinal lookup.2 = deletion := rfl
  have hr : scaleOutOne d tc ordinal w = r := rfl
  rcases hlc : lookup with ⟨res, st1⟩
  rcases hdc : deletion with ⟨dres, st2⟩
  rw [hlc] at hl hd
  rw [hdc] at hd
  simp only at hd
  cases res with
  | ok pvc =>
    cases dres with
    | none =>
      have : r = (some (controller.RequeueErrorf
          "tikv.ScaleOut, cluster %s/%s ready to scale out, wait for next round"),
          { st := st2, trace := w.trace ++ [.enterScaleOutOne ordinal,
            .pvcGet tc.Namespace pvcName, .deleteDeferDeletingPVC TiKVMemberType ordinal,
            .exitScaleOutOne ordinal false] }) := by
        rw [← hr]
        simp [scaleOutOne, scaleOutOneBody, World.call, World.mark, hl, hd, pvcName]
      simp [this, isRequeueClassified, perrors.Find, perrors.WalkDeep, perrors.walkChain,
        controller.RequeueErrorf, controller.IsRequeueError, since_append]
    | some e =>
      have : r = (some e,
          { st := st2, trace := w.trace ++ [.enterScaleOutOne ordinal,
            .pvcGet tc.Namespace pvcName, .deleteDeferDeletingPVC TiKVMemberType ordinal,
            .exitScaleOutOne ordinal false] }) := by
        rw [← hr]
        simp [scaleOutOne, scaleOutOneBody, World.call, World.mark, hl, hd, pvcName]
      simp [this, since_append]
  | error e =>
    cases hnf : errors.IsNotFound e with
    | true =>
      have : r = (none,
          { st := st1, trace := w.trace ++ [.enterScaleOutOne ordinal,
            .pvcGet tc.Namespace pvcName, .exitScaleOutOne ordinal true] }) := by
        rw [← hr]
        simp [scaleOutOne, scaleOutOneBody, World.call, World.mark, hl, hnf, pvcName]
      simp [this, hnf, since_append]
    | false =>
      have : r = (some (.errorf
          "tikv.ScaleOut, cluster %s/%s failed to fetch pvc informaiton, err:%v"),
          { st := st1, trace := w.trace ++ [.enterScaleOutOne ordinal,
            .pvcGet tc.Namespace pvcName, .exitScaleOutOne ordinal false] }) := by
        rw [← hr]
        simp [scaleOutOne, scaleOutOneBody, World.call, World.mark, hl, hnf, pvcName]
      simp [this, hnf, isRequeueClassified, perrors.Find, perrors.WalkDeep, perrors.walkChain,
        controller.IsRequeueError, since_append]

/-- On the cluster `demo` the claim of the ordinal 6 is not found and `scaleOutOne`
returns nil; the claim of the ordinal 5 exists and is asked to be deleted once. -/
theorem scaleOutOne_spec_witness :
    (scaleOutOne demoScenario.deps (demoCluster demoStatus) 6 World.start).1 = none ∧
    (scaleOutOne demoScenario.deps (demoCluster demoStatus) 5 World.start).2.since World.start
      = [.enterScaleOutOne 5, .pvcGet "ns" "tikv-demo-tikv-5",
          .deleteDeferDeletingPVC "tikv" 5, .exitScaleOutOne 5 false] :=
  ⟨(scaleOutOne_spec demoScenario.deps (demoCluster demoStatus) 6 World.start).1.mpr
      ⟨.notFound "not found", rfl, rfl⟩,
    ((scaleOutOne_spec demoScenario.deps (demoCluster demoStatus) 5 World.start).2.1
      { Name := "tikv-demo-tikv-5" } rfl).1⟩

/-- C9 (amended): on a bootstrapped cluster, when no entry of the status for the
pod being removed is in state Up (the pod may have no entry at all),
`preCheckUpStores` returns true and records nothing provided that the Up-store
count less the stores already removed this pass is at least the replication
factor; when it is below the replication factor, the pre-check rejects the
removal all the same. -/
theorem preCheck_passes_non_up_store (d : Deps σ) (tc : TidbCluster) (podName : String)
    (upTikvStoreCount deletedUpStoreCount maxReplicas : Int) (w : World σ)
    (hboot : tc.TiKVBootStrapped = true)
    (hstate : ∀ kv ∈ tc.Status.Stores, kv.2.PodName = podName → kv.2.State ≠ TiKVStateUp) :
    (maxReplicas ≤ upTikvStoreCount - deletedUpStoreCount →
      preCheckUpStores d tc podName upTikvStoreCount deletedUpStoreCount maxReplicas w
        = (true, w)) ∧
    (upTikvStoreCount - deletedUpStoreCount < maxReplicas →
      (preCheckUpStores d tc podName upTikvStoreCount deletedUpStoreCount maxReplicas w).1
        = false) := by
  have hs : ∀ (stores : List (String × TiKVStore)) (init : String),
      (∀ kv ∈ stores, kv.2.PodName = podName → kv.2.State ≠ TiKVStateUp) →
      init ≠ TiKVStateUp → preCheckStoreState podName stores init ≠ TiKVStateUp := by
    intro stores
    induction stores with
    | nil => intro init _ hi; simpa [preCheckStoreState] using hi
    | cons kv rest ih =>
      obtain ⟨k, store⟩ := kv
      intro init hall hi
      simp only [preCheckStoreState]
      split
      · rename_i hpn
        exact ih _ (fun kv h => hall kv (List.mem_cons_of_mem _ h))
          (hall (k, store) (List.mem_cons_self _ _) hpn)
      · exact ih _ (fun kv h => hall kv (List.mem_cons_of_mem _ h)) hi
  have hne := hs tc.Status.Stores "" hstate (by decide)
  constructor
  · intro hle
    have h1 : ¬ (upTikvStoreCount - deletedUpStoreCount < maxReplicas) := by omega
    simp [preCheckUpStores, hboot, h1, hne]
  · intro hlt
    simp [preCheckUpStores, hboot, hlt]

/-- The store of the pod 4 is Down and three stores are Up with a replication
factor of three: the pre-check passes. -/
theorem preCheck_passes_non_up_store_witness :
    preCheckUpStores demoScenario.deps (demoCluster downStatus) "demo-tikv-4" 3 0 3 World.start
      = (true, World.start) :=
  (preCheck_passes_non_up_store demoScenario.deps (demoCluster downStatus) "demo-tikv-4" 3 0 3
    World.start rfl (by decide)).1 (by decide)

/-- On a bootstrapped cluster the store of the pod 4 is Down and the pod 9 has no
store, two stores are Up and the replication factor is three: `preCheckUpStores`
returns false for both pods. -/
theorem preCheck_passes_non_up_store_counterexample :
    (demoCluster downStatus).TiKVBootStrapped = true ∧
    (∀ kv ∈ (demoCluster downStatus).Status.Stores,
      kv.2.PodName = "demo-tikv-4" → kv.2.State ≠ TiKVStateUp) ∧
    (preCheckUpStores demoScenario.deps (demoCluster downStatus) "demo-tikv-4" 2 0 3
      World.start).1 = false ∧
    (preCheckUpStores demoScenario.deps (demoCluster downStatus) "demo-tikv-9" 2 0 3
      World.start).1 = false := by
  refine ⟨by decide, by decide, by decide, by decide⟩

/-- C10: the quorum pre-check is skipped when TiKV has never bootstrapped. When
`tc.TiKVBootStrapped()` is false, a `ScaleIn` call records neither a fetch of the
store list nor of the config from PD and no event of the event recorder, every
`scaleInOne` call of it is entered with `skipPreCheck` true, and with
`skipPreCheck` true (as in `preCheckUpStores` itself on such a cluster) the
pre-check passes whatever the store states and counts are, so that the return
with the error `failed to pass up stores check` is never taken: a `scaleInOne`
call with `skipPreCheck` true returns that error only if `DeleteStore`,
`addDeferDeletingAnnoToPVC` or `endEvictLeaderbyStoreID` returned that very error
to it; the error of `ScaleIn` aggregates the errors of the calls of the batch,
all made with `skipPreCheck` true, and holds that error under the same condition
only. -/
theorem preCheck_skipped_when_not_bootstrapped (d : Deps σ) (tc : TidbCluster)
    (oldSet newSet : StatefulSet) (w : World σ) (hboot : tc.TiKVBootStrapped = false) :
    (∀ ev ∈ (ScaleIn d (.tidbCluster tc) oldSet newSet w).2.2.since w,
      ev ≠ .pdGetStores ∧ ev ≠ .pdGetConfig ∧ (∀ t r, ev ≠ .recorderEvent t r) ∧
      ∀ s u dl mr o, ev = .enterScaleInOne s u dl mr o → s = true) ∧
    (∀ podName u dl mr (w2 : World σ), preCheckStep d tc true podName u dl mr w2 = (true, w2)) ∧
    (∀ podName u dl mr (w2 : World σ), preCheckUpStores d tc podName u dl mr w2 = (true, w2)) ∧
    (∀ u dl mr o t (w2 : World σ),
      (scaleInOne d tc true u dl mr o t w2).1.2
        = some (.errorf
            "tikvScaler.ScaleIn: failed to pass up stores check , pod %s, cluster %s/%s") →
      HandedOn d tc (.errorf
        "tikvScaler.ScaleIn: failed to pass up stores check , pod %s, cluster %s/%s")) ∧
    (ScaleIn d (.tidbCluster tc) oldSet newSet w).1
      = errorutils.NewAggregate (failures
          (scaleInCalls d tc true 0 0 ((w.mark .enterScaleIn).call .timeNow d.timeNow).1
            (d.scaleMulti oldSet newSet tc.ScaleInParallelism).2.1 0
            ((w.mark .enterScaleIn).call .timeNow d.timeNow).2).1) ∧
    (∀ es, (ScaleIn d (.tidbCluster tc) oldSet newSet w).1 = some (.aggregate es) →
      Err.errorf "tikvScaler.ScaleIn: failed to pass up stores check , pod %s, cluster %s/%s"
        ∈ es →
      HandedOn d tc (.errorf
        "tikvScaler.ScaleIn: failed to pass up stores check , pod %s, cluster %s/%s")) := by
  have hprep : scaleInPrepare d tc ((w.mark .enterScaleIn).call .timeNow d.timeNow).2
      = (.ok { skipPreCheck := true, upTikvStoreCount := 0, maxReplicas := 0 },
          ((w.mark .enterScaleIn).call .timeNow d.timeNow).2) := by
    simp [scaleInPrepare, hboot]
  have hagg : (ScaleIn d (.tidbCluster tc) oldSet newSet w).1
      = errorutils.NewAggregate (failures
          (scaleInCalls d tc true 0 0 ((w.mark .enterScaleIn).call .timeNow d.timeNow).1
            (d.scaleMulti oldSet newSet tc.ScaleInParallelism).2.1 0
            ((w.mark .enterScaleIn).call .timeNow d.timeNow).2).1) := by
    rw [ScaleIn_eq d tc oldSet newSet w _ _ hprep]
    simp only [batchOutcome]
    split <;> rfl
  refine ⟨?_, ?_, ?_, ?_, hagg, ?_⟩
  · have h := ScaleIn_emits (fun ev => ev ≠ .pdGetStores ∧ ev ≠ .pdGetConfig ∧
      (∀ t r, ev ≠ .recorderEvent t r) ∧ ∀ s u dl mr o, ev = .enterScaleInOne s u dl mr o →
        s = true) d tc oldSet newSet w
      (by simp) (by simp) (by simp [hboot])
      (by intro ev hev; cases ev <;> simp_all [inScaleInOne])
      (by simp [hboot])
      (by intro u dl mr o
          simp only [hboot]
          refine ⟨by simp, by simp, by simp, ?_⟩
          intro s u2 dl2 mr2 o2 heq
          injection heq with h1
          simpa using h1.symm)
      (by simp) (by simp) (by simp)
    exact h.since_events.2
  · intro podName u dl mr w2
    simp [preCheckStep]
  · intro podName u dl mr w2
    simp [preCheckUpStores, hboot]
  · intro u dl mr o t w2 h
    exact scaleInOne_skip_error_origin d tc u dl mr o t w2 h
  · intro es hes hmem
    rw [hagg] at hes
    have hf : failures
        (scaleInCalls d tc true 0 0 ((w.mark .enterScaleIn).call .timeNow d.timeNow).1
          (d.scaleMulti oldSet newSet tc.ScaleInParallelism).2.1 0
          ((w.mark .enterScaleIn).call .timeNow d.timeNow).2).1 = es := by
      cases hfl : failures
        (scaleInCalls d tc true 0 0 ((w.mark .enterScaleIn).call .timeNow d.timeNow).1
          (d.scaleMulti oldSet newSet tc.ScaleInParallelism).2.1 0
          ((w.mark .enterScaleIn).call .timeNow d.timeNow).2).1 with
      | nil => rw [hfl] at hes; simp [errorutils.NewAggregate] at hes
      | cons e rest =>
        rw [hfl] at hes
        simp only [errorutils.NewAggregate, Option.some.injEq, Err.aggregate.injEq] at hes
        exact hes
    rw [← hf] at hmem
    obtain ⟨o, a, hc⟩ := (mem_failures _ _).mp hmem
    exact scaleInCalls_skip_error_origin d tc 0 0 _ _ 0 _ (o, a, _) hc rfl

/-- On a cluster that never bootstrapped the pre-check of the pod 4 passes and
records nothing, although no store is Up and the replication factor is three; a
batch whose pod 5 does not exist fails with the error of the pod lookup. -/
theorem preCheck_skipped_when_not_bootstrapped_witness :
    preCheckStep pendingScenario.deps (demoCluster freshStatus) true "demo-tikv-4" 0 0 3
        World.start = (true, World.start) ∧
    preCheckUpStores pendingScenario.deps (demoCluster freshStatus) "demo-tikv-4" 0 0 3
        World.start = (true, World.start) ∧
    (ScaleIn pendingScenario.deps (.tidbCluster (demoCluster freshStatus)) (demoSet 6)
        (demoSet 4) World.start).1
      = some (.aggregate [.errorf
          "tikvScaler.ScaleIn: failed to get pods %s for cluster %s/%s, error: %s"]) :=
  ⟨(preCheck_skipped_when_not_bootstrapped pendingScenario.deps (demoCluster freshStatus)
      (demoSet 5) (demoSet 4) World.start rfl).2.1 "demo-tikv-4" 0 0 3 World.start,
    (preCheck_skipped_when_not_bootstrapped pendingScenario.deps (demoCluster freshStatus)
      (demoSet 5) (demoSet 4) World.start rfl).2.2.1 "demo-tikv-4" 0 0 3 World.start,
    (preCheck_skipped_when_not_bootstrapped pendingScenario.deps (demoCluster freshStatus)
      (demoSet 6) (demoSet 4) World.start rfl).2.2.2.2.1.trans rfl⟩

end tikvScaler

end TidbOperator

namespace TidbOperator

namespace tikvScaler

variable {σ : Type}

/-- C11: a rejection by the quorum pre-check is a visible hard error. Whenever
`preCheckUpStores` returns false it records exactly one event, a Warning with the
reason FailedScaleIn; and a `scaleInOne` call that found its pod and whose
pre-check returns false returns `deletedUpStore` 0 and the error
`failed to pass up stores check`, which is not classified as Requeue, after
recording nothing but the lookup of the pod and that one event: the metadata of
the pod is not updated, PD is not asked to evict or to remove, and no storage
claim is annotated. -/
theorem preCheck_rejection_is_hard_error (d : Deps σ) (tc : TidbCluster)
    (up deleted maxReplicas ordinal : Int) (currentTime : Time) (w : World σ)
    (hrej : (preCheckUpStores d tc (d.ordinalPodName TiKVMemberType tc.Name ordinal) up
      deleted maxReplicas w).1 = false) :
    (preCheckUpStores d tc (d.ordinalPodName TiKVMemberType tc.Name ordinal) up deleted
        maxReplicas w).2.since w = [.recorderEvent "Warning" "FailedScaleIn"] ∧
    ∀ pod0 st1,
      d.podGet tc.Namespace (d.ordinalPodName TiKVMemberType tc.Name ordinal) w.st
        = (.ok pod0, st1) →
      (scaleInOne d tc false up deleted maxReplicas ordinal currentTime w).1
        = (0, some (.errorf
            "tikvScaler.ScaleIn: failed to pass up stores check , pod %s, cluster %s/%s")) ∧
      isRequeueClassified (.errorf
        "tikvScaler.ScaleIn: failed to pass up stores check , pod %s, cluster %s/%s") = false ∧
      (scaleInOne d tc false up deleted maxReplicas ordinal currentTime w).2.since w
        = [.enterScaleInOne false up deleted maxReplicas ordinal,
            .podGet tc.Namespace (d.ordinalPodName TiKVMemberType tc.Name ordinal),
            .recorderEvent "Warning" "FailedScaleIn",
            .exitScaleInOne ordinal 0 false] := by
  constructor
  · rw [preCheckUpStores_reject d tc _ up deleted maxReplicas w hrej]
    simp [World.since, World.call]
  · intro pod0 st1 h0
    rcases scaleInOneBody_inv d tc false up deleted maxReplicas ordinal currentTime
      (w.mark (.enterScaleInOne false up deleted maxReplicas ordinal)) with
      ⟨e, s1, h, _⟩ | ⟨p0, s1, h, _, _, hb⟩ | ⟨p0, s1, e, s2, _, hpass, _⟩ |
      ⟨p0, s1, pod, s2, _, hpass, _⟩
    · rw [show (w.mark (.enterScaleInOne false up deleted maxReplicas ordinal)).st = w.st
        from rfl, h0] at h
      cases h
    · obtain ⟨h1, h2, h3⟩ := scaleInOne_of_body d tc false up deleted maxReplicas ordinal
        currentTime w _ _ _ hb
      refine ⟨h1, ?_, ?_⟩
      · simp [isRequeueClassified, perrors.Find, perrors.WalkDeep, perrors.walkChain,
          controller.IsRequeueError]
      · rw [h3]; simp
    · rw [preCheckStep_fst_world d tc false _ up deleted maxReplicas _ w] at hpass
      simp only [preCheckStep, Bool.false_eq_true, if_false] at hpass
      rw [hrej] at hpass
      cases hpass
    · rw [preCheckStep_fst_world d tc false _ up deleted maxReplicas _ w] at hpass
      simp only [preCheckStep, Bool.false_eq_true, if_false] at hpass
      rw [hrej] at hpass
      cases hpass

theorem preCheck_rejection_is_hard_error_witness :
    (preCheckUpStores tightScenario.deps (demoCluster demoStatus) "demo-tikv-4" 3 0 3
      World.start).1 = false ∧
    (scaleInOne tightScenario.deps (demoCluster demoStatus) false 3 0 3 4 1000 World.start).1
      = (0, some (.errorf
          "tikvScaler.ScaleIn: failed to pass up stores check , pod %s, cluster %s/%s")) ∧
    (scaleInOne tightScenario.deps (demoCluster demoStatus) false 3 0 3 4 1000
        World.start).2.since World.start
      = [.enterScaleInOne false 3 0 3 4, .podGet "ns" "demo-tikv-4",
          .recorderEvent "Warning" "FailedScaleIn", .exitScaleInOne 4 0 false] :=
  ⟨by decide,
    ((preCheck_rejection_is_hard_error tightScenario.deps (demoCluster demoStatus) 3 0 3 4 1000
      World.start (by decide)).2 (demoPod 4 "5" true) 1 rfl).1,
    ((preCheck_rejection_is_hard_error tightScenario.deps (demoCluster demoStatus) 3 0 3 4 1000
      World.start (by decide)).2 (demoPod 4 "5" true) 1 rfl).2.2⟩

/-- C12: the sequential quorum bookkeeping of a batch. In a `ScaleIn` call that
reaches its loop, the `deletedUpStore` results seen at the returns of `scaleInOne`
are those of the calls of the batch, of the calls that returned an error too;
there is one per ordinal; and the call of the k-th ordinal is entered with the
Up-store count and the `maxReplicas` of the batch and with a deleted-Up-store
count equal to the sum of the `deletedUpStore` results of the k-1 calls before
it. -/
theorem sequential_quorum_bookkeeping (d : Deps σ) (tc : TidbCluster)
    (oldSet newSet : StatefulSet) (w : World σ) (p : PreCheckInput) (w1 : World σ)
    (hp : scaleInPrepare d tc ((w.mark .enterScaleIn).call .timeNow d.timeNow).2 = (.ok p, w1)) :
    returnedDeleted ((ScaleIn d (.tidbCluster tc) oldSet newSet w).2.2.since w)
      = (scaleInCalls d tc p.skipPreCheck p.upTikvStoreCount p.maxReplicas
          ((w.mark .enterScaleIn).call .timeNow d.timeNow).1
          (d.scaleMulti oldSet newSet tc.ScaleInParallelism).2.1 0 w1).1.map
            (fun c => c.2.1) ∧
    (returnedDeleted ((ScaleIn d (.tidbCluster tc) oldSet newSet w).2.2.since w)).length
      = (d.scaleMulti oldSet newSet tc.ScaleInParallelism).2.1.length ∧
    ∀ k, (enteredWith ((ScaleIn d (.tidbCluster tc) oldSet newSet w).2.2.since w))[k]?
      = ((d.scaleMulti oldSet newSet tc.ScaleInParallelism).2.1[k]?).map (fun o =>
          (p.upTikvStoreCount,
            ((returnedDeleted
              ((ScaleIn d (.tidbCluster tc) oldSet newSet w).2.2.since w)).take k).sum,
            p.maxReplicas, o)) := by
  obtain ⟨evs0, evs, ev, hs, h0, ht, hev⟩ := ScaleIn_since d tc oldSet newSet w p w1 hp
  obtain ⟨evs2, ht2, hr, he⟩ := scaleInCalls_bookkeeping d tc p.skipPreCheck
    p.upTikvStoreCount p.maxReplicas ((w.mark .enterScaleIn).call .timeNow d.timeNow).1
    (d.scaleMulti oldSet newSet tc.ScaleInParallelism).2.1 0 w1
  have hevs : evs2 = evs := List.append_cancel_left (ht2.symm.trans ht)
  subst hevs
  have hr0 : returnedDeleted evs0 = [] := returnedDeleted_nil evs0 (by
    intro e he; rcases h0 e he with rfl | rfl <;> rfl)
  have he0 : enteredWith evs0 = [] := enteredWith_nil evs0 (by
    intro e he; rcases h0 e he with rfl | rfl <;> rfl)
  have hrev : returnedDeleted [ev] = [] := by
    rcases hev with rfl | ⟨_, _, _, rfl⟩ <;> rfl
  have heev : enteredWith [ev] = [] := by
    rcases hev with rfl | ⟨_, _, _, rfl⟩ <;> rfl
  have hR : returnedDeleted ((ScaleIn d (.tidbCluster tc) oldSet newSet w).2.2.since w)
      = returnedDeleted evs2 := by
    rw [hs, returnedDeleted_append, returnedDeleted_append, returnedDeleted_append, hr0, hrev]
    simp [returnedDeleted]
  have hE : enteredWith ((ScaleIn d (.tidbCluster tc) oldSet newSet w).2.2.since w)
      = enteredWith evs2 := by
    rw [hs, enteredWith_append, enteredWith_append, enteredWith_append, he0, heev]
    simp [enteredWith]
  rw [hR, hE]
  refine ⟨hr, ?_, ?_⟩
  · rw [hr, List.length_map]
    have := congrArg List.length (scaleInCalls_ordinals d tc p.skipPreCheck
      p.upTikvStoreCount p.maxReplicas ((w.mark .enterScaleIn).call .timeNow d.timeNow).1
      (d.scaleMulti oldSet newSet tc.ScaleInParallelism).2.1 0 w1)
    simpa using this
  · intro k
    have := he k
    simpa using this

theorem sequential_quorum_bookkeeping_witness :
    returnedDeleted ((ScaleIn demoScenario.deps (.tidbCluster (demoCluster demoStatus))
        (demoSet 5) (demoSet 3) World.start).2.2.since World.start) = [1, 0] ∧
    (enteredWith ((ScaleIn demoScenario.deps (.tidbCluster (demoCluster demoStatus))
        (demoSet 5) (demoSet 3) World.start).2.2.since World.start))[1]?
      = some (4, 1, 3, 3) :=
  ⟨(sequential_quorum_bookkeeping demoScenario.deps (demoCluster demoStatus) (demoSet 5)
      (demoSet 3) World.start { skipPreCheck := false, upTikvStoreCount := 4, maxReplicas := 3 }
      { st := 3, trace := [.enterScaleIn, .timeNow, .pdGetStores, .pdGetConfig] } rfl).1,
    (sequential_quorum_bookkeeping demoScenario.deps (demoCluster demoStatus) (demoSet 5)
      (demoSet 3) World.start { skipPreCheck := false, upTikvStoreCount := 4, maxReplicas := 3 }
      { st := 3, trace := [.enterScaleIn, .timeNow, .pdGetStores, .pdGetConfig] } rfl).2.2 1⟩

end tikvScaler

end TidbOperator

namespace TidbOperator

namespace tikvScaler

variable {σ : Type}

/-- C13 (amended): the store-ID label is checked for a pod that has an entry in
the stores. For every pod being scaled in that has an entry in
`tc.Status.TiKV.Stores`, `scaleInOne` never marks a storage claim for deferred
deletion, and when the call got past `UpdateMetaInfo` and the store-ID label of
the pod is empty it returns `deletedUpStore` 0 and the error
`StoreID not yet updated on pod label` right after `UpdateMetaInfo`. -/
theorem empty_label_is_error_for_listed_store (d : Deps σ) (tc : TidbCluster)
    (skipPreCheck : Bool) (up deleted maxReplicas ordinal : Int) (currentTime : Time)
    (w : World σ)
    (hlisted : ∃ kv ∈ tc.Status.Stores,
      kv.2.PodName = d.ordinalPodName TiKVMemberType tc.Name ordinal) :
    annotatesPVC
        ((scaleInOne d tc skipPreCheck up deleted maxReplicas ordinal currentTime w).2.since w)
      = false ∧
    ∀ pod st2, MetaInfoUpdated d tc skipPreCheck up deleted maxReplicas ordinal w pod st2 →
      mapIndex pod.Labels d.StoreIDLabelKey = "" →
      (scaleInOne d tc skipPreCheck up deleted maxReplicas ordinal currentTime w).1
        = (0, some (.errorf "StoreID not yet updated on pod label")) ∧
      ∃ pod0, (scaleInOne d tc skipPreCheck up deleted maxReplicas ordinal currentTime
          w).2.since w
        = [.enterScaleInOne skipPreCheck up deleted maxReplicas ordinal,
            .podGet tc.Namespace (d.ordinalPodName TiKVMemberType tc.Name ordinal),
            .updateMetaInfo pod0, .exitScaleInOne ordinal 0 false] := by
  obtain ⟨kv, hkv, hkvn⟩ := hlisted
  constructor
  · rcases scaleInOne_cases d tc skipPreCheck up deleted maxReplicas ordinal currentTime w with
      ⟨e, s1, _, _, hev⟩ | ⟨p0, s1, _, _, _, _, hev⟩ | ⟨p0, s1, e, s2, _, _, _, _, hev⟩ |
      ⟨pod, st2, pod0, st1, h0, hpass, h2⟩
    · rw [hev]; rfl
    · rw [hev]; rfl
    · rw [hev]; rfl
    · rcases scaleInOne_paths d tc skipPreCheck up deleted maxReplicas ordinal currentTime w
        pod0 st1 pod st2 h0 hpass h2 with
        ⟨store, _, ⟨_, _, hev⟩ | ⟨_, _, _, hev⟩ | ⟨_, id, e, st3, _, _, _, hev⟩ |
          ⟨id, st3, hS⟩⟩ | ⟨hno, _⟩ | ⟨hno, _⟩
      · rw [hev]; rfl
      · rw [hev]; rfl
      · rw [hev]; rfl
      · obtain ⟨p0n, tail, hev, hc⟩ := scaleInOne_started d tc skipPreCheck up deleted
          maxReplicas ordinal currentTime w pod store id st3 hS
        rw [hev]
        rcases hc with ⟨_, _, rfl, _⟩ | ⟨_, _, rfl, _⟩ | ⟨_, _, rfl, _⟩ |
          ⟨_, rfl, _⟩ | ⟨_, rfl, _⟩ | ⟨_, rfl, _⟩ | ⟨_, rfl, _⟩ <;> rfl
      · exact absurd hkvn (hno kv hkv)
      · exact absurd hkvn (hno kv hkv)
  · rintro pod st2 ⟨pod0, st1, h0, hpass, h2⟩ hl
    rcases scaleInOne_paths d tc skipPreCheck up deleted maxReplicas ordinal currentTime w
      pod0 st1 pod st2 h0 hpass h2 with
      ⟨store, _, ⟨_, h1, hev⟩ | ⟨hl2, _⟩ | ⟨hl2, _⟩ | ⟨id, st3, _, _, _, hl2, _⟩⟩ |
        ⟨hno, _⟩ | ⟨hno, _⟩
    · exact ⟨h1, pod0.Name, hev⟩
    · exact absurd hl hl2
    · exact absurd hl hl2
    · exact absurd hl hl2
    · exact absurd hkvn (hno kv hkv)
    · exact absurd hkvn (hno kv hkv)

theorem empty_label_is_error_for_listed_store_witness :
    annotatesPVC
        ((scaleInOne unlabelledScenario.deps (demoCluster demoStatus) false 4 0 3 4 1000
          World.start).2.since World.start) = false ∧
    (scaleInOne unlabelledScenario.deps (demoCluster demoStatus) false 4 0 3 4 1000
        World.start).1
      = (0, some (.errorf "StoreID not yet updated on pod label")) :=
  ⟨(empty_label_is_error_for_listed_store unlabelledScenario.deps (demoCluster demoStatus)
      false 4 0 3 4 1000 World.start ⟨demoStore "5" 4 "Up" 0, by decide, rfl⟩).1,
    ((empty_label_is_error_for_listed_store unlabelledScenario.deps (demoCluster demoStatus)
      false 4 0 3 4 1000 World.start ⟨demoStore "5" 4 "Up" 0, by decide, rfl⟩).2
      (demoPod 4 "" true) 2 ⟨demoPod 4 "" true, 1, rfl, by decide, rfl⟩ rfl).1⟩

/-- The claim C13 fails on the code: the pod 4 of the test bed
`neverJoinedScenario` carries no store-ID label and has no entry in the stores;
it is not ready and older than five resync periods, so `scaleInOne` marks its
claim and returns no error. -/
theorem empty_label_is_error_for_listed_store_counterexample :
    (neverJoinedScenario.deps.podGet "ns" "demo-tikv-4" 0).1 = .ok (demoPod 4 "" false) ∧
    (neverJoinedScenario.deps.updateMetaInfo (demoCluster othersStatus) (demoPod 4 "" false)
      1).1 = .ok (demoPod 4 "" false) ∧
    mapIndex (demoPod 4 "" false).Labels neverJoinedScenario.deps.StoreIDLabelKey = "" ∧
    (scaleInOne neverJoinedScenario.deps (demoCluster othersStatus) false 4 0 3 4 1000
      World.start).1 = (0, none) ∧
    (scaleInOne neverJoinedScenario.deps (demoCluster othersStatus) false 4 0 3 4 1000
        World.start).2.since World.start
      = [.enterScaleInOne false 4 0 3 4, .podGet "ns" "demo-tikv-4",
          .updateMetaInfo "demo-tikv-4", .timeNow, .resolvePVCFromPod "demo-tikv-4",
          .addDeferDeletingAnnoToPVC "tikv-demo-tikv-4" none, .exitScaleInOne 4 0 true] :=
  ⟨rfl, rfl, by decide, rfl, by decide⟩

/-- C14: leaders are evicted, or the eviction timeout has passed, before a store
is removed. In every `scaleInOne` call, a `DeleteStore` request for the store `id`
is sent only if the call reached the removal of that store, the entry of the pod in
`tc.Status.TiKV.Stores`, the state of the store is not Offline and
`leaderEvictedOrTimeout` holds, and then it is the only `DeleteStore` request of
the call; conversely a call that reached the removal of a store that is not
Offline with `leaderEvictedOrTimeout` sends exactly one `DeleteStore` request, for
that store. `leaderEvictedOrTimeout` holds exactly when the store has no leader or
the start plus 5 minutes is strictly before the current time, where the start is
the time of the scale-in-time annotation of the pod when it is present and parses,
and the current time otherwise. -/
theorem leaders_evicted_before_removal (d : Deps σ) (tc : TidbCluster) (skipPreCheck : Bool)
    (up deleted maxReplicas ordinal : Int) (currentTime : Time) (w : World σ) :
    (∀ id, id ∈ deleteStoreCalls
        ((scaleInOne d tc skipPreCheck up deleted maxReplicas ordinal currentTime w).2.since w) →
      deleteStoreCalls
          ((scaleInOne d tc skipPreCheck up deleted maxReplicas ordinal currentTime w).2.since w)
        = [id] ∧
      ∃ pod store st3,
        StoreRemovalStarted d tc skipPreCheck up deleted maxReplicas ordinal currentTime w pod
          store id st3 ∧
        store.State ≠ TiKVStateOffline ∧
        leaderEvictedOrTimeout (scaleInStartTime d pod currentTime) currentTime store = true) ∧
    (∀ pod store id st3,
      StoreRemovalStarted d tc skipPreCheck up deleted maxReplicas ordinal currentTime w pod
        store id st3 →
      store.State ≠ TiKVStateOffline →
      leaderEvictedOrTimeout (scaleInStartTime d pod currentTime) currentTime store = true →
      deleteStoreCalls
          ((scaleInOne d tc skipPreCheck up deleted maxReplicas ordinal currentTime w).2.since w)
        = [id]) ∧
    (∀ (start : Time) (store : TiKVStore),
      leaderEvictedOrTimeout start currentTime store = true ↔
        (store.LeaderCount = 0 ∨ start + 5 * 60 * 1000000000 < currentTime)) ∧
    (∀ pod : Pod,
      (∀ s t, pod.Annotations.lookup d.AnnoScaleInTime = some s → d.parseRFC3339 s = some t →
        scaleInStartTime d pod currentTime = t) ∧
      (∀ s, pod.Annotations.lookup d.AnnoScaleInTime = some s → d.parseRFC3339 s = none →
        scaleInStartTime d pod currentTime = currentTime) ∧
      (pod.Annotations.lookup d.AnnoScaleInTime = none →
        scaleInStartTime d pod currentTime = currentTime)) := by
  refine ⟨?_, ?_, ?_, ?_⟩
  · intro id hid
    by_cases hst : ∃ pod store id st3, StoreRemovalStarted d tc skipPreCheck up deleted
        maxReplicas ordinal currentTime w pod store id st3
    · obtain ⟨pod, store, id2, st3, hS⟩ := hst
      obtain ⟨pod0, tail, hev, hc⟩ := scaleInOne_started d tc skipPreCheck up deleted
        maxReplicas ordinal currentTime w pod store id2 st3 hS
      rw [hev] at hid ⊢
      rcases hc with ⟨_, _, rfl, _⟩ | ⟨hb, hoff, rfl, _⟩ | ⟨hb, hoff, rfl, _⟩ |
        ⟨_, rfl, _⟩ | ⟨_, rfl, _⟩ | ⟨_, rfl, _⟩ | ⟨_, rfl, _⟩
      · simp [deleteStoreCalls] at hid
      · have hid2 : id = id2 := by simpa [deleteStoreCalls] using hid
        subst hid2
        exact ⟨by simp [deleteStoreCalls], pod, store, st3, hS, hoff, hb⟩
      · have hid2 : id = id2 := by simpa [deleteStoreCalls] using hid
        subst hid2
        exact ⟨by simp [deleteStoreCalls], pod, store, st3, hS, hoff, hb⟩
      · simp [deleteStoreCalls] at hid
      · simp [deleteStoreCalls] at hid
      · simp [deleteStoreCalls] at hid
      · simp [deleteStoreCalls] at hid
    · rw [(scaleInOne_unstarted d tc skipPreCheck up deleted maxReplicas ordinal currentTime w
        hst).1] at hid
      cases hid
  · intro pod store id st3 hS hoff hb
    obtain ⟨pod0, tail, hev, hc⟩ := scaleInOne_started d tc skipPreCheck up deleted
      maxReplicas ordinal currentTime w pod store id st3 hS
    rw [hev]
    rcases hc with ⟨_, h, _⟩ | ⟨_, _, rfl, _⟩ | ⟨_, _, rfl, _⟩ |
      ⟨h, _⟩ | ⟨h, _⟩ | ⟨h, _⟩ | ⟨h, _⟩
    · exact absurd h hoff
    · simp [deleteStoreCalls]
    · simp [deleteStoreCalls]
    · rw [hb] at h; cases h
    · rw [hb] at h; cases h
    · rw [hb] at h; cases h
    · rw [hb] at h; cases h
  · intro start store
    simp only [leaderEvictedOrTimeout, defaultEvictLeaderTimeoutWhenScaleIn,
      Bool.or_eq_true, decide_eq_true_eq]
    exact Or.comm
  · intro pod
    refine ⟨?_, ?_, ?_⟩
    · intro s t hs ht
      simp [scaleInStartTime, hs, ht]
    · intro s hs ht
      simp [scaleInStartTime, hs, ht]
    · intro hs
      simp [scaleInStartTime, hs]

theorem leaders_evicted_before_removal_witness :
    5 ∈ deleteStoreCalls
        ((scaleInOne demoScenario.deps (demoCluster demoStatus) false 4 0 3 4 1000
          World.start).2.since World.start) ∧
    deleteStoreCalls
        ((scaleInOne demoScenario.deps (demoCluster demoStatus) false 4 0 3 4 1000
          World.start).2.since World.start) = [5] ∧
    deleteStoreCalls
        ((scaleInOne demoScenario.deps (demoCluster demoStatus) false 4 0 3 3 1000
          World.start).2.since World.start) = [] :=
  ⟨by decide,
    ((leaders_evicted_before_removal demoScenario.deps (demoCluster demoStatus) false 4 0 3 4
      1000 World.start).1 5 (by decide)).1,
    by decide⟩

/-- C15 (amended): a replica whose store is still listed among the active stores
is never finished in the same pass. For every `scaleInOne` call that reached the
removal of the store of the pod (the pod is found, the quorum pre-check is passed
or skipped, `UpdateMetaInfo` succeeds, the pod has an entry in
`tc.Status.TiKV.Stores`, its store-ID label is not empty, the ID of the store
parses, the scale-in time is recorded) and in which the calls to PD succeed, the
result is the Requeue error `store is still in cluster`, never nil, whatever the
state of the store, its leader count and whether `DeleteStore` was called. -/
theorem listed_store_requeues (d : Deps σ) (tc : TidbCluster) (skipPreCheck : Bool)
    (up deleted maxReplicas ordinal : Int) (currentTime : Time) (w : World σ) (pod : Pod)
    (store : TiKVStore) (id : Nat) (st3 : σ)
    (hS : StoreRemovalStarted d tc skipPreCheck up deleted maxReplicas ordinal currentTime w pod
      store id st3)
    (hget : ∀ st, ∃ m, (d.pdGetEvictLeaderSchedulersForStores tc id st).1 = .ok m)
    (hbegin : ∀ st, (d.pdBeginEvictLeader tc id st).1 = none)
    (hdel : ∀ st, (d.pdDeleteStore tc id st).1 = none) :
    (scaleInOne d tc skipPreCheck up deleted maxReplicas ordinal currentTime w).1.2
      = some (controller.RequeueErrorf "TiKV %s/%s store %d is still in cluster, state: %s") ∧
    isRequeueClassified
      (controller.RequeueErrorf "TiKV %s/%s store %d is still in cluster, state: %s") = true ∧
    (scaleInOne d tc skipPreCheck up deleted maxReplicas ordinal currentTime w).1.2 ≠ none := by
  have h1 : (scaleInOne d tc skipPreCheck up deleted maxReplicas ordinal currentTime w).1.2
      = some (controller.RequeueErrorf
        "TiKV %s/%s store %d is still in cluster, state: %s") := by
    obtain ⟨pod0, tail, _, hc⟩ := scaleInOne_started d tc skipPreCheck up deleted
      maxReplicas ordinal currentTime w pod store id st3 hS
    rcases hc with ⟨_, _, _, _, hr⟩ | ⟨_, _, _, e, hd, _⟩ | ⟨_, _, _, _, hr⟩ |
      ⟨_, _, e, hg, _⟩ | ⟨_, _, _, _, _, hr⟩ | ⟨_, _, m, st4, e, _, _, hb, _⟩ |
      ⟨_, _, _, _, _, _, _, hr⟩
    · rw [hr]
    · have := hdel st3
      rw [hd] at this
      cases this
    · rw [hr]
    · obtain ⟨m, hm⟩ := hget st3
      rw [hg] at hm
      cases hm
    · rw [hr]
    · have := hbegin st4
      rw [hb] at this
      cases this
    · rw [hr]
  refine ⟨h1, ?_, ?_⟩
  · simp [isRequeueClassified, perrors.Find, perrors.WalkDeep, perrors.walkChain,
      controller.IsRequeueError, controller.RequeueErrorf]
  · rw [h1]
    simp

theorem listed_store_requeues_witness :
    (scaleInOne demoScenario.deps (demoCluster demoStatus) false 4 0 3 4 1000 World.start).1.2
      = some (controller.RequeueErrorf
          "TiKV %s/%s store %d is still in cluster, state: %s") ∧
    (scaleInOne demoScenario.deps (demoCluster demoStatus) false 4 0 3 3 1000 World.start).1.2
      = some (controller.RequeueErrorf
          "TiKV %s/%s store %d is still in cluster, state: %s") :=
  ⟨(listed_store_requeues demoScenario.deps (demoCluster demoStatus) false 4 0 3 4 1000
      World.start (demoPod 4 "5" true) (demoStore "5" 4 "Up" 0).2 5 3 demo_removal_started
      (fun _ => ⟨_, rfl⟩) (fun _ => rfl) (fun _ => rfl)).1,
    (listed_store_requeues demoScenario.deps (demoCluster demoStatus) false 4 0 3 3 1000
      World.start (demoPod 3 "4" true) (demoStore "4" 3 "Up" 7).2 4 3 demo_eviction_started
      (fun _ => ⟨_, rfl⟩) (fun _ => rfl) (fun _ => rfl)).1⟩

/-- The claim C15 fails on the code in three runs whose collaborators all succeed
for a pod 4 that has an entry in the stores: the quorum pre-check rejects, the
store-ID label of the pod is empty, the ID of the store is not a number. The
result is an error that is not classified as Requeue. -/
theorem listed_store_requeues_counterexample :
    ((∃ kv ∈ (demoCluster demoStatus).Status.Stores, kv.2.PodName = "demo-tikv-4") ∧
      (scaleInOne tightScenario.deps (demoCluster demoStatus) false 3 0 3 4 1000
          World.start).1.2
        = some (.errorf
            "tikvScaler.ScaleIn: failed to pass up stores check , pod %s, cluster %s/%s") ∧
      isRequeueClassified (.errorf
        "tikvScaler.ScaleIn: failed to pass up stores check , pod %s, cluster %s/%s")
        = false) ∧
    ((scaleInOne unlabelledScenario.deps (demoCluster demoStatus) false 4 0 3 4 1000
          World.start).1.2
        = some (.errorf "StoreID not yet updated on pod label") ∧
      isRequeueClassified (.errorf "StoreID not yet updated on pod label") = false) ∧
    ((∃ kv ∈ (demoCluster badIDStatus).Status.Stores, kv.2.PodName = "demo-tikv-4") ∧
      (scaleInOne badIDScenario.deps (demoCluster badIDStatus) false 4 0 3 4 1000
          World.start).1.2
        = some (.errorf "strconv.ParseUint: parsing %s: %v") ∧
      isRequeueClassified (.errorf "strconv.ParseUint: parsing %s: %v") = false) :=
  ⟨⟨⟨demoStore "5" 4 "Up" 0, by decide, rfl⟩, rfl, by decide⟩, ⟨rfl, by decide⟩,
    ⟨⟨demoStore "x5" 4 "Up" 0, by decide, rfl⟩, rfl, by decide⟩⟩

/-- C16: leader eviction is requested idempotently. In every `scaleInOne` call, a
`BeginEvictLeader` request for the store `id` is sent if and only if the call
reached the removal of that store, `leaderEvictedOrTimeout` is false and the
scheduler map that `GetEvictLeaderSchedulersForStores(id)` returned has no entry
for `id`; it is then the only such request of the call. Hence a call that
observes a scheduler registered for the store sends no request, and no request is
sent once the store has no leader or the timeout has passed. -/
theorem eviction_requested_idempotently (d : Deps σ) (tc : TidbCluster) (skipPreCheck : Bool)
    (up deleted maxReplicas ordinal : Int) (currentTime : Time) (w : World σ) :
    (∀ id, id ∈ beginEvictCalls
        ((scaleInOne d tc skipPreCheck up deleted maxReplicas ordinal currentTime w).2.since w) →
      beginEvictCalls
          ((scaleInOne d tc skipPreCheck up deleted maxReplicas ordinal currentTime w).2.since w)
        = [id] ∧
      ∃ pod store st3 m st4,
        StoreRemovalStarted d tc skipPreCheck up deleted maxReplicas ordinal currentTime w pod
          store id st3 ∧
        leaderEvictedOrTimeout (scaleInStartTime d pod currentTime) currentTime store = false ∧
        d.pdGetEvictLeaderSchedulersForStores tc id st3 = (.ok m, st4) ∧
        m.lookup id = none) ∧
    (∀ pod store id st3 m st4,
      StoreRemovalStarted d tc skipPreCheck up deleted maxReplicas ordinal currentTime w pod
        store id st3 →
      leaderEvictedOrTimeout (scaleInStartTime d pod currentTime) currentTime store = false →
      d.pdGetEvictLeaderSchedulersForStores tc id st3 = (.ok m, st4) →
      m.lookup id = none →
      beginEvictCalls
          ((scaleInOne d tc skipPreCheck up deleted maxReplicas ordinal currentTime w).2.since w)
        = [id]) ∧
    (∀ pod store id st3 m st4 v,
      StoreRemovalStarted d tc skipPreCheck up deleted maxReplicas ordinal currentTime w pod
        store id st3 →
      d.pdGetEvictLeaderSchedulersForStores tc id st3 = (.ok m, st4) →
      m.lookup id = some v →
      beginEvictCalls
          ((scaleInOne d tc skipPreCheck up deleted maxReplicas ordinal currentTime w).2.since w)
        = []) ∧
    (∀ pod store id st3,
      StoreRemovalStarted d tc skipPreCheck up deleted maxReplicas ordinal currentTime w pod
        store id st3 →
      (store.LeaderCount = 0 ∨
        scaleInStartTime d pod currentTime + defaultEvictLeaderTimeoutWhenScaleIn
          < currentTime) →
      beginEvictCalls
          ((scaleInOne d tc skipPreCheck up deleted maxReplicas ordinal currentTime w).2.since w)
        = []) := by
  refine ⟨?_, ?_, ?_, ?_⟩
  · intro id hid
    by_cases hst : ∃ pod store id st3, StoreRemovalStarted d tc skipPreCheck up deleted
        maxReplicas ordinal currentTime w pod store id st3
    · obtain ⟨pod, store, id2, st3, hS⟩ := hst
      obtain ⟨pod0, tail, hev, hc⟩ := scaleInOne_started d tc skipPreCheck up deleted
        maxReplicas ordinal currentTime w pod store id2 st3 hS
      rw [hev] at hid ⊢
      rcases hc with ⟨_, _, rfl, _⟩ | ⟨_, _, rfl, _⟩ | ⟨_, _, rfl, _⟩ |
        ⟨_, rfl, _⟩ | ⟨_, rfl, _⟩ | ⟨hb, rfl, m, st4, e, hg, hm, _⟩ |
        ⟨hb, rfl, m, st4, hg, hm, _⟩
      · simp [beginEvictCalls] at hid
      · simp [beginEvictCalls] at hid
      · simp [beginEvictCalls] at hid
      · simp [beginEvictCalls] at hid
      · simp [beginEvictCalls] at hid
      · have hid2 : id = id2 := by simpa [beginEvictCalls] using hid
        subst hid2
        exact ⟨by simp [beginEvictCalls], pod, store, st3, m, st4, hS, hb, hg,
          Option.isNone_iff_eq_none.mp hm⟩
      · have hid2 : id = id2 := by simpa [beginEvictCalls] using hid
        subst hid2
        exact ⟨by simp [beginEvictCalls], pod, store, st3, m, st4, hS, hb, hg,
          Option.isNone_iff_eq_none.mp hm⟩
    · rw [(scaleInOne_unstarted d tc skipPreCheck up deleted maxReplicas ordinal currentTime w
        hst).2.1] at hid
      cases hid
  · intro pod store id st3 m st4 hS hb hg hm
    obtain ⟨pod0, tail, hev, hc⟩ := scaleInOne_started d tc skipPreCheck up deleted
      maxReplicas ordinal currentTime w pod store id st3 hS
    rw [hev]
    rcases hc with ⟨h, _⟩ | ⟨h, _⟩ | ⟨h, _⟩ | ⟨_, _, e, hg2, _⟩ | ⟨_, _, m2, hg2, hm2, _⟩ |
      ⟨_, rfl, _⟩ | ⟨_, rfl, _⟩
    · rw [hb] at h; cases h
    · rw [hb] at h; cases h
    · rw [hb] at h; cases h
    · rw [hg] at hg2; cases hg2
    · rw [hg] at hg2
      cases hg2
      rw [hm] at hm2
      cases hm2
    · simp [beginEvictCalls]
    · simp [beginEvictCalls]
  · intro pod store id st3 m st4 v hS hg hm
    obtain ⟨pod0, tail, hev, hc⟩ := scaleInOne_started d tc skipPreCheck up deleted
      maxReplicas ordinal currentTime w pod store id st3 hS
    rw [hev]
    rcases hc with ⟨_, _, rfl, _⟩ | ⟨_, _, rfl, _⟩ | ⟨_, _, rfl, _⟩ |
      ⟨_, rfl, _⟩ | ⟨_, rfl, _⟩ | ⟨_, _, m2, st5, e, hg2, hm2, _⟩ |
      ⟨_, _, m2, st5, hg2, hm2, _⟩
    · simp [beginEvictCalls]
    · simp [beginEvictCalls]
    · simp [beginEvictCalls]
    · simp [beginEvictCalls]
    · simp [beginEvictCalls]
    · rw [hg] at hg2
      cases hg2
      rw [hm] at hm2
      cases hm2
    · rw [hg] at hg2
      cases hg2
      rw [hm] at hm2
      cases hm2
  · intro pod store id st3 hS hle
    have hb : leaderEvictedOrTimeout (scaleInStartTime d pod currentTime) currentTime store
        = true := by
      simp only [leaderEvictedOrTimeout, Bool.or_eq_true, decide_eq_true_eq]
      exact Or.comm.mp hle
    obtain ⟨pod0, tail, hev, hc⟩ := scaleInOne_started d tc skipPreCheck up deleted
      maxReplicas ordinal currentTime w pod store id st3 hS
    rw [hev]
    rcases hc with ⟨_, _, rfl, _⟩ | ⟨_, _, rfl, _⟩ | ⟨_, _, rfl, _⟩ |
      ⟨h, _⟩ | ⟨h, _⟩ | ⟨h, _⟩ | ⟨h, _⟩
    · simp [beginEvictCalls]
    · simp [beginEvictCalls]
    · simp [beginEvictCalls]
    · rw [hb] at h; cases h
    · rw [hb] at h; cases h
    · rw [hb] at h; cases h
    · rw [hb] at h; cases h

theorem eviction_requested_idempotently_witness :
    beginEvictCalls
        ((scaleInOne demoScenario.deps (demoCluster demoStatus) false 4 0 3 3 1000
          World.start).2.since World.start) = [4] ∧
    beginEvictCalls
        ((scaleInOne demoScenario.deps (demoCluster demoStatus) false 4 0 3 4 1000
          World.start).2.since World.start) = [] :=
  ⟨(eviction_requested_idempotently demoScenario.deps (demoCluster demoStatus) false 4 0 3 3
      1000 World.start).2.1 (demoPod 3 "4" true) (demoStore "4" 3 "Up" 7).2 4 3 [] 4
      demo_eviction_started (by decide) rfl rfl,
    (eviction_requested_idempotently demoScenario.deps (demoCluster demoStatus) false 4 0 3 4
      1000 World.start).2.2.2 (demoPod 4 "5" true) (demoStore "5" 4 "Up" 0).2 5 3
      demo_removal_started (Or.inl rfl)⟩

/-- C17: the `deletedUpStore` result of `scaleInOne` is 0 or 1, and it is 1 if and
only if the call reached the removal of a store whose state is Up, with
`leaderEvictedOrTimeout`, and `DeleteStore` succeeded for it; the call then sent
exactly that `DeleteStore` request. A store in another state (Down, Offline), a
pod that has a tombstone entry only or no entry at all, contributes 0. -/
theorem deletedUpStore_counts_up_store (d : Deps σ) (tc : TidbCluster) (skipPreCheck : Bool)
    (up deleted maxReplicas ordinal : Int) (currentTime : Time) (w : World σ) :
    ((scaleInOne d tc skipPreCheck up deleted maxReplicas ordinal currentTime w).1.1 = 0 ∨
      (scaleInOne d tc skipPreCheck up deleted maxReplicas ordinal currentTime w).1.1 = 1) ∧
    ((scaleInOne d tc skipPreCheck up deleted maxReplicas ordinal currentTime w).1.1 = 1 ↔
      ∃ pod store id st3 st4,
        StoreRemovalStarted d tc skipPreCheck up deleted maxReplicas ordinal currentTime w pod
          store id st3 ∧
        leaderEvictedOrTimeout (scaleInStartTime d pod currentTime) currentTime store = true ∧
        store.State = TiKVStateUp ∧
        deleteStoreCalls
            ((scaleInOne d tc skipPreCheck up deleted maxReplicas ordinal currentTime
              w).2.since w) = [id] ∧
        d.pdDeleteStore tc id st3 = (none, st4)) ∧
    (∀ pod store id st3,
      StoreRemovalStarted d tc skipPreCheck up deleted maxReplicas ordinal currentTime w pod
        store id st3 →
      store.State ≠ TiKVStateUp →
      (scaleInOne d tc skipPreCheck up deleted maxReplicas ordinal currentTime w).1.1 = 0) ∧
    ((∀ kv ∈ tc.Status.Stores,
        kv.2.PodName ≠ d.ordinalPodName TiKVMemberType tc.Name ordinal) →
      (scaleInOne d tc skipPreCheck up deleted maxReplicas ordinal currentTime w).1.1 = 0) := by
  have key : ∀ pod store id st3,
      StoreRemovalStarted d tc skipPreCheck up deleted maxReplicas ordinal currentTime w pod
        store id st3 →
      ((scaleInOne d tc skipPreCheck up deleted maxReplicas ordinal currentTime w).1.1 = 1 ∧
        leaderEvictedOrTimeout (scaleInStartTime d pod currentTime) currentTime store = true ∧
        store.State = TiKVStateUp ∧
        deleteStoreCalls
            ((scaleInOne d tc skipPreCheck up deleted maxReplicas ordinal currentTime
              w).2.since w) = [id] ∧
        ∃ st4, d.pdDeleteStore tc id st3 = (none, st4)) ∨
      ((scaleInOne d tc skipPreCheck up deleted maxReplicas ordinal currentTime w).1.1 = 0 ∧
        ¬ (leaderEvictedOrTimeout (scaleInStartTime d pod currentTime) currentTime store = true ∧
          store.State = TiKVStateUp ∧ ∃ st4, d.pdDeleteStore tc id st3 = (none, st4))) := by
    intro pod store id st3 hS
    obtain ⟨pod0, tail, hev, hc⟩ := scaleInOne_started d tc skipPreCheck up deleted
      maxReplicas ordinal currentTime w pod store id st3 hS
    rcases hc with ⟨_, hoff, _, _, hr⟩ | ⟨_, _, _, e, hd, hr⟩ | ⟨hb, _, rfl, hd, hr⟩ |
      ⟨hb, _, _, _, hr⟩ | ⟨hb, _, _, _, _, hr⟩ | ⟨hb, _, _, _, _, _, _, _, hr⟩ |
      ⟨hb, _, _, _, _, _, _, hr⟩
    · refine Or.inr ⟨by rw [hr], ?_⟩
      rintro ⟨_, hup, _⟩
      rw [hoff] at hup
      revert hup
      decide
    · refine Or.inr ⟨by rw [hr], ?_⟩
      rintro ⟨_, _, st4, hd2⟩
      rw [hd] at hd2
      cases hd2
    · by_cases hup : store.State = TiKVStateUp
      · refine Or.inl ⟨by rw [hr]; simp [hup], hb, hup, ?_, _, hd⟩
        rw [hev]
        simp [deleteStoreCalls]
      · exact Or.inr ⟨by rw [hr]; simp [hup], fun h => hup h.2.1⟩
    · exact Or.inr ⟨by rw [hr], fun h => by rw [hb] at h; cases h.1⟩
    · exact Or.inr ⟨by rw [hr], fun h => by rw [hb] at h; cases h.1⟩
    · exact Or.inr ⟨by rw [hr], fun h => by rw [hb] at h; cases h.1⟩
    · exact Or.inr ⟨by rw [hr], fun h => by rw [hb] at h; cases h.1⟩
  have hun : (¬ ∃ pod store id st3, StoreRemovalStarted d tc skipPreCheck up deleted
      maxReplicas ordinal currentTime w pod store id st3) →
      (scaleInOne d tc skipPreCheck up deleted maxReplicas ordinal currentTime w).1.1 = 0 :=
    fun h => (scaleInOne_unstarted d tc skipPreCheck up deleted maxReplicas ordinal
      currentTime w h).2.2
  refine ⟨?_, ⟨?_, ?_⟩, ?_, ?_⟩
  · by_cases hst : ∃ pod store id st3, StoreRemovalStarted d tc skipPreCheck up deleted
        maxReplicas ordinal currentTime w pod store id st3
    · obtain ⟨pod, store, id, st3, hS⟩ := hst
      rcases key pod store id st3 hS with h | h
      · exact Or.inr h.1
      · exact Or.inl h.1
    · exact Or.inl (hun hst)
  · intro h1
    by_cases hst : ∃ pod store id st3, StoreRemovalStarted d tc skipPreCheck up deleted
        maxReplicas ordinal currentTime w pod store id st3
    · obtain ⟨pod, store, id, st3, hS⟩ := hst
      rcases key pod store id st3 hS with ⟨_, hb, hup, hdc, st4, hd⟩ | ⟨h0, _⟩
      · exact ⟨pod, store, id, st3, st4, hS, hb, hup, hdc, hd⟩
      · rw [h0] at h1
        cases h1
    · rw [hun hst] at h1
      cases h1
  · rintro ⟨pod, store, id, st3, st4, hS, hb, hup, _, hd⟩
    rcases key pod store id st3 hS with h | ⟨_, hn⟩
    · exact h.1
    · exact absurd ⟨hb, hup, st4, hd⟩ hn
  · intro pod store id st3 hS hup
    rcases key pod store id st3 hS with h | h
    · exact absurd h.2.2.1 hup
    · exact h.1
  · intro hnone
    apply hun
    rintro ⟨pod, store, id, st3, _, _, ⟨pre, k, post, hsplit, _, hname⟩, _⟩
    exact hnone (k, store) (by rw [hsplit]; simp) hname

theorem deletedUpStore_counts_up_store_witness :
    (scaleInOne demoScenario.deps (demoCluster demoStatus) false 4 0 3 4 1000 World.start).1.1
      = 1 ∧
    (scaleInOne demoScenario.deps (demoCluster downStatus) false 4 0 3 4 1000 World.start).1.1
      = 0 :=
  ⟨(deletedUpStore_counts_up_store demoScenario.deps (demoCluster demoStatus) false 4 0 3 4
      1000 World.start).2.1.mpr
      ⟨demoPod 4 "5" true, (demoStore "5" 4 "Up" 0).2, 5, 3, 4, demo_removal_started,
        by decide, rfl, by decide, rfl⟩,
    by decide⟩

/-- C18 (amended): tombstone is the terminal success path of a call that got past
the quorum pre-check. When a `scaleInOne` call found the pod, passed or skipped
the pre-check and updated the metadata of the pod, the pod has no entry in
`tc.Status.TiKV.Stores`, and `store` is the first entry of `TombstoneStores` for
the pod whose key equals the store-ID label of the pod, with an ID that parses as
`id`: the call never calls `DeleteStore` and returns `deletedUpStore` 0; it
returns nil only if the claims of the pod were resolved and every annotation and
the end of the eviction succeeded, and then its events are the resolution, the
deferred-deletion annotation of every claim with the current time, and the end of
the eviction for `id`, in that order; and it returns nil whenever the claims are
resolved and these calls succeed. -/
theorem tombstone_is_terminal_success (d : Deps σ) (tc : TidbCluster) (skipPreCheck : Bool)
    (up deleted maxReplicas ordinal : Int) (currentTime : Time) (w : World σ)
    (pod0 : Pod) (st1 : σ) (pod : Pod) (st2 : σ)
    (pre post : List (String × TiKVStore)) (k : String) (store : TiKVStore) (id : Nat)
    (h0 : d.podGet tc.Namespace (d.ordinalPodName TiKVMemberType tc.Name ordinal) w.st
      = (.ok pod0, st1))
    (hpass : (preCheckStep d tc skipPreCheck (d.ordinalPodName TiKVMemberType tc.Name ordinal)
      up deleted maxReplicas w).1 = true)
    (h2 : d.updateMetaInfo tc pod0 st1 = (.ok pod, st2))
    (hnoS : ∀ kv ∈ tc.Status.Stores,
      kv.2.PodName ≠ d.ordinalPodName TiKVMemberType tc.Name ordinal)
    (hsplit : tc.Status.TombstoneStores = pre ++ (k, store) :: post)
    (hpre : ∀ kv ∈ pre, kv.2.PodName = d.ordinalPodName TiKVMemberType tc.Name ordinal →
      mapIndex pod.Labels d.StoreIDLabelKey ≠ kv.1)
    (hname : store.PodName = d.ordinalPodName TiKVMemberType tc.Name ordinal)
    (hkey : mapIndex pod.Labels d.StoreIDLabelKey = k)
    (hp : parseUint store.ID = some id) :
    deleteStoreCalls
        ((scaleInOne d tc skipPreCheck up deleted maxReplicas ordinal currentTime w).2.since w)
      = [] ∧
    (scaleInOne d tc skipPreCheck up deleted maxReplicas ordinal currentTime w).1.1 = 0 ∧
    ((scaleInOne d tc skipPreCheck up deleted maxReplicas ordinal currentTime w).1.2 = none →
      ∃ pvcs st4,
        d.resolvePVCFromPod pod st2 = (.ok pvcs, st4) ∧
        (annotatePVCs d tc (some (d.formatRFC3339 currentTime)) pvcs
          { st := st4, trace := w.trace ++
            [.enterScaleInOne skipPreCheck up deleted maxReplicas ordinal,
              .podGet tc.Namespace (d.ordinalPodName TiKVMemberType tc.Name ordinal),
              .updateMetaInfo pod0.Name, .resolvePVCFromPod pod.Name] }).1 = none ∧
        (d.endEvictLeaderbyStoreID tc id
          (annotatePVCs d tc (some (d.formatRFC3339 currentTime)) pvcs
            { st := st4, trace := w.trace ++
              [.enterScaleInOne skipPreCheck up deleted maxReplicas ordinal,
                .podGet tc.Namespace (d.ordinalPodName TiKVMemberType tc.Name ordinal),
                .updateMetaInfo pod0.Name, .resolvePVCFromPod pod.Name] }).2.st).1 = none ∧
        (scaleInOne d tc skipPreCheck up deleted maxReplicas ordinal currentTime w).2.since w
          = [.enterScaleInOne skipPreCheck up deleted maxReplicas ordinal,
              .podGet tc.Namespace (d.ordinalPodName TiKVMemberType tc.Name ordinal),
              .updateMetaInfo pod0.Name, .resolvePVCFromPod pod.Name] ++
            pvcs.map (fun pvc => .addDeferDeletingAnnoToPVC pvc.Name
              (some (d.formatRFC3339 currentTime))) ++
            [.endEvictLeaderbyStoreID id, .exitScaleInOne ordinal 0 true]) ∧
    (∀ pvcs st4, d.resolvePVCFromPod pod st2 = (.ok pvcs, st4) →
      (∀ pvc ∈ pvcs, ∀ st,
        (d.addDeferDeletingAnnoToPVC tc pvc (some (d.formatRFC3339 currentTime)) st).1
          = none) →
      (∀ st, (d.endEvictLeaderbyStoreID tc id st).1 = none) →
      (scaleInOne d tc skipPreCheck up deleted maxReplicas ordinal currentTime w).1
        = (0, none)) := by
  have hEq := scaleInSynced_tombstone d tc (d.ordinalPodName TiKVMemberType tc.Name ordinal)
    pod currentTime
    ({ st := st2, trace := w.trace ++
      [.enterScaleInOne skipPreCheck up deleted maxReplicas ordinal,
        .podGet tc.Namespace (d.ordinalPodName TiKVMemberType tc.Name ordinal),
        .updateMetaInfo pod0.Name] } : World σ) pre post k store hnoS hsplit hpre hname hkey
  have hOne := scaleInOne_of_synced d tc skipPreCheck up deleted maxReplicas ordinal
    currentTime w pod0 st1 pod st2 h0 hpass h2
  have hres : (scaleInOne d tc skipPreCheck up deleted maxReplicas ordinal currentTime w).1
      = (scaleInTombstone d tc pod currentTime store
          { st := st2, trace := w.trace ++
            [.enterScaleInOne skipPreCheck up deleted maxReplicas ordinal,
              .podGet tc.Namespace (d.ordinalPodName TiKVMemberType tc.Name ordinal),
              .updateMetaInfo pod0.Name] }).1 := by
    rw [hOne, hEq]
  have hdel0 : (scaleInOne d tc skipPreCheck up deleted maxReplicas ordinal currentTime
      w).1.1 = 0 := by
    rw [hres]
    exact scaleInTombstone_deleted d tc pod currentTime store _
  refine ⟨?_, hdel0, ?_, ?_⟩
  · apply (scaleInOne_unstarted d tc skipPreCheck up deleted maxReplicas ordinal currentTime w
      ?_).1
    rintro ⟨pd, s, i, st3, _, _, ⟨pre2, k2, post2, hsp, _, hn⟩, _⟩
    exact hnoS (k2, s) (by rw [hsp]; simp) hn
  · intro hnone
    rw [hres] at hnone
    obtain ⟨pvcs, st4, st, hr, ha, he, hT⟩ := scaleInTombstone_none d tc pod currentTime store
      _ id hp hnone
    refine ⟨pvcs, st4, hr, ?_, ?_, ?_⟩
    · simpa using ha
    · have := congrArg Prod.fst he
      simpa using this
    · obtain ⟨_, _, hev⟩ := scaleInOne_of_synced_result d tc skipPreCheck up deleted
        maxReplicas ordinal currentTime w pod0 st1 pod st2 h0 hpass h2 (0, none) st
        (.resolvePVCFromPod pod.Name ::
          pvcs.map (fun pvc => .addDeferDeletingAnnoToPVC pvc.Name
            (some (d.formatRFC3339 currentTime))) ++ [.endEvictLeaderbyStoreID id])
        (by rw [hEq, hT]; simp)
      rw [hev]
      simp
  · intro pvcs st4 hr ha he
    have := scaleInTombstone_ok d tc pod currentTime store
      ({ st := st2, trace := w.trace ++
        [.enterScaleInOne skipPreCheck up deleted maxReplicas ordinal,
          .podGet tc.Namespace (d.ordinalPodName TiKVMemberType tc.Name ordinal),
          .updateMetaInfo pod0.Name] } : World σ) id pvcs st4 hp hr ha he
    apply Prod.ext
    · exact hdel0
    · rw [hres]
      exact this

theorem tombstone_is_terminal_success_witness :
    (scaleInOne demoScenario.deps (demoCluster tombstoneStatus) false 4 0 3 4 1000
      World.start).1 = (0, none) ∧
    deleteStoreCalls
      ((scaleInOne demoScenario.deps (demoCluster tombstoneStatus) false 4 0 3 4 1000
        World.start).2.since World.start) = [] ∧
    (scaleInOne demoScenario.deps (demoCluster tombstoneStatus) false 4 0 3 4 1000
        World.start).2.since World.start
      = [.enterScaleInOne false 4 0 3 4, .podGet "ns" "demo-tikv-4",
          .updateMetaInfo "demo-tikv-4", .resolvePVCFromPod "demo-tikv-4",
          .addDeferDeletingAnnoToPVC "tikv-demo-tikv-4" (some "1000"),
          .endEvictLeaderbyStoreID 5, .exitScaleInOne 4 0 true] :=
  ⟨(tombstone_is_terminal_success demoScenario.deps (demoCluster tombstoneStatus) false 4 0 3
      4 1000 World.start (demoPod 4 "5" true) 1 (demoPod 4 "5" true) 2 [] [] "5"
      (demoStore "5" 4 "Tombstone" 0).2 5 rfl (by decide) rfl (by decide) rfl (by simp) rfl
      (by decide) (by decide)).2.2.2 [{ Name := "tikv-demo-tikv-4" }] 3 rfl
      (fun _ _ _ => rfl) (fun _ => rfl),
    (tombstone_is_terminal_success demoScenario.deps (demoCluster tombstoneStatus) false 4 0 3
      4 1000 World.start (demoPod 4 "5" true) 1 (demoPod 4 "5" true) 2 [] [] "5"
      (demoStore "5" 4 "Tombstone" 0).2 5 rfl (by decide) rfl (by decide) rfl (by simp) rfl
      (by decide) (by decide)).1,
    by decide⟩

/-- The claim C18 fails on the code: in the status `tombstoneStatus` the pod 4 has
no entry in the stores and a tombstone entry under its store-ID label 5, which
parses; with two Up stores and a replication factor of three the quorum pre-check
rejects, and `scaleInOne` returns an error without annotating a claim or ending
the eviction. -/
theorem tombstone_is_terminal_success_counterexample :
    (∀ kv ∈ (demoCluster tombstoneStatus).Status.Stores, kv.2.PodName ≠ "demo-tikv-4") ∧
    (demoCluster tombstoneStatus).Status.TombstoneStores = [demoStore "5" 4 "Tombstone" 0] ∧
    (demoScenario.deps.podGet "ns" "demo-tikv-4" 0).1 = .ok (demoPod 4 "5" true) ∧
    mapIndex (demoPod 4 "5" true).Labels demoScenario.deps.StoreIDLabelKey = "5" ∧
    parseUint (demoStore "5" 4 "Tombstone" 0).2.ID = some 5 ∧
    (scaleInOne demoScenario.deps (demoCluster tombstoneStatus) false 2 0 3 4 1000
        World.start).1
      = (0, some (.errorf
          "tikvScaler.ScaleIn: failed to pass up stores check , pod %s, cluster %s/%s")) ∧
    (scaleInOne demoScenario.deps (demoCluster tombstoneStatus) false 2 0 3 4 1000
        World.start).2.since World.start
      = [.enterScaleInOne false 2 0 3 4, .podGet "ns" "demo-tikv-4",
          .recorderEvent "Warning" "FailedScaleIn", .exitScaleInOne 4 0 false] :=
  ⟨by decide, rfl, rfl, by decide, by decide, rfl, by decide⟩

/-- C19 (amended): an ordinal is counted finished by scale-in only on a confirmed
state. A `scaleInOne` call in which `UpdateMetaInfo` does not fail returns no
error only if it found the pod, passed or skipped the quorum pre-check, updated
the metadata of the pod, and `DeletionConfirmed` holds: either `TombstoneStores`
has an entry for the pod under the store-ID label of the pod, or the pod has no
entry in `Stores` and no entry in `TombstoneStores` under its label, and either it
is not ready and, on a bootstrapped cluster, was created at least five resync
periods before the reading of the clock (on a cluster that is not bootstrapped
there is no wait), or it is ready and its no-active-store-since time is more than
five resync periods before the reading of the clock. -/
theorem finished_only_on_confirmed_state (d : Deps σ) (tc : TidbCluster)
    (skipPreCheck : Bool) (up deleted maxReplicas ordinal : Int) (currentTime : Time)
    (w : World σ)
    (hupd : ¬ ∃ pod0 st1 e st2,
      d.podGet tc.Namespace (d.ordinalPodName TiKVMemberType tc.Name ordinal) w.st
        = (.ok pod0, st1) ∧
      d.updateMetaInfo tc pod0 st1 = (.error e, st2))
    (hnil : (scaleInOne d tc skipPreCheck up deleted maxReplicas ordinal currentTime w).1.2
      = none) :
    ∃ pod st2, MetaInfoUpdated d tc skipPreCheck up deleted maxReplicas ordinal w pod st2 ∧
      DeletionConfirmed d tc (d.ordinalPodName TiKVMemberType tc.Name ordinal) pod := by
  rcases scaleInOne_cases d tc skipPreCheck up deleted maxReplicas ordinal currentTime w with
    ⟨e, s1, _, h1, _⟩ | ⟨p0, s1, _, _, _, h1, _⟩ | ⟨p0, s1, e, s2, h0, _, h2, _, _⟩ |
    ⟨pod, st2, pod0, st1, h0, hpass, h2⟩
  · rw [h1] at hnil; cases hnil
  · rw [h1] at hnil; cases hnil
  · exact absurd ⟨p0, s1, e, s2, h0, h2⟩ hupd
  · refine ⟨pod, st2, ⟨pod0, st1, h0, hpass, h2⟩, ?_⟩
    have hOne := scaleInOne_of_synced d tc skipPreCheck up deleted maxReplicas ordinal
      currentTime w pod0 st1 pod st2 h0 hpass h2
    rcases scaleInOne_paths d tc skipPreCheck up deleted maxReplicas ordinal currentTime w
      pod0 st1 pod st2 h0 hpass h2 with
      ⟨store, _, ⟨_, h1, _⟩ | ⟨_, _, h1, _⟩ | ⟨_, id, e, st3, _, _, h1, _⟩ |
        ⟨id, st3, hS⟩⟩ | ⟨_, pre, k, store, post, hsplit, _, hname, hkey, _⟩ |
        ⟨hnoS, hnoT, hEq⟩
    · rw [h1] at hnil; cases hnil
    · rw [h1] at hnil; cases hnil
    · rw [h1] at hnil; cases hnil
    · obtain ⟨p0n, tail, _, hc⟩ := scaleInOne_started d tc skipPreCheck up deleted
        maxReplicas ordinal currentTime w pod store id st3 hS
      rcases hc with ⟨_, _, _, _, hr⟩ | ⟨_, _, _, e, _, hr⟩ | ⟨_, _, _, _, hr⟩ |
        ⟨_, _, e, _, hr⟩ | ⟨_, _, _, _, _, hr⟩ | ⟨_, _, m, st4, e, _, _, _, hr⟩ |
        ⟨_, _, _, _, _, _, _, hr⟩ <;> rw [hr] at hnil <;> cases hnil
    · exact Or.inl ⟨(k, store), by rw [hsplit]; simp, hname, hkey⟩
    · refine Or.inr ⟨hnoS, hnoT, ?_⟩
      rw [hOne, hEq] at hnil
      exact scaleInNotFound_none d tc pod _ hnil

theorem finished_only_on_confirmed_state_witness :
    (scaleInOne demoScenario.deps (demoCluster tombstoneStatus) false 4 0 3 4 1000
      World.start).1.2 = none ∧
    ∃ pod st2,
      MetaInfoUpdated demoScenario.deps (demoCluster tombstoneStatus) false 4 0 3 4
        World.start pod st2 ∧
      DeletionConfirmed demoScenario.deps (demoCluster tombstoneStatus)
        (demoScenario.deps.ordinalPodName TiKVMemberType (demoCluster tombstoneStatus).Name 4)
        pod :=
  ⟨rfl,
    finished_only_on_confirmed_state demoScenario.deps (demoCluster tombstoneStatus) false 4 0
      3 4 1000 World.start
      (by
        rintro ⟨pod0, st1, e, st2, _, h2⟩
        exact absurd (congrArg Prod.fst h2) (by intro h; cases h))
      rfl⟩

/-- The claim C19 fails on the code by design: on a cluster whose TiKV never
bootstrapped, the pod 4 of the test bed `pendingScenario`, not ready and created
ten nanoseconds before the reading of the clock, is in no store list; every
collaborator succeeds, no grace time of five resync periods (150 nanoseconds) has
passed, and `scaleInOne` returns no error. -/
theorem finished_only_on_confirmed_state_counterexample :
    (demoCluster freshStatus).Status.Stores = [] ∧
    (demoCluster freshStatus).Status.TombstoneStores = [] ∧
    (pendingScenario.deps.podGet "ns" "demo-tikv-4" 0).1
      = .ok { demoPod 4 "" false with CreationTimestamp := 990 } ∧
    (pendingScenario.deps.timeNow 2).1 < 990 + fiveResyncPeriods pendingScenario.deps ∧
    (scaleInOne pendingScenario.deps (demoCluster freshStatus) true 0 0 0 4 1000
      World.start).1 = (0, none) ∧
    (scaleInOne pendingScenario.deps (demoCluster freshStatus) true 0 0 0 4 1000
        World.start).2.since World.start
      = [.enterScaleInOne true 0 0 0 4, .podGet "ns" "demo-tikv-4",
          .updateMetaInfo "demo-tikv-4", .resolvePVCFromPod "demo-tikv-4",
          .addDeferDeletingAnnoToPVC "tikv-demo-tikv-4" none, .exitScaleInOne 4 0 true] :=
  ⟨rfl, rfl, rfl, by decide, rfl, by decide⟩

/-- C20 (amended): a replica that never became ready and never appeared in the
store lists is abandoned only after the grace window. On a bootstrapped cluster,
for a `scaleInOne` call that found the pod, passed or skipped the quorum pre-check
and updated the metadata of the pod, when the pod is not ready and has no entry in
`Stores` or `TombstoneStores`: the call reads the clock; while the reading is
before the creation time of the pod plus five resync periods it returns the error
`is not ready, wait for 5 resync periods` and does nothing else; from that instant
on it resolves the claims of the pod and, when that and the annotations succeed,
annotates every claim for deferred deletion and returns nil; in both cases
`DeleteStore` and `BeginEvictLeader` are never called. -/
theorem never_joined_pod_waits_grace (d : Deps σ) (tc : TidbCluster) (skipPreCheck : Bool)
    (up deleted maxReplicas ordinal : Int) (currentTime : Time) (w : World σ)
    (pod0 : Pod) (st1 : σ) (pod : Pod) (st2 : σ)
    (hboot : tc.TiKVBootStrapped = true)
    (h0 : d.podGet tc.Namespace (d.ordinalPodName TiKVMemberType tc.Name ordinal) w.st
      = (.ok pod0, st1))
    (hpass : (preCheckStep d tc skipPreCheck (d.ordinalPodName TiKVMemberType tc.Name ordinal)
      up deleted maxReplicas w).1 = true)
    (h2 : d.updateMetaInfo tc pod0 st1 = (.ok pod, st2))
    (hready : pod.Ready = false)
    (hnoS : ∀ kv ∈ tc.Status.Stores,
      kv.2.PodName ≠ d.ordinalPodName TiKVMemberType tc.Name ordinal)
    (hnoT : ∀ kv ∈ tc.Status.TombstoneStores,
      kv.2.PodName ≠ d.ordinalPodName TiKVMemberType tc.Name ordinal) :
    ((d.timeNow st2).1 < pod.CreationTimestamp + fiveResyncPeriods d →
      (scaleInOne d tc skipPreCheck up deleted maxReplicas ordinal currentTime w).1
        = (0, some (.errorf
            "TiKV %s/%s is not ready, wait for 5 resync periods to sync its status")) ∧
      (scaleInOne d tc skipPreCheck up deleted maxReplicas ordinal currentTime w).2.since w
        = [.enterScaleInOne skipPreCheck up deleted maxReplicas ordinal,
            .podGet tc.Namespace (d.ordinalPodName TiKVMemberType tc.Name ordinal),
            .updateMetaInfo pod0.Name, .timeNow, .exitScaleInOne ordinal 0 false]) ∧
    (pod.CreationTimestamp + fiveResyncPeriods d ≤ (d.timeNow st2).1 →
      ∀ pvcs st4, d.resolvePVCFromPod pod (d.timeNow st2).2 = (.ok pvcs, st4) →
        (∀ pvc ∈ pvcs, ∀ st, (d.addDeferDeletingAnnoToPVC tc pvc none st).1 = none) →
        (scaleInOne d tc skipPreCheck up deleted maxReplicas ordinal currentTime w).1
          = (0, none) ∧
        (scaleInOne d tc skipPreCheck up deleted maxReplicas ordinal currentTime w).2.since w
          = [.enterScaleInOne skipPreCheck up deleted maxReplicas ordinal,
              .podGet tc.Namespace (d.ordinalPodName TiKVMemberType tc.Name ordinal),
              .updateMetaInfo pod0.Name, .timeNow, .resolvePVCFromPod pod.Name] ++
            pvcs.map (fun pvc => .addDeferDeletingAnnoToPVC pvc.Name none) ++
            [.exitScaleInOne ordinal 0 true]) ∧
    deleteStoreCalls
        ((scaleInOne d tc skipPreCheck up deleted maxReplicas ordinal currentTime w).2.since w)
      = [] ∧
    beginEvictCalls
        ((scaleInOne d tc skipPreCheck up deleted maxReplicas ordinal currentTime w).2.since w)
      = [] := by
  have hEq := scaleInSynced_notFound d tc (d.ordinalPodName TiKVMemberType tc.Name ordinal)
    pod currentTime
    ({ st := st2, trace := w.trace ++
      [.enterScaleInOne skipPreCheck up deleted maxReplicas ordinal,
        .podGet tc.Namespace (d.ordinalPodName TiKVMemberType tc.Name ordinal),
        .updateMetaInfo pod0.Name] } : World σ) hnoS
    (fun kv hkv hn => absurd hn (hnoT kv hkv))
  have hNF : ∀ w3 : World σ, scaleInNotFound d tc pod w3 = scaleInNotReady d tc pod w3 := by
    intro w3
    simp [scaleInNotFound, hready]
  have hun := scaleInOne_unstarted d tc skipPreCheck up deleted maxReplicas ordinal
    currentTime w (by
      rintro ⟨pd, s, i, st3, _, _, ⟨pre2, k2, post2, hsp, _, hn⟩, _⟩
      exact hnoS (k2, s) (by rw [hsp]; simp) hn)
  refine ⟨?_, ?_, hun.1, hun.2.1⟩
  · intro hlt
    obtain ⟨h1, _, hev⟩ := scaleInOne_of_synced_result d tc skipPreCheck up deleted
      maxReplicas ordinal currentTime w pod0 st1 pod st2 h0 hpass h2 _ _ [.timeNow]
      (by rw [hEq, hNF, scaleInNotReady_wait d tc pod _ hboot hlt])
    exact ⟨h1, by rw [hev]; rfl⟩
  · intro hge pvcs st4 hr ha
    have hA := resolveAndAnnotate_ok d tc pod none
      ({ st := (d.timeNow st2).2, trace := (w.trace ++
        [.enterScaleInOne skipPreCheck up deleted maxReplicas ordinal,
          .podGet tc.Namespace (d.ordinalPodName TiKVMemberType tc.Name ordinal),
          .updateMetaInfo pod0.Name]) ++ [.timeNow] } : World σ) pvcs st4 hr ha
    obtain ⟨pvcs2, st5, hr2, _, hRA⟩ := resolveAndAnnotate_none d tc pod none _ hA
    have hpv : pvcs2 = pvcs := by
      have := hr2.symm.trans hr
      injection this with h _
      injection h with h
    subst hpv
    obtain ⟨h1, _, hev⟩ := scaleInOne_of_synced_result d tc skipPreCheck up deleted
      maxReplicas ordinal currentTime w pod0 st1 pod st2 h0 hpass h2 (0, none)
      (resolveAndAnnotate d tc pod none
        { st := (d.timeNow st2).2, trace := (w.trace ++
          [.enterScaleInOne skipPreCheck up deleted maxReplicas ordinal,
            .podGet tc.Namespace (d.ordinalPodName TiKVMemberType tc.Name ordinal),
            .updateMetaInfo pod0.Name]) ++ [.timeNow] }).2.st
      (.timeNow :: .resolvePVCFromPod pod.Name ::
        pvcs2.map (fun pvc => .addDeferDeletingAnnoToPVC pvc.Name none))
      (by
        rw [hEq, hNF, scaleInNotReady_due d tc pod _ hboot (not_lt.mpr hge), hRA]
        simp)
    exact ⟨h1, by rw [hev]; simp⟩

theorem never_joined_pod_waits_grace_witness :
    ((scaleInOne pendingScenario.deps (demoCluster othersStatus) false 4 0 3 4 1000
        World.start).1
      = (0, some (.errorf
          "TiKV %s/%s is not ready, wait for 5 resync periods to sync its status")) ∧
      (scaleInOne pendingScenario.deps (demoCluster othersStatus) false 4 0 3 4 1000
          World.start).2.since World.start
        = [.enterScaleInOne false 4 0 3 4, .podGet "ns" "demo-tikv-4",
            .updateMetaInfo "demo-tikv-4", .timeNow, .exitScaleInOne 4 0 false]) ∧
    ((scaleInOne neverJoinedScenario.deps (demoCluster othersStatus) false 4 0 3 4 1000
        World.start).1 = (0, none) ∧
      (scaleInOne neverJoinedScenario.deps (demoCluster othersStatus) false 4 0 3 4 1000
          World.start).2.since World.start
        = [.enterScaleInOne false 4 0 3 4, .podGet "ns" "demo-tikv-4",
            .updateMetaInfo "demo-tikv-4", .timeNow, .resolvePVCFromPod "demo-tikv-4",
            .addDeferDeletingAnnoToPVC "tikv-demo-tikv-4" none, .exitScaleInOne 4 0 true]) :=
  ⟨(never_joined_pod_waits_grace pendingScenario.deps (demoCluster othersStatus) false 4 0 3 4
      1000 World.start { demoPod 4 "" false with CreationTimestamp := 990 } 1
      { demoPod 4 "" false with CreationTimestamp := 990 } 2 rfl rfl (by decide) rfl rfl
      (by decide) (by decide)).1 (by decide),
    (never_joined_pod_waits_grace neverJoinedScenario.deps (demoCluster othersStatus) false 4 0
      3 4 1000 World.start (demoPod 4 "" false) 1 (demoPod 4 "" false) 2 rfl rfl (by decide)
      rfl rfl (by decide) (by decide)).2.1 (by decide) [{ Name := "tikv-demo-tikv-4" }] 4 rfl
      (fun _ _ _ => rfl)⟩

/-- The claim C20 fails on the code: on the bootstrapped status `othersStatus` the
pod 4 of the test bed `neverJoinedScenario` is not ready, has no entry in the
store lists and is older than five resync periods; with two Up stores and a
replication factor of three the quorum pre-check rejects, and `scaleInOne` returns
an error without annotating a claim. -/
theorem never_joined_pod_waits_grace_counterexample :
    (demoCluster othersStatus).TiKVBootStrapped = true ∧
    (neverJoinedScenario.deps.podGet "ns" "demo-tikv-4" 0).1 = .ok (demoPod 4 "" false) ∧
    (demoPod 4 "" false).Ready = false ∧
    (∀ kv ∈ (demoCluster othersStatus).Status.Stores, kv.2.PodName ≠ "demo-tikv-4") ∧
    (demoCluster othersStatus).Status.TombstoneStores = [] ∧
    (demoPod 4 "" false).CreationTimestamp + fiveResyncPeriods neverJoinedScenario.deps
      ≤ (neverJoinedScenario.deps.timeNow 0).1 ∧
    (scaleInOne neverJoinedScenario.deps (demoCluster othersStatus) false 2 0 3 4 1000
        World.start).1
      = (0, some (.errorf
          "tikvScaler.ScaleIn: failed to pass up stores check , pod %s, cluster %s/%s")) ∧
    (scaleInOne neverJoinedScenario.deps (demoCluster othersStatus) false 2 0 3 4 1000
        World.start).2.since World.start
      = [.enterScaleInOne false 2 0 3 4, .podGet "ns" "demo-tikv-4",
          .recorderEvent "Warning" "FailedScaleIn", .exitScaleInOne 4 0 false] :=
  ⟨rfl, rfl, rfl, by decide, rfl, by decide, rfl, by decide⟩

end tikvScaler

end TidbOperator

namespace TidbOperator

namespace tikvScaler

variable {σ : Type}

/-- C21 (amended): a ready pod that is in no store list is abandoned only after
the grace window of its no-active-store-since time. For a `scaleInOne` call that
found the pod, passed or skipped the quorum pre-check and updated the metadata of
the pod, when the pod is ready and has no entry in `Stores` or `TombstoneStores`:
the call returns no error only if the pod carries a no-active-store-since
annotation that parses and the reading of the clock is strictly after that time
plus five resync periods; in that case it resolves the claims of the pod and,
when that and the annotations succeed, annotates every claim for deferred deletion
and returns nil; when the annotation is missing, malformed or not yet old enough
it returns the error `not found in cluster`, which is not classified as Requeue,
and annotates no claim. -/
theorem ready_pod_abandoned_after_grace (d : Deps σ) (tc : TidbCluster) (skipPreCheck : Bool)
    (up deleted maxReplicas ordinal : Int) (currentTime : Time) (w : World σ)
    (pod0 : Pod) (st1 : σ) (pod : Pod) (st2 : σ)
    (h0 : d.podGet tc.Namespace (d.ordinalPodName TiKVMemberType tc.Name ordinal) w.st
      = (.ok pod0, st1))
    (hpass : (preCheckStep d tc skipPreCheck (d.ordinalPodName TiKVMemberType tc.Name ordinal)
      up deleted maxReplicas w).1 = true)
    (h2 : d.updateMetaInfo tc pod0 st1 = (.ok pod, st2))
    (hready : pod.Ready = true)
    (hnoS : ∀ kv ∈ tc.Status.Stores,
      kv.2.PodName ≠ d.ordinalPodName TiKVMemberType tc.Name ordinal)
    (hnoT : ∀ kv ∈ tc.Status.TombstoneStores,
      kv.2.PodName ≠ d.ordinalPodName TiKVMemberType tc.Name ordinal) :
    ((scaleInOne d tc skipPreCheck up deleted maxReplicas ordinal currentTime w).1.2 = none →
      ∃ v t, pod.Annotations.lookup d.AnnTiKVNoActiveStoreSince = some v ∧
        d.parseRFC3339 v = some t ∧ t + fiveResyncPeriods d < (d.timeNow st2).1) ∧
    (∀ v t, pod.Annotations.lookup d.AnnTiKVNoActiveStoreSince = some v →
      d.parseRFC3339 v = some t → t + fiveResyncPeriods d < (d.timeNow st2).1 →
      ∀ pvcs st4, d.resolvePVCFromPod pod (d.timeNow st2).2 = (.ok pvcs, st4) →
        (∀ pvc ∈ pvcs, ∀ st, (d.addDeferDeletingAnnoToPVC tc pvc none st).1 = none) →
        (scaleInOne d tc skipPreCheck up deleted maxReplicas ordinal currentTime w).1
          = (0, none) ∧
        (scaleInOne d tc skipPreCheck up deleted maxReplicas ordinal currentTime w).2.since w
          = [.enterScaleInOne skipPreCheck up deleted maxReplicas ordinal,
              .podGet tc.Namespace (d.ordinalPodName TiKVMemberType tc.Name ordinal),
              .updateMetaInfo pod0.Name, .timeNow, .resolvePVCFromPod pod.Name] ++
            pvcs.map (fun pvc => .addDeferDeletingAnnoToPVC pvc.Name none) ++
            [.exitScaleInOne ordinal 0 true]) ∧
    ((pod.Annotations.lookup d.AnnTiKVNoActiveStoreSince = none ∨
        (∃ v, pod.Annotations.lookup d.AnnTiKVNoActiveStoreSince = some v ∧
          d.parseRFC3339 v = none) ∨
        (∃ v t, pod.Annotations.lookup d.AnnTiKVNoActiveStoreSince = some v ∧
          d.parseRFC3339 v = some t ∧ ¬ t + fiveResyncPeriods d < (d.timeNow st2).1)) →
      (scaleInOne d tc skipPreCheck up deleted maxReplicas ordinal currentTime w).1
        = (0, some (.errorf "TiKV %s/%s not found in cluster")) ∧
      isRequeueClassified (.errorf "TiKV %s/%s not found in cluster") = false ∧
      annotatesPVC
          ((scaleInOne d tc skipPreCheck up deleted maxReplicas ordinal currentTime
            w).2.since w) = false) := by
  have hEq := scaleInSynced_notFound d tc (d.ordinalPodName TiKVMemberType tc.Name ordinal)
    pod currentTime
    ({ st := st2, trace := w.trace ++
      [.enterScaleInOne skipPreCheck up deleted maxReplicas ordinal,
        .podGet tc.Namespace (d.ordinalPodName TiKVMemberType tc.Name ordinal),
        .updateMetaInfo pod0.Name] } : World σ) hnoS
    (fun kv hkv hn => absurd hn (hnoT kv hkv))
  have hNF : ∀ w3 : World σ,
      scaleInNotFound d tc pod w3 = scaleInNoActiveStore d tc pod w3 := by
    intro w3
    simp [scaleInNotFound, hready]
  have hOne := scaleInOne_of_synced d tc skipPreCheck up deleted maxReplicas ordinal
    currentTime w pod0 st1 pod st2 h0 hpass h2
  have herr : (pod.Annotations.lookup d.AnnTiKVNoActiveStoreSince = none ∨
        (∃ v, pod.Annotations.lookup d.AnnTiKVNoActiveStoreSince = some v ∧
          d.parseRFC3339 v = none) ∨
        (∃ v t, pod.Annotations.lookup d.AnnTiKVNoActiveStoreSince = some v ∧
          d.parseRFC3339 v = some t ∧ ¬ t + fiveResyncPeriods d < (d.timeNow st2).1)) →
      (scaleInOne d tc skipPreCheck up deleted maxReplicas ordinal currentTime w).1
        = (0, some (.errorf "TiKV %s/%s not found in cluster")) ∧
      annotatesPVC
          ((scaleInOne d tc skipPreCheck up deleted maxReplicas ordinal currentTime
            w).2.since w) = false := by
    intro h
    rcases h with h | h | ⟨v, t, hv, hp, hle⟩
    · obtain ⟨h1, _, hev⟩ := scaleInOne_of_synced_result d tc skipPreCheck up deleted
        maxReplicas ordinal currentTime w pod0 st1 pod st2 h0 hpass h2
        (0, some (.errorf "TiKV %s/%s not found in cluster")) st2 []
        (by rw [hEq, hNF, scaleInNoActiveStore_unmarked d tc pod _ (Or.inl h)]; simp)
      exact ⟨h1, by rw [hev]; rfl⟩
    · obtain ⟨h1, _, hev⟩ := scaleInOne_of_synced_result d tc skipPreCheck up deleted
        maxReplicas ordinal currentTime w pod0 st1 pod st2 h0 hpass h2
        (0, some (.errorf "TiKV %s/%s not found in cluster")) st2 []
        (by rw [hEq, hNF, scaleInNoActiveStore_unmarked d tc pod _ (Or.inr h)]; simp)
      exact ⟨h1, by rw [hev]; rfl⟩
    · obtain ⟨h1, _, hev⟩ := scaleInOne_of_synced_result d tc skipPreCheck up deleted
        maxReplicas ordinal currentTime w pod0 st1 pod st2 h0 hpass h2 _ _ [.timeNow]
        (by rw [hEq, hNF, scaleInNoActiveStore_recent d tc pod _ v t hv hp hle])
      exact ⟨h1, by rw [hev]; rfl⟩
  refine ⟨?_, ?_, ?_⟩
  · intro hnil
    by_contra hcon
    have hcase : pod.Annotations.lookup d.AnnTiKVNoActiveStoreSince = none ∨
        (∃ v, pod.Annotations.lookup d.AnnTiKVNoActiveStoreSince = some v ∧
          d.parseRFC3339 v = none) ∨
        (∃ v t, pod.Annotations.lookup d.AnnTiKVNoActiveStoreSince = some v ∧
          d.parseRFC3339 v = some t ∧ ¬ t + fiveResyncPeriods d < (d.timeNow st2).1) := by
      cases hv : pod.Annotations.lookup d.AnnTiKVNoActiveStoreSince with
      | none => exact Or.inl rfl
      | some v =>
        cases hp : d.parseRFC3339 v with
        | none => exact Or.inr (Or.inl ⟨v, rfl, hp⟩)
        | some t =>
          refine Or.inr (Or.inr ⟨v, t, rfl, hp, ?_⟩)
          intro hlt
          exact hcon ⟨v, t, hv, hp, hlt⟩
    rw [(herr hcase).1] at hnil
    cases hnil
  · intro v t hv hp hlt pvcs st4 hr ha
    have hA := resolveAndAnnotate_ok d tc pod none
      ({ st := (d.timeNow st2).2, trace := (w.trace ++
        [.enterScaleInOne skipPreCheck up deleted maxReplicas ordinal,
          .podGet tc.Namespace (d.ordinalPodName TiKVMemberType tc.Name ordinal),
          .updateMetaInfo pod0.Name]) ++ [.timeNow] } : World σ) pvcs st4 hr ha
    obtain ⟨pvcs2, st5, hr2, _, hRA⟩ := resolveAndAnnotate_none d tc pod none _ hA
    have hpv : pvcs2 = pvcs := by
      have := hr2.symm.trans hr
      injection this with h _
      injection h with h
    subst hpv
    obtain ⟨h1, _, hev⟩ := scaleInOne_of_synced_result d tc skipPreCheck up deleted
      maxReplicas ordinal currentTime w pod0 st1 pod st2 h0 hpass h2 (0, none)
      (resolveAndAnnotate d tc pod none
        { st := (d.timeNow st2).2, trace := (w.trace ++
          [.enterScaleInOne skipPreCheck up deleted maxReplicas ordinal,
            .podGet tc.Namespace (d.ordinalPodName TiKVMemberType tc.Name ordinal),
            .updateMetaInfo pod0.Name]) ++ [.timeNow] }).2.st
      (.timeNow :: .resolvePVCFromPod pod.Name ::
        pvcs2.map (fun pvc => .addDeferDeletingAnnoToPVC pvc.Name none))
      (by
        rw [hEq, hNF, scaleInNoActiveStore_due d tc pod _ v t hv hp hlt, hRA]
        simp)
    exact ⟨h1, by rw [hev]; simp⟩
  · intro h
    refine ⟨(herr h).1, ?_, (herr h).2⟩
    simp [isRequeueClassified, perrors.Find, perrors.WalkDeep, perrors.walkChain,
      controller.IsRequeueError]

theorem ready_pod_abandoned_after_grace_witness :
    ((scaleInOne goneStoreScenario.deps (demoCluster othersStatus) false 4 0 3 4 1000
        World.start).1 = (0, none) ∧
      (scaleInOne goneStoreScenario.deps (demoCluster othersStatus) false 4 0 3 4 1000
          World.start).2.since World.start
        = [.enterScaleInOne false 4 0 3 4, .podGet "ns" "demo-tikv-4",
            .updateMetaInfo "demo-tikv-4", .timeNow, .resolvePVCFromPod "demo-tikv-4",
            .addDeferDeletingAnnoToPVC "tikv-demo-tikv-4" none, .exitScaleInOne 4 0 true]) ∧
    (scaleInOne recentlyGoneScenario.deps (demoCluster othersStatus) false 4 0 3 4 1000
        World.start).1
      = (0, some (.errorf "TiKV %s/%s not found in cluster")) :=
  ⟨(ready_pod_abandoned_after_grace goneStoreScenario.deps (demoCluster othersStatus) false 4
      0 3 4 1000 World.start
      { demoPod 4 "5" true with
        Annotations := [("tidb.pingcap.com/tikv-no-active-store-since", "100")] } 1
      { demoPod 4 "5" true with
        Annotations := [("tidb.pingcap.com/tikv-no-active-store-since", "100")] } 2
      rfl (by decide) rfl rfl (by decide) (by decide)).2.1 "100" 100 rfl (by decide)
      (by decide) [{ Name := "tikv-demo-tikv-4" }] 4 rfl (fun _ _ _ => rfl),
    ((ready_pod_abandoned_after_grace recentlyGoneScenario.deps (demoCluster othersStatus)
      false 4 0 3 4 1000 World.start
      { demoPod 4 "5" true with
        Annotations := [("tidb.pingcap.com/tikv-no-active-store-since", "900")] } 1
      { demoPod 4 "5" true with
        Annotations := [("tidb.pingcap.com/tikv-no-active-store-since", "900")] } 2
      rfl (by decide) rfl rfl (by decide) (by decide)).2.2
      (Or.inr (Or.inr ⟨"900", 900, rfl, by decide, by decide⟩))).1⟩

/-- The claim C21 fails on the code: on the bootstrapped status `othersStatus` the
pod 4 of the test bed `goneStoreScenario` is ready, has no entry in the store
lists and has had no active store for more than five resync periods; with two Up
stores and a replication factor of three the quorum pre-check rejects, and
`scaleInOne` returns another error than `not found in cluster` without annotating
a claim. -/
theorem ready_pod_abandoned_after_grace_counterexample :
    (goneStoreScenario.deps.podGet "ns" "demo-tikv-4" 0).1
      = .ok { demoPod 4 "5" true with
          Annotations := [("tidb.pingcap.com/tikv-no-active-store-since", "100")] } ∧
    (∀ kv ∈ (demoCluster othersStatus).Status.Stores, kv.2.PodName ≠ "demo-tikv-4") ∧
    (demoCluster othersStatus).Status.TombstoneStores = [] ∧
    goneStoreScenario.deps.parseRFC3339 "100" = some 100 ∧
    100 + fiveResyncPeriods goneStoreScenario.deps < (goneStoreScenario.deps.timeNow 0).1 ∧
    (scaleInOne goneStoreScenario.deps (demoCluster othersStatus) false 2 0 3 4 1000
        World.start).1
      = (0, some (.errorf
          "tikvScaler.ScaleIn: failed to pass up stores check , pod %s, cluster %s/%s")) ∧
    (scaleInOne goneStoreScenario.deps (demoCluster othersStatus) false 2 0 3 4 1000
        World.start).2.since World.start
      = [.enterScaleInOne false 2 0 3 4, .podGet "ns" "demo-tikv-4",
          .recorderEvent "Warning" "FailedScaleIn", .exitScaleInOne 4 0 false] :=
  ⟨rfl, by decide, rfl, by decide, by decide, rfl, by decide⟩

end tikvScaler

end TidbOperator

namespace TidbOperator

namespace autoscaler

variable {σ : Type}

/-- C22: `Controller.sync` treats a missing object as terminal success. For every
key that `cache.SplitMetaNamespaceKey` splits into a namespace and a name, when the
lister returns an error that `errors.IsNotFound` accepts, `sync` returns nil and
calls the lister once and the reconcile control function not at all; when the
lister returns another error, `sync` returns that error, and for a key that does
not split it returns the error of the split without calling the lister; in both
cases the reconcile control function is not called. -/
theorem sync_missing_object_is_success (d : Dependencies σ) (key : String) (w : Run σ) :
    (∀ ns name e st1, d.SplitMetaNamespaceKey key = .ok (ns, name) →
      d.listerGet ns name (d.timeNow w.st).2 = (.error e, st1) →
      errors.IsNotFound e = true →
      (sync d key w).1 = none ∧
      objectCalls ((sync d key w).2.since w) = [.listerGet ns name]) ∧
    (∀ ns name e st1, d.SplitMetaNamespaceKey key = .ok (ns, name) →
      d.listerGet ns name (d.timeNow w.st).2 = (.error e, st1) →
      errors.IsNotFound e = false →
      (sync d key w).1 = some e ∧
      objectCalls ((sync d key w).2.since w) = [.listerGet ns name]) ∧
    (∀ e, d.SplitMetaNamespaceKey key = .error e →
      (sync d key w).1 = some e ∧ objectCalls ((sync d key w).2.since w) = []) := by
  refine ⟨?_, ?_, ?_⟩
  · intro ns name e st1 hs hl hn
    rcases sync_objectCalls d key w with ⟨e2, hs2, _⟩ | ⟨ns2, name2, e2, st2, hs2, hl2, hn2, h⟩ |
      ⟨ns2, name2, e2, st2, hs2, hl2, hn2, _⟩ | ⟨ns2, name2, ta, st2, hs2, hl2, _⟩
    · rw [hs] at hs2; cases hs2
    · rw [hs] at hs2; cases hs2
      exact h
    · rw [hs] at hs2; cases hs2
      rw [hl] at hl2; cases hl2
      rw [hn] at hn2; cases hn2
    · rw [hs] at hs2; cases hs2
      rw [hl] at hl2; cases hl2
  · intro ns name e st1 hs hl hn
    rcases sync_objectCalls d key w with ⟨e2, hs2, _⟩ | ⟨ns2, name2, e2, st2, hs2, hl2, hn2, _⟩ |
      ⟨ns2, name2, e2, st2, hs2, hl2, hn2, h⟩ | ⟨ns2, name2, ta, st2, hs2, hl2, _⟩
    · rw [hs] at hs2; cases hs2
    · rw [hs] at hs2; cases hs2
      rw [hl] at hl2; cases hl2
      rw [hn] at hn2; cases hn2
    · rw [hs] at hs2; cases hs2
      rw [hl] at hl2; cases hl2
      exact h
    · rw [hs] at hs2; cases hs2
      rw [hl] at hl2; cases hl2
  · intro e hs
    rcases sync_objectCalls d key w with ⟨e2, hs2, h⟩ | ⟨ns2, name2, e2, st2, hs2, _⟩ |
      ⟨ns2, name2, e2, st2, hs2, _⟩ | ⟨ns2, name2, ta, st2, hs2, _⟩
    · rw [hs] at hs2; cases hs2
      exact h
    · rw [hs] at hs2; cases hs2
    · rw [hs] at hs2; cases hs2
    · rw [hs] at hs2; cases hs2

theorem sync_missing_object_is_success_witness :
    ((sync (demoBed "ns/gone" false).deps "ns/gone" Run.start).1 = none ∧
      objectCalls ((sync (demoBed "ns/gone" false).deps "ns/gone" Run.start).2.since Run.start)
        = [.listerGet "ns" "gone"]) ∧
    ((sync (demoBed "ns/stale" false).deps "ns/stale" Run.start).1
        = some (.errorf "cache not synced") ∧
      objectCalls ((sync (demoBed "ns/stale" false).deps "ns/stale" Run.start).2.since
        Run.start) = [.listerGet "ns" "stale"]) ∧
    ((sync (demoBed "a/b/c" false).deps "a/b/c" Run.start).1
        = some (.errorf "unexpected key format: %q") ∧
      objectCalls ((sync (demoBed "a/b/c" false).deps "a/b/c" Run.start).2.since Run.start)
        = []) :=
  ⟨(sync_missing_object_is_success (demoBed "ns/gone" false).deps "ns/gone" Run.start).1
      "ns" "gone" (.notFound "tidbclusterautoscaler not found") 2 rfl rfl rfl,
    (sync_missing_object_is_success (demoBed "ns/stale" false).deps "ns/stale" Run.start).2.1
      "ns" "stale" (.errorf "cache not synced") 2 rfl rfl rfl,
    (sync_missing_object_is_success (demoBed "a/b/c" false).deps "a/b/c" Run.start).2.2
      (.errorf "unexpected key format: %q") rfl⟩

/-- C23: `processNextWorkItem` re-enqueues exactly the unfinished keys. When the
queue reports that it is shut down the function returns false after the calls to
the gauge and to `Get` only: `sync` is not called. Otherwise it returns true, calls
`sync` for the key, and its calls to the queue are `Get`, then `Forget(key)` when
`sync` returned nil and `AddRateLimited(key)`, once, when `sync` returned an
error, classified as Requeue or not, then `Done(key)`. -/
theorem processNextWorkItem_requeues_unfinished (d : Dependencies σ) (w : Run σ) :
    ((d.queueGet (d.activeWorkersAdd 1 w.st).2).1.2 = true →
      (processNextWorkItem d w).1 = false ∧
      (processNextWorkItem d w).2.since w
        = [.activeWorkersAdd 1, .queueGet, .activeWorkersAdd (-1)]) ∧
    ((d.queueGet (d.activeWorkersAdd 1 w.st).2).1.2 = false →
      (processNextWorkItem d w).1 = true ∧
      ((sync d (d.queueGet (d.activeWorkersAdd 1 w.st).2).1.1
          { st := (d.queueGet (d.activeWorkersAdd 1 w.st).2).2,
            calls := w.calls ++ [.activeWorkersAdd 1, .queueGet] }).1 = none →
        (processNextWorkItem d w).2.since w
          = [.activeWorkersAdd 1, .queueGet] ++
            (sync d (d.queueGet (d.activeWorkersAdd 1 w.st).2).1.1
              { st := (d.queueGet (d.activeWorkersAdd 1 w.st).2).2,
                calls := w.calls ++ [.activeWorkersAdd 1, .queueGet] }).2.since
              { st := (d.queueGet (d.activeWorkersAdd 1 w.st).2).2,
                calls := w.calls ++ [.activeWorkersAdd 1, .queueGet] } ++
            [.queueForget (d.queueGet (d.activeWorkersAdd 1 w.st).2).1.1,
              .queueDone (d.queueGet (d.activeWorkersAdd 1 w.st).2).1.1,
              .activeWorkersAdd (-1)] ∧
        queueCalls ((processNextWorkItem d w).2.since w)
          = [.queueGet, .queueForget (d.queueGet (d.activeWorkersAdd 1 w.st).2).1.1,
              .queueDone (d.queueGet (d.activeWorkersAdd 1 w.st).2).1.1]) ∧
      (∀ e, (sync d (d.queueGet (d.activeWorkersAdd 1 w.st).2).1.1
          { st := (d.queueGet (d.activeWorkersAdd 1 w.st).2).2,
            calls := w.calls ++ [.activeWorkersAdd 1, .queueGet] }).1 = some e →
        (processNextWorkItem d w).2.since w
          = [.activeWorkersAdd 1, .queueGet] ++
            (sync d (d.queueGet (d.activeWorkersAdd 1 w.st).2).1.1
              { st := (d.queueGet (d.activeWorkersAdd 1 w.st).2).2,
                calls := w.calls ++ [.activeWorkersAdd 1, .queueGet] }).2.since
              { st := (d.queueGet (d.activeWorkersAdd 1 w.st).2).2,
                calls := w.calls ++ [.activeWorkersAdd 1, .queueGet] } ++
            (if isRequeueClassified e then [] else [.handleError]) ++
            [.queueAddRateLimited (d.queueGet (d.activeWorkersAdd 1 w.st).2).1.1,
              .queueDone (d.queueGet (d.activeWorkersAdd 1 w.st).2).1.1,
              .activeWorkersAdd (-1)] ∧
        queueCalls ((processNextWorkItem d w).2.since w)
          = [.queueGet, .queueAddRateLimited (d.queueGet (d.activeWorkersAdd 1 w.st).2).1.1,
              .queueDone (d.queueGet (d.activeWorkersAdd 1 w.st).2).1.1])) := by
  rcases hq : d.queueGet (d.activeWorkersAdd 1 w.st).2 with ⟨⟨key, quit⟩, st2⟩
  constructor
  · intro hquit
    simp only at hquit
    subst hquit
    constructor
    · simp [processNextWorkItem, Run.call, hq]
    · apply Run.since_of_calls
      simp [processNextWorkItem, Run.call, hq]
  · intro hquit
    simp only at hquit
    subst hquit
    simp only
    have hcalls := sync_calls d key
      ({ st := st2, calls := w.calls ++ [.activeWorkersAdd 1, .queueGet] } : Run σ)
    have hqc := sync_queueCalls d key
      ({ st := st2, calls := w.calls ++ [.activeWorkersAdd 1, .queueGet] } : Run σ)
    rcases hS : sync d key
      ({ st := st2, calls := w.calls ++ [.activeWorkersAdd 1, .queueGet] } : Run σ) with ⟨r, w3⟩
    rw [hS] at hcalls hqc
    replace hcalls : w3.calls = (w.calls ++ [.activeWorkersAdd 1, .queueGet]) ++
        w3.since { st := st2, calls := w.calls ++ [.activeWorkersAdd 1, .queueGet] } := hcalls
    cases r with
    | none =>
      have hrun := processNextWorkItem_finished d w key st2 w3 hq hS
      refine ⟨by rw [hrun], ?_, ?_⟩
      · intro _
        have hev : (processNextWorkItem d w).2.since w
            = [.activeWorkersAdd 1, .queueGet] ++
              w3.since { st := st2, calls := w.calls ++ [.activeWorkersAdd 1, .queueGet] } ++
              [.queueForget key, .queueDone key, .activeWorkersAdd (-1)] := by
          apply Run.since_of_calls
          rw [hrun]
          simp only
          rw [hcalls]
          simp
        refine ⟨hev, ?_⟩
        rw [hev]
        simp only [queueCalls_append, hqc]
        rfl
      · intro e he
        cases he
    | some e =>
      have hrun := processNextWorkItem_unfinished d w key st2 e w3 hq hS
      refine ⟨by rw [hrun], ?_, ?_⟩
      · intro he
        cases he
      · intro e2 he
        simp only [Option.some.injEq] at he
        subst he
        have hev : (processNextWorkItem d w).2.since w
            = [.activeWorkersAdd 1, .queueGet] ++
              w3.since { st := st2, calls := w.calls ++ [.activeWorkersAdd 1, .queueGet] } ++
              (if isRequeueClassified e then [] else [.handleError]) ++
              [.queueAddRateLimited key, .queueDone key, .activeWorkersAdd (-1)] := by
          apply Run.since_of_calls
          rw [hrun]
          simp only
          rw [hcalls]
          simp
        refine ⟨hev, ?_⟩
        rw [hev]
        simp only [queueCalls_append, hqc]
        cases hr : isRequeueClassified e <;> simp [queueCalls]

theorem processNextWorkItem_requeues_unfinished_witness :
    ((processNextWorkItem (demoBed "ns/auto" true).deps Run.start).1 = false ∧
      (processNextWorkItem (demoBed "ns/auto" true).deps Run.start).2.since Run.start
        = [.activeWorkersAdd 1, .queueGet, .activeWorkersAdd (-1)]) ∧
    queueCalls ((processNextWorkItem (demoBed "ns/auto" false).deps Run.start).2.since
      Run.start) = [.queueGet, .queueForget "ns/auto", .queueDone "ns/auto"] ∧
    queueCalls ((processNextWorkItem (demoBed "ns/busy" false).deps Run.start).2.since
      Run.start) = [.queueGet, .queueAddRateLimited "ns/busy", .queueDone "ns/busy"] ∧
    queueCalls ((processNextWorkItem (demoBed "ns/bad" false).deps Run.start).2.since
      Run.start) = [.queueGet, .queueAddRateLimited "ns/bad", .queueDone "ns/bad"] :=
  ⟨(processNextWorkItem_requeues_unfinished (demoBed "ns/auto" true).deps Run.start).1 rfl,
    (((processNextWorkItem_requeues_unfinished (demoBed "ns/auto" false).deps Run.start).2
      rfl).2.1 rfl).2,
    (((processNextWorkItem_requeues_unfinished (demoBed "ns/busy" false).deps Run.start).2
      rfl).2.2 (controller.RequeueErrorf "wait for cooling down") rfl).2,
    (((processNextWorkItem_requeues_unfinished (demoBed "ns/bad" false).deps Run.start).2
      rfl).2.2 (.errorf "update failed") rfl).2⟩

/-- C24: every sync is counted under exactly one outcome. Every call of
`Controller.sync` increments the counter `ReconcileTotal` once, under one label:
success if and only if the returned error is nil, requeue if and only if the error
is not nil and `perrors.Find` finds a Requeue error in it, error otherwise; and it
increments the counter `ReconcileErrors` once in the error case and not at all in
the two others. -/
theorem sync_counts_one_outcome (d : Dependencies σ) (key : String) (w : Run σ) :
    ∃ label, reconcileTotalLabels ((sync d key w).2.since w) = [label] ∧
      (label = .LabelSuccess ↔ (sync d key w).1 = none) ∧
      (label = .LabelRequeue ↔
        ∃ e, (sync d key w).1 = some e ∧ isRequeueClassified e = true) ∧
      (label = .LabelError ↔
        ∃ e, (sync d key w).1 = some e ∧ isRequeueClassified e = false) ∧
      (label = .LabelError → reconcileErrorsCount ((sync d key w).2.since w) = 1) ∧
      (label ≠ .LabelError → reconcileErrorsCount ((sync d key w).2.since w) = 0) := by
  obtain ⟨body, hev, hc⟩ := sync_since d key w
  have hbody : reconcileTotalLabels body = [] ∧ body.count .reconcileErrorsInc = 0 := by
    rcases hc with ⟨_, _, _, rfl⟩ | ⟨_, _, _, _, _, _, _, _, rfl⟩ |
      ⟨_, _, _, _, _, _, _, _, rfl⟩ | ⟨_, _, _, _, _, _, _, rfl⟩ <;>
    exact ⟨rfl, by simp⟩
  cases hr : (sync d key w).1 with
  | none =>
    rw [hr] at hev
    refine ⟨.LabelSuccess, ?_, by simp, by simp, by simp, by simp, ?_⟩
    · rw [hev]
      simp [reconcileTotalLabels_append, reconcileTotalLabels, hbody.1, outcomeCalls]
    · intro _
      rw [hev]
      simp [reconcileErrorsCount, outcomeCalls, List.count_cons, hbody.2]
  | some e =>
    rw [hr] at hev
    cases hq : isRequeueClassified e with
    | true =>
      refine ⟨.LabelRequeue, ?_, by simp, by simp [hq], by simp [hq], by simp, ?_⟩
      · rw [hev]
        simp [reconcileTotalLabels_append, reconcileTotalLabels, hbody.1, outcomeCalls, hq]
      · intro _
        rw [hev]
        simp [reconcileErrorsCount, outcomeCalls, hq, List.count_cons, hbody.2]
    | false =>
      refine ⟨.LabelError, ?_, by simp, by simp [hq], by simp [hq], ?_, by simp⟩
      · rw [hev]
        simp [reconcileTotalLabels_append, reconcileTotalLabels, hbody.1, outcomeCalls, hq]
      · intro _
        rw [hev]
        simp [reconcileErrorsCount, outcomeCalls, hq, List.count_cons, hbody.2]

theorem sync_counts_one_outcome_witness :
    reconcileTotalLabels ((sync (demoBed "ns/auto" false).deps "ns/auto" Run.start).2.since
      Run.start) = [.LabelSuccess] ∧
    reconcileTotalLabels ((sync (demoBed "ns/busy" false).deps "ns/busy" Run.start).2.since
      Run.start) = [.LabelRequeue] ∧
    reconcileErrorsCount ((sync (demoBed "ns/busy" false).deps "ns/busy" Run.start).2.since
      Run.start) = 0 ∧
    reconcileTotalLabels ((sync (demoBed "ns/bad" false).deps "ns/bad" Run.start).2.since
      Run.start) = [.LabelError] ∧
    reconcileErrorsCount ((sync (demoBed "ns/bad" false).deps "ns/bad" Run.start).2.since
      Run.start) = 1 ∧
    ∃ label, reconcileTotalLabels ((sync (demoBed "ns/bad" false).deps "ns/bad"
      Run.start).2.since Run.start) = [label] ∧ label = .LabelError :=
  ⟨by decide, by decide, by decide, by decide, by decide,
    (sync_counts_one_outcome (demoBed "ns/bad" false).deps "ns/bad" Run.start).elim
      (fun label h => ⟨label, h.1, h.2.2.2.1.mpr ⟨.errorf "update failed", rfl, by decide⟩⟩)⟩

end autoscaler

end TidbOperator

namespace TidbOperator

namespace features

/-- C25: `featureGate.Set` parses a comma-separated list of key=bool pairs. For
every gate and every input string, `Set` returns an error if and only if some
segment between commas that is not empty is bad: it holds no `=`, or its value
without the white space around it is not accepted by `strconv.ParseBool`.
Otherwise it returns nil, and afterwards `Enabled(k)` is the value of the last
segment that names the key `k` (keys without the white space around them, empty
segments skipped), and the value before the call for a key that no segment
names. -/
theorem Set_parses_pairs (f : featureGate) (value : String) :
    ((f.Set value).1 ≠ none ↔
      ∃ s ∈ strings.Split value ',', s.length ≠ 0 ∧ BadSegment s) ∧
    ((f.Set value).1 = none →
      (∀ k, (∀ s ∈ strings.Split value ',', s.length ≠ 0 → ∀ v, ¬ SegmentNames s k v) →
        (f.Set value).2.Enabled k = f.Enabled k) ∧
      (∀ k pre s post v, strings.Split value ',' = pre ++ s :: post → s.length ≠ 0 →
        SegmentNames s k v →
        (∀ s2 ∈ post, s2.length ≠ 0 → ∀ v2, ¬ SegmentNames s2 k v2) →
        (f.Set value).2.Enabled k = v)) := by
  constructor
  · rw [← (show (∃ s ∈ strings.Split value ',', s.length ≠ 0 ∧ ∃ e, parsePair s = .error e) ↔
        ∃ s ∈ strings.Split value ',', s.length ≠ 0 ∧ BadSegment s from by
      simp only [parsePair_error_iff]), ← setLoop_error_iff (strings.Split value ',') []]
    cases hl : setLoop (strings.Split value ',') [] with
    | error e => simp [featureGate.Set, hl]
    | ok m => simp [featureGate.Set, hl]
  · intro hnil
    cases hl : setLoop (strings.Split value ',') [] with
    | error e => simp [featureGate.Set, hl] at hnil
    | ok m =>
      have hm : (m.map Prod.fst).Nodup := setLoop_nodup _ [] m hl (by simp)
      have hset : (f.Set value).2 = f.SetFromMap m := by simp [featureGate.Set, hl]
      constructor
      · intro k hno
        rw [hset, SetFromMap_Enabled f m k hm,
          setLoop_untouched _ [] m k hl (fun s hs hne v hp =>
            hno s hs hne v ((parsePair_ok_iff s k v).mp hp))]
        rfl
      · intro k pre s post v hsplit hs hname hno
        rw [hsplit] at hl
        rw [hset, SetFromMap_Enabled f m k hm,
          setLoop_last pre s post [] m k v hl hs ((parsePair_ok_iff s k v).mpr hname)
            (fun s2 hs2 hne v2 hp => hno s2 hs2 hne v2 ((parsePair_ok_iff s2 k v2).mp hp))]

theorem Set_parses_pairs_witness :
    (NewDefaultFeatureGate.Set " VolumeModifying = T ,,StableScheduling=1,StableScheduling=0").1
      = none ∧
    (NewDefaultFeatureGate.Set
      " VolumeModifying = T ,,StableScheduling=1,StableScheduling=0").2.Enabled
        "StableScheduling" = false ∧
    (NewDefaultFeatureGate.Set "VolumeModifying=yes").1 ≠ none :=
  ⟨rfl,
    ((Set_parses_pairs NewDefaultFeatureGate
      " VolumeModifying = T ,,StableScheduling=1,StableScheduling=0").2 rfl).2
      "StableScheduling" [" VolumeModifying = T ", "", "StableScheduling=1"]
      "StableScheduling=0" [] false (by decide) (by decide)
      ⟨"StableScheduling".data, "0".data, by decide, by decide, by decide, rfl⟩
      (by simp),
    (Set_parses_pairs NewDefaultFeatureGate "VolumeModifying=yes").1.mpr
      ⟨"VolumeModifying=yes", by decide, by decide,
        Or.inr ⟨"VolumeModifying".data, "yes".data, by decide, by decide, fun b h => by
          rw [show strconv.ParseBool (strings.TrimSpace (String.mk "yes".data))
            = .error (.errorf "strconv.ParseBool: parsing %s: invalid syntax") from rfl] at h
          cases h⟩⟩⟩

/-- C26 (amended): `featureGate.String` lists every gate that is stored, enabled
or not. For every gate the result is the list, joined by commas and in increasing
order, of exactly one item `key=value` for every entry of `enabledFeatures`, with
the value `true` or `false` of the entry; a gate without entries gives the empty
string. -/
theorem String_lists_every_stored_gate (f : featureGate) :
    f.String = strings.Join (sort.Strings (f.enabledFeatures.map gateItem)) "," ∧
    List.Sorted (fun a b => a ≤ b) (sort.Strings (f.enabledFeatures.map gateItem)) ∧
    (sort.Strings (f.enabledFeatures.map gateItem)).Perm (f.enabledFeatures.map gateItem) ∧
    (sort.Strings (f.enabledFeatures.map gateItem)).length = f.enabledFeatures.length ∧
    (∀ k v, (k, v) ∈ f.enabledFeatures →
      (k ++ "=" ++ (if v then "true" else "false"))
        ∈ sort.Strings (f.enabledFeatures.map gateItem)) ∧
    (f.enabledFeatures = [] → f.String = "") := by
  refine ⟨rfl, sort.Strings_sorted _, sort.Strings_perm _, ?_, ?_, ?_⟩
  · rw [(sort.Strings_perm _).length_eq, List.length_map]
  · intro k v hmem
    rw [(sort.Strings_perm _).mem_iff]
    exact List.mem_map.mpr ⟨(k, v), hmem, rfl⟩
  · intro h
    simp only [featureGate.String, h, List.map_nil, sort.Strings, List.insertionSort,
      strings.Join]
    rfl

theorem String_lists_every_stored_gate_witness :
    NewDefaultFeatureGate.String
      = strings.Join (sort.Strings (NewDefaultFeatureGate.enabledFeatures.map gateItem)) "," ∧
    (sort.Strings (NewDefaultFeatureGate.enabledFeatures.map gateItem)).length
      = NewDefaultFeatureGate.enabledFeatures.length ∧
    NewFeatureGate.String = "" :=
  ⟨(String_lists_every_stored_gate NewDefaultFeatureGate).1,
    (String_lists_every_stored_gate NewDefaultFeatureGate).2.2.2.1,
    (String_lists_every_stored_gate NewFeatureGate).2.2.2.2.2 rfl⟩

/-- The claim C26 fails on the code: the default gate stores the feature
`AdvancedStatefulSet` with the value false, so the feature is not enabled, and
`String` lists an item for it. -/
theorem String_lists_every_stored_gate_counterexample :
    NewDefaultFeatureGate.Enabled AdvancedStatefulSet = false ∧
    NewDefaultFeatureGate.String
      = "AdvancedStatefulSet=false,StableScheduling=true,VolumeModifying=false,VolumeReplacing=false" :=
  ⟨by decide, by decide⟩

/-- C27: `Set` stores a gate for a feature that is not declared. On the default
gate the input `Foo=true` is accepted, `Foo` is none of the declared features, and
afterwards `Enabled("Foo")` is true where it was false. -/
theorem Set_stores_unknown_feature :
    (NewDefaultFeatureGate.Set "Foo=true").1 = none ∧
    "Foo" ∉ [StableScheduling, AdvancedStatefulSet, VolumeModifying, VolumeReplacing] ∧
    NewDefaultFeatureGate.Enabled "Foo" = false ∧
    (NewDefaultFeatureGate.Set "Foo=true").2.Enabled "Foo" = true ∧
    (NewDefaultFeatureGate.Set "Foo=true").2.enabledFeatures
      = NewDefaultFeatureGate.enabledFeatures ++ [("Foo", true)] :=
  ⟨rfl, by decide, by decide, by decide, by decide⟩

end features

end TidbOperator

namespace TidbOperator

namespace tikvapi

/-- C28: `TiKVPodClientURL` and `TiKVGRPCClientURL` build the peer address of the
pod. For all namespace, cluster name, pod name, scheme and cluster domain,
`TiKVPodClientURL` returns `<scheme>://<pod>.<cluster>-tikv-peer.<namespace>`,
followed by `.svc.<domain>` exactly when the cluster domain is not empty, followed
by `:` and the default TiKV status port in decimal; `TiKVGRPCClientURL` returns the
same string with the default TiKV server port. -/
theorem TiKV_client_urls (statusPort serverPort : Int)
    (namespace_ clusterName podName scheme clusterDomain : String) :
    TiKVPodClientURL statusPort namespace_ clusterName podName scheme clusterDomain
      = scheme ++ "://" ++ podName ++ "." ++ clusterName ++ "-tikv-peer." ++ namespace_ ++
          (if clusterDomain = "" then "" else ".svc." ++ clusterDomain) ++ ":" ++
          toString statusPort ∧
    TiKVGRPCClientURL serverPort namespace_ clusterName podName scheme clusterDomain
      = scheme ++ "://" ++ podName ++ "." ++ clusterName ++ "-tikv-peer." ++ namespace_ ++
          (if clusterDomain = "" then "" else ".svc." ++ clusterDomain) ++ ":" ++
          toString serverPort := by
  by_cases h : clusterDomain = ""
  · simp [TiKVPodClientURL, TiKVGRPCClientURL, attachPort, tiKVBaseURL, h]
  · simp [TiKVPodClientURL, TiKVGRPCClientURL, attachPort, tiKVBaseURL, h,
      String.append_assoc]

theorem TiKV_client_urls_witness :
    TiKVPodClientURL 20180 "ns" "demo" "demo-tikv-0" "http" ""
      = "http://demo-tikv-0.demo-tikv-peer.ns:20180" ∧
    TiKVGRPCClientURL 20160 "ns" "demo" "demo-tikv-0" "https" "cluster.local"
      = "https://demo-tikv-0.demo-tikv-peer.ns.svc.cluster.local:20160" :=
  ⟨(TiKV_client_urls 20180 20160 "ns" "demo" "demo-tikv-0" "http" "").1.trans (by decide),
    (TiKV_client_urls 20180 20160 "ns" "demo" "demo-tikv-0" "https" "cluster.local").2.trans
      (by decide)⟩

end tikvapi

end TidbOperator

namespace TidbOperator

namespace tikvScaler

variable {σ : Type}

/-- C29: the exact rule of the quorum pre-check fails on the code. On a
bootstrapped cluster whose status lists two stores for the pod 4 (store 5, Up and
without leaders, first in iteration order, and store 9, Offline, last), with three
Up stores, none removed yet, and a replication factor of three, so that `n` equals
`maxReplicas`: the store that `scaleInOne` removes for the pod is the store 5, in
state Up, yet `preCheckUpStores` reads the state Offline of the last entry,
returns true and records no event, and the `scaleInOne` call sends `DeleteStore`
for the Up store 5 and returns `deletedUpStore` 1. -/
theorem preCheck_passes_up_store_of_shared_pod :
    (demoCluster sharedPodStatus).TiKVBootStrapped = true ∧
    FirstStoreOf (demoCluster sharedPodStatus) "demo-tikv-4" (demoStore "5" 4 "Up" 0).2 ∧
    (demoStore "5" 4 "Up" 0).2.State = TiKVStateUp ∧
    (3 : Int) - 0 = 3 ∧
    preCheckStoreState "demo-tikv-4" (demoCluster sharedPodStatus).Status.Stores ""
      = TiKVStateOffline ∧
    preCheckUpStores tightScenario.deps (demoCluster sharedPodStatus) "demo-tikv-4" 3 0 3
        World.start = (true, World.start) ∧
    (scaleInOne tightScenario.deps (demoCluster sharedPodStatus) false 3 0 3 4 1000
        World.start).2.since World.start
      = [.enterScaleInOne false 3 0 3 4, .podGet "ns" "demo-tikv-4",
          .updateMetaInfo "demo-tikv-4", .ensureScaleInTimeAnnoInPod "demo-tikv-4" "1000",
          .pdDeleteStore 5, .exitScaleInOne 4 1 false] ∧
    (scaleInOne tightScenario.deps (demoCluster sharedPodStatus) false 3 0 3 4 1000
        World.start).1.1 = 1 :=
  ⟨by decide,
    ⟨[], "5", [demoStore "4" 3 "Up" 7, demoStore "3" 2 "Up" 7, demoStore "9" 4 "Offline" 0],
      rfl, by simp, rfl⟩,
    by decide, by decide, by decide, rfl, by decide, by decide⟩

end tikvScaler

end TidbOperator

namespace TidbOperator

namespace features

/-- C30: `featureGate.Set` is atomic on failure. For every gate and every input
string for which `Set` returns an error, the gate after the call is the gate
before the call, whatever the segments before the bad one. -/
theorem Set_atomic_on_failure (f : featureGate) (value : String)
    (h : (f.Set value).1 ≠ none) : (f.Set value).2 = f := by
  cases hl : setLoop (strings.Split value ',') [] with
  | error e => simp [featureGate.Set, hl]
  | ok m => simp [featureGate.Set, hl] at h

theorem Set_atomic_on_failure_witness :
    (NewDefaultFeatureGate.Set "VolumeModifying=true,Foo").1
      = some (.errorf "missing bool value for %s") ∧
    parsePair "VolumeModifying=true" = .ok ("VolumeModifying", true) ∧
    (NewDefaultFeatureGate.Set "VolumeModifying=true,Foo").2 = NewDefaultFeatureGate ∧
    NewDefaultFeatureGate.Enabled "VolumeModifying" = false :=
  ⟨rfl, rfl,
    Set_atomic_on_failure NewDefaultFeatureGate "VolumeModifying=true,Foo" (fun h => by
      rw [show (NewDefaultFeatureGate.Set "VolumeModifying=true,Foo").1
        = some (.errorf "missing bool value for %s") from rfl] at h
      cases h),
    by decide⟩

end features

end TidbOperator
